import Mathlib

/-!
# Botanist secret lifecycle: a shallow embedding

Embedding of `pkg/operation/botanist/secrets.go`, `wanted_secrets.go` and
`addons.go`.  Go strings are `String`, slices are `List`, nil-able pointers are
`Option`, Go maps that are only read by key are lookup functions or association
lists, and an `error` result is an `Option Err` (`none` is Go's `nil`).
-/

namespace Gardener

/-! ## Formatting -/

/-- Expansion of the verb `%s` of `fmt.Sprintf` over the characters of the format
string: every `%s` consumes the next argument, all other characters are copied. -/
def sprintfAux : List Char → List String → List Char
  | '%' :: 's' :: rest, a :: as => a.data ++ sprintfAux rest as
  | '%' :: 's' :: rest, [] => "%!s(MISSING)".data ++ sprintfAux rest []
  | ch :: rest, as => ch :: sprintfAux rest as
  | [], _ => []

/-- The function `fmt.Sprintf`, restricted to the verb `%s` and string arguments, which is
all the embedded code uses. -/
def Sprintf (format : String) (args : List String) : String :=
  ⟨sprintfAux format.data args⟩

/-! ## Constants of packages that the embedded files import -/

/-- Names declared in the packages `common`, `v1beta1constants` and `gardencorev1beta1`.
Their declarations are outside the embedded files, so the code is embedded over an
arbitrary assignment of them. -/
structure Constants where
  BasicAuthSecretName : String
  KubecfgSecretName : String
  StaticTokenSecretName : String
  KubecfgUsername : String
  KubeAPIServerHealthCheck : String
  KonnectivityServerUserName : String
  KonnectivityServerKubeconfig : String
  KonnectivityServerCertName : String
  KubeControllerManagerServerName : String
  KubeSchedulerServerName : String
  EtcdServerTLS : String
  EtcdClientTLS : String
  AlertManagerTLS : String
  GrafanaTLS : String
  PrometheusTLS : String
  KibanaTLS : String
  DependencyWatchdogInternalProbeSecretName : String
  DependencyWatchdogExternalProbeSecretName : String
  DependencyWatchdogUserName : String
  ShootOperationRotateKubeconfigCredentials : String
  ShootOperationDeprecated : String
  GardenerOperation : String
  SecretNameCACluster : String
  SecretNameCAETCD : String
  SecretNameCAFrontProxy : String
  SecretNameCAKubelet : String
  SecretNameCAMetricsServer : String
  SecretNameGardener : String
  SecretNameGardenerInternal : String
  SecretNameSSHKeyPair : String
  DeploymentNameClusterAutoscaler : String
  DeploymentNameKubeControllerManager : String
  DeploymentNameKubeScheduler : String
  DeploymentNameKubeAPIServer : String
  ETCDMain : String
  ETCDEvents : String
  DefaultDomain : String
  GardenerName : String
  VpaAdmissionControllerImageName : String
  VpaAdmissionControllerName : String
  VpaRecommenderImageName : String
  VpaRecommenderName : String
  VpaUpdaterImageName : String
  VpaUpdaterName : String
  EndUserCrtValidity : Nat
  SecretNameCloudProvider : String
  DataKeyCertificateCA : String
  DataKeyToken : String
  SchemeGroupVersion : String
  ShootNoCleanup : String
  ManagedResourceShootCoreName : String
  ManagedResourceCoreNamespaceName : String
  ManagedResourceAddonsName : String
  ManagedResourceKymaName : String
  ManagedResourceLabelKeyOrigin : String
  ManagedResourceLabelValueGardener : String
  deriving Repr

/-- The value of `user.APIServerUser` (k8s.io/apiserver). -/
def user.APIServerUser : String := "system:apiserver"
/-- The value of `user.KubeControllerManager` (k8s.io/apiserver). -/
def user.KubeControllerManager : String := "system:kube-controller-manager"
/-- The value of `user.KubeScheduler` (k8s.io/apiserver). -/
def user.KubeScheduler : String := "system:kube-scheduler"
/-- The value of `user.KubeProxy` (k8s.io/apiserver). -/
def user.KubeProxy : String := "system:kube-proxy"
/-- The value of `user.SystemPrivilegedGroup` (k8s.io/apiserver). -/
def user.SystemPrivilegedGroup : String := "system:masters"
/-- The value of `metav1.NamespaceSystem` (k8s.io/apimachinery). -/
def metav1.NamespaceSystem : String := "kube-system"

/-! ## `secrets.go`: DNS names -/

/-- Go: `dnsNamesForService(name, namespace string) []string`. -/
def dnsNamesForService (c : Constants) (name ns : String) : List String :=
  [ name,
    Sprintf "%s.%s" [name, ns],
    Sprintf "%s.%s.svc" [name, ns],
    Sprintf "%s.%s.svc.%s" [name, ns, c.DefaultDomain] ]

/-- Go: `dnsNamesForEtcd(namespace string) []string`. -/
def dnsNamesForEtcd (c : Constants) (ns : String) : List String :=
  let names := [ Sprintf "%s-local" [c.ETCDMain], Sprintf "%s-local" [c.ETCDEvents] ]
  let names := names ++ dnsNamesForService c (Sprintf "%s-client" [c.ETCDMain]) ns
  let names := names ++ dnsNamesForService c (Sprintf "%s-client" [c.ETCDEvents]) ns
  names

/-! ## Package `secrets`: the data model of the catalog

The declarations of package `secrets` are outside the embedded files; the records below
carry the fields that the embedded code sets or reads, with Go's zero values as
defaults. -/

/-- Go: `net.IP`, a byte slice; `none` is the nil slice. -/
abbrev IP := Option (List Nat)

/-- Errors that the embedded operations return or receive.  `rendering chart cause` is
`fmt.Errorf("error rendering %q chart: %+v", chart, cause)`, and
`computingBootstrapToken cause` is
`fmt.Errorf("error computing bootstrap token for shoot cloud config: %+v", cause)`. -/
inductive Err where
  | notFound
  | tokenNotFound (username : String)
  | failure (msg : String)
  | rendering (chart : String) (cause : Err)
  | computingBootstrapToken (cause : Err)
  deriving DecidableEq, Repr

/-- Result of a Go call that may panic (nil dereference) instead of returning. -/
inductive Outcome (α : Type) where
  | returned (a : α)
  | panicked
  deriving DecidableEq, Repr

namespace secrets

/-- Certificate kinds; `unset` is the zero value of a config that sets no `CertType`. -/
inductive CertType where
  | unset | CACert | ServerCert | ClientCert | ServerClientCert
  deriving DecidableEq, Repr

/-- Key encodings; `PKCS1` is the zero value. -/
inductive PKCS where
  | PKCS1 | PKCS8
  deriving DecidableEq, Repr

/-- Basic-auth output formats. -/
inductive BasicAuthFormat where
  | BasicAuthFormatNormal | BasicAuthFormatCSV
  deriving DecidableEq, Repr

/-- A generated certificate, here in the role of a signing CA. -/
structure Certificate where
  Name : String
  CertificatePEM : String
  PrivateKeyPEM : String
  deriving DecidableEq, Repr

/-- Generated basic-auth credentials. -/
structure BasicAuth where
  Name : String
  Username : String
  Password : String
  deriving DecidableEq, Repr

/-- One generated static token. -/
structure Token where
  Username : String
  UserID : String
  Groups : List String
  Token : String
  deriving DecidableEq, Repr

/-- The generated static-token secret. -/
structure StaticToken where
  Tokens : List Token
  deriving DecidableEq, Repr

/-- Modelled from the spec: `StaticToken.GetTokenForUsername` of package `secrets`, which
is not among the embedded files.  The static token is a set of (username, user-id, group,
token value) tuples looked up by username; the lookup fails when no tuple carries the
username. -/
def StaticToken.GetTokenForUsername (t : StaticToken) (username : String) : Except Err Token :=
  match t.Tokens.find? (fun tok => tok.Username == username) with
  | some tok => .ok tok
  | none => .error (.tokenNotFound username)

structure KubeConfigRequest where
  ClusterName : String
  APIServerURL : String
  deriving DecidableEq, Repr

structure CertificateSecretConfig where
  Name : String := ""
  CommonName : String := ""
  Organization : List String := []
  DNSNames : List String := []
  IPAddresses : List IP := []
  CertType : CertType := .unset
  SigningCA : Option Certificate := none
  PKCS : PKCS := .PKCS1
  Validity : Option Nat := none
  deriving DecidableEq, Repr

structure ControlPlaneSecretConfig where
  CertificateSecretConfig : CertificateSecretConfig
  BasicAuth : Option BasicAuth := none
  Token : Option Token := none
  KubeConfigRequest : Option KubeConfigRequest := none
  deriving DecidableEq, Repr

structure BasicAuthSecretConfig where
  Name : String
  Format : BasicAuthFormat
  Username : String
  PasswordLength : Nat
  BcryptPasswordHashRequest : Bool := false
  deriving DecidableEq, Repr

structure RSASecretConfig where
  Name : String
  Bits : Nat
  UsedForSSH : Bool
  deriving DecidableEq, Repr

structure VPNTLSAuthConfig where
  Name : String
  deriving DecidableEq, Repr

structure TokenConfig where
  Username : String
  UserID : String
  Groups : List String := []
  deriving DecidableEq, Repr

structure StaticTokenSecretConfig where
  Name : String
  Tokens : List (String × TokenConfig)
  deriving DecidableEq, Repr

/-- Go: the interface `secrets.ConfigInterface`, as the sum of the config types that the
catalog holds. -/
inductive ConfigInterface where
  | certificate (cfg : CertificateSecretConfig)
  | controlPlane (cfg : ControlPlaneSecretConfig)
  | basicAuth (cfg : BasicAuthSecretConfig)
  | rsa (cfg : RSASecretConfig)
  | vpnTLSAuth (cfg : VPNTLSAuthConfig)
  deriving DecidableEq, Repr

/-- Go: `ConfigInterface.GetName()`. -/
def ConfigInterface.GetName : ConfigInterface → String
  | .certificate cfg => cfg.Name
  | .controlPlane cfg => cfg.CertificateSecretConfig.Name
  | .basicAuth cfg => cfg.Name
  | .rsa cfg => cfg.Name
  | .vpnTLSAuth cfg => cfg.Name

/-- The certificate config that a catalog entry carries, directly or embedded in a
control-plane config. -/
def ConfigInterface.certificateConfig : ConfigInterface → Option CertificateSecretConfig
  | .certificate cfg => some cfg
  | .controlPlane cfg => some cfg.CertificateSecretConfig
  | _ => none

end secrets

/-! ## Kubernetes objects -/

/-- Go: `metav1.OwnerReference`. -/
structure OwnerReference where
  APIVersion : String
  Kind : String
  Name : String
  UID : String
  Controller : Option Bool := none
  BlockOwnerDeletion : Option Bool := none
  deriving DecidableEq, Repr

/-- Go: `corev1.Secret`, with the fields the embedded code sets or reads. -/
structure Secret where
  Name : String
  Namespace : String
  Labels : List (String × String) := []
  Annotations : List (String × String) := []
  SecretType : String := ""
  Data : List (String × String) := []
  OwnerReferences : List OwnerReference := []
  deriving DecidableEq, Repr

/-- Namespace and name, the key of an object in a cluster. -/
def Secret.key (s : Secret) : String × String := (s.Namespace, s.Name)

/-- Go: `resourcesv1alpha1.ManagedResource`, with the fields that the builder of
`manager.NewManagedResource` sets. -/
structure ManagedResource where
  Name : String
  Namespace : String
  Labels : List (String × String) := []
  SecretRefs : List String := []
  InjectLabels : List (String × String) := []
  KeepObjects : Bool := false
  deriving DecidableEq, Repr

/-- Go: `gardencorev1beta1.Worker`, a worker pool of the shoot. -/
structure Worker where
  Name : String
  deriving DecidableEq, Repr

/-! ## The botanist -/

/-- Fields of `b.Shoot.Info` (a `gardencorev1beta1.Shoot`) that the embedded code reads.
`SpecDNSDomain` is `Spec.DNS.Domain`, `none` when a pointer on that path is nil;
`Workers` is `Spec.Provider.Workers`. -/
structure ShootInfo where
  Name : String
  Namespace : String
  Annotations : List (String × String)
  DeletionTimestamp : Option Nat
  SpecDNSDomain : Option String
  EnableBasicAuthentication : Option Bool
  UID : String := ""
  Workers : List Worker := []
  deriving DecidableEq, Repr

/-- Fields of `b.Shoot` that the embedded code reads.  `Secret` is the cloud provider
secret of the shoot; `Extensions` holds the keys (the extension types) of the map
`b.Shoot.Extensions`, each once, in no order that a `range` over the map would follow. -/
structure Shoot where
  Info : ShootInfo
  SeedNamespace : String
  KonnectivityTunnelEnabled : Bool
  WantsVerticalPodAutoscaler : Bool
  InternalClusterDomain : String
  ExternalClusterDomain : Option String
  NetworksAPIServer : IP
  Secret : Option Secret := none
  Extensions : List String := []
  deriving DecidableEq, Repr

/-- Go: `gardencorev1alpha1.GardenerResourceData`, one ledger entry. -/
structure GardenerResourceData where
  Name : String
  ResourceType : String
  Data : String
  deriving DecidableEq, Repr

/-- Go: `gardencorev1alpha1helper.GardenerResourceDataList`, the ledger. -/
abbrev GardenerResourceDataList := List GardenerResourceData

/-- Modelled from the spec: `GardenerResourceDataList.Get` of package
`gardencorev1alpha1helper`, which is not among the embedded files.  The ledger maps a
secret name to the material generated for it; `Get` yields the entry of a name, or nil. -/
def GardenerResourceDataList.Get (l : GardenerResourceDataList) (name : String) :
    Option GardenerResourceData :=
  l.find? (fun e => e.Name == name)

/-- Modelled from the spec: `GardenerResourceDataList.Delete` of package
`gardencorev1alpha1helper`, which is not among the embedded files.  The ledger is keyed by
name; `Delete` leaves no entry under the name and keeps all others. -/
def GardenerResourceDataList.Delete (l : GardenerResourceDataList) (name : String) :
    GardenerResourceDataList :=
  l.filter (fun e => e.Name != name)

/-- Go: `gardencorev1alpha1.ShootState`, with `Spec.Gardener` as `SpecGardener`. -/
structure ShootState where
  Namespace : String
  Name : String
  SpecGardener : GardenerResourceDataList
  deriving DecidableEq, Repr

/-- Fields of the botanist (and of the operation it embeds) that the embedded code
reads or writes.  `SeedShootDNSEnabled` is `b.Seed.Info.Spec.Settings.ShootDNS.Enabled`;
`Secrets` and `CheckSums` are the maps `b.Secrets` and `b.CheckSums`, kept as association
lists. -/
structure Botanist where
  Shoot : Shoot
  SeedShootDNSEnabled : Bool
  APIServerAddress : String
  ShootState : ShootState
  Secrets : List (String × Secret) := []
  CheckSums : List (String × String) := []
  APIServerHealthCheckToken : String := ""
  ControlPlaneWildcardCert : Option Secret := none
  deriving DecidableEq, Repr

/-- Functions and process-wide settings that the embedded code calls and whose
definitions are outside the embedded files.  `LoggingEnabled` is
`gardenletfeatures.FeatureGate.Enabled(features.Logging)`; `GetShootOperationAnnotation`
yields `some val` when the Go function returns `(val, true)`. -/
structure Helpers where
  ShootWantsBasicAuthentication : ShootInfo → Bool
  GetShootOperationAnnotation : List (String × String) → Option String
  GetAPIServerDomain : String → String
  ParseIP : String → IP
  ComputeInClusterAPIServerAddress : Shoot → Bool → String
  ComputeOutOfClusterAPIServerAddress : Shoot → String → Bool → String
  ComputeAlertManagerHosts : Botanist → List String
  ComputeGrafanaHosts : Botanist → List String
  ComputePrometheusHosts : Botanist → List String
  ComputeKibanaHosts : Botanist → List String
  LoggingEnabled : Bool
  ComputeSecretCheckSum : List (String × String) → String
  ComputeGrafanaUsersHost : Botanist → String
  ComputeKibanaHost : Botanist → String

/-! ## The clusters behind the clients -/

/-- State of the seed and garden clusters as the botanist's clients see it.  `faults` is
a script of injected API failures: every API call consumes its head, and fails with the
message if the head is `some msg`; with an empty script no failure is injected. -/
structure World where
  seedSecrets : List Secret
  gardenShootAnnotations : List (String × String)
  gardenShootStates : List ShootState
  faults : List (Option String)
  gardenSecrets : List Secret := []
  seedManagedResources : List ManagedResource := []
  deriving DecidableEq, Repr

/-- Take the next entry of the fault script. -/
def World.nextFault (w : World) : Option String × World :=
  match w.faults with
  | [] => (none, w)
  | f :: fs => (f, { w with faults := fs })

/-- Go: `client.Delete` of a Secret through the seed client: fails on an injected
failure, reports not-found when no secret has the key, and removes the secret else. -/
def SeedClient.Delete (w : World) (ns name : String) : Option Err × World :=
  match w.nextFault with
  | (some msg, w1) => (some (.failure msg), w1)
  | (none, w1) =>
    if w1.seedSecrets.any (fun s => s.key == (ns, name)) then
      (none, { w1 with seedSecrets := w1.seedSecrets.filter (fun s => s.key != (ns, name)) })
    else
      (some .notFound, w1)

/-- Go: `MatchingLabels(labels)`: every requested label is set to the requested value. -/
def matchesLabels (labels : List (String × String)) (s : Secret) : Bool :=
  labels.all (fun kv => s.Labels.lookup kv.1 == some kv.2)

/-- Go: `client.List` of Secrets with `InNamespace(ns)` and `MatchingLabels(labels)`. -/
def SeedClient.List (w : World) (ns : String) (labels : List (String × String)) :
    Except Err (List Secret) × World :=
  match w.nextFault with
  | (some msg, w1) => (.error (.failure msg), w1)
  | (none, w1) =>
    (.ok (w1.seedSecrets.filter (fun s => s.Namespace == ns && matchesLabels labels s)), w1)

/-- Go: `client.IgnoreNotFound(err)`. -/
def IgnoreNotFound : Option Err → Option Err
  | some .notFound => none
  | e => e

/-- Go: `delete(m, key)` on a `map[string]string` kept as an association list. -/
def mapDelete (m : List (String × String)) (key : String) : List (String × String) :=
  m.filter (fun kv => kv.1 != key)

/-- Modelled from the spec: `kutil.TryUpdateShootAnnotations`, which is not among the
embedded files: the bounded-retry wrapper for shoot-annotation updates.  It applies the
transformation to the annotations of the shoot object stored in the garden cluster, or
fails without effect. -/
def TryUpdateShootAnnotations (w : World)
    (transform : List (String × String) → List (String × String)) : Option Err × World :=
  match w.nextFault with
  | (some msg, w1) => (some (.failure msg), w1)
  | (none, w1) => (none, { w1 with gardenShootAnnotations := transform w1.gardenShootAnnotations })

/-- A task of `flow.Parallel`: a step on the world that may report an error. -/
abbrev TaskFn := World → Option Err × World

/-- Modelled from the spec: `flow.Parallel`, which is not among the embedded files: the
fan-out/join primitive that runs all tasks and returns the first error encountered.  The
tasks are run one after the other in list order. -/
def flow.Parallel : List TaskFn → TaskFn
  | [], w => (none, w)
  | fn :: fns, w =>
    match fn w with
    | (e, w1) =>
      match flow.Parallel fns w1 with
      | (e2, w2) => (e.orElse (fun _ => e2), w2)

/-! ## `addons.go`: stale secrets -/

/-- Go: `(b *Botanist) deleteStaleSecretsMatchLabel(ctx, labels, wantedSecretNames)`. -/
def Botanist.deleteStaleSecretsMatchLabel (b : Botanist) (labels : List (String × String))
    (wantedSecretNames : List String) (w : World) : Option Err × World :=
  match SeedClient.List w b.Shoot.SeedNamespace labels with
  | (.error e, w1) => (some e, w1)
  | (.ok secretList, w1) =>
    let fns : List TaskFn :=
      (secretList.filter (fun secret => !wantedSecretNames.contains secret.Name)).map
        (fun secret => fun w2 => match SeedClient.Delete w2 secret.Namespace secret.Name with
          | (e, w3) => (IgnoreNotFound e, w3))
    flow.Parallel fns w1

/-! ## `wanted_secrets.go`: static configuration -/

/-- Go: `var basicAuthSecretAPIServer`. -/
def basicAuthSecretAPIServer (c : Constants) : secrets.BasicAuthSecretConfig :=
  { Name := c.BasicAuthSecretName
    Format := .BasicAuthFormatCSV
    Username := "admin"
    PasswordLength := 32 }

/-- Go: `var wantedCertificateAuthorities`, a map literal, in the order of its entries. -/
def wantedCertificateAuthorities (c : Constants) :
    List (String × secrets.CertificateSecretConfig) :=
  [ (c.SecretNameCACluster,
      { Name := c.SecretNameCACluster, CommonName := "kubernetes", CertType := .CACert }),
    (c.SecretNameCAETCD,
      { Name := c.SecretNameCAETCD, CommonName := "etcd", CertType := .CACert }),
    (c.SecretNameCAFrontProxy,
      { Name := c.SecretNameCAFrontProxy, CommonName := "front-proxy", CertType := .CACert }),
    (c.SecretNameCAKubelet,
      { Name := c.SecretNameCAKubelet, CommonName := "kubelet", CertType := .CACert }),
    (c.SecretNameCAMetricsServer,
      { Name := c.SecretNameCAMetricsServer, CommonName := "metrics-server",
        CertType := .CACert }) ]

/-- Go: `var vpaSecrets`, a map literal from secret name to username. -/
def vpaSecrets (c : Constants) : List (String × String) :=
  [ (c.VpaAdmissionControllerImageName, c.VpaAdmissionControllerName),
    (c.VpaRecommenderImageName, c.VpaRecommenderName),
    (c.VpaUpdaterImageName, c.VpaUpdaterName) ]

/-- Go: `m[key] = value` on a map kept as an association list. -/
def mapInsert {β : Type} (m : List (String × β)) (key : String) (value : β) :
    List (String × β) :=
  if m.any (fun kv => kv.1 == key) then
    m.map (fun kv => if kv.1 == key then (key, value) else kv)
  else
    m ++ [(key, value)]

/-- Go: `(b *Botanist) generateStaticTokenConfig()`. -/
def Botanist.generateStaticTokenConfig (c : Constants) (b : Botanist) :
    secrets.StaticTokenSecretConfig :=
  let tokens : List (String × secrets.TokenConfig) :=
    mapInsert
      (mapInsert []
        c.KubecfgUsername
        { Username := c.KubecfgUsername, UserID := c.KubecfgUsername,
          Groups := [user.SystemPrivilegedGroup] })
      c.KubeAPIServerHealthCheck
      { Username := c.KubeAPIServerHealthCheck, UserID := c.KubeAPIServerHealthCheck }
  let tokens :=
    if b.Shoot.KonnectivityTunnelEnabled then
      mapInsert tokens c.KonnectivityServerUserName
        { Username := c.KonnectivityServerUserName, UserID := c.KonnectivityServerUserName }
    else tokens
  let tokens :=
    if b.Shoot.WantsVerticalPodAutoscaler then
      (vpaSecrets c).foldl
        (fun acc kv => mapInsert acc kv.1 { Username := kv.2, UserID := kv.1 }) tokens
    else tokens
  { Name := c.StaticTokenSecretName, Tokens := tokens }

/-! ## `secrets.go`: the pre-generation cleanups -/

/-- The loop shared by `rotateKubeconfigSecrets`, `deleteBasicAuthDependantSecrets` and
`cleanupTunnelSecrets`: for every name, delete the secret of that name in the seed
namespace, return the error unless it is not-found, and delete the ledger entry. -/
def Botanist.deleteSecretsAndEntries (b : Botanist) :
    List String → GardenerResourceDataList → World →
      Option Err × GardenerResourceDataList × World
  | [], l, w => (none, l, w)
  | secretName :: rest, l, w =>
    match SeedClient.Delete w b.Shoot.SeedNamespace secretName with
    | (err, w1) =>
      match IgnoreNotFound err with
      | some _ => (err, l, w1)
      | none =>
        b.deleteSecretsAndEntries rest (GardenerResourceDataList.Delete l secretName) w1

/-- Go: `(b *Botanist) rotateKubeconfigSecrets(ctx, gardenerResourceDataList)`. -/
def Botanist.rotateKubeconfigSecrets (c : Constants) (b : Botanist)
    (l : GardenerResourceDataList) (w : World) :
    Option Err × GardenerResourceDataList × World :=
  match b.deleteSecretsAndEntries
      [c.StaticTokenSecretName, c.BasicAuthSecretName, c.KubecfgSecretName] l w with
  | (some err, l1, w1) => (some err, l1, w1)
  | (none, l1, w1) =>
    match TryUpdateShootAnnotations w1
        (fun annotations =>
          mapDelete (mapDelete annotations c.GardenerOperation) c.ShootOperationDeprecated) with
    | (err, w2) => (err, l1, w2)

/-- Go: `(b *Botanist) deleteBasicAuthDependantSecrets(ctx, gardenerResourceDataList)`. -/
def Botanist.deleteBasicAuthDependantSecrets (c : Constants) (b : Botanist)
    (l : GardenerResourceDataList) (w : World) :
    Option Err × GardenerResourceDataList × World :=
  b.deleteSecretsAndEntries [c.BasicAuthSecretName, c.KubecfgSecretName] l w

/-- Go: `(b *Botanist) cleanupTunnelSecrets(ctx, gardenerResourceDataList, secretNames...)`. -/
def Botanist.cleanupTunnelSecrets (b : Botanist) (l : GardenerResourceDataList)
    (secretNames : List String) (w : World) :
    Option Err × GardenerResourceDataList × World :=
  b.deleteSecretsAndEntries secretNames l w

/-- Go: `GenerateAndSaveSecrets`, lines 87-91: the rotation of the kubeconfig secrets. -/
def Botanist.rotateStep (c : Constants) (h : Helpers) (b : Botanist)
    (l : GardenerResourceDataList) (w : World) :
    Option Err × GardenerResourceDataList × World :=
  if h.GetShootOperationAnnotation b.Shoot.Info.Annotations
      = some c.ShootOperationRotateKubeconfigCredentials then
    b.rotateKubeconfigSecrets c l w
  else
    (none, l, w)

/-- Go: `GenerateAndSaveSecrets`, lines 93-103: the cleanup of the tunnel secrets. -/
def Botanist.tunnelStep (c : Constants) (b : Botanist)
    (l : GardenerResourceDataList) (w : World) :
    Option Err × GardenerResourceDataList × World :=
  if b.Shoot.Info.DeletionTimestamp = none then
    if b.Shoot.KonnectivityTunnelEnabled then
      b.cleanupTunnelSecrets l ["vpn-seed", "vpn-seed-tlsauth", "vpn-shoot"] w
    else
      b.cleanupTunnelSecrets l
        [c.KonnectivityServerKubeconfig, c.KonnectivityServerCertName] w
  else
    (none, l, w)

/-- Go: `GenerateAndSaveSecrets`, lines 105-111: the basic-auth cleanup. -/
def Botanist.basicAuthStep (c : Constants) (h : Helpers) (b : Botanist)
    (l : GardenerResourceDataList) (w : World) :
    Option Err × GardenerResourceDataList × World :=
  let shootWantsBasicAuth := h.ShootWantsBasicAuthentication b.Shoot.Info
  let shootHasBasicAuth := (GardenerResourceDataList.Get l c.BasicAuthSecretName).isSome
  if shootWantsBasicAuth != shootHasBasicAuth then
    b.deleteBasicAuthDependantSecrets c l w
  else
    (none, l, w)

/-- Go: `GenerateAndSaveSecrets`, lines 85-111: everything before the Secrets Manager is
built.  Yields the error, or the ledger that the Secrets Manager is built from. -/
def Botanist.preGeneration (c : Constants) (h : Helpers) (b : Botanist) (w : World) :
    Option Err × GardenerResourceDataList × World :=
  match b.rotateStep c h b.ShootState.SpecGardener w with
  | (some err, l1, w1) => (some err, l1, w1)
  | (none, l1, w1) =>
    match b.tunnelStep c l1 w1 with
    | (some err, l2, w2) => (some err, l2, w2)
    | (none, l2, w2) => b.basicAuthStep c h l2 w2

/-- Modelled from the spec: the Secrets Manager of package `shootsecrets`, which is not
among the embedded files: the ledger, the static-token config, the CA configs and the
optional API-server basic-auth config it is built with, the existing secrets it is given,
and the static token and deployed secrets it exposes after successful calls. -/
structure SecretsManager where
  GardenerResourceDataList : GardenerResourceDataList
  staticTokenConfig : secrets.StaticTokenSecretConfig
  certificateAuthorityConfigs : List (String × secrets.CertificateSecretConfig)
  apiServerBasicAuthConfig : Option secrets.BasicAuthSecretConfig := none
  existingSecrets : List (String × Secret) := []
  StaticToken : Option secrets.StaticToken := none
  DeployedSecrets : List (String × Secret) := []
  deriving DecidableEq, Repr

/-- Modelled from the spec: `controllerutil.CreateOrUpdate` of the ShootState in the garden
cluster, with the mutation `shootState.Spec.Gardener = ledger`. -/
def CreateOrUpdateShootState (w : World) (ns name : String)
    (ledger : GardenerResourceDataList) : Option Err × ShootState × World :=
  let shootState : ShootState := { Namespace := ns, Name := name, SpecGardener := ledger }
  match w.nextFault with
  | (some msg, w1) => (some (.failure msg), shootState, w1)
  | (none, w1) =>
    let others := w1.gardenShootStates.filter (fun st => !(st.Namespace == ns && st.Name == name))
    (none, shootState, { w1 with gardenShootStates := shootState :: others })

/-- Go: `(b *Botanist) GenerateAndSaveSecrets(ctx)`.  `generate` is the `Generate` method
of the Secrets Manager; it yields the error or the manager with its new ledger. -/
def Botanist.GenerateAndSaveSecrets (c : Constants) (h : Helpers)
    (generate : SecretsManager → Option Err × SecretsManager) (b : Botanist) (w : World) :
    Option Err × Botanist × World :=
  match b.preGeneration c h w with
  | (some err, _, w1) => (some err, b, w1)
  | (none, gardenerResourceDataList, w1) =>
    let shootWantsBasicAuth := h.ShootWantsBasicAuthentication b.Shoot.Info
    let secretsManager : SecretsManager :=
      { GardenerResourceDataList := gardenerResourceDataList
        staticTokenConfig := b.generateStaticTokenConfig c
        certificateAuthorityConfigs := wantedCertificateAuthorities c }
    let secretsManager :=
      if shootWantsBasicAuth then
        { secretsManager with apiServerBasicAuthConfig := some (basicAuthSecretAPIServer c) }
      else secretsManager
    match generate secretsManager with
    | (some err, _) => (some err, b, w1)
    | (none, secretsManager) =>
      match CreateOrUpdateShootState w1 b.Shoot.Info.Namespace b.Shoot.Info.Name
          secretsManager.GardenerResourceDataList with
      | (some err, _, w2) => (some err, b, w2)
      | (none, shootState, w2) => (none, { b with ShootState := shootState }, w2)

/-! ## `wanted_secrets.go`: the catalog of wanted secrets -/

/-- Go: `generateWantedSecretConfigs`, lines 112-121 and 135-145: the IP addresses and
DNS names of the kube-apiserver certificate.  Dereferencing `Spec.DNS.Domain` panics when
it is nil. -/
def Botanist.apiServerSANs (c : Constants) (h : Helpers) (b : Botanist) :
    Outcome (List IP × List String) :=
  let apiServerIPAddresses : List IP := [h.ParseIP "127.0.0.1", b.Shoot.NetworksAPIServer]
  let apiServerCertDNSNames : List String :=
    [ "kube-apiserver",
      Sprintf "kube-apiserver.%s" [b.Shoot.SeedNamespace],
      Sprintf "kube-apiserver.%s.svc" [b.Shoot.SeedNamespace],
      h.GetAPIServerDomain b.Shoot.InternalClusterDomain ]
    ++ dnsNamesForService c "kubernetes" "default"
  let sans : List IP × List String :=
    if !b.SeedShootDNSEnabled then
      match h.ParseIP b.APIServerAddress with
      | some addr => (apiServerIPAddresses ++ [some addr], apiServerCertDNSNames)
      | none => (apiServerIPAddresses, apiServerCertDNSNames ++ [b.APIServerAddress])
    else (apiServerIPAddresses, apiServerCertDNSNames)
  match b.Shoot.ExternalClusterDomain with
  | none => .returned sans
  | some externalClusterDomain =>
    match b.Shoot.Info.SpecDNSDomain with
    | none => .panicked
    | some domain =>
      .returned (sans.1, sans.2 ++ [domain, h.GetAPIServerDomain externalClusterDomain])

/-- Go: `generateWantedSecretConfigs`, lines 147-550: the literal `secretList`. -/
def Botanist.initialSecretList (c : Constants) (h : Helpers) (b : Botanist)
    (certificateAuthorities : String → Option secrets.Certificate)
    (apiServerIPAddresses : List IP) (apiServerCertDNSNames : List String) :
    List secrets.ConfigInterface :=
  let kubeControllerManagerCertDNSNames :=
    dnsNamesForService c "kube-controller-manager" b.Shoot.SeedNamespace
  let kubeSchedulerCertDNSNames := dnsNamesForService c "kube-scheduler" b.Shoot.SeedNamespace
  let etcdCertDNSNames := dnsNamesForEtcd c b.Shoot.SeedNamespace
  let endUserCrtValidity := c.EndUserCrtValidity
    -- Secret definition for kube-apiserver
  [ .controlPlane
      { CertificateSecretConfig :=
          { Name := "kube-apiserver"
            CommonName := user.APIServerUser
            DNSNames := apiServerCertDNSNames
            IPAddresses := apiServerIPAddresses
            CertType := .ServerCert
            SigningCA := certificateAuthorities c.SecretNameCACluster } },
    -- Secret definition for kube-apiserver to kubelets communication
    .controlPlane
      { CertificateSecretConfig :=
          { Name := "kube-apiserver-kubelet"
            CommonName := "system:kube-apiserver:kubelet"
            CertType := .ClientCert
            SigningCA := certificateAuthorities c.SecretNameCAKubelet } },
    -- Secret definition for kube-aggregator
    .controlPlane
      { CertificateSecretConfig :=
          { Name := "kube-aggregator"
            CommonName := "system:kube-aggregator"
            CertType := .ClientCert
            SigningCA := certificateAuthorities c.SecretNameCAFrontProxy } },
    -- Secret definition for kube-controller-manager
    .controlPlane
      { CertificateSecretConfig :=
          { Name := "kube-controller-manager"
            CommonName := user.KubeControllerManager
            CertType := .ClientCert
            SigningCA := certificateAuthorities c.SecretNameCACluster }
        KubeConfigRequest := some
          { ClusterName := b.Shoot.SeedNamespace
            APIServerURL := h.ComputeInClusterAPIServerAddress b.Shoot true } },
    -- Secret definition for kube-controller-manager server
    .controlPlane
      { CertificateSecretConfig :=
          { Name := c.KubeControllerManagerServerName
            CommonName := c.DeploymentNameKubeControllerManager
            DNSNames := kubeControllerManagerCertDNSNames
            CertType := .ServerCert
            SigningCA := certificateAuthorities c.SecretNameCACluster } },
    -- Secret definition for kube-scheduler
    .controlPlane
      { CertificateSecretConfig :=
          { Name := "kube-scheduler"
            CommonName := user.KubeScheduler
            CertType := .ClientCert
            SigningCA := certificateAuthorities c.SecretNameCACluster }
        KubeConfigRequest := some
          { ClusterName := b.Shoot.SeedNamespace
            APIServerURL := h.ComputeInClusterAPIServerAddress b.Shoot true } },
    -- Secret definition for kube-scheduler server
    .controlPlane
      { CertificateSecretConfig :=
          { Name := c.KubeSchedulerServerName
            CommonName := c.DeploymentNameKubeScheduler
            DNSNames := kubeSchedulerCertDNSNames
            CertType := .ServerCert
            SigningCA := certificateAuthorities c.SecretNameCACluster } },
    -- Secret definition for cluster-autoscaler
    .controlPlane
      { CertificateSecretConfig :=
          { Name := c.DeploymentNameClusterAutoscaler
            CommonName := "system:cluster-autoscaler"
            CertType := .ClientCert
            SigningCA := certificateAuthorities c.SecretNameCACluster }
        KubeConfigRequest := some
          { ClusterName := b.Shoot.SeedNamespace
            APIServerURL := h.ComputeInClusterAPIServerAddress b.Shoot true } },
    -- Secret definition for gardener-resource-manager
    .controlPlane
      { CertificateSecretConfig :=
          { Name := "gardener-resource-manager"
            CommonName := "gardener.cloud:system:gardener-resource-manager"
            Organization := [user.SystemPrivilegedGroup]
            CertType := .ClientCert
            SigningCA := certificateAuthorities c.SecretNameCACluster }
        KubeConfigRequest := some
          { ClusterName := b.Shoot.SeedNamespace
            APIServerURL := h.ComputeInClusterAPIServerAddress b.Shoot true } },
    -- Secret definition for kube-proxy
    .controlPlane
      { CertificateSecretConfig :=
          { Name := "kube-proxy"
            CommonName := user.KubeProxy
            CertType := .ClientCert
            SigningCA := certificateAuthorities c.SecretNameCACluster }
        KubeConfigRequest := some
          { ClusterName := b.Shoot.SeedNamespace
            APIServerURL := h.ComputeOutOfClusterAPIServerAddress b.Shoot b.APIServerAddress true } },
    -- Secret definition for kube-state-metrics
    .controlPlane
      { CertificateSecretConfig :=
          { Name := "kube-state-metrics"
            CommonName := "gardener.cloud:monitoring:kube-state-metrics"
            Organization := ["gardener.cloud:monitoring"]
            CertType := .ClientCert
            SigningCA := certificateAuthorities c.SecretNameCACluster }
        KubeConfigRequest := some
          { ClusterName := b.Shoot.SeedNamespace
            APIServerURL := h.ComputeInClusterAPIServerAddress b.Shoot true } },
    -- Secret definition for prometheus
    .controlPlane
      { CertificateSecretConfig :=
          { Name := "prometheus"
            CommonName := "gardener.cloud:monitoring:prometheus"
            Organization := ["gardener.cloud:monitoring"]
            CertType := .ClientCert
            SigningCA := certificateAuthorities c.SecretNameCACluster }
        KubeConfigRequest := some
          { ClusterName := b.Shoot.SeedNamespace
            APIServerURL := h.ComputeInClusterAPIServerAddress b.Shoot true } },
    -- Secret definition for prometheus to kubelets communication
    .controlPlane
      { CertificateSecretConfig :=
          { Name := "prometheus-kubelet"
            CommonName := "gardener.cloud:monitoring:prometheus"
            Organization := ["gardener.cloud:monitoring"]
            CertType := .ClientCert
            SigningCA := certificateAuthorities c.SecretNameCAKubelet } },
    -- Secret definition for gardener
    .controlPlane
      { CertificateSecretConfig :=
          { Name := c.SecretNameGardener
            CommonName := c.GardenerName
            Organization := [user.SystemPrivilegedGroup]
            CertType := .ClientCert
            SigningCA := certificateAuthorities c.SecretNameCACluster }
        KubeConfigRequest := some
          { ClusterName := b.Shoot.SeedNamespace
            APIServerURL := h.ComputeOutOfClusterAPIServerAddress b.Shoot b.APIServerAddress true } },
    .controlPlane
      { CertificateSecretConfig :=
          { Name := c.SecretNameGardenerInternal
            CommonName := c.GardenerName
            Organization := [user.SystemPrivilegedGroup]
            CertType := .ClientCert
            SigningCA := certificateAuthorities c.SecretNameCACluster }
        KubeConfigRequest := some
          { ClusterName := b.Shoot.SeedNamespace
            APIServerURL := h.ComputeInClusterAPIServerAddress b.Shoot false } },
    -- Secret definition for cloud-config-downloader
    .controlPlane
      { CertificateSecretConfig :=
          { Name := "cloud-config-downloader"
            CommonName := "cloud-config-downloader"
            CertType := .ClientCert
            SigningCA := certificateAuthorities c.SecretNameCACluster }
        KubeConfigRequest := some
          { ClusterName := b.Shoot.SeedNamespace
            APIServerURL := h.ComputeOutOfClusterAPIServerAddress b.Shoot b.APIServerAddress true } },
    -- Secret definition for monitoring
    .basicAuth
      { Name := "monitoring-ingress-credentials"
        Format := .BasicAuthFormatNormal
        Username := "admin"
        PasswordLength := 32 },
    -- Secret definition for monitoring for shoot owners
    .basicAuth
      { Name := "monitoring-ingress-credentials-users"
        Format := .BasicAuthFormatNormal
        Username := "admin"
        PasswordLength := 32 },
    -- Secret definition for ssh-keypair
    .rsa { Name := c.SecretNameSSHKeyPair, Bits := 4096, UsedForSSH := true },
    -- Secret definition for service-account-key
    .rsa { Name := "service-account-key", Bits := 4096, UsedForSSH := false },
    -- Secret definition for etcd server
    .certificate
      { Name := c.EtcdServerTLS
        CommonName := "etcd-server"
        DNSNames := etcdCertDNSNames
        CertType := .ServerClientCert
        SigningCA := certificateAuthorities c.SecretNameCAETCD },
    -- Secret definition for etcd server
    .certificate
      { Name := c.EtcdClientTLS
        CommonName := "etcd-client"
        CertType := .ClientCert
        SigningCA := certificateAuthorities c.SecretNameCAETCD },
    -- Secret definition for metrics-server
    .certificate
      { Name := "metrics-server"
        CommonName := "metrics-server"
        DNSNames := [ "metrics-server",
                    Sprintf "metrics-server.%s" [metav1.NamespaceSystem],
                    Sprintf "metrics-server.%s.svc" [metav1.NamespaceSystem] ]
        CertType := .ServerClientCert
        SigningCA := certificateAuthorities c.SecretNameCAMetricsServer },
    -- Secret definition for alertmanager (ingress)
    .certificate
      { Name := c.AlertManagerTLS
        CommonName := "alertmanager"
        Organization := ["gardener.cloud:monitoring:ingress"]
        DNSNames := h.ComputeAlertManagerHosts b
        CertType := .ServerCert
        SigningCA := certificateAuthorities c.SecretNameCACluster
        Validity := some endUserCrtValidity },
    -- Secret definition for grafana (ingress)
    .certificate
      { Name := c.GrafanaTLS
        CommonName := "grafana"
        Organization := ["gardener.cloud:monitoring:ingress"]
        DNSNames := h.ComputeGrafanaHosts b
        CertType := .ServerCert
        SigningCA := certificateAuthorities c.SecretNameCACluster
        Validity := some endUserCrtValidity },
    -- Secret definition for prometheus (ingress)
    .certificate
      { Name := c.PrometheusTLS
        CommonName := "prometheus"
        Organization := ["gardener.cloud:monitoring:ingress"]
        DNSNames := h.ComputePrometheusHosts b
        CertType := .ServerCert
        SigningCA := certificateAuthorities c.SecretNameCACluster
        Validity := some endUserCrtValidity } ]

/-- Go: the pattern `var t *secrets.Token; if staticToken != nil { t, err =
staticToken.GetTokenForUsername(username); if err != nil { return nil, err } }` of
`generateWantedSecretConfigs`, lines 553-560 and 613-620. -/
def tokenForUsername (staticToken : Option secrets.StaticToken) (username : String) :
    Except Err (Option secrets.Token) :=
  match staticToken with
  | none => .ok none
  | some st =>
    match st.GetTokenForUsername username with
    | .ok token => .ok (some token)
    | .error err => .error err

/-- Go: `generateWantedSecretConfigs`, lines 562-575: the kubecfg secret. -/
def Botanist.kubecfgSecretConfig (c : Constants) (h : Helpers) (b : Botanist)
    (basicAuthAPIServer : Option secrets.BasicAuth) (kubecfgToken : Option secrets.Token)
    (certificateAuthorities : String → Option secrets.Certificate) :
    secrets.ConfigInterface :=
  .controlPlane
    { CertificateSecretConfig :=
        { Name := c.KubecfgSecretName
          SigningCA := certificateAuthorities c.SecretNameCACluster }
      BasicAuth := basicAuthAPIServer
      Token := kubecfgToken
      KubeConfigRequest := some
        { ClusterName := b.Shoot.SeedNamespace
          APIServerURL :=
            h.ComputeOutOfClusterAPIServerAddress b.Shoot b.APIServerAddress false } }

/-- Go: `generateWantedSecretConfigs`, lines 578-610: the dependency-watchdog probes. -/
def Botanist.dependencyWatchdogSecretConfigs (c : Constants) (h : Helpers) (b : Botanist)
    (certificateAuthorities : String → Option secrets.Certificate) :
    List secrets.ConfigInterface :=
  [ .controlPlane
      { CertificateSecretConfig :=
          { Name := c.DependencyWatchdogInternalProbeSecretName
            CommonName := c.DependencyWatchdogUserName
            CertType := .ClientCert
            SigningCA := certificateAuthorities c.SecretNameCACluster }
        KubeConfigRequest := some
          { ClusterName := b.Shoot.SeedNamespace
            APIServerURL := h.ComputeInClusterAPIServerAddress b.Shoot false } },
    .controlPlane
      { CertificateSecretConfig :=
          { Name := c.DependencyWatchdogExternalProbeSecretName
            CommonName := c.DependencyWatchdogUserName
            CertType := .ClientCert
            SigningCA := certificateAuthorities c.SecretNameCACluster }
        KubeConfigRequest := some
          { ClusterName := b.Shoot.SeedNamespace
            APIServerURL :=
              h.ComputeOutOfClusterAPIServerAddress b.Shoot b.APIServerAddress true } } ]

/-- Go: `generateWantedSecretConfigs`, lines 622-646: konnectivity-server and agent. -/
def Botanist.konnectivitySecretConfigs (c : Constants) (h : Helpers) (b : Botanist)
    (basicAuthAPIServer : Option secrets.BasicAuth)
    (konnectivityServerToken : Option secrets.Token)
    (certificateAuthorities : String → Option secrets.Certificate) :
    List secrets.ConfigInterface :=
  let konnectivityServerDNSNames :=
    [h.GetAPIServerDomain b.Shoot.InternalClusterDomain]
    ++ dnsNamesForService c c.KonnectivityServerCertName b.Shoot.SeedNamespace
  [ .controlPlane
      { CertificateSecretConfig :=
          { Name := c.KonnectivityServerKubeconfig
            SigningCA := certificateAuthorities c.SecretNameCACluster }
        BasicAuth := basicAuthAPIServer
        Token := konnectivityServerToken
        KubeConfigRequest := some
          { ClusterName := b.Shoot.SeedNamespace
            APIServerURL :=
              Sprintf "%s.%s" [c.DeploymentNameKubeAPIServer, b.Shoot.SeedNamespace] } },
    .controlPlane
      { CertificateSecretConfig :=
          { Name := c.KonnectivityServerCertName
            CommonName := c.KonnectivityServerCertName
            DNSNames := konnectivityServerDNSNames
            CertType := .ServerCert
            SigningCA := certificateAuthorities c.SecretNameCACluster } } ]

/-- Go: `generateWantedSecretConfigs`, lines 648-668: the OpenVPN secrets. -/
def vpnSecretConfigs (c : Constants)
    (certificateAuthorities : String → Option secrets.Certificate) :
    List secrets.ConfigInterface :=
  [ -- Secret definition for vpn-shoot (OpenVPN server side)
    .certificate
      { Name := "vpn-shoot"
        CommonName := "vpn-shoot"
        CertType := .ServerCert
        SigningCA := certificateAuthorities c.SecretNameCACluster },
    -- Secret definition for vpn-seed (OpenVPN client side)
    .certificate
      { Name := "vpn-seed"
        CommonName := "vpn-seed"
        CertType := .ClientCert
        SigningCA := certificateAuthorities c.SecretNameCACluster },
    .vpnTLSAuth { Name := "vpn-seed-tlsauth" } ]

/-- Go: `generateWantedSecretConfigs`, lines 672-756: the logging secrets. -/
def Botanist.loggingSecretConfigs (c : Constants) (h : Helpers) (b : Botanist)
    (certificateAuthorities : String → Option secrets.Certificate) :
    List secrets.ConfigInterface :=
  let endUserCrtValidity := c.EndUserCrtValidity
  let elasticsearchHosts :=
    [ "elasticsearch-logging",
      Sprintf "elasticsearch-logging.%s" [b.Shoot.SeedNamespace],
      Sprintf "elasticsearch-logging.%s.svc" [b.Shoot.SeedNamespace] ]
  [ .certificate
      { Name := c.KibanaTLS
        CommonName := "kibana"
        Organization := ["gardener.cloud:logging:ingress"]
        DNSNames := h.ComputeKibanaHosts b
        CertType := .ServerCert
        SigningCA := certificateAuthorities c.SecretNameCACluster
        Validity := some endUserCrtValidity },
    -- Secret for elasticsearch
    .certificate
      { Name := "elasticsearch-logging-server"
        CommonName := "elasticsearch"
        DNSNames := elasticsearchHosts
        CertType := .ServerClientCert
        SigningCA := certificateAuthorities c.SecretNameCACluster
        PKCS := .PKCS8 },
    -- Secret definition for logging
    .basicAuth
      { Name := "logging-ingress-credentials-users"
        Format := .BasicAuthFormatNormal
        Username := "user"
        PasswordLength := 32
        BcryptPasswordHashRequest := true },
    .basicAuth
      { Name := "logging-ingress-credentials"
        Format := .BasicAuthFormatNormal
        Username := "admin"
        PasswordLength := 32
        BcryptPasswordHashRequest := true },
    .certificate
      { Name := "sg-admin-client"
        CommonName := "elasticsearch-logging"
        DNSNames := elasticsearchHosts
        CertType := .ClientCert
        SigningCA := certificateAuthorities c.SecretNameCACluster
        PKCS := .PKCS8 },
    .basicAuth
      { Name := "kibana-logging-sg-credentials"
        Format := .BasicAuthFormatNormal
        Username := "kibanaserver"
        PasswordLength := 32
        BcryptPasswordHashRequest := true },
    .basicAuth
      { Name := "curator-sg-credentials"
        Format := .BasicAuthFormatNormal
        Username := "curator"
        PasswordLength := 32
        BcryptPasswordHashRequest := true },
    .basicAuth
      { Name := "admin-sg-credentials"
        Format := .BasicAuthFormatNormal
        Username := "admin"
        PasswordLength := 32
        BcryptPasswordHashRequest := true } ]

/-- Go: `generateWantedSecretConfigs`, lines 760-775: the VPA webhook certificate. -/
def Botanist.vpaSecretConfigs (c : Constants) (b : Botanist)
    (certificateAuthorities : String → Option secrets.Certificate) :
    List secrets.ConfigInterface :=
  let commonName := Sprintf "vpa-webhook.%s.svc" [b.Shoot.SeedNamespace]
  let dnsNames :=
    [ "vpa-webhook",
      Sprintf "vpa-webhook.%s" [b.Shoot.SeedNamespace],
      commonName ]
  [ .certificate
      { Name := "vpa-tls-certs"
        CommonName := commonName
        DNSNames := dnsNames
        CertType := .ServerCert
        SigningCA := certificateAuthorities c.SecretNameCACluster } ]

/-- Go: `generateWantedSecretConfigs`, lines 671-778: the optional members appended after
the tunnel secrets, and the return. -/
def Botanist.withOptionalSecretConfigs (c : Constants) (h : Helpers) (b : Botanist)
    (certificateAuthorities : String → Option secrets.Certificate)
    (secretList : List secrets.ConfigInterface) : List secrets.ConfigInterface :=
  let secretList :=
    if h.LoggingEnabled then secretList ++ b.loggingSecretConfigs c h certificateAuthorities
    else secretList
  let secretList :=
    if b.Shoot.WantsVerticalPodAutoscaler then
      secretList ++ b.vpaSecretConfigs c certificateAuthorities
    else secretList
  secretList

/-- Go: `(b *Botanist) generateWantedSecretConfigs(basicAuthAPIServer, staticToken,
certificateAuthorities)`.  The result is the pair of the returned slice (`[]` is nil) and
the returned error. -/
def Botanist.generateWantedSecretConfigs (c : Constants) (h : Helpers) (b : Botanist)
    (basicAuthAPIServer : Option secrets.BasicAuth)
    (staticToken : Option secrets.StaticToken)
    (certificateAuthorities : String → Option secrets.Certificate) :
    Outcome (List secrets.ConfigInterface × Option Err) :=
  match b.apiServerSANs c h with
  | .panicked => .panicked
  | .returned (apiServerIPAddresses, apiServerCertDNSNames) =>
    let secretList :=
      b.initialSecretList c h certificateAuthorities apiServerIPAddresses apiServerCertDNSNames
    -- Secret definition for kubecfg
    match tokenForUsername staticToken c.KubecfgUsername with
    | .error err => .returned ([], some err)
    | .ok kubecfgToken =>
      let secretList := secretList ++
        [b.kubecfgSecretConfig c h basicAuthAPIServer kubecfgToken certificateAuthorities]
      -- Secret definitions for dependency-watchdog-internal and external probes
      let secretList := secretList ++ b.dependencyWatchdogSecretConfigs c h certificateAuthorities
      if b.Shoot.KonnectivityTunnelEnabled then
        match tokenForUsername staticToken c.KonnectivityServerUserName with
        | .error err => .returned ([], some err)
        | .ok konnectivityServerToken =>
          -- Secret definitions for konnectivity-server and konnectivity Agent
          let secretList := secretList ++ b.konnectivitySecretConfigs c h basicAuthAPIServer
            konnectivityServerToken certificateAuthorities
          .returned (b.withOptionalSecretConfigs c h certificateAuthorities secretList, none)
      else
        let secretList := secretList ++ vpnSecretConfigs c certificateAuthorities
        .returned (b.withOptionalSecretConfigs c h certificateAuthorities secretList, none)

/-- The names that the tunnel cleanup of `GenerateAndSaveSecrets` (lines 93-103) hands to
`cleanupTunnelSecrets`: the family that is not configured, and no name at all for a shoot
with a deletion timestamp. -/
def Botanist.tunnelCleanupNames (c : Constants) (b : Botanist) : List String :=
  if b.Shoot.Info.DeletionTimestamp = none then
    if b.Shoot.KonnectivityTunnelEnabled then ["vpn-seed", "vpn-seed-tlsauth", "vpn-shoot"]
    else [c.KonnectivityServerKubeconfig, c.KonnectivityServerCertName]
  else []

/-! ## Names of the catalog -/

/-- The names of the configs that `generateWantedSecretConfigs` emits whatever the flags
are (lines 147-610), in the order of the catalog. -/
def alwaysSecretNames (c : Constants) : List String :=
  [ "kube-apiserver", "kube-apiserver-kubelet", "kube-aggregator", "kube-controller-manager",
    c.KubeControllerManagerServerName, "kube-scheduler", c.KubeSchedulerServerName,
    c.DeploymentNameClusterAutoscaler, "gardener-resource-manager", "kube-proxy",
    "kube-state-metrics", "prometheus", "prometheus-kubelet", c.SecretNameGardener,
    c.SecretNameGardenerInternal, "cloud-config-downloader", "monitoring-ingress-credentials",
    "monitoring-ingress-credentials-users", c.SecretNameSSHKeyPair, "service-account-key",
    c.EtcdServerTLS, c.EtcdClientTLS, "metrics-server", c.AlertManagerTLS, c.GrafanaTLS,
    c.PrometheusTLS, c.KubecfgSecretName, c.DependencyWatchdogInternalProbeSecretName,
    c.DependencyWatchdogExternalProbeSecretName ]

/-- The names in `alwaysSecretNames` that are string literals of `wanted_secrets.go`. -/
def literalSecretNames : List String :=
  [ "kube-apiserver", "kube-apiserver-kubelet", "kube-aggregator", "kube-controller-manager",
    "kube-scheduler", "gardener-resource-manager", "kube-proxy", "kube-state-metrics",
    "prometheus", "prometheus-kubelet", "cloud-config-downloader",
    "monitoring-ingress-credentials", "monitoring-ingress-credentials-users",
    "service-account-key", "metrics-server" ]

/-- The names in `alwaysSecretNames` that are constants of other packages. -/
def constantSecretNames (c : Constants) : List String :=
  [ c.KubeControllerManagerServerName, c.KubeSchedulerServerName,
    c.DeploymentNameClusterAutoscaler, c.SecretNameGardener, c.SecretNameGardenerInternal,
    c.SecretNameSSHKeyPair, c.EtcdServerTLS, c.EtcdClientTLS, c.AlertManagerTLS, c.GrafanaTLS,
    c.PrometheusTLS, c.KubecfgSecretName, c.DependencyWatchdogInternalProbeSecretName,
    c.DependencyWatchdogExternalProbeSecretName ]

/-- The names of the konnectivity configs (lines 622-646). -/
def konnectivitySecretNames (c : Constants) : List String :=
  [c.KonnectivityServerKubeconfig, c.KonnectivityServerCertName]

/-- The names of the OpenVPN configs (lines 648-668). -/
def vpnSecretNames : List String := ["vpn-shoot", "vpn-seed", "vpn-seed-tlsauth"]

/-- The names of the logging configs (lines 677-756). -/
def loggingSecretNames (c : Constants) : List String :=
  [ c.KibanaTLS, "elasticsearch-logging-server", "logging-ingress-credentials-users",
    "logging-ingress-credentials", "sg-admin-client", "kibana-logging-sg-credentials",
    "curator-sg-credentials", "admin-sg-credentials" ]

/-- Every name that a config of the catalog can carry. -/
def catalogNames (c : Constants) : List String :=
  alwaysSecretNames c ++ konnectivitySecretNames c ++ vpnSecretNames ++ loggingSecretNames c
    ++ ["vpa-tls-certs"]

/-- The names of a list of configs. -/
def configNames (l : List secrets.ConfigInterface) : List String :=
  l.map secrets.ConfigInterface.GetName

/-! ## `secrets.go`: the Secrets Manager of `GenerateAndSaveSecrets` -/

/-- Go: `GenerateAndSaveSecrets`, lines 113-122: the Secrets Manager that `Generate` is
called on, built from the ledger after the cleanups. -/
def Botanist.secretsManagerForGenerate (c : Constants) (h : Helpers) (b : Botanist)
    (gardenerResourceDataList : GardenerResourceDataList) : SecretsManager :=
  let secretsManager : SecretsManager :=
    { GardenerResourceDataList := gardenerResourceDataList
      staticTokenConfig := b.generateStaticTokenConfig c
      certificateAuthorityConfigs := wantedCertificateAuthorities c }
  if h.ShootWantsBasicAuthentication b.Shoot.Info then
    { secretsManager with apiServerBasicAuthConfig := some (basicAuthSecretAPIServer c) }
  else secretsManager

/-- The eight names that the cleanups of `GenerateAndSaveSecrets` (lines 87-111) can pass
to a ledger `Delete`. -/
def cleanupSecretNames (c : Constants) : List String :=
  [ c.StaticTokenSecretName, c.BasicAuthSecretName, c.KubecfgSecretName, "vpn-seed",
    "vpn-seed-tlsauth", "vpn-shoot", c.KonnectivityServerKubeconfig,
    c.KonnectivityServerCertName ]

/-! ## `addons.go`: the legacy cloud-config secret -/

/-- Go: `(b *Botanist) deleteLegacyCloudConfigSecret(ctx)`. -/
def Botanist.deleteLegacyCloudConfigSecret (b : Botanist) (w : World) : Option Err × World :=
  match SeedClient.Delete w b.Shoot.SeedNamespace
      "managedresource-shoot-cloud-config-execution" with
  | (err, w1) => (IgnoreNotFound err, w1)

/-! ## The shoot cluster -/

/-- What the shoot cluster does when an API call of the botanist arrives: nothing, a
failure of the call, or the deletion of a secret by another actor just before the call is
served. -/
inductive ShootEvent where
  | quiet
  | failure (msg : String)
  | deletedByOther (ns name : String)
  deriving DecidableEq, Repr

/-- State of the shoot cluster as the shoot client sees it.  Every API call consumes the
head of `events`; with an empty script the cluster is quiet. -/
structure ShootWorld where
  secrets : List Secret
  events : List ShootEvent
  deriving DecidableEq, Repr

/-- Take the next event: the injected failure, if any, and the cluster after the event. -/
def ShootWorld.nextEvent (w : ShootWorld) : Option String × ShootWorld :=
  match w.events with
  | [] => (none, w)
  | .quiet :: rest => (none, { w with events := rest })
  | .failure msg :: rest => (some msg, { w with events := rest })
  | .deletedByOther ns name :: rest =>
    (none, { secrets := w.secrets.filter (fun s => s.key != (ns, name)), events := rest })

/-- Go: `client.Get` of a Secret through the shoot client. -/
def ShootClient.Get (w : ShootWorld) (ns name : String) : Except Err Secret × ShootWorld :=
  match w.nextEvent with
  | (some msg, w1) => (.error (.failure msg), w1)
  | (none, w1) =>
    match w1.secrets.find? (fun s => s.key == (ns, name)) with
    | some secret => (.ok secret, w1)
    | none => (.error .notFound, w1)

/-- Go: `client.Delete` of a Secret through the shoot client. -/
def ShootClient.Delete (w : ShootWorld) (ns name : String) : Option Err × ShootWorld :=
  match w.nextEvent with
  | (some msg, w1) => (some (.failure msg), w1)
  | (none, w1) =>
    if w1.secrets.any (fun s => s.key == (ns, name)) then
      (none, { w1 with secrets := w1.secrets.filter (fun s => s.key != (ns, name)) })
    else
      (some .notFound, w1)

/-- Modelled from the spec: `common.GetSecretFromSecretRef`, which is not among the
embedded files: a read of the referenced secret from the object store, yielding the secret
and no error, or nil and the error of the read. -/
def GetSecretFromSecretRef (w : ShootWorld) (ns name : String) :
    (Option Secret × Option Err) × ShootWorld :=
  match ShootClient.Get w ns name with
  | (.ok secret, w1) => ((some secret, none), w1)
  | (.error err, w1) => ((none, some err), w1)

/-- Go: `apierrors.IsNotFound(err)`. -/
def apierrors.IsNotFound : Option Err → Bool
  | some .notFound => true
  | _ => false

/-- Go: `generateCoreAddonsChart`, lines 460-470: with the konnectivity tunnel enabled, the
shoot-side secret `vpn-shoot` is read and, if it exists, deleted.  Yields the error with
which `generateCoreAddonsChart` returns at this point, or `none` when it goes on. -/
def generateCoreAddonsChart_deleteVPNShoot (w : ShootWorld) : Option Err × ShootWorld :=
  match GetSecretFromSecretRef w metav1.NamespaceSystem "vpn-shoot" with
  | ((secret, err), w1) =>
    if err.isSome && !apierrors.IsNotFound err then (err, w1)
    else
      match secret with
      | none => (none, w1)
      | some secret =>
        match ShootClient.Delete w1 secret.Namespace secret.Name with
        | (some err, w2) => (some err, w2)
        | (none, w2) => (none, w2)

/-! ## `secrets.go`: deploying the secrets -/

/-- The value of `corev1.SecretTypeOpaque` (k8s.io/api). -/
def corev1.SecretTypeOpaque : String := "Opaque"

/-- Put an object into a list of objects: in place of the object of the same key, or at the
end when there is none. -/
def upsertSecret (secrets : List Secret) (obj : Secret) : List Secret :=
  if secrets.any (fun s => s.key == obj.key) then
    secrets.map (fun s => if s.key == obj.key then obj else s)
  else
    secrets ++ [obj]

/-- Go: `controllerutil.CreateOrUpdate` of a Secret through the seed client: the object is
read by its key (an absent object leaves the passed one as it is), mutated, and written.
Yields the error, the object as written, and the cluster. -/
def SeedClient.CreateOrUpdate (w : World) (obj : Secret) (mutate : Secret → Secret) :
    Option Err × Secret × World :=
  match w.nextFault with
  | (some msg, w1) => (some (.failure msg), obj, w1)
  | (none, w1) =>
    let current := (w1.seedSecrets.find? (fun s => s.key == obj.key)).getD obj
    let updated := mutate current
    (none, updated, { w1 with seedSecrets := upsertSecret w1.seedSecrets updated })

/-- Go: `controllerutil.CreateOrUpdate` of a Secret through the garden client. -/
def GardenClient.CreateOrUpdate (w : World) (obj : Secret) (mutate : Secret → Secret) :
    Option Err × Secret × World :=
  match w.nextFault with
  | (some msg, w1) => (some (.failure msg), obj, w1)
  | (none, w1) =>
    let current := (w1.gardenSecrets.find? (fun s => s.key == obj.key)).getD obj
    let updated := mutate current
    (none, updated, { w1 with gardenSecrets := upsertSecret w1.gardenSecrets updated })

/-- The collaborators of `DeploySecrets` whose code is outside the embedded files: the
`Deploy` method of the Secrets Manager, which yields the error or the manager with its
static token and deployed secrets, and `seed.GetWildcardCertificate`. -/
structure DeployCollaborators where
  Deploy : SecretsManager → World → Option Err × SecretsManager × World
  GetWildcardCertificate : World → Except Err (Option Secret) × World

/-- Go: `(b *Botanist) fetchExistingSecrets(ctx)`. -/
def Botanist.fetchExistingSecrets (b : Botanist) (w : World) :
    Except Err (List (String × Secret)) × World :=
  match SeedClient.List w b.Shoot.SeedNamespace [] with
  | (.error err, w1) => (.error err, w1)
  | (.ok items, w1) =>
    (.ok (items.foldl (fun existingSecretsMap secret =>
        mapInsert existingSecretsMap secret.Name secret) []), w1)

/-- Go: `(b *Botanist) storeAPIServerHealthCheckToken(staticToken)`.  A nil static token is
dereferenced by the lookup. -/
def Botanist.storeAPIServerHealthCheckToken (c : Constants) (b : Botanist)
    (staticToken : Option secrets.StaticToken) : Outcome (Option Err × Botanist) :=
  match staticToken with
  | none => .panicked
  | some st =>
    match st.GetTokenForUsername c.KubeAPIServerHealthCheck with
    | .error err => .returned (some err, b)
    | .ok kubeAPIServerHealthCheckToken =>
      .returned (none, { b with APIServerHealthCheckToken := kubeAPIServerHealthCheckToken.Token })

/-- Go: `(b *Botanist) storeStaticTokenAsSecrets(ctx, staticToken, caCert,
secretNameToUsername)`; the map is ranged over in the order of its entries.  A nil static
token is dereferenced by the lookup. -/
def Botanist.storeStaticTokenAsSecrets (c : Constants) (h : Helpers)
    (staticToken : Option secrets.StaticToken) (caCert : String) :
    List (String × String) → Botanist → World → Outcome (Option Err × Botanist × World)
  | [], b, w => .returned (none, b, w)
  | (secretName, username) :: rest, b, w =>
    let secret : Secret :=
      { Name := secretName, Namespace := b.Shoot.SeedNamespace
        SecretType := corev1.SecretTypeOpaque }
    match staticToken with
    | none => .panicked
    | some st =>
      match st.GetTokenForUsername username with
      | .error err => .returned (some err, b, w)
      | .ok token =>
        match SeedClient.CreateOrUpdate w secret (fun secret =>
            { secret with
              Data := [(c.DataKeyToken, token.Token), (c.DataKeyCertificateCA, caCert)] }) with
        | (some err, _, w1) => .returned (some err, b, w1)
        | (none, secret, w1) =>
          Botanist.storeStaticTokenAsSecrets c h staticToken caCert rest
            { b with CheckSums :=
                mapInsert b.CheckSums secretName (h.ComputeSecretCheckSum secret.Data) } w1

/-- Go: `DeploySecrets`, lines 173-182, the block under `b.mutex`: every deployed secret is
stored in `b.Secrets`, then the checksum of every secret of `b.Secrets` is stored in
`b.CheckSums`. -/
def Botanist.recordDeployedSecrets (h : Helpers) (b : Botanist)
    (deployedSecrets : List (String × Secret)) : Botanist :=
  let secrets := deployedSecrets.foldl (fun acc kv => mapInsert acc kv.1 kv.2) b.Secrets
  let checkSums := secrets.foldl
    (fun acc kv => mapInsert acc kv.1 (h.ComputeSecretCheckSum kv.2.Data)) b.CheckSums
  { b with Secrets := secrets, CheckSums := checkSums }

/-- Go: `DeploySecrets`, lines 184-206: the copy of the wildcard certificate. -/
def Botanist.copyWildcardCertificate (collaborators : DeployCollaborators) (b : Botanist)
    (w : World) : Option Err × Botanist × World :=
  match collaborators.GetWildcardCertificate w with
  | (.error err, w1) => (some err, b, w1)
  | (.ok none, w1) => (none, b, w1)
  | (.ok (some wildcardCert), w1) =>
    -- Copy certificate to shoot namespace
    let crt : Secret := { Name := wildcardCert.Name, Namespace := b.Shoot.SeedNamespace }
    match SeedClient.CreateOrUpdate w1 crt (fun crt => { crt with Data := wildcardCert.Data }) with
    | (some err, _, w2) => (some err, b, w2)
    | (none, crt, w2) => (none, { b with ControlPlaneWildcardCert := some crt }, w2)

/-- Go: `DeploySecrets`, lines 148-159: the Secrets Manager that `Deploy` is called on.
The call `secretsManager.WithAPIServerBasicAuthConfig(...)`, whose result the code drops,
sets the config on the manager it is called on. -/
def Botanist.secretsManagerForDeploy (c : Constants) (h : Helpers) (b : Botanist)
    (existingSecrets : List (String × Secret)) : SecretsManager :=
  let secretsManager : SecretsManager :=
    { GardenerResourceDataList := b.ShootState.SpecGardener
      staticTokenConfig := b.generateStaticTokenConfig c
      certificateAuthorityConfigs := wantedCertificateAuthorities c }
  let secretsManager :=
    if h.ShootWantsBasicAuthentication b.Shoot.Info then
      { secretsManager with apiServerBasicAuthConfig := some (basicAuthSecretAPIServer c) }
    else secretsManager
  { secretsManager with existingSecrets := existingSecrets }

/-- Go: `DeploySecrets`, lines 142-171: everything before the block under `b.mutex`.
Yields the error, or the botanist and the Secrets Manager after `Deploy`. -/
def Botanist.deployAndStoreTokens (c : Constants) (h : Helpers)
    (collaborators : DeployCollaborators) (b : Botanist) (w : World) :
    Outcome (Option Err × Botanist × SecretsManager × World) :=
  match b.fetchExistingSecrets w with
  | (.error err, w1) => .returned (some err, b, b.secretsManagerForDeploy c h [], w1)
  | (.ok existingSecrets, w1) =>
    match collaborators.Deploy (b.secretsManagerForDeploy c h existingSecrets) w1 with
    | (some err, secretsManager, w2) => .returned (some err, b, secretsManager, w2)
    | (none, secretsManager, w2) =>
      match b.storeAPIServerHealthCheckToken c secretsManager.StaticToken with
      | .panicked => .panicked
      | .returned (some err, b1) => .returned (some err, b1, secretsManager, w2)
      | .returned (none, b1) =>
        if b1.Shoot.WantsVerticalPodAutoscaler then
          match secretsManager.DeployedSecrets.lookup c.SecretNameCACluster with
          | none => .panicked
          | some caSecret =>
            match Botanist.storeStaticTokenAsSecrets c h secretsManager.StaticToken
                ((caSecret.Data.lookup c.DataKeyCertificateCA).getD "") (vpaSecrets c) b1 w2 with
            | .panicked => .panicked
            | .returned (err, b2, w3) => .returned (err, b2, secretsManager, w3)
        else .returned (none, b1, secretsManager, w2)

/-- Go: `(b *Botanist) DeploySecrets(ctx)`. -/
def Botanist.DeploySecrets (c : Constants) (h : Helpers)
    (collaborators : DeployCollaborators) (b : Botanist) (w : World) :
    Outcome (Option Err × Botanist × World) :=
  match b.deployAndStoreTokens c h collaborators w with
  | .panicked => .panicked
  | .returned (some err, b1, _, w1) => .returned (some err, b1, w1)
  | .returned (none, b1, secretsManager, w1) =>
    .returned (Botanist.copyWildcardCertificate collaborators
      (b1.recordDeployedSecrets h secretsManager.DeployedSecrets) w1)

/-- Go: `(b *Botanist) DeployCloudProviderSecret(ctx)`.  A nil `b.Shoot.Secret` is
dereferenced in the first line. -/
def Botanist.DeployCloudProviderSecret (c : Constants) (h : Helpers) (b : Botanist)
    (w : World) : Outcome (Option Err × Botanist × World) :=
  match b.Shoot.Secret with
  | none => .panicked
  | some shootSecret =>
    let checksum := h.ComputeSecretCheckSum shootSecret.Data
    let secret : Secret :=
      { Name := c.SecretNameCloudProvider, Namespace := b.Shoot.SeedNamespace }
    match SeedClient.CreateOrUpdate w secret (fun secret =>
        { secret with
          Annotations := [("checksum/data", checksum)]
          SecretType := corev1.SecretTypeOpaque
          Data := shootSecret.Data }) with
    | (some err, _, w1) => .returned (some err, b, w1)
    | (none, _, w1) =>
      .returned (none,
        { b with
          Secrets := mapInsert b.Secrets c.SecretNameCloudProvider shootSecret
          CheckSums := mapInsert b.CheckSums c.SecretNameCloudProvider checksum }, w1)

/-! ## `secrets.go`: syncing the credentials to the garden -/

/-- Go: `const secretSuffixKubeConfig`. -/
def secretSuffixKubeConfig : String := "kubeconfig"
/-- Go: `const secretSuffixSSHKeyPair = v1beta1constants.SecretNameSSHKeyPair`. -/
def secretSuffixSSHKeyPair (c : Constants) : String := c.SecretNameSSHKeyPair
/-- Go: `const secretSuffixMonitoring`. -/
def secretSuffixMonitoring : String := "monitoring"
/-- Go: `const secretSuffixLogging`. -/
def secretSuffixLogging : String := "logging"

/-- Go: `computeProjectSecretName(shootName, suffix string) string`. -/
def computeProjectSecretName (shootName suffix : String) : String :=
  Sprintf "%s.%s" [shootName, suffix]

/-- Go: `type projectSecret struct`; a nil `annotations` map is the empty list. -/
structure projectSecret where
  secretName : String
  suffix : String
  annotations : List (String × String) := []
  deriving DecidableEq, Repr

/-- Go: `metav1.NewControllerRef(b.Shoot.Info, gardencorev1beta1.SchemeGroupVersion.WithKind(
"Shoot"))`: the owner reference to the shoot, with `Controller` and `BlockOwnerDeletion`
set. -/
def shootControllerRef (c : Constants) (info : ShootInfo) : OwnerReference :=
  { APIVersion := c.SchemeGroupVersion
    Kind := "Shoot"
    Name := info.Name
    UID := info.UID
    Controller := some true
    BlockOwnerDeletion := some true }

/-- Go: `SyncShootCredentialsToGarden`, lines 346-374: the list `projectSecrets`. -/
def Botanist.projectSecrets (c : Constants) (h : Helpers) (b : Botanist) : List projectSecret :=
  let kubecfgURL :=
    match b.Shoot.ExternalClusterDomain with
    | some externalClusterDomain => h.GetAPIServerDomain externalClusterDomain
    | none => h.GetAPIServerDomain b.Shoot.InternalClusterDomain
  let projectSecrets : List projectSecret :=
    [ { secretName := c.KubecfgSecretName
        suffix := secretSuffixKubeConfig
        annotations := [("url", "https://" ++ kubecfgURL)] },
      { secretName := c.SecretNameSSHKeyPair
        suffix := secretSuffixSSHKeyPair c },
      { secretName := "monitoring-ingress-credentials-users"
        suffix := secretSuffixMonitoring
        annotations := [("url", "https://" ++ h.ComputeGrafanaUsersHost b)] } ]
  if h.LoggingEnabled then
    projectSecrets ++
      [ { secretName := "logging-ingress-credentials-users"
          suffix := secretSuffixLogging
          annotations := [("url", "https://" ++ h.ComputeKibanaHost b)] } ]
  else projectSecrets

/-- The garden secret that `SyncShootCredentialsToGarden` (lines 377-391) writes for a
project secret, from the object read from the garden cluster and the cached secret. -/
def Botanist.projectSecretObject (c : Constants) (b : Botanist) (ps : projectSecret)
    (cached : Secret) (secretObj : Secret) : Secret :=
  { secretObj with
    OwnerReferences := [shootControllerRef c b.Shoot.Info]
    Annotations := ps.annotations
    SecretType := corev1.SecretTypeOpaque
    Data := cached.Data }

/-- Go: `SyncShootCredentialsToGarden`, lines 376-397: the loop over `projectSecrets`.  The
mutation reads `b.Secrets[projectSecret.secretName].Data`: when the secret is not cached the
nil pointer is dereferenced, after the object has been read from the garden cluster. -/
def Botanist.syncProjectSecrets (c : Constants) (b : Botanist) :
    List projectSecret → World → Outcome (Option Err × World)
  | [], w => .returned (none, w)
  | ps :: rest, w =>
    let secretObj : Secret :=
      { Name := computeProjectSecretName b.Shoot.Info.Name ps.suffix
        Namespace := b.Shoot.Info.Namespace }
    match b.Secrets.lookup ps.secretName with
    | none =>
      match w.nextFault with
      | (some msg, w1) => .returned (some (.failure msg), w1)
      | (none, _) => .panicked
    | some cached =>
      match GardenClient.CreateOrUpdate w secretObj (b.projectSecretObject c ps cached) with
      | (some err, _, w1) => .returned (some err, w1)
      | (none, _, w1) => Botanist.syncProjectSecrets c b rest w1

/-- Go: `(b *Botanist) SyncShootCredentialsToGarden(ctx)`. -/
def Botanist.SyncShootCredentialsToGarden (c : Constants) (h : Helpers) (b : Botanist)
    (w : World) : Outcome (Option Err × World) :=
  b.syncProjectSecrets c (b.projectSecrets c h) w

/-- The key of the garden secret of a project secret. -/
def Botanist.projectSecretKey (b : Botanist) (ps : projectSecret) : String × String :=
  (b.Shoot.Info.Namespace, computeProjectSecretName b.Shoot.Info.Name ps.suffix)

/-! ## `addons.go`: the managed resources -/

/-- Go: `SecretLabelKeyManagedResource`. -/
def SecretLabelKeyManagedResource : String := "managed-resource"

/-- Go: `chartrenderer.RenderedChart`: the name of a rendered chart and its manifest files
by name. -/
structure RenderedChart where
  ChartName : String
  Manifests : List (String × String) := []
  deriving DecidableEq, Repr

/-- The collaborators of `DeployManagedResources` whose results rest on code outside the
embedded files: `AsSecretData` of the chart renderer, the results of the chart render
functions of the botanist (which call the chart renderer), the result of
`kutil.ComputeBootstrapToken`, and the render function that
`getGenerateCloudConfigExecutionChartFunc(name, worker, bootstrapTokenSecret)` returns. -/
structure ChartCollaborators where
  AsSecretData : RenderedChart → List (String × String)
  generateCoreAddonsChart : Except Err RenderedChart
  generateCoreNamespacesChart : Except Err RenderedChart
  generateOptionalAddonsChart : Except Err RenderedChart
  generateTemporaryKymaAddonsChart : Except Err RenderedChart
  generateCloudConfigRBACChart : Except Err RenderedChart
  ComputeBootstrapToken : Except Err Secret
  getGenerateCloudConfigExecutionChartFunc : String → Worker → Secret → Except Err RenderedChart

/-- Go: `manager.NewSecret(client).WithNamespacedName(ns, name).WithKeyValues(data)
.WithLabels(labels).Reconcile(ctx)` of gardener-resource-manager through the seed client:
a create-or-update of the secret of that name whose mutation sets the labels and the data
of the builder.  `secret` is the object of the builder. -/
def manager.Secret.Reconcile (w : World) (secret : Secret) : Option Err × World :=
  match SeedClient.CreateOrUpdate w { Name := secret.Name, Namespace := secret.Namespace }
      (fun obj => { obj with Labels := secret.Labels, Data := secret.Data }) with
  | (err, _, w1) => (err, w1)

/-- Namespace and name, the key of an object in a cluster. -/
def ManagedResource.key (m : ManagedResource) : String × String := (m.Namespace, m.Name)

/-- Put a ManagedResource into a list of them: in place of the object of the same key, or at
the end when there is none. -/
def upsertManagedResource (resources : List ManagedResource) (obj : ManagedResource) :
    List ManagedResource :=
  if resources.any (fun m => m.key == obj.key) then
    resources.map (fun m => if m.key == obj.key then obj else m)
  else
    resources ++ [obj]

/-- Go: `(m *ManagedResource) WithSecretRef(secretRefName)` of gardener-resource-manager:
appends the reference. -/
def manager.ManagedResource.WithSecretRef (m : ManagedResource) (secretRefName : String) :
    ManagedResource :=
  { m with SecretRefs := m.SecretRefs ++ [secretRefName] }

/-- Go: `(m *ManagedResource) Reconcile(ctx)` of gardener-resource-manager through the seed
client: a create-or-update of the ManagedResource of that name whose mutation sets the
labels and the whole spec (secret references, injected labels, keepObjects) of the
builder.  `resource` is the object of the builder. -/
def manager.ManagedResource.Reconcile (w : World) (resource : ManagedResource) :
    Option Err × World :=
  match w.nextFault with
  | (some msg, w1) => (some (.failure msg), w1)
  | (none, w1) =>
    (none, { w1 with
      seedManagedResources := upsertManagedResource w1.seedManagedResources resource })

/-- Go: the local type `managedResourceOptions` of `DeployManagedResources`;
`chartRenderFunc` is held by its result. -/
structure managedResourceOptions where
  keepObjects : Bool
  chartRenderFunc : Except Err RenderedChart

/-- Go: `DeployManagedResources`, lines 147-153: the map `charts`, in the order of the
literal. -/
def Botanist.managedResourceCharts (c : Constants) (r : ChartCollaborators) :
    List (String × managedResourceOptions) :=
  [ (c.ManagedResourceShootCoreName, ⟨false, r.generateCoreAddonsChart⟩),
    (c.ManagedResourceCoreNamespaceName, ⟨true, r.generateCoreNamespacesChart⟩),
    (c.ManagedResourceAddonsName, ⟨false, r.generateOptionalAddonsChart⟩),
    (c.ManagedResourceKymaName, ⟨false, r.generateTemporaryKymaAddonsChart⟩) ]

/-- Go: `DeployManagedResources`, lines 156-183: the body of the loop over `charts`. -/
def Botanist.deployChart (c : Constants) (r : ChartCollaborators) (b : Botanist)
    (name : String) (options : managedResourceOptions) (w : World) : Option Err × World :=
  let injectedLabels := [(c.ShootNoCleanup, "true")]
  let labels := [(c.ManagedResourceLabelKeyOrigin, c.ManagedResourceLabelValueGardener)]
  match options.chartRenderFunc with
  | .error err => (some (.rendering name err), w)
  | .ok renderedChart =>
    let data := r.AsSecretData renderedChart
    let secretName := "managedresource-" ++ name
    match manager.Secret.Reconcile w
        { Name := secretName, Namespace := b.Shoot.SeedNamespace, Data := data } with
    | (some err, w1) => (some err, w1)
    | (none, w1) =>
      manager.ManagedResource.Reconcile w1
        { Name := name
          Namespace := b.Shoot.SeedNamespace
          Labels := labels
          SecretRefs := [secretName]
          InjectLabels := injectedLabels
          KeepObjects := options.keepObjects }

/-- Go: `DeployManagedResources`, lines 155-184: the loop over `charts`, which returns at
the first error.  Go iterates a map in an unspecified order; the list gives the order. -/
def Botanist.deployCharts (c : Constants) (r : ChartCollaborators) (b : Botanist) :
    List (String × managedResourceOptions) → World → Option Err × World
  | [], w => (none, w)
  | (name, options) :: rest, w =>
    match b.deployChart c r name options w with
    | (some err, w1) => (some err, w1)
    | (none, w1) => Botanist.deployCharts c r b rest w1

/-- Go: `deployCloudConfigExecutionManagedResource`, lines 206-215: the map
`cloudConfigCharts` of chart names to render functions, each held by its result. -/
def Botanist.cloudConfigCharts (r : ChartCollaborators) (b : Botanist)
    (bootstrapTokenSecret : Secret) : List (String × Except Err RenderedChart) :=
  b.Shoot.Info.Workers.foldl
    (fun cloudConfigCharts worker =>
      let name := Sprintf "shoot-cloud-config-execution-%s" [worker.Name]
      mapInsert cloudConfigCharts name
        (r.getGenerateCloudConfigExecutionChartFunc name worker bootstrapTokenSecret))
    [("shoot-cloud-config-rbac", r.generateCloudConfigRBACChart)]

/-- Go: `deployCloudConfigExecutionManagedResource`, lines 234-241: the task appended to
`fns` for a rendered chart, which reconciles its secret. -/
def Botanist.cloudConfigSecretTask (r : ChartCollaborators) (b : Botanist)
    (secretLabels : List (String × String)) (name : String) (renderedChart : RenderedChart) :
    TaskFn :=
  fun w => manager.Secret.Reconcile w
    { Name := "managedresource-" ++ name
      Namespace := b.Shoot.SeedNamespace
      Data := r.AsSecretData renderedChart
      Labels := secretLabels }

/-- Go: `deployCloudConfigExecutionManagedResource`, lines 226-245: the loop over
`cloudConfigCharts`, which renders each chart, appends its task to `fns` and its secret name
to the references of the ManagedResource and to `wantedSecretNames`, and returns at the
first chart that fails to render.  Go iterates a map in an unspecified order; the list
gives the order. -/
def Botanist.renderCloudConfigCharts (r : ChartCollaborators) (b : Botanist)
    (secretLabels : List (String × String)) :
    List (String × Except Err RenderedChart) → List TaskFn → ManagedResource → List String →
      Except Err (List TaskFn × ManagedResource × List String)
  | [], fns, cloudConfigManagedResource, wantedSecretNames =>
    .ok (fns, cloudConfigManagedResource, wantedSecretNames)
  | (name, renderChartFunc) :: rest, fns, cloudConfigManagedResource, wantedSecretNames =>
    match renderChartFunc with
    | .error err => .error (.rendering name err)
    | .ok renderedChart =>
      let secretName := "managedresource-" ++ name
      Botanist.renderCloudConfigCharts r b secretLabels rest
        (fns ++ [b.cloudConfigSecretTask r secretLabels name renderedChart])
        (manager.ManagedResource.WithSecretRef cloudConfigManagedResource secretName)
        (wantedSecretNames.insert secretName)

/-- Go: `(b *Botanist) deployCloudConfigExecutionManagedResource(ctx)`. -/
def Botanist.deployCloudConfigExecutionManagedResource (c : Constants)
    (r : ChartCollaborators) (b : Botanist) (w : World) : Option Err × World :=
  let injectedLabels := [(c.ShootNoCleanup, "true")]
  let labels := [(c.ManagedResourceLabelKeyOrigin, c.ManagedResourceLabelValueGardener)]
  let managedResourceName := "shoot-cloud-config-execution"
  let secretLabels := [(SecretLabelKeyManagedResource, managedResourceName)]
  match r.ComputeBootstrapToken with
  | .error err => (some (.computingBootstrapToken err), w)
  | .ok bootstrapTokenSecret =>
    --  for each worker pool add a secret containing the cloud config execution script
    let cloudConfigCharts := b.cloudConfigCharts r bootstrapTokenSecret
    let cloudConfigManagedResource : ManagedResource :=
      { Name := managedResourceName
        Namespace := b.Shoot.SeedNamespace
        Labels := labels
        InjectLabels := injectedLabels
        KeepObjects := false }
    -- reconcile secrets and reference them to the ManagedResource
    match b.renderCloudConfigCharts r secretLabels cloudConfigCharts [] cloudConfigManagedResource
        [] with
    | .error err => (some err, w)
    | .ok (fns, cloudConfigManagedResource, wantedSecretNames) =>
      match flow.Parallel fns w with
      | (some err, w1) => (some err, w1)
      | (none, w1) =>
        match manager.ManagedResource.Reconcile w1 cloudConfigManagedResource with
        | (some err, w2) => (some err, w2)
        | (none, w2) =>
          match b.deleteStaleSecretsMatchLabel secretLabels wantedSecretNames w2 with
          | (some err, w3) => (some err, w3)
          | (none, w3) => b.deleteLegacyCloudConfigSecret w3

/-- Go: `(b *Botanist) DeployManagedResources(ctx)`. -/
def Botanist.DeployManagedResources (c : Constants) (r : ChartCollaborators) (b : Botanist)
    (w : World) : Option Err × World :=
  match b.deployCharts c r (Botanist.managedResourceCharts c r) w with
  | (some err, w1) => (some err, w1)
  | (none, w1) => b.deployCloudConfigExecutionManagedResource c r w1

/-! ## `secrets.go`: loading the existing secrets -/

/-- Modelled from the spec: `(*SecretsManager).WithAPIServerBasicAuthConfig(config)` of
package `shootsecrets`, which is not among the embedded files: a builder method on the
pointer to the manager, which sets the config on the manager it is called on and returns
that manager. -/
def SecretsManager.WithAPIServerBasicAuthConfig (s : SecretsManager)
    (config : secrets.BasicAuthSecretConfig) : SecretsManager :=
  { s with apiServerBasicAuthConfig := some config }

/-- Modelled from the spec: `(*SecretsManager).WithExistingSecrets(existingSecrets)` of
package `shootsecrets`, which is not among the embedded files: sets the existing secrets on
the manager it is called on and returns that manager. -/
def SecretsManager.WithExistingSecrets (s : SecretsManager)
    (existingSecrets : List (String × Secret)) : SecretsManager :=
  { s with existingSecrets := existingSecrets }

/-- Go: `LoadExistingSecretsIntoShootState`, lines 51-62: the Secrets Manager that `Load`
is called on. -/
def Botanist.secretsManagerForLoad (c : Constants) (h : Helpers) (b : Botanist)
    (existingSecretsMap : List (String × Secret)) : SecretsManager :=
  let secretsManager : SecretsManager :=
    { GardenerResourceDataList := b.ShootState.SpecGardener
      staticTokenConfig := b.generateStaticTokenConfig c
      certificateAuthorityConfigs := wantedCertificateAuthorities c }
  let secretsManager :=
    if h.ShootWantsBasicAuthentication b.Shoot.Info then
      secretsManager.WithAPIServerBasicAuthConfig (basicAuthSecretAPIServer c)
    else secretsManager
  secretsManager.WithExistingSecrets existingSecretsMap

/-- Go: `(b *Botanist) LoadExistingSecretsIntoShootState(ctx)`.  `load` is the `Load` method
of the Secrets Manager; it yields the error or the manager with its new ledger. -/
def Botanist.LoadExistingSecretsIntoShootState (c : Constants) (h : Helpers)
    (load : SecretsManager → Option Err × SecretsManager) (b : Botanist) (w : World) :
    Option Err × Botanist × World :=
  match b.fetchExistingSecrets w with
  | (.error err, w1) => (some err, b, w1)
  | (.ok existingSecretsMap, w1) =>
    match load (b.secretsManagerForLoad c h existingSecretsMap) with
    | (some err, _) => (some err, b, w1)
    | (none, secretsManager) =>
      match CreateOrUpdateShootState w1 b.Shoot.Info.Namespace b.Shoot.Info.Name
          secretsManager.GardenerResourceDataList with
      | (some err, _, w2) => (some err, b, w2)
      | (none, shootState, w2) => (none, { b with ShootState := shootState }, w2)

/-! ## `addons.go`: the values of the core addons chart -/

/-- Go: `b.Secrets[name].Data` without a presence check: the entry of a missing name is a
nil pointer, and reading its `Data` panics. -/
def Botanist.secretData (b : Botanist) (name : String) : Outcome (List (String × String)) :=
  match b.Secrets.lookup name with
  | none => .panicked
  | some secret => .returned secret.Data

/-- Go: `b.CheckSums[name]`: the empty string for a missing name. -/
def Botanist.checkSum (b : Botanist) (name : String) : String :=
  (b.CheckSums.lookup name).getD ""

/-- Go: `data[key]` on the `Data` of a secret: empty for a missing key. -/
def dataValue (data : List (String × String)) (key : String) : String :=
  (data.lookup key).getD ""

/-- The values that `generateCoreAddonsChart` takes from `b.Secrets`: `kubeconfig` of
`kubeProxyConfig`, `tls.caBundle` and `secret.data` of `metricsServerConfig`, and `tlsAuth`
and `vpnShootSecretData` (`ca`, `tlsCrt`, `tlsKey`) of `vpnShootConfig`, which is built only
without the konnectivity tunnel. -/
structure CoreAddonsSecretValues where
  kubeProxyKubeconfig : String
  metricsServerCABundle : String
  metricsServerSecretData : List (String × String)
  vpnShoot : Option (String × String × String × String)
  deriving DecidableEq, Repr

/-- The names whose entry of `b.Secrets` `generateCoreAddonsChart` dereferences without a
presence check (lines 302, 321, 331, 334 and 473-481), in the order of the reads. -/
def Botanist.generateCoreAddonsChart_secretNames (c : Constants) (b : Botanist) : List String :=
  ["kube-proxy", c.SecretNameCAMetricsServer, "metrics-server"]
    ++ (if b.Shoot.KonnectivityTunnelEnabled then [] else ["vpn-seed-tlsauth", "vpn-shoot"])

/-- Go: `generateCoreAddonsChart`, lines 302, 320-336 and 471-482: the reads of
`b.Secrets`, in their order, on a run in which no step between them returns an error. -/
def Botanist.generateCoreAddonsChart_secretValues (c : Constants) (b : Botanist) :
    Outcome CoreAddonsSecretValues :=
  match b.secretData "kube-proxy" with
  | .panicked => .panicked
  | .returned kubeProxyData =>
    match b.secretData c.SecretNameCAMetricsServer with
    | .panicked => .panicked
    | .returned metricsServerCAData =>
      match b.secretData "metrics-server" with
      | .panicked => .panicked
      | .returned metricsServerData =>
        if b.Shoot.KonnectivityTunnelEnabled then
          .returned
            { kubeProxyKubeconfig := dataValue kubeProxyData "kubeconfig"
              metricsServerCABundle := dataValue metricsServerCAData c.DataKeyCertificateCA
              metricsServerSecretData := metricsServerData
              vpnShoot := none }
        else
          match b.secretData "vpn-seed-tlsauth" with
          | .panicked => .panicked
          | .returned vpnTLSAuthData =>
            match b.secretData "vpn-shoot" with
            | .panicked => .panicked
            | .returned vpnShootData =>
              .returned
                { kubeProxyKubeconfig := dataValue kubeProxyData "kubeconfig"
                  metricsServerCABundle := dataValue metricsServerCAData c.DataKeyCertificateCA
                  metricsServerSecretData := metricsServerData
                  vpnShoot := some (dataValue vpnTLSAuthData "vpn.tlsauth",
                    dataValue vpnShootData "ca.crt", dataValue vpnShootData "tls.crt",
                    dataValue vpnShootData "tls.key") }

/-- Go: `generateCoreAddonsChart`, lines 325-327, 447-449 and 484-486: the `podAnnotations`
of the chart values, by the component that carries them. -/
def Botanist.generateCoreAddonsChart_podAnnotations (b : Botanist) :
    List (String × List (String × String)) :=
  [("kube-proxy", [("checksum/secret-kube-proxy", b.checkSum "kube-proxy")])]
    ++ (if b.Shoot.KonnectivityTunnelEnabled then
          [("konnectivity-agent",
            [("checksum/secret-konnectivity-agent", b.checkSum "konnectivity-agent")])]
        else
          [("vpn-shoot", [("checksum/secret-vpn-shoot", b.checkSum "vpn-shoot")])])

/-- Go: `strings.Join(elems, sep)`. -/
def strings.Join (elems : List String) (sep : String) : String :=
  sep.intercalate elems

/-- Go: `generateCoreAddonsChart`, lines 368-372: the value of `shootInfo["extensions"]`.
`enumerated` is the sequence in which `range b.Shoot.Extensions` yields the keys of the
map: Go leaves the iteration order of a map unspecified, so the sequence is an input of the
run beside the state of the botanist. -/
def generateCoreAddonsChart_extensions (enumerated : List String) : String :=
  let extensions : List String :=
    enumerated.foldl (fun extensions extensionType => extensions ++ [extensionType]) []
  strings.Join extensions ","

/-! ## Concrete inputs -/

/-- An assignment of the constants: the values they have in the gardener release that the
embedded files belong to. -/
def upstreamConstants : Constants :=
  { BasicAuthSecretName := "kube-apiserver-basic-auth"
    KubecfgSecretName := "kubecfg"
    StaticTokenSecretName := "static-token"
    KubecfgUsername := "system:cluster-admin"
    KubeAPIServerHealthCheck := "kube-apiserver-health-check"
    KonnectivityServerUserName := "system:konnectivity-server"
    KonnectivityServerKubeconfig := "konnectivity-server-kubeconfig"
    KonnectivityServerCertName := "konnectivity-server"
    KubeControllerManagerServerName := "kube-controller-manager-server"
    KubeSchedulerServerName := "kube-scheduler-server"
    EtcdServerTLS := "etcd-server-cert"
    EtcdClientTLS := "etcd-client-tls"
    AlertManagerTLS := "alertmanager-tls"
    GrafanaTLS := "grafana-tls"
    PrometheusTLS := "prometheus-tls"
    KibanaTLS := "kibana-tls"
    DependencyWatchdogInternalProbeSecretName := "dependency-watchdog-internal-probe"
    DependencyWatchdogExternalProbeSecretName := "dependency-watchdog-external-probe"
    DependencyWatchdogUserName := "gardener.cloud:system:dependency-watchdog"
    ShootOperationRotateKubeconfigCredentials := "rotate-kubeconfig-credentials"
    ShootOperationDeprecated := "shoot.garden.sapcloud.io/operation"
    GardenerOperation := "gardener.cloud/operation"
    SecretNameCACluster := "ca"
    SecretNameCAETCD := "ca-etcd"
    SecretNameCAFrontProxy := "ca-front-proxy"
    SecretNameCAKubelet := "ca-kubelet"
    SecretNameCAMetricsServer := "ca-metrics-server"
    SecretNameGardener := "gardener"
    SecretNameGardenerInternal := "gardener-internal"
    SecretNameSSHKeyPair := "ssh-keypair"
    DeploymentNameClusterAutoscaler := "cluster-autoscaler"
    DeploymentNameKubeControllerManager := "kube-controller-manager"
    DeploymentNameKubeScheduler := "kube-scheduler"
    DeploymentNameKubeAPIServer := "kube-apiserver"
    ETCDMain := "etcd-main"
    ETCDEvents := "etcd-events"
    DefaultDomain := "cluster.local"
    GardenerName := "gardener.cloud:system:gardener"
    VpaAdmissionControllerImageName := "vpa-admission-controller"
    VpaAdmissionControllerName := "gardener.cloud:vpa:admission-controller"
    VpaRecommenderImageName := "vpa-recommender"
    VpaRecommenderName := "gardener.cloud:vpa:recommender"
    VpaUpdaterImageName := "vpa-updater"
    VpaUpdaterName := "gardener.cloud:vpa:updater"
    EndUserCrtValidity := 63072000
    SecretNameCloudProvider := "cloudprovider"
    DataKeyCertificateCA := "ca.crt"
    DataKeyToken := "token"
    SchemeGroupVersion := "core.gardener.cloud/v1beta1"
    ShootNoCleanup := "shoot.gardener.cloud/no-cleanup"
    ManagedResourceShootCoreName := "shoot-core"
    ManagedResourceCoreNamespaceName := "shoot-core-namespaces"
    ManagedResourceAddonsName := "addons"
    ManagedResourceKymaName := "addons-kyma"
    ManagedResourceLabelKeyOrigin := "origin"
    ManagedResourceLabelValueGardener := "gardener" }

/-- A shoot with basic authentication, the OpenVPN tunnel, no VPA and an external domain;
its operation annotation asks for the rotation of the kubeconfig credentials. -/
def sampleShoot : Shoot :=
  { Info :=
      { Name := "crazy-botany"
        Namespace := "garden-dev"
        Annotations := [("gardener.cloud/operation", "rotate-kubeconfig-credentials")]
        DeletionTimestamp := none
        SpecDNSDomain := some "crazy-botany.dev.example.com"
        EnableBasicAuthentication := some true }
    SeedNamespace := "shoot--dev--crazy-botany"
    KonnectivityTunnelEnabled := false
    WantsVerticalPodAutoscaler := false
    InternalClusterDomain := "crazy-botany.dev.internal.example.com"
    ExternalClusterDomain := some "crazy-botany.dev.example.com"
    NetworksAPIServer := some [100, 64, 0, 1] }

/-- A ledger holding both tunnel families, the credentials and a CA. -/
def sampleLedger : GardenerResourceDataList :=
  [ { Name := "ca", ResourceType := "secret", Data := "ca-material" },
    { Name := "vpn-seed", ResourceType := "secret", Data := "vpn-seed-material" },
    { Name := "konnectivity-server", ResourceType := "secret", Data := "konnectivity-material" },
    { Name := "static-token", ResourceType := "secret", Data := "token-material" },
    { Name := "kubecfg", ResourceType := "secret", Data := "kubecfg-material" } ]

/-- A botanist for `sampleShoot`. -/
def sampleBotanist : Botanist :=
  { Shoot := sampleShoot
    SeedShootDNSEnabled := true
    APIServerAddress := "api.crazy-botany.dev.example.com"
    ShootState :=
      { Namespace := "garden-dev", Name := "crazy-botany", SpecGardener := sampleLedger } }

/-- Helper functions for the concrete inputs. -/
def sampleHelpers : Helpers :=
  { ShootWantsBasicAuthentication := fun info => info.EnableBasicAuthentication.getD true
    GetShootOperationAnnotation := fun annotations =>
      match annotations.lookup "gardener.cloud/operation" with
      | some val => some val
      | none => annotations.lookup "shoot.garden.sapcloud.io/operation"
    GetAPIServerDomain := fun domain => Sprintf "api.%s" [domain]
    ParseIP := fun str => if str = "127.0.0.1" then some [127, 0, 0, 1] else none
    ComputeInClusterAPIServerAddress := fun shoot _ =>
      Sprintf "kube-apiserver.%s.svc" [shoot.SeedNamespace]
    ComputeOutOfClusterAPIServerAddress := fun _ address _ => address
    ComputeAlertManagerHosts := fun b => [Sprintf "au-%s.ingress.example.com" [b.Shoot.Info.Name]]
    ComputeGrafanaHosts := fun b => [Sprintf "gu-%s.ingress.example.com" [b.Shoot.Info.Name]]
    ComputePrometheusHosts := fun b => [Sprintf "p-%s.ingress.example.com" [b.Shoot.Info.Name]]
    ComputeKibanaHosts := fun b => [Sprintf "k-%s.ingress.example.com" [b.Shoot.Info.Name]]
    LoggingEnabled := false
    ComputeSecretCheckSum := fun data =>
      String.join (data.map (fun kv => Sprintf "%s=%s;" [kv.1, kv.2]))
    ComputeGrafanaUsersHost := fun b => Sprintf "gu-%s.ingress.example.com" [b.Shoot.Info.Name]
    ComputeKibanaHost := fun b => Sprintf "k-%s.ingress.example.com" [b.Shoot.Info.Name] }

/-- A seed cluster with secrets of the sample shoot and of another shoot. -/
def sampleWorld : World :=
  { seedSecrets :=
      [ { Name := "managedresource-shoot-cloud-config-rbac", Namespace := "shoot--dev--crazy-botany"
          Labels := [("managed-resource", "shoot-cloud-config-execution")] },
        { Name := "managedresource-shoot-cloud-config-execution-old-pool"
          Namespace := "shoot--dev--crazy-botany"
          Labels := [("managed-resource", "shoot-cloud-config-execution")] },
        { Name := "managedresource-shoot-cloud-config-execution-old-pool"
          Namespace := "shoot--dev--other"
          Labels := [("managed-resource", "shoot-cloud-config-execution")] },
        { Name := "kubecfg", Namespace := "shoot--dev--crazy-botany" },
        { Name := "vpn-seed", Namespace := "shoot--dev--crazy-botany" },
        { Name := "konnectivity-server", Namespace := "shoot--dev--crazy-botany" },
        { Name := "static-token", Namespace := "shoot--dev--crazy-botany" } ]
    gardenShootAnnotations :=
      [("gardener.cloud/operation", "rotate-kubeconfig-credentials"), ("purpose", "dev")]
    gardenShootStates := []
    faults := [] }

/-- The sample botanist for a shoot that is being deleted and carries no operation
annotation. -/
def deletingBotanist : Botanist :=
  { sampleBotanist with
    Shoot := { sampleShoot with
      Info := { sampleShoot.Info with DeletionTimestamp := some 1, Annotations := [] } } }

/-- A Secrets Manager `Generate` that keeps the ledger and succeeds. -/
def keepingGenerate : SecretsManager → Option Err × SecretsManager :=
  fun secretsManager => (none, secretsManager)

/-- The sample ledger after the rotation of the kubeconfig secrets. -/
def sampleLedgerAfterRotation : GardenerResourceDataList :=
  [ { Name := "ca", ResourceType := "secret", Data := "ca-material" },
    { Name := "vpn-seed", ResourceType := "secret", Data := "vpn-seed-material" },
    { Name := "konnectivity-server", ResourceType := "secret", Data := "konnectivity-material" } ]

/-- The sample world after the rotation of the kubeconfig secrets. -/
def sampleWorldAfterRotation : World :=
  { sampleWorld with
    seedSecrets := sampleWorld.seedSecrets.filter
      (fun s => !(List.contains ["kubecfg", "static-token"] s.Name))
    gardenShootAnnotations := [("purpose", "dev")] }

/-- The sample ledger after the rotation and the tunnel cleanup. -/
def sampleLedgerAfterTunnelCleanup : GardenerResourceDataList :=
  [ { Name := "ca", ResourceType := "secret", Data := "ca-material" },
    { Name := "vpn-seed", ResourceType := "secret", Data := "vpn-seed-material" } ]

/-- The sample world after the rotation and the tunnel cleanup. -/
def sampleWorldAfterTunnelCleanup : World :=
  { sampleWorldAfterRotation with
    seedSecrets := sampleWorldAfterRotation.seedSecrets.filter
      (fun s => !(s.Name == "konnectivity-server")) }

/-- A static token without a token for the kubecfg user. -/
def healthCheckOnlyStaticToken : secrets.StaticToken :=
  { Tokens :=
      [ { Username := "kube-apiserver-health-check", UserID := "kube-apiserver-health-check"
          Groups := [], Token := "t0k3n" } ] }

/-- A static token with the tokens of the kubecfg user and of the health check. -/
def sampleStaticToken : secrets.StaticToken :=
  { Tokens :=
      [ { Username := "system:cluster-admin", UserID := "system:cluster-admin"
          Groups := ["system:masters"], Token := "4dm1n" },
        { Username := "kube-apiserver-health-check", UserID := "kube-apiserver-health-check"
          Groups := [], Token := "t0k3n" } ] }

/-- A CA map holding a CA under each of the five wanted names. -/
def sampleCertificateAuthorities : String → Option secrets.Certificate :=
  fun name =>
    if List.contains ["ca", "ca-etcd", "ca-front-proxy", "ca-kubelet", "ca-metrics-server"] name
    then some { Name := name, CertificatePEM := "cert", PrivateKeyPEM := "key" }
    else none

/-- The configs that the catalog of the sample shoot holds whatever the flags are, for
the sample static token and CA map. -/
def alwaysConfigsOfSample : List secrets.ConfigInterface :=
  sampleBotanist.initialSecretList upstreamConstants sampleHelpers sampleCertificateAuthorities
      [some [127, 0, 0, 1], some [100, 64, 0, 1]]
      [ "kube-apiserver", "kube-apiserver.shoot--dev--crazy-botany",
        "kube-apiserver.shoot--dev--crazy-botany.svc",
        "api.crazy-botany.dev.internal.example.com", "kubernetes", "kubernetes.default",
        "kubernetes.default.svc", "kubernetes.default.svc.cluster.local",
        "crazy-botany.dev.example.com", "api.crazy-botany.dev.example.com" ]
    ++ [ sampleBotanist.kubecfgSecretConfig upstreamConstants sampleHelpers none
          (some { Username := "system:cluster-admin", UserID := "system:cluster-admin"
                  Groups := ["system:masters"], Token := "4dm1n" })
          sampleCertificateAuthorities ]
    ++ sampleBotanist.dependencyWatchdogSecretConfigs upstreamConstants sampleHelpers
        sampleCertificateAuthorities

/-- A shoot cluster that holds the secret `vpn-shoot` when it is read, and in which
another actor deletes that secret before the next call is served. -/
def racingShootWorld : ShootWorld :=
  { secrets := [ { Name := "vpn-shoot", Namespace := "kube-system" },
                 { Name := "kube-proxy", Namespace := "kube-system" } ]
    events := [.quiet, .deletedByOther "kube-system" "vpn-shoot"] }

/-- A shoot cluster without the secret `vpn-shoot`. -/
def cleanShootWorld : ShootWorld :=
  { secrets := [ { Name := "kube-proxy", Namespace := "kube-system" } ], events := [] }

/-- A Secrets Manager `Generate` that fails the way `generateWantedSecretConfigs` does for
a static token without the kubecfg user. -/
def missingTokenGenerate : SecretsManager → Option Err × SecretsManager :=
  fun secretsManager =>
    match sampleBotanist.generateWantedSecretConfigs upstreamConstants sampleHelpers none
        (some healthCheckOnlyStaticToken) sampleCertificateAuthorities with
    | .returned (_, some err) => (some err, secretsManager)
    | _ => (none, secretsManager)

/-- Collaborators of `DeploySecrets` for the concrete inputs: `Deploy` exposes the sample
static token and two deployed secrets, and the seed has no wildcard certificate. -/
def sampleDeployCollaborators : DeployCollaborators :=
  { Deploy := fun secretsManager w =>
      (none,
        { secretsManager with
          StaticToken := some sampleStaticToken
          DeployedSecrets :=
            [ ("ca", { Name := "ca", Namespace := "shoot--dev--crazy-botany"
                       Data := [("ca.crt", "CERT")] }),
              ("kube-proxy", { Name := "kube-proxy", Namespace := "shoot--dev--crazy-botany"
                               Data := [("kubeconfig", "KUBECONFIG")] }) ] }, w)
    GetWildcardCertificate := fun w => (.ok none, w) }

/-- The sample botanist with a cached cloud provider secret and the cloud provider secret
of the shoot. -/
def cachedBotanist : Botanist :=
  { sampleBotanist with
    Shoot := { sampleShoot with
      Secret := some { Name := "cloudprovider-binding", Namespace := "garden-dev"
                       Data := [("accessKey", "AK")] } }
    Secrets := [("cloudprovider", { Name := "cloudprovider", Namespace := "garden-dev"
                                    Data := [("accessKey", "OLD")] })]
    CheckSums := [("cloudprovider", "accessKey=OLD;")] }

/-- The botanist that `DeploySecrets` leaves for `cachedBotanist`. -/
def cachedBotanistAfterDeploy : Botanist :=
  { cachedBotanist with
    Secrets :=
      [ ("cloudprovider", { Name := "cloudprovider", Namespace := "garden-dev"
                            Data := [("accessKey", "OLD")] }),
        ("ca", { Name := "ca", Namespace := "shoot--dev--crazy-botany"
                 Data := [("ca.crt", "CERT")] }),
        ("kube-proxy", { Name := "kube-proxy", Namespace := "shoot--dev--crazy-botany"
                         Data := [("kubeconfig", "KUBECONFIG")] }) ]
    CheckSums :=
      [ ("cloudprovider", "accessKey=OLD;"), ("ca", "ca.crt=CERT;"),
        ("kube-proxy", "kubeconfig=KUBECONFIG;") ]
    APIServerHealthCheckToken := "t0k3n" }

/-- The sample botanist with the three credentials cached that are synced to the garden. -/
def syncingBotanist : Botanist :=
  { sampleBotanist with
    Secrets :=
      [ ("kubecfg", { Name := "kubecfg", Namespace := "shoot--dev--crazy-botany"
                      Data := [("kubeconfig", "KUBECONFIG")] }),
        ("ssh-keypair", { Name := "ssh-keypair", Namespace := "shoot--dev--crazy-botany"
                          Data := [("id_rsa", "KEY"), ("id_rsa.pub", "PUB")] }),
        ("monitoring-ingress-credentials-users",
          { Name := "monitoring-ingress-credentials-users"
            Namespace := "shoot--dev--crazy-botany"
            Data := [("username", "admin"), ("password", "s3cr3t")] }) ] }

/-- A garden cluster that holds a secret of another shoot and a stale kubeconfig secret of
the sample shoot. -/
def sampleGardenWorld : World :=
  { sampleWorld with
    gardenSecrets :=
      [ { Name := "other.kubeconfig", Namespace := "garden-dev", Data := [("kubeconfig", "X")] },
        { Name := "crazy-botany.kubeconfig", Namespace := "garden-dev"
          Labels := [("kept", "yes")], Data := [("kubeconfig", "STALE")] } ] }

/-- The garden cluster after `SyncShootCredentialsToGarden` of `syncingBotanist` on
`sampleGardenWorld`. -/
def sampleGardenWorldAfterSync : World :=
  { sampleGardenWorld with
    gardenSecrets :=
      [ { Name := "other.kubeconfig", Namespace := "garden-dev", Data := [("kubeconfig", "X")] },
        { Name := "crazy-botany.kubeconfig", Namespace := "garden-dev"
          Labels := [("kept", "yes")]
          Annotations := [("url", "https://api.crazy-botany.dev.example.com")]
          SecretType := "Opaque"
          Data := [("kubeconfig", "KUBECONFIG")]
          OwnerReferences :=
            [ { APIVersion := "core.gardener.cloud/v1beta1", Kind := "Shoot"
                Name := "crazy-botany", UID := ""
                Controller := some true, BlockOwnerDeletion := some true } ] },
        { Name := "crazy-botany.ssh-keypair", Namespace := "garden-dev"
          SecretType := "Opaque"
          Data := [("id_rsa", "KEY"), ("id_rsa.pub", "PUB")]
          OwnerReferences :=
            [ { APIVersion := "core.gardener.cloud/v1beta1", Kind := "Shoot"
                Name := "crazy-botany", UID := ""
                Controller := some true, BlockOwnerDeletion := some true } ] },
        { Name := "crazy-botany.monitoring", Namespace := "garden-dev"
          Annotations := [("url", "https://gu-crazy-botany.ingress.example.com")]
          SecretType := "Opaque"
          Data := [("username", "admin"), ("password", "s3cr3t")]
          OwnerReferences :=
            [ { APIVersion := "core.gardener.cloud/v1beta1", Kind := "Shoot"
                Name := "crazy-botany", UID := ""
                Controller := some true, BlockOwnerDeletion := some true } ] } ] }

/-- Chart collaborators whose renders all succeed. -/
def sampleChartCollaborators : ChartCollaborators :=
  { AsSecretData := fun renderedChart => renderedChart.Manifests.filter (fun kv => kv.2 != "")
    generateCoreAddonsChart :=
      .ok { ChartName := "shoot-core"
            Manifests := [("shoot-core_templates_rbac.yaml", "kind: ClusterRole")] }
    generateCoreNamespacesChart :=
      .ok { ChartName := "shoot-core-namespaces"
            Manifests := [("namespaces.yaml", "kind: Namespace"), ("empty.yaml", "")] }
    generateOptionalAddonsChart := .ok { ChartName := "shoot-addons" }
    generateTemporaryKymaAddonsChart := .ok { ChartName := "kyma" }
    generateCloudConfigRBACChart :=
      .ok { ChartName := "shoot-cloud-config-rbac", Manifests := [("rbac.yaml", "kind: Role")] }
    ComputeBootstrapToken :=
      .ok { Name := "bootstrap-token-abcdef", Namespace := "kube-system"
            Data := [("token-id", "abcdef")] }
    getGenerateCloudConfigExecutionChartFunc := fun name worker _ =>
      .ok { ChartName := name, Manifests := [("script.sh", Sprintf "pool=%s" [worker.Name])] } }

/-- Chart collaborators whose render of the cloud-config execution chart of the worker pool
`pool-b` fails. -/
def failingChartCollaborators : ChartCollaborators :=
  { sampleChartCollaborators with
    getGenerateCloudConfigExecutionChartFunc := fun name worker _ =>
      if worker.Name = "pool-b" then .error (.failure "template: parse error")
      else .ok { ChartName := name, Manifests := [("script.sh", Sprintf "pool=%s" [worker.Name])] } }

/-- The sample botanist for a shoot with the worker pools `pool-a` and `pool-b`. -/
def workerBotanist : Botanist :=
  { sampleBotanist with
    Shoot :=
      { sampleShoot with
        Info := { sampleShoot.Info with Workers := [{ Name := "pool-a" }, { Name := "pool-b" }] } } }

/-- The bootstrap token of the sample chart collaborators. -/
def sampleBootstrapToken : Secret :=
  { Name := "bootstrap-token-abcdef", Namespace := "kube-system"
    Data := [("token-id", "abcdef")] }

/-- The sample botanist on a seed whose ShootDNS setting is disabled; the API server is
reached under an IP address. -/
def noShootDNSBotanist : Botanist :=
  { sampleBotanist with SeedShootDNSEnabled := false, APIServerAddress := "127.0.0.1" }

/-- The sample botanist for a shoot that wants the vertical pod autoscaler. -/
def vpaBotanist : Botanist :=
  { sampleBotanist with Shoot := { sampleShoot with WantsVerticalPodAutoscaler := true } }

/-- A static token that holds one token per username that `generateStaticTokenConfig`
declares for `vpaBotanist`. -/
def vpaStaticToken : secrets.StaticToken :=
  { Tokens :=
      [ { Username := "system:cluster-admin", UserID := "system:cluster-admin"
          Groups := ["system:masters"], Token := "4dm1n" },
        { Username := "kube-apiserver-health-check", UserID := "kube-apiserver-health-check"
          Groups := [], Token := "t0k3n" },
        { Username := "gardener.cloud:vpa:admission-controller"
          UserID := "vpa-admission-controller", Groups := [], Token := "4dm1ss10n" },
        { Username := "gardener.cloud:vpa:recommender", UserID := "vpa-recommender"
          Groups := [], Token := "r3c0mm3nd3r" },
        { Username := "gardener.cloud:vpa:updater", UserID := "vpa-updater"
          Groups := [], Token := "upd4t3r" } ] }

/-- Collaborators of `DeploySecrets` for a shoot that wants the vertical pod autoscaler:
`Deploy` exposes `vpaStaticToken` and the deployed cluster CA, and the seed has no wildcard
certificate. -/
def vpaDeployCollaborators : DeployCollaborators :=
  { Deploy := fun secretsManager w =>
      (none,
        { secretsManager with
          StaticToken := some vpaStaticToken
          DeployedSecrets :=
            [ ("ca", { Name := "ca", Namespace := "shoot--dev--crazy-botany"
                       Data := [("ca.crt", "CERT")] }) ] }, w)
    GetWildcardCertificate := fun w => (.ok none, w) }

/-- A seed cluster that holds, under the name of the token secret of the VPA updater, a
secret of a custom type. -/
def foreignTypeWorld : World :=
  { seedSecrets :=
      [ { Name := "vpa-updater", Namespace := "shoot--dev--crazy-botany"
          SecretType := "example.com/credentials"
          Data := [("token", "OLD"), ("ca.crt", "OLDCERT")] } ]
    gardenShootAnnotations := []
    gardenShootStates := []
    faults := [] }

/-- The sample botanist with a cached secret under every name of its wanted catalog and
of `wantedCertificateAuthorities`. -/
def fullyCachedBotanist : Botanist :=
  { sampleBotanist with
    Secrets :=
      (alwaysSecretNames upstreamConstants ++ vpnSecretNames
          ++ (wantedCertificateAuthorities upstreamConstants).map Prod.fst).map
        (fun name =>
          (name, { Name := name, Namespace := "shoot--dev--crazy-botany"
                   Data := [("kubeconfig", name), ("ca.crt", name)] })) }

/-- The sample botanist for a shoot with the konnectivity tunnel. -/
def konnectivityBotanist : Botanist :=
  { sampleBotanist with Shoot := { sampleShoot with KonnectivityTunnelEnabled := true } }

/-- A static token with the tokens that the catalog of `konnectivityBotanist` asks for. -/
def konnectivityStaticToken : secrets.StaticToken :=
  { Tokens :=
      [ { Username := "system:cluster-admin", UserID := "system:cluster-admin"
          Groups := ["system:masters"], Token := "4dm1n" },
        { Username := "kube-apiserver-health-check", UserID := "kube-apiserver-health-check"
          Groups := [], Token := "t0k3n" },
        { Username := "system:konnectivity-server", UserID := "system:konnectivity-server"
          Groups := [], Token := "k0nn" } ] }

/-- One deployed secret under every name that the Secrets Manager handles for
`konnectivityBotanist`: the names of its catalog, of the CAs, of the static token and of the
basic-auth secret. -/
def konnectivityDeployedSecrets : List (String × Secret) :=
  (alwaysSecretNames upstreamConstants ++ konnectivitySecretNames upstreamConstants
      ++ (wantedCertificateAuthorities upstreamConstants).map Prod.fst
      ++ [upstreamConstants.StaticTokenSecretName, upstreamConstants.BasicAuthSecretName]).map
    (fun name =>
      (name, { Name := name, Namespace := "shoot--dev--crazy-botany", Data := [("data", name)] }))

/-- The sample botanist for a shoot with two extensions. -/
def extendedBotanist : Botanist :=
  { sampleBotanist with
    Shoot := { sampleShoot with Extensions := ["shoot-cert-service", "shoot-dns-service"] } }

/-- The sample botanist for a shoot that no longer wants basic authentication and carries no
operation annotation, while its ledger still holds the basic-auth and the kubecfg entries. -/
def basicAuthDroppedBotanist : Botanist :=
  { sampleBotanist with
    Shoot := { sampleShoot with
      Info := { sampleShoot.Info with
        Annotations := [], EnableBasicAuthentication := some false } }
    ShootState :=
      { Namespace := "garden-dev", Name := "crazy-botany"
        SpecGardener :=
          [ { Name := "ca", ResourceType := "secret", Data := "ca-material" },
            { Name := "kube-apiserver-basic-auth", ResourceType := "secret"
              Data := "basic-auth-material" },
            { Name := "static-token", ResourceType := "secret", Data := "token-material" },
            { Name := "kubecfg", ResourceType := "secret", Data := "kubecfg-material" },
            { Name := "vpn-seed", ResourceType := "secret", Data := "vpn-seed-material" } ] } }

/-- A seed cluster that holds the basic-auth and the kubecfg secrets of the sample shoot,
two more of its secrets, and secrets of the same two names of another shoot. -/
def basicAuthDroppedWorld : World :=
  { seedSecrets :=
      [ { Name := "ca", Namespace := "shoot--dev--crazy-botany" },
        { Name := "kube-apiserver-basic-auth", Namespace := "shoot--dev--crazy-botany" },
        { Name := "kubecfg", Namespace := "shoot--dev--crazy-botany" },
        { Name := "static-token", Namespace := "shoot--dev--crazy-botany" },
        { Name := "kube-apiserver-basic-auth", Namespace := "shoot--dev--other" },
        { Name := "kubecfg", Namespace := "shoot--dev--other" } ]
    gardenShootAnnotations := [("purpose", "dev")]
    gardenShootStates := []
    faults := [] }

/-- The sample seed cluster, holding in addition the legacy cloud-config secret of the sample
shoot, which carries no label, and a secret of the same name of another shoot. -/
def legacyWorld : World :=
  { sampleWorld with
    seedSecrets := sampleWorld.seedSecrets ++
      [ { Name := "managedresource-shoot-cloud-config-execution"
          Namespace := "shoot--dev--crazy-botany"
          Data := [("script.sh", "legacy")] },
        { Name := "managedresource-shoot-cloud-config-execution"
          Namespace := "shoot--dev--other"
          Data := [("script.sh", "legacy")] } ] }

/-! # Theorems -/

/-! ## Formatting -/

theorem Sprintf_dot (a b : String) : Sprintf "%s.%s" [a, b] = a ++ "." ++ b := by
  apply String.ext
  simp [Sprintf, sprintfAux]

theorem Sprintf_dot_svc (a b : String) :
    Sprintf "%s.%s.svc" [a, b] = a ++ "." ++ b ++ ".svc" := by
  apply String.ext
  simp [Sprintf, sprintfAux]

theorem Sprintf_dot_svc_domain (a b d : String) :
    Sprintf "%s.%s.svc.%s" [a, b, d] = a ++ "." ++ b ++ ".svc." ++ d := by
  apply String.ext
  simp [Sprintf, sprintfAux]

/-- C1: for every service name `n` and namespace `ns`, `dnsNamesForService` returns exactly
the four names `n`, `n.ns`, `n.ns.svc` and `n.ns.svc.<DefaultDomain>`, in this order; for
`kube-scheduler` in namespace `ns` these are `kube-scheduler`, `kube-scheduler.ns`,
`kube-scheduler.ns.svc` and `kube-scheduler.ns.svc.<DefaultDomain>`. -/
theorem dnsNamesForService_four_names (c : Constants) (n ns : String) :
    dnsNamesForService c n ns
        = [n, n ++ "." ++ ns, n ++ "." ++ ns ++ ".svc", n ++ "." ++ ns ++ ".svc." ++ c.DefaultDomain]
      ∧ dnsNamesForService c "kube-scheduler" "ns"
        = ["kube-scheduler", "kube-scheduler.ns", "kube-scheduler.ns.svc",
            "kube-scheduler.ns.svc." ++ c.DefaultDomain] := by
  constructor
  · simp [dnsNamesForService, Sprintf_dot, Sprintf_dot_svc, Sprintf_dot_svc_domain]
  · simp only [dnsNamesForService, Sprintf_dot, Sprintf_dot_svc, Sprintf_dot_svc_domain]
    rfl

/-! ## The seed client -/

theorem nextFault_seedSecrets (w : World) : w.nextFault.2.seedSecrets = w.seedSecrets := by
  unfold World.nextFault
  cases w.faults <;> rfl

theorem nextFault_gardenShootAnnotations (w : World) :
    w.nextFault.2.gardenShootAnnotations = w.gardenShootAnnotations := by
  unfold World.nextFault
  cases w.faults <;> rfl

theorem nextFault_gardenShootStates (w : World) :
    w.nextFault.2.gardenShootStates = w.gardenShootStates := by
  unfold World.nextFault
  cases w.faults <;> rfl

theorem filter_eq_self_of_not_any {α : Type} (p : α → Bool) (xs : List α)
    (h : xs.any p = false) : xs.filter (fun x => !p x) = xs := by
  induction xs with
  | nil => rfl
  | cons x xs ih =>
    simp only [List.any_cons, Bool.or_eq_false_iff] at h
    simp [List.filter_cons, h.1, ih h.2]

/-- A delete that does not fail, or fails with not-found only, leaves the seed cluster
without a secret of the key and with all other secrets. -/
theorem SeedClient.Delete_ignoreNotFound (w : World) (ns name : String)
    (h : IgnoreNotFound (SeedClient.Delete w ns name).1 = none) :
    (SeedClient.Delete w ns name).2.seedSecrets
        = w.seedSecrets.filter (fun s => s.key != (ns, name))
      ∧ (SeedClient.Delete w ns name).2.gardenShootAnnotations = w.gardenShootAnnotations
      ∧ (SeedClient.Delete w ns name).2.gardenShootStates = w.gardenShootStates := by
  have h1 := nextFault_seedSecrets w
  have h2 := nextFault_gardenShootAnnotations w
  have h3 := nextFault_gardenShootStates w
  unfold SeedClient.Delete at h ⊢
  rcases hf : w.nextFault with ⟨f, w1⟩
  rw [hf] at h1 h2 h3
  simp only at h1 h2 h3
  rw [hf] at h
  cases f with
  | some msg => simp [IgnoreNotFound] at h
  | none =>
    simp only
    by_cases hany : w1.seedSecrets.any (fun s => s.key == (ns, name)) = true
    · simp only [hany, if_true, h2, h3, and_true]
      rw [h1]
    · simp only [hany, Bool.false_eq_true, if_false, h2, h3, and_true]
      have hany2 : w1.seedSecrets.any (fun s => s.key == (ns, name)) = false := by
        simpa using hany
      have := filter_eq_self_of_not_any (fun s : Secret => s.key == (ns, name)) w1.seedSecrets hany2
      rw [← h1]
      exact this.symm

/-! ## `deleteStaleSecretsMatchLabel` -/

theorem orElse_eq_none {α : Type} (a b : Option α) (h : (a.orElse fun _ => b) = none) :
    a = none ∧ b = none := by
  cases a <;> simp_all [Option.orElse]

/-- The parallel deletes of a list of secrets, when none reports an error, remove exactly
the secrets whose key is the key of a listed secret. -/
theorem flow.Parallel_deletes (xs : List Secret) (w w' : World)
    (h : flow.Parallel
        (xs.map (fun secret => fun w2 =>
          match SeedClient.Delete w2 secret.Namespace secret.Name with
          | (e, w3) => (IgnoreNotFound e, w3))) w = (none, w')) :
    w'.seedSecrets = w.seedSecrets.filter (fun s => !(xs.any (fun x => x.key == s.key))) := by
  induction xs generalizing w with
  | nil =>
    simp only [List.map_nil, flow.Parallel, Prod.mk.injEq, true_and] at h
    subst h
    simp
  | cons x xs ih =>
    simp only [List.map_cons, flow.Parallel] at h
    rcases hd : SeedClient.Delete w x.Namespace x.Name with ⟨e, wA⟩
    rw [hd] at h
    simp only at h
    rcases hp : flow.Parallel
        (xs.map (fun secret => fun w2 =>
          match SeedClient.Delete w2 secret.Namespace secret.Name with
          | (e, w3) => (IgnoreNotFound e, w3))) wA with ⟨e2, wB⟩
    rw [hp] at h
    simp only [Prod.mk.injEq] at h
    obtain ⟨he, hw⟩ := h
    obtain ⟨he1, he2⟩ := orElse_eq_none _ _ he
    subst hw
    subst he2
    have hdel := SeedClient.Delete_ignoreNotFound w x.Namespace x.Name (by rw [hd]; exact he1)
    rw [hd] at hdel
    rw [ih wA hp, hdel.1, List.filter_filter]
    apply List.filter_congr
    intro s _
    simp only [List.any_cons, Bool.not_or, Secret.key]
    rw [Bool.and_comm]
    congr 1
    cases hk : ((s.Namespace, s.Name) != (x.Namespace, x.Name)) <;>
      cases hk2 : ((x.Namespace, x.Name) == (s.Namespace, s.Name)) <;> simp_all

/-- The stale secrets of a listing: the secrets of the seed namespace that match the labels
and whose name is not wanted. -/
theorem stale_any_key (ss : List Secret) (hkeys : (ss.map Secret.key).Nodup)
    (p : Secret → Bool) (s : Secret) (hs : s ∈ ss) :
    (ss.filter p).any (fun x => x.key == s.key) = p s := by
  cases hp : p s with
  | true =>
    rw [List.any_eq_true]
    exact ⟨s, List.mem_filter.2 ⟨hs, hp⟩, by simp⟩
  | false =>
    rw [List.any_eq_false]
    intro x hx hkey
    obtain ⟨hx1, hx2⟩ := List.mem_filter.1 hx
    have hxs : x = s := List.inj_on_of_nodup_map hkeys hx1 hs (by simpa using hkey)
    rw [hxs, hp] at hx2
    exact Bool.noConfusion hx2

/-- C2: for every content of the seed cluster (one secret per namespace and name), every
label map and every set of wanted names, when the list call and all delete calls succeed,
`deleteStaleSecretsMatchLabel` deletes exactly the secrets of the seed namespace that match
the labels and whose name is not wanted: each of these is absent afterwards, and every
secret that does not match, lives in another namespace or has a wanted name is kept
unchanged. -/
theorem deleteStaleSecretsMatchLabel_deletes_exactly (b : Botanist)
    (labels : List (String × String)) (wantedSecretNames : List String) (w w' : World)
    (hkeys : (w.seedSecrets.map Secret.key).Nodup)
    (hok : b.deleteStaleSecretsMatchLabel labels wantedSecretNames w = (none, w')) :
    w'.seedSecrets = w.seedSecrets.filter (fun s =>
        !(s.Namespace == b.Shoot.SeedNamespace && matchesLabels labels s
          && !wantedSecretNames.contains s.Name))
      ∧ (∀ s ∈ w.seedSecrets, s.Namespace = b.Shoot.SeedNamespace →
          matchesLabels labels s = true → s.Name ∉ wantedSecretNames →
          ∀ t ∈ w'.seedSecrets, t.key ≠ s.key)
      ∧ (∀ s ∈ w.seedSecrets,
          (matchesLabels labels s = false ∨ s.Namespace ≠ b.Shoot.SeedNamespace
            ∨ s.Name ∈ wantedSecretNames) → s ∈ w'.seedSecrets) := by
  have hEq : w'.seedSecrets = w.seedSecrets.filter (fun s =>
        !(s.Namespace == b.Shoot.SeedNamespace && matchesLabels labels s
          && !wantedSecretNames.contains s.Name)) := by
    unfold Botanist.deleteStaleSecretsMatchLabel SeedClient.List at hok
    have h1 := nextFault_seedSecrets w
    rcases hf : w.nextFault with ⟨f, w1⟩
    rw [hf] at hok h1
    simp only at h1
    cases f with
    | some msg => simp at hok
    | none =>
      simp only at hok
      have hp := flow.Parallel_deletes _ _ _ hok
      rw [hp, h1, List.filter_filter]
      apply List.filter_congr
      intro s hs
      rw [stale_any_key w.seedSecrets hkeys _ s hs]
      cases wantedSecretNames.contains s.Name <;> cases (s.Namespace == b.Shoot.SeedNamespace) <;>
        cases matchesLabels labels s <;> rfl
  refine ⟨hEq, ?_, ?_⟩
  · intro s hs hns hm hw t ht hkey
    rw [hEq] at ht
    obtain ⟨ht1, ht2⟩ := List.mem_filter.1 ht
    have hts : t = s := List.inj_on_of_nodup_map hkeys ht1 hs hkey
    subst hts
    simp [hns, hm, hw] at ht2
  · intro s hs hcase
    rw [hEq]
    apply List.mem_filter.2
    refine ⟨hs, ?_⟩
    rcases hcase with hm | hns | hw
    · simp [hm]
    · simp [hns]
    · simp [hw]

/-- Witness for C2: in the sample seed cluster the stale cloud-config secret of the shoot is
deleted, and the wanted one, the one of another shoot and the unlabelled ones are kept. -/
theorem deleteStaleSecretsMatchLabel_deletes_exactly_witness :
    (sampleBotanist.deleteStaleSecretsMatchLabel
        [("managed-resource", "shoot-cloud-config-execution")]
        ["managedresource-shoot-cloud-config-rbac"] sampleWorld).2.seedSecrets
      = sampleWorld.seedSecrets.filter (fun s =>
        !(s.Namespace == sampleBotanist.Shoot.SeedNamespace
          && matchesLabels [("managed-resource", "shoot-cloud-config-execution")] s
          && !(List.contains ["managedresource-shoot-cloud-config-rbac"] s.Name))) :=
  (deleteStaleSecretsMatchLabel_deletes_exactly sampleBotanist
    [("managed-resource", "shoot-cloud-config-execution")]
    ["managedresource-shoot-cloud-config-rbac"] sampleWorld
    (sampleBotanist.deleteStaleSecretsMatchLabel
        [("managed-resource", "shoot-cloud-config-execution")]
        ["managedresource-shoot-cloud-config-rbac"] sampleWorld).2
    (by decide) (by decide)).1

/-! ## The cleanups before generation -/

theorem key_bne (s : Secret) (ns n : String) :
    (s.key != (ns, n)) = !(s.Namespace == ns && s.Name == n) := by
  have hk : (s.key == (ns, n)) = (s.Namespace == ns && s.Name == n) := by
    rw [Bool.eq_iff_iff]
    simp [Secret.key, Prod.ext_iff]
  simp only [bne, hk]

/-- The shared loop, when it succeeds, removes from the ledger exactly the entries with
one of the names, from the seed cluster exactly the secrets of the seed namespace with one
of the names, and leaves the garden cluster alone. -/
theorem deleteSecretsAndEntries_ok (b : Botanist) (names : List String)
    (l l' : GardenerResourceDataList) (w w' : World)
    (h : b.deleteSecretsAndEntries names l w = (none, l', w')) :
    l' = l.filter (fun e => !names.contains e.Name)
      ∧ w'.seedSecrets = w.seedSecrets.filter (fun s =>
          !(s.Namespace == b.Shoot.SeedNamespace && names.contains s.Name))
      ∧ w'.gardenShootAnnotations = w.gardenShootAnnotations
      ∧ w'.gardenShootStates = w.gardenShootStates := by
  induction names generalizing l w with
  | nil =>
    simp only [Botanist.deleteSecretsAndEntries, Prod.mk.injEq, true_and] at h
    obtain ⟨hl, hw⟩ := h
    subst hl hw
    simp
  | cons n rest ih =>
    simp only [Botanist.deleteSecretsAndEntries] at h
    rcases hd : SeedClient.Delete w b.Shoot.SeedNamespace n with ⟨err, w1⟩
    rw [hd] at h
    simp only at h
    cases hi : IgnoreNotFound err with
    | some e =>
      rw [hi] at h
      simp only [Prod.mk.injEq] at h
      rw [h.1] at hi
      simp [IgnoreNotFound] at hi
    | none =>
      rw [hi] at h
      simp only at h
      have hdel := SeedClient.Delete_ignoreNotFound w b.Shoot.SeedNamespace n
        (by rw [hd]; exact hi)
      rw [hd] at hdel
      simp only at hdel
      obtain ⟨h1, h2, h3, h4⟩ := ih _ _ h
      refine ⟨?_, ?_, by rw [h3, hdel.2.1], by rw [h4, hdel.2.2]⟩
      · rw [h1, GardenerResourceDataList.Delete, List.filter_filter]
        apply List.filter_congr
        intro e _
        simp only [List.contains_cons, bne]
        cases (e.Name == n) <;> cases (rest.contains e.Name) <;> rfl
      · rw [h2, hdel.1, List.filter_filter]
        apply List.filter_congr
        intro s _
        simp only [List.contains_cons, key_bne]
        cases (s.Namespace == b.Shoot.SeedNamespace) <;> cases (s.Name == n) <;>
          cases (rest.contains s.Name) <;> rfl

theorem basicAuthStep_eq (c : Constants) (h : Helpers) (b : Botanist)
    (l : GardenerResourceDataList) (w : World) :
    (h.ShootWantsBasicAuthentication b.Shoot.Info
          ≠ (GardenerResourceDataList.Get l c.BasicAuthSecretName).isSome →
        b.basicAuthStep c h l w = b.deleteBasicAuthDependantSecrets c l w)
      ∧ (h.ShootWantsBasicAuthentication b.Shoot.Info
          = (GardenerResourceDataList.Get l c.BasicAuthSecretName).isSome →
        b.basicAuthStep c h l w = (none, l, w)) := by
  constructor
  · intro hne
    simp [Botanist.basicAuthStep, hne]
  · intro heq
    simp [Botanist.basicAuthStep, heq]

theorem preGeneration_eq (c : Constants) (h : Helpers) (b : Botanist) (w w1 w2 : World)
    (l1 l2 : GardenerResourceDataList)
    (hr : b.rotateStep c h b.ShootState.SpecGardener w = (none, l1, w1))
    (ht : b.tunnelStep c l1 w1 = (none, l2, w2)) :
    b.preGeneration c h w = b.basicAuthStep c h l2 w2 := by
  simp [Botanist.preGeneration, hr, ht]

/-- The pass consults the Secrets Manager only with a manager built from the ledger that
the pre-generation phase yields. -/
theorem GenerateAndSaveSecrets_generate_congr (c : Constants) (h : Helpers) (b : Botanist)
    (w w3 : World) (l3 : GardenerResourceDataList)
    (hpre : b.preGeneration c h w = (none, l3, w3))
    (generate generate2 : SecretsManager → Option Err × SecretsManager)
    (hagree : ∀ sm : SecretsManager, sm.GardenerResourceDataList = l3 →
      generate sm = generate2 sm) :
    b.GenerateAndSaveSecrets c h generate w = b.GenerateAndSaveSecrets c h generate2 w := by
  unfold Botanist.GenerateAndSaveSecrets
  rw [hpre]
  simp only
  by_cases hb : h.ShootWantsBasicAuthentication b.Shoot.Info = true
  · simp only [hb, if_true]
    rw [hagree _ rfl]
  · simp only [hb, Bool.false_eq_true, if_false]
    rw [hagree _ rfl]

/-- A delete whose call is not hit by an injected failure reports no error, or not-found
only, and consumes one entry of the fault script. -/
theorem SeedClient.Delete_unfaulted (w : World) (ns name : String)
    (hf : ∀ f ∈ w.faults.take 1, f = none) :
    IgnoreNotFound (SeedClient.Delete w ns name).1 = none
      ∧ (SeedClient.Delete w ns name).2.faults = w.faults.tail := by
  unfold SeedClient.Delete World.nextFault
  cases hfs : w.faults with
  | nil =>
    simp only
    split_ifs
    · exact ⟨rfl, by simp [hfs]⟩
    · exact ⟨rfl, by simp [hfs]⟩
  | cons f fs =>
    have hnone : f = none := hf f (by rw [hfs]; simp)
    subst hnone
    simp only
    split_ifs
    · exact ⟨rfl, rfl⟩
    · exact ⟨rfl, rfl⟩

/-- The shared loop reports no error when none of its delete calls, one per name, is hit by
an injected failure. -/
theorem deleteSecretsAndEntries_unfaulted (b : Botanist) (names : List String)
    (l : GardenerResourceDataList) (w : World)
    (hf : ∀ f ∈ w.faults.take names.length, f = none) :
    (b.deleteSecretsAndEntries names l w).1 = none := by
  induction names generalizing l w with
  | nil => rfl
  | cons n rest ih =>
    simp only [Botanist.deleteSecretsAndEntries]
    have hd := SeedClient.Delete_unfaulted w b.Shoot.SeedNamespace n (by
      intro f hmem
      apply hf f
      cases hfs : w.faults with
      | nil => rw [hfs] at hmem; simp at hmem
      | cons f0 fs =>
        rw [hfs] at hmem
        simp only [List.take_succ_cons, List.take_zero, List.mem_singleton] at hmem
        simp [List.length_cons, List.take_succ_cons, hmem])
    rcases hdel : SeedClient.Delete w b.Shoot.SeedNamespace n with ⟨err, w1⟩
    rw [hdel] at hd
    simp only at hd
    simp only [hd.1]
    apply ih
    intro f hmem
    apply hf f
    rw [hd.2] at hmem
    cases hfs : w.faults with
    | nil => rw [hfs] at hmem; simp at hmem
    | cons f0 fs =>
      rw [hfs] at hmem
      simp only [List.tail_cons] at hmem
      simp only [List.length_cons, List.take_succ_cons, List.mem_cons]
      exact Or.inr hmem

/-- C3: in `GenerateAndSaveSecrets`, at the point after the rotation and the tunnel cleanup
(ledger `l2`, world `w2`): whenever `ShootWantsBasicAuthentication(shoot)` differs from "the
ledger holds an entry named `BasicAuthSecretName`", the pre-generation phase ends with
`deleteBasicAuthDependantSecrets`, and on its success the ledger has lost exactly the
entries named `BasicAuthSecretName` and `KubecfgSecretName` and the seed cluster exactly the
secrets of the seed namespace with these two names; when the two booleans agree nothing is
removed.  The Secrets Manager is consulted only with the resulting ledger.  The cleanup
does succeed, with that ledger and those secrets, whenever its two delete calls are not hit
by an injected failure, whether or not the entries and the secrets are there. -/
theorem basicAuth_cleanup_before_generation (c : Constants) (h : Helpers) (b : Botanist)
    (w w1 w2 : World) (l1 l2 : GardenerResourceDataList)
    (hr : b.rotateStep c h b.ShootState.SpecGardener w = (none, l1, w1))
    (ht : b.tunnelStep c l1 w1 = (none, l2, w2)) :
    (h.ShootWantsBasicAuthentication b.Shoot.Info
          ≠ (GardenerResourceDataList.Get l2 c.BasicAuthSecretName).isSome →
        b.preGeneration c h w = b.deleteBasicAuthDependantSecrets c l2 w2
        ∧ ∀ l3 w3, b.preGeneration c h w = (none, l3, w3) →
            l3 = l2.filter (fun e =>
                !(List.contains [c.BasicAuthSecretName, c.KubecfgSecretName] e.Name))
            ∧ w3.seedSecrets = w2.seedSecrets.filter (fun s =>
                !(s.Namespace == b.Shoot.SeedNamespace
                  && List.contains [c.BasicAuthSecretName, c.KubecfgSecretName] s.Name)))
      ∧ (h.ShootWantsBasicAuthentication b.Shoot.Info
          = (GardenerResourceDataList.Get l2 c.BasicAuthSecretName).isSome →
        b.preGeneration c h w = (none, l2, w2))
      ∧ (∀ l3 w3, b.preGeneration c h w = (none, l3, w3) →
          ∀ generate generate2 : SecretsManager → Option Err × SecretsManager,
            (∀ sm : SecretsManager, sm.GardenerResourceDataList = l3 →
              generate sm = generate2 sm) →
            b.GenerateAndSaveSecrets c h generate w
              = b.GenerateAndSaveSecrets c h generate2 w)
      ∧ (h.ShootWantsBasicAuthentication b.Shoot.Info
            ≠ (GardenerResourceDataList.Get l2 c.BasicAuthSecretName).isSome →
          (∀ f ∈ w2.faults.take 2, f = none) →
          (b.preGeneration c h w).1 = none
            ∧ (b.preGeneration c h w).2.1 = l2.filter (fun e =>
                !(List.contains [c.BasicAuthSecretName, c.KubecfgSecretName] e.Name))
            ∧ (b.preGeneration c h w).2.2.seedSecrets = w2.seedSecrets.filter (fun s =>
                !(s.Namespace == b.Shoot.SeedNamespace
                  && List.contains [c.BasicAuthSecretName, c.KubecfgSecretName] s.Name))) := by
  have hpre := preGeneration_eq c h b w w1 w2 l1 l2 hr ht
  obtain ⟨hrun, hskip⟩ := basicAuthStep_eq c h b l2 w2
  refine ⟨?_, ?_, ?_, ?_⟩
  · intro hne
    have hrun2 : b.preGeneration c h w = b.deleteBasicAuthDependantSecrets c l2 w2 := by
      rw [hpre, hrun hne]
    refine ⟨hrun2, ?_⟩
    intro l3 w3 hok
    rw [hrun2, Botanist.deleteBasicAuthDependantSecrets] at hok
    have hloop := deleteSecretsAndEntries_ok b _ l2 l3 w2 w3 hok
    exact ⟨hloop.1, hloop.2.1⟩
  · intro heq
    rw [hpre, hskip heq]
  · intro l3 w3 hok generate generate2 hagree
    exact GenerateAndSaveSecrets_generate_congr c h b w w3 l3 hok generate generate2 hagree
  · intro hne hfaults
    have hrun2 : b.preGeneration c h w
        = b.deleteSecretsAndEntries [c.BasicAuthSecretName, c.KubecfgSecretName] l2 w2 := by
      rw [hpre, hrun hne, Botanist.deleteBasicAuthDependantSecrets]
    have hnone := deleteSecretsAndEntries_unfaulted b
      [c.BasicAuthSecretName, c.KubecfgSecretName] l2 w2 hfaults
    rw [← hrun2] at hnone
    have hloop := deleteSecretsAndEntries_ok b [c.BasicAuthSecretName, c.KubecfgSecretName]
      l2 (b.preGeneration c h w).2.1 w2 (b.preGeneration c h w).2.2
      (by rw [← hrun2]; exact Prod.ext hnone rfl)
    exact ⟨hnone, hloop.1, hloop.2.1⟩

/-- Witness for C3: the shoot of `basicAuthDroppedBotanist` does not want basic
authentication while its ledger holds the basic-auth entry; rotation and tunnel cleanup
change nothing; the pre-generation phase succeeds, the basic-auth and the kubecfg entries
are gone from the ledger and the two secrets from the seed namespace, and the other entries
and secrets, those of the same names of another shoot among them, are left. -/
theorem basicAuth_cleanup_before_generation_witness :
    (GardenerResourceDataList.Get basicAuthDroppedBotanist.ShootState.SpecGardener
        "kube-apiserver-basic-auth").isSome = true
      ∧ sampleHelpers.ShootWantsBasicAuthentication basicAuthDroppedBotanist.Shoot.Info = false
      ∧ ({ Name := "kube-apiserver-basic-auth", Namespace := "shoot--dev--crazy-botany" } : Secret)
          ∈ basicAuthDroppedWorld.seedSecrets
      ∧ ({ Name := "kubecfg", Namespace := "shoot--dev--crazy-botany" } : Secret)
          ∈ basicAuthDroppedWorld.seedSecrets
      ∧ (basicAuthDroppedBotanist.preGeneration upstreamConstants sampleHelpers
          basicAuthDroppedWorld).1 = none
      ∧ (basicAuthDroppedBotanist.preGeneration upstreamConstants sampleHelpers
          basicAuthDroppedWorld).2.1
        = [ { Name := "ca", ResourceType := "secret", Data := "ca-material" },
            { Name := "static-token", ResourceType := "secret", Data := "token-material" },
            { Name := "vpn-seed", ResourceType := "secret", Data := "vpn-seed-material" } ]
      ∧ (basicAuthDroppedBotanist.preGeneration upstreamConstants sampleHelpers
          basicAuthDroppedWorld).2.2.seedSecrets
        = [ { Name := "ca", Namespace := "shoot--dev--crazy-botany" },
            { Name := "static-token", Namespace := "shoot--dev--crazy-botany" },
            { Name := "kube-apiserver-basic-auth", Namespace := "shoot--dev--other" },
            { Name := "kubecfg", Namespace := "shoot--dev--other" } ] := by
  obtain ⟨h1, h2, h3⟩ :=
    (basicAuth_cleanup_before_generation upstreamConstants sampleHelpers
      basicAuthDroppedBotanist basicAuthDroppedWorld basicAuthDroppedWorld
      basicAuthDroppedWorld basicAuthDroppedBotanist.ShootState.SpecGardener
      basicAuthDroppedBotanist.ShootState.SpecGardener
      (by decide) (by decide)).2.2.2 (by decide) (by decide)
  exact ⟨by decide, by decide, by decide, by decide, h1, h2.trans (by decide),
    h3.trans (by decide)⟩

theorem tunnelStep_eq (c : Constants) (b : Botanist) (l : GardenerResourceDataList)
    (w : World) :
    b.tunnelStep c l w = b.deleteSecretsAndEntries (b.tunnelCleanupNames c) l w := by
  unfold Botanist.tunnelStep Botanist.tunnelCleanupNames Botanist.cleanupTunnelSecrets
  by_cases hd : b.Shoot.Info.DeletionTimestamp = none
  · by_cases hk : b.Shoot.KonnectivityTunnelEnabled = true
    · simp only [hd, hk, if_true]
    · simp only [hd, hk, if_true, Bool.false_eq_true, if_false]
  · simp only [hd, if_false, Botanist.deleteSecretsAndEntries]

theorem basicAuthStep_subset (c : Constants) (h : Helpers) (b : Botanist)
    (l l' : GardenerResourceDataList) (w w' : World)
    (hok : b.basicAuthStep c h l w = (none, l', w')) :
    (∀ e ∈ l', e ∈ l) ∧ (∀ s ∈ w'.seedSecrets, s ∈ w.seedSecrets) := by
  by_cases hne : h.ShootWantsBasicAuthentication b.Shoot.Info
      = (GardenerResourceDataList.Get l c.BasicAuthSecretName).isSome
  · rw [(basicAuthStep_eq c h b l w).2 hne] at hok
    simp only [Prod.mk.injEq, true_and] at hok
    obtain ⟨hl, hw⟩ := hok
    subst hl hw
    exact ⟨fun _ he => he, fun _ hs => hs⟩
  · rw [(basicAuthStep_eq c h b l w).1 hne, Botanist.deleteBasicAuthDependantSecrets] at hok
    obtain ⟨h1, h2, _, _⟩ := deleteSecretsAndEntries_ok b _ l l' w w' hok
    rw [h1, h2]
    exact ⟨fun _ he => (List.mem_filter.1 he).1, fun _ hs => (List.mem_filter.1 hs).1⟩

/-- After a successful pre-generation phase, no ledger entry and no secret of the seed
namespace carries a name that the tunnel cleanup was given. -/
theorem preGeneration_tunnel_names_absent (c : Constants) (h : Helpers) (b : Botanist)
    (w w3 : World) (l3 : GardenerResourceDataList)
    (hok : b.preGeneration c h w = (none, l3, w3)) :
    (∀ e ∈ l3, e.Name ∉ b.tunnelCleanupNames c)
      ∧ (∀ s ∈ w3.seedSecrets, s.Namespace = b.Shoot.SeedNamespace →
          s.Name ∉ b.tunnelCleanupNames c) := by
  unfold Botanist.preGeneration at hok
  rcases hr : b.rotateStep c h b.ShootState.SpecGardener w with ⟨e1, l1, w1⟩
  rw [hr] at hok
  cases e1 with
  | some err => simp at hok
  | none =>
    simp only at hok
    rcases ht : b.tunnelStep c l1 w1 with ⟨e2, l2, w2⟩
    rw [ht] at hok
    cases e2 with
    | some err => simp at hok
    | none =>
      simp only at hok
      rw [tunnelStep_eq] at ht
      obtain ⟨h1, h2, _, _⟩ := deleteSecretsAndEntries_ok b _ l1 l2 w1 w2 ht
      obtain ⟨hsubl, hsubw⟩ := basicAuthStep_subset c h b l2 l3 w2 w3 hok
      constructor
      · intro e he hmem
        have he2 := hsubl e he
        rw [h1] at he2
        have := (List.mem_filter.1 he2).2
        simp [hmem] at this
      · intro s hs hns hmem
        have hs2 := hsubw s hs
        rw [h2] at hs2
        have := (List.mem_filter.1 hs2).2
        simp [hns, hmem] at this

/-- C4 (as amended): for every shoot without a deletion timestamp and every starting ledger
and seed cluster, after a successful pre-generation phase of `GenerateAndSaveSecrets` the
two tunnel families do not coexist: neither the ledger handed to the Secrets Manager nor
the seed namespace holds a member of `vpn-seed`, `vpn-seed-tlsauth`, `vpn-shoot` together
with a member of `KonnectivityServerKubeconfig`, `KonnectivityServerCertName`. -/
theorem tunnel_families_never_coexist (c : Constants) (h : Helpers) (b : Botanist)
    (w w3 : World) (l3 : GardenerResourceDataList)
    (hdel : b.Shoot.Info.DeletionTimestamp = none)
    (hok : b.preGeneration c h w = (none, l3, w3)) :
    ¬ ((∃ e ∈ l3, e.Name ∈ ["vpn-seed", "vpn-seed-tlsauth", "vpn-shoot"])
        ∧ (∃ e ∈ l3, e.Name ∈ [c.KonnectivityServerKubeconfig, c.KonnectivityServerCertName]))
      ∧ ¬ ((∃ s ∈ w3.seedSecrets, s.Namespace = b.Shoot.SeedNamespace
              ∧ s.Name ∈ ["vpn-seed", "vpn-seed-tlsauth", "vpn-shoot"])
        ∧ (∃ s ∈ w3.seedSecrets, s.Namespace = b.Shoot.SeedNamespace
              ∧ s.Name ∈ [c.KonnectivityServerKubeconfig, c.KonnectivityServerCertName])) := by
  obtain ⟨hl, hw⟩ := preGeneration_tunnel_names_absent c h b w w3 l3 hok
  unfold Botanist.tunnelCleanupNames at hl hw
  by_cases hk : b.Shoot.KonnectivityTunnelEnabled = true
  · simp only [hdel, hk, if_true] at hl hw
    constructor
    · rintro ⟨⟨e, he, hn⟩, _⟩
      exact hl e he hn
    · rintro ⟨⟨s, hs, hns, hn⟩, _⟩
      exact hw s hs hns hn
  · simp only [hdel, hk, if_true, Bool.false_eq_true, if_false] at hl hw
    constructor
    · rintro ⟨_, ⟨e, he, hn⟩⟩
      exact hl e he hn
    · rintro ⟨_, ⟨s, hs, hns, hn⟩⟩
      exact hw s hs hns hn

/-- Witness for C4 (as amended): the sample shoot has no deletion timestamp and its
pre-generation phase succeeds; afterwards the ledger holds `vpn-seed` only. -/
theorem tunnel_families_never_coexist_witness :
    ¬ ((∃ e ∈ sampleLedgerAfterTunnelCleanup,
          e.Name ∈ ["vpn-seed", "vpn-seed-tlsauth", "vpn-shoot"])
        ∧ (∃ e ∈ sampleLedgerAfterTunnelCleanup,
          e.Name ∈ [upstreamConstants.KonnectivityServerKubeconfig,
                    upstreamConstants.KonnectivityServerCertName])) :=
  (tunnel_families_never_coexist upstreamConstants sampleHelpers sampleBotanist sampleWorld
    (sampleBotanist.preGeneration upstreamConstants sampleHelpers sampleWorld).2.2
    sampleLedgerAfterTunnelCleanup (by decide) (by decide)).1

/-- Counterexample for C4 as stated: for a shoot with a deletion timestamp the
pre-generation phase succeeds, the pass succeeds, and the ledger handed to the Secrets
Manager and the seed namespace hold `vpn-seed` together with `konnectivity-server`. -/
theorem tunnel_families_coexist_for_deleting_shoot :
    (deletingBotanist.preGeneration upstreamConstants sampleHelpers sampleWorld).1 = none
      ∧ (deletingBotanist.GenerateAndSaveSecrets upstreamConstants sampleHelpers
          keepingGenerate sampleWorld).1 = none
      ∧ "vpn-seed" ∈ (deletingBotanist.preGeneration upstreamConstants sampleHelpers
          sampleWorld).2.1.map (fun e => e.Name)
      ∧ upstreamConstants.KonnectivityServerCertName ∈ (deletingBotanist.preGeneration
          upstreamConstants sampleHelpers sampleWorld).2.1.map (fun e => e.Name)
      ∧ ("shoot--dev--crazy-botany", "vpn-seed") ∈ (deletingBotanist.preGeneration
          upstreamConstants sampleHelpers sampleWorld).2.2.seedSecrets.map Secret.key
      ∧ ("shoot--dev--crazy-botany", upstreamConstants.KonnectivityServerCertName) ∈
          (deletingBotanist.preGeneration upstreamConstants sampleHelpers
            sampleWorld).2.2.seedSecrets.map Secret.key := by
  decide

/-! ## The rotation of the kubeconfig secrets -/

theorem TryUpdateShootAnnotations_ok (w w' : World)
    (f : List (String × String) → List (String × String))
    (h : TryUpdateShootAnnotations w f = (none, w')) :
    w'.seedSecrets = w.seedSecrets
      ∧ w'.gardenShootAnnotations = f w.gardenShootAnnotations := by
  have h1 := nextFault_seedSecrets w
  have h2 := nextFault_gardenShootAnnotations w
  unfold TryUpdateShootAnnotations at h
  rcases hf : w.nextFault with ⟨flt, w1⟩
  rw [hf] at h h1 h2
  simp only at h1 h2
  cases flt with
  | some msg => simp at h
  | none =>
    simp only [Prod.mk.injEq, true_and] at h
    subst h
    exact ⟨h1, by rw [h2]⟩

theorem mapDelete_keys (m : List (String × String)) (k1 k2 : String) :
    ∀ kv ∈ mapDelete (mapDelete m k1) k2, kv.1 ≠ k1 ∧ kv.1 ≠ k2 := by
  intro kv hkv
  unfold mapDelete at hkv
  rw [List.filter_filter] at hkv
  have := (List.mem_filter.1 hkv).2
  simpa [and_comm] using this

/-- A successful `rotateKubeconfigSecrets` removes the three credentials from the ledger
and the seed namespace and clears both operation annotations of the stored shoot. -/
theorem rotateKubeconfigSecrets_ok (c : Constants) (b : Botanist)
    (l l' : GardenerResourceDataList) (w w' : World)
    (h : b.rotateKubeconfigSecrets c l w = (none, l', w')) :
    l' = l.filter (fun e => !(List.contains
          [c.StaticTokenSecretName, c.BasicAuthSecretName, c.KubecfgSecretName] e.Name))
      ∧ w'.seedSecrets = w.seedSecrets.filter (fun s =>
          !(s.Namespace == b.Shoot.SeedNamespace && List.contains
            [c.StaticTokenSecretName, c.BasicAuthSecretName, c.KubecfgSecretName] s.Name))
      ∧ w'.gardenShootAnnotations
          = mapDelete (mapDelete w.gardenShootAnnotations c.GardenerOperation)
              c.ShootOperationDeprecated := by
  unfold Botanist.rotateKubeconfigSecrets at h
  rcases hd : b.deleteSecretsAndEntries
      [c.StaticTokenSecretName, c.BasicAuthSecretName, c.KubecfgSecretName] l w
    with ⟨e1, l1, w1⟩
  rw [hd] at h
  cases e1 with
  | some err => simp at h
  | none =>
    simp only at h
    rcases hu : TryUpdateShootAnnotations w1
        (fun annotations =>
          mapDelete (mapDelete annotations c.GardenerOperation) c.ShootOperationDeprecated)
      with ⟨e2, w2⟩
    rw [hu] at h
    simp only [Prod.mk.injEq] at h
    obtain ⟨he, hl, hw⟩ := h
    subst he hl hw
    obtain ⟨h1, h2, h3, _⟩ := deleteSecretsAndEntries_ok b _ l l1 w w1 hd
    obtain ⟨h5, h6⟩ := TryUpdateShootAnnotations_ok w1 w2 _ hu
    exact ⟨h1, by rw [h5, h2], by rw [h6, h3]⟩

/-- C5: `GenerateAndSaveSecrets` rotates iff the shoot's operation annotation equals
`ShootOperationRotateKubeconfigCredentials`.  In that case the rotation step is
`rotateKubeconfigSecrets`, and on its success the ledger holds no entry named
`StaticTokenSecretName`, `BasicAuthSecretName` or `KubecfgSecretName`, the seed namespace
holds no secret with one of these names, all other ledger entries are unchanged, and the
annotations of the stored shoot contain neither the `GardenerOperation` key nor the
deprecated operation key.  When the annotation is absent or has another value, the rotation
step changes nothing, and (the name of the static token being none of the tunnel and
basic-auth cleanup names) the static-token entries reach the Secrets Manager. -/
theorem rotation_iff_rotate_operation (c : Constants) (h : Helpers) (b : Botanist)
    (l : GardenerResourceDataList) (w : World) :
    (h.GetShootOperationAnnotation b.Shoot.Info.Annotations
          = some c.ShootOperationRotateKubeconfigCredentials →
        b.rotateStep c h l w = b.rotateKubeconfigSecrets c l w
        ∧ ∀ l' w', b.rotateKubeconfigSecrets c l w = (none, l', w') →
            (∀ e ∈ l', e.Name ≠ c.StaticTokenSecretName ∧ e.Name ≠ c.BasicAuthSecretName
                ∧ e.Name ≠ c.KubecfgSecretName)
            ∧ (∀ s ∈ w'.seedSecrets, s.Namespace = b.Shoot.SeedNamespace →
                s.Name ≠ c.StaticTokenSecretName ∧ s.Name ≠ c.BasicAuthSecretName
                ∧ s.Name ≠ c.KubecfgSecretName)
            ∧ l' = l.filter (fun e => !(List.contains
                [c.StaticTokenSecretName, c.BasicAuthSecretName, c.KubecfgSecretName] e.Name))
            ∧ (∀ kv ∈ w'.gardenShootAnnotations,
                kv.1 ≠ c.GardenerOperation ∧ kv.1 ≠ c.ShootOperationDeprecated))
      ∧ (h.GetShootOperationAnnotation b.Shoot.Info.Annotations
          ≠ some c.ShootOperationRotateKubeconfigCredentials →
        b.rotateStep c h l w = (none, l, w)
        ∧ (c.StaticTokenSecretName ∉
              ["vpn-seed", "vpn-seed-tlsauth", "vpn-shoot", c.KonnectivityServerKubeconfig,
                c.KonnectivityServerCertName, c.BasicAuthSecretName, c.KubecfgSecretName] →
            ∀ l3 w3, b.preGeneration c h w = (none, l3, w3) →
              ∀ e ∈ b.ShootState.SpecGardener, e.Name = c.StaticTokenSecretName → e ∈ l3)) := by
  constructor
  · intro hann
    refine ⟨by simp [Botanist.rotateStep, hann], ?_⟩
    intro l' w' hok
    obtain ⟨h1, h2, h3⟩ := rotateKubeconfigSecrets_ok c b l l' w w' hok
    refine ⟨?_, ?_, h1, ?_⟩
    · intro e he
      rw [h1] at he
      have := (List.mem_filter.1 he).2
      simpa using this
    · intro s hs hns
      rw [h2] at hs
      have := (List.mem_filter.1 hs).2
      simpa [hns] using this
    · rw [h3]
      exact mapDelete_keys _ _ _
  · intro hann
    refine ⟨by simp [Botanist.rotateStep, hann], ?_⟩
    intro hdist l3 w3 hok e he hname
    unfold Botanist.preGeneration at hok
    have hrot : b.rotateStep c h b.ShootState.SpecGardener w
        = (none, b.ShootState.SpecGardener, w) := by
      simp [Botanist.rotateStep, hann]
    rw [hrot] at hok
    simp only at hok
    rcases ht : b.tunnelStep c b.ShootState.SpecGardener w with ⟨e2, l2, w2⟩
    rw [ht] at hok
    cases e2 with
    | some err => simp at hok
    | none =>
      simp only at hok
      rw [tunnelStep_eq] at ht
      obtain ⟨h1, _, _, _⟩ := deleteSecretsAndEntries_ok b _ _ l2 w w2 ht
      have hmem2 : e ∈ l2 := by
        rw [h1]
        apply List.mem_filter.2
        refine ⟨he, ?_⟩
        simp only [List.mem_cons, List.mem_singleton, not_or, List.not_mem_nil,
          or_false] at hdist
        unfold Botanist.tunnelCleanupNames
        rw [hname]
        split_ifs <;> simp [hdist]
      by_cases hne : h.ShootWantsBasicAuthentication b.Shoot.Info
          = (GardenerResourceDataList.Get l2 c.BasicAuthSecretName).isSome
      · rw [(basicAuthStep_eq c h b l2 w2).2 hne] at hok
        simp only [Prod.mk.injEq, true_and] at hok
        rw [← hok.1]
        exact hmem2
      · rw [(basicAuthStep_eq c h b l2 w2).1 hne, Botanist.deleteBasicAuthDependantSecrets]
          at hok
        obtain ⟨h3, _, _, _⟩ := deleteSecretsAndEntries_ok b _ l2 l3 w2 w3 hok
        rw [h3]
        apply List.mem_filter.2
        refine ⟨hmem2, ?_⟩
        simp only [List.mem_cons, List.mem_singleton, not_or, List.not_mem_nil,
          or_false] at hdist
        rw [hname]
        simp [hdist]

/-- Witness for C5: the sample shoot carries the rotation annotation; the rotation runs,
succeeds, and leaves a ledger without the three credentials and a stored shoot without the
operation annotations. -/
theorem rotation_iff_rotate_operation_witness :
    sampleBotanist.rotateStep upstreamConstants sampleHelpers sampleLedger sampleWorld
        = sampleBotanist.rotateKubeconfigSecrets upstreamConstants sampleLedger sampleWorld
      ∧ (∀ e ∈ sampleLedgerAfterRotation,
          e.Name ≠ upstreamConstants.StaticTokenSecretName
          ∧ e.Name ≠ upstreamConstants.BasicAuthSecretName
          ∧ e.Name ≠ upstreamConstants.KubecfgSecretName)
      ∧ (∀ kv ∈ sampleWorldAfterRotation.gardenShootAnnotations,
          kv.1 ≠ upstreamConstants.GardenerOperation
          ∧ kv.1 ≠ upstreamConstants.ShootOperationDeprecated) :=
  have hw := (rotation_iff_rotate_operation upstreamConstants sampleHelpers sampleBotanist
    sampleLedger sampleWorld).1 (by decide)
  have hok := hw.2 sampleLedgerAfterRotation sampleWorldAfterRotation (by decide)
  ⟨hw.1, hok.1, hok.2.2.2⟩

/-! ## The catalog of wanted secrets -/

theorem tokenForUsername_error_iff (staticToken : Option secrets.StaticToken)
    (username : String) :
    (∃ err, tokenForUsername staticToken username = .error err)
      ↔ ∃ t, staticToken = some t ∧ ∀ tok ∈ t.Tokens, tok.Username ≠ username := by
  cases staticToken with
  | none => simp [tokenForUsername]
  | some t =>
    simp only [tokenForUsername, secrets.StaticToken.GetTokenForUsername, Option.some.injEq,
      exists_eq_left']
    cases hf : t.Tokens.find? (fun tok => tok.Username == username) with
    | some tok =>
      have hmem := List.mem_of_find?_eq_some hf
      have hp := List.find?_some hf
      simp only [beq_iff_eq] at hp
      simp only [reduceCtorEq, exists_false, false_iff, not_forall]
      exact ⟨tok, hmem, fun hne => hne hp⟩
    | none =>
      rw [List.find?_eq_none] at hf
      simp only [Except.error.injEq, exists_eq', true_iff]
      intro tok htok
      simpa using hf tok htok

theorem apiServerSANs_returned (c : Constants) (h : Helpers) (b : Botanist)
    (hdns : b.Shoot.ExternalClusterDomain ≠ none → b.Shoot.Info.SpecDNSDomain ≠ none) :
    ∃ sans, b.apiServerSANs c h = .returned sans := by
  unfold Botanist.apiServerSANs
  cases hext : b.Shoot.ExternalClusterDomain with
  | none => exact ⟨_, rfl⟩
  | some ext =>
    cases hdom : b.Shoot.Info.SpecDNSDomain with
    | none => exact absurd hdom (hdns (by simp [hext]))
    | some domain => exact ⟨_, rfl⟩

/-- C6: `generateWantedSecretConfigs` returns (the pointer `Spec.DNS.Domain` being set
whenever the external cluster domain is), and it returns an error if and only if
`staticToken` is non-nil and holds no token for a required username (`KubecfgUsername`
always, `KonnectivityServerUserName` when `KonnectivityTunnelEnabled`); whenever it returns
an error the returned list is nil, and with a nil `staticToken` it returns no error. -/
theorem generateWantedSecretConfigs_error_iff (c : Constants) (h : Helpers) (b : Botanist)
    (basicAuthAPIServer : Option secrets.BasicAuth) (staticToken : Option secrets.StaticToken)
    (certificateAuthorities : String → Option secrets.Certificate)
    (hdns : b.Shoot.ExternalClusterDomain ≠ none → b.Shoot.Info.SpecDNSDomain ≠ none) :
    ∃ l e, b.generateWantedSecretConfigs c h basicAuthAPIServer staticToken
          certificateAuthorities = .returned (l, e)
      ∧ (e ≠ none ↔ ∃ t, staticToken = some t
            ∧ ((∀ tok ∈ t.Tokens, tok.Username ≠ c.KubecfgUsername)
              ∨ (b.Shoot.KonnectivityTunnelEnabled = true
                  ∧ ∀ tok ∈ t.Tokens, tok.Username ≠ c.KonnectivityServerUserName)))
      ∧ (e ≠ none → l = [])
      ∧ (staticToken = none → e = none) := by
  obtain ⟨⟨ips, dns⟩, hsans⟩ := apiServerSANs_returned c h b hdns
  have hK := tokenForUsername_error_iff staticToken c.KubecfgUsername
  have hS := tokenForUsername_error_iff staticToken c.KonnectivityServerUserName
  unfold Botanist.generateWantedSecretConfigs
  rw [hsans]
  simp only
  cases hk : tokenForUsername staticToken c.KubecfgUsername with
  | error err =>
    refine ⟨[], some err, rfl, ?_, fun _ => rfl, ?_⟩
    · obtain ⟨t, ht, hmiss⟩ := hK.1 ⟨err, hk⟩
      simp only [ne_eq, reduceCtorEq, not_false_eq_true, true_iff]
      exact ⟨t, ht, Or.inl hmiss⟩
    · intro hnil
      rw [hnil] at hk
      simp [tokenForUsername] at hk
  | ok kubecfgToken =>
    have hK2 : ¬ ∃ t, staticToken = some t ∧ ∀ tok ∈ t.Tokens, tok.Username ≠ c.KubecfgUsername := by
      intro hex
      obtain ⟨err, herr⟩ := hK.2 hex
      rw [hk] at herr
      exact Except.noConfusion herr
    simp only
    by_cases hkonn : b.Shoot.KonnectivityTunnelEnabled = true
    · simp only [hkonn, if_true]
      cases hs : tokenForUsername staticToken c.KonnectivityServerUserName with
      | error err =>
        refine ⟨[], some err, rfl, ?_, fun _ => rfl, ?_⟩
        · obtain ⟨t, ht, hmiss⟩ := hS.1 ⟨err, hs⟩
          simp only [ne_eq, reduceCtorEq, not_false_eq_true, true_iff]
          exact ⟨t, ht, Or.inr ⟨trivial, hmiss⟩⟩
        · intro hnil
          rw [hnil] at hs
          simp [tokenForUsername] at hs
      | ok konnectivityServerToken =>
        refine ⟨_, none, rfl, ?_, fun hne => absurd rfl hne, fun _ => rfl⟩
        simp only [ne_eq, not_true_eq_false, false_iff]
        rintro ⟨t, ht, hmiss | ⟨_, hmiss⟩⟩
        · exact hK2 ⟨t, ht, hmiss⟩
        · obtain ⟨err, herr⟩ := hS.2 ⟨t, ht, hmiss⟩
          rw [hs] at herr
          exact Except.noConfusion herr
    · simp only [hkonn, Bool.false_eq_true, if_false]
      refine ⟨_, none, rfl, ?_, fun hne => absurd rfl hne, fun _ => rfl⟩
      simp only [ne_eq, not_true_eq_false, false_iff]
      rintro ⟨t, ht, hmiss | ⟨hfalse, _⟩⟩
      · exact hK2 ⟨t, ht, hmiss⟩
      · exact hfalse.elim

/-- Witness for C6: for the sample shoot and a static token without the kubecfg user the
catalog function returns the nil list and the missing-token error. -/
theorem generateWantedSecretConfigs_error_iff_witness :
    ∃ l e, sampleBotanist.generateWantedSecretConfigs upstreamConstants sampleHelpers none
          (some healthCheckOnlyStaticToken) sampleCertificateAuthorities = .returned (l, e)
      ∧ (e ≠ none ↔ ∃ t, some healthCheckOnlyStaticToken = some t
            ∧ ((∀ tok ∈ t.Tokens, tok.Username ≠ upstreamConstants.KubecfgUsername)
              ∨ (sampleBotanist.Shoot.KonnectivityTunnelEnabled = true
                  ∧ ∀ tok ∈ t.Tokens,
                      tok.Username ≠ upstreamConstants.KonnectivityServerUserName)))
      ∧ (e ≠ none → l = [])
      ∧ (some healthCheckOnlyStaticToken = none → e = none) :=
  generateWantedSecretConfigs_error_iff upstreamConstants sampleHelpers sampleBotanist none
    (some healthCheckOnlyStaticToken) sampleCertificateAuthorities (by decide)

/-- A successful call yields the literal list, the kubecfg config, the two
dependency-watchdog configs, one tunnel family and the optional members. -/
theorem generateWantedSecretConfigs_success (c : Constants) (h : Helpers) (b : Botanist)
    (basicAuthAPIServer : Option secrets.BasicAuth) (staticToken : Option secrets.StaticToken)
    (certificateAuthorities : String → Option secrets.Certificate)
    (l : List secrets.ConfigInterface)
    (hok : b.generateWantedSecretConfigs c h basicAuthAPIServer staticToken
      certificateAuthorities = .returned (l, none)) :
    ∃ ips dns kubecfgToken tunnel,
      l = b.withOptionalSecretConfigs c h certificateAuthorities
            (b.initialSecretList c h certificateAuthorities ips dns
              ++ [b.kubecfgSecretConfig c h basicAuthAPIServer kubecfgToken
                    certificateAuthorities]
              ++ b.dependencyWatchdogSecretConfigs c h certificateAuthorities ++ tunnel)
        ∧ ((b.Shoot.KonnectivityTunnelEnabled = true
              ∧ ∃ token, tunnel = b.konnectivitySecretConfigs c h basicAuthAPIServer token
                  certificateAuthorities)
            ∨ (b.Shoot.KonnectivityTunnelEnabled = false
              ∧ tunnel = vpnSecretConfigs c certificateAuthorities)) := by
  unfold Botanist.generateWantedSecretConfigs at hok
  cases hsans : b.apiServerSANs c h with
  | panicked => rw [hsans] at hok; exact Outcome.noConfusion hok
  | returned sans =>
    obtain ⟨ips, dns⟩ := sans
    rw [hsans] at hok
    simp only at hok
    cases hk : tokenForUsername staticToken c.KubecfgUsername with
    | error err => rw [hk] at hok; simp at hok
    | ok kubecfgToken =>
      rw [hk] at hok
      simp only at hok
      by_cases hkonn : b.Shoot.KonnectivityTunnelEnabled = true
      · simp only [hkonn, if_true] at hok
        cases hs : tokenForUsername staticToken c.KonnectivityServerUserName with
        | error err => rw [hs] at hok; simp at hok
        | ok token =>
          rw [hs] at hok
          simp only [Outcome.returned.injEq, Prod.mk.injEq, and_true] at hok
          exact ⟨ips, dns, kubecfgToken, _, hok.symm, Or.inl ⟨hkonn, token, rfl⟩⟩
      · simp only [hkonn, Bool.false_eq_true, if_false, Outcome.returned.injEq,
          Prod.mk.injEq, and_true] at hok
        exact ⟨ips, dns, kubecfgToken, _, hok.symm, Or.inr ⟨by simpa using hkonn, rfl⟩⟩

/-- The names of a successfully generated catalog. -/
theorem generateWantedSecretConfigs_names (c : Constants) (h : Helpers) (b : Botanist)
    (basicAuthAPIServer : Option secrets.BasicAuth) (staticToken : Option secrets.StaticToken)
    (certificateAuthorities : String → Option secrets.Certificate)
    (l : List secrets.ConfigInterface)
    (hok : b.generateWantedSecretConfigs c h basicAuthAPIServer staticToken
      certificateAuthorities = .returned (l, none)) :
    configNames l = alwaysSecretNames c
      ++ (if b.Shoot.KonnectivityTunnelEnabled then konnectivitySecretNames c
          else vpnSecretNames)
      ++ (if h.LoggingEnabled then loggingSecretNames c else [])
      ++ (if b.Shoot.WantsVerticalPodAutoscaler then ["vpa-tls-certs"] else []) := by
  obtain ⟨ips, dns, kubecfgToken, tunnel, hl, htun⟩ :=
    generateWantedSecretConfigs_success c h b basicAuthAPIServer staticToken
      certificateAuthorities l hok
  have hbase : configNames (b.initialSecretList c h certificateAuthorities ips dns
      ++ [b.kubecfgSecretConfig c h basicAuthAPIServer kubecfgToken certificateAuthorities]
      ++ b.dependencyWatchdogSecretConfigs c h certificateAuthorities)
      = alwaysSecretNames c := rfl
  have hlog : configNames (b.loggingSecretConfigs c h certificateAuthorities)
      = loggingSecretNames c := rfl
  have hvpa : configNames (b.vpaSecretConfigs c certificateAuthorities)
      = ["vpa-tls-certs"] := rfl
  have htunnel : configNames tunnel
      = (if b.Shoot.KonnectivityTunnelEnabled then konnectivitySecretNames c
          else vpnSecretNames) := by
    rcases htun with ⟨hk, token, ht⟩ | ⟨hk, ht⟩
    · rw [ht, hk]; rfl
    · rw [ht, hk]; rfl
  rw [hl]
  unfold Botanist.withOptionalSecretConfigs
  unfold configNames at hbase hlog hvpa htunnel ⊢
  by_cases hlg : h.LoggingEnabled = true <;>
    by_cases hv : b.Shoot.WantsVerticalPodAutoscaler = true <;>
    simp only [hlg, hv, if_true, Bool.false_eq_true, if_false, List.map_append, hbase, hlog,
      hvpa, htunnel, List.append_nil]

/-- Pairwise distinct names keep the five sections of the catalog apart. -/
theorem nodup_sections {α : Type} (a k v g p : List α)
    (hN : (a ++ k ++ v ++ g ++ p).Nodup) :
    (∀ x ∈ k, x ∉ a ∧ x ∉ v ∧ x ∉ g ∧ x ∉ p)
      ∧ (∀ x ∈ v, x ∉ a ∧ x ∉ k ∧ x ∉ g ∧ x ∉ p)
      ∧ (∀ x ∈ g, x ∉ a ∧ x ∉ k ∧ x ∉ v ∧ x ∉ p)
      ∧ (∀ x ∈ p, x ∉ a ∧ x ∉ k ∧ x ∉ v ∧ x ∉ g) := by
  simp only [List.nodup_append, List.disjoint_left, List.mem_append] at hN
  obtain ⟨⟨⟨⟨_, _, hak⟩, _, hakv⟩, _, hakvg⟩, _, hakvgp⟩ := hN
  refine ⟨?_, ?_, ?_, ?_⟩
  · intro x hx
    exact ⟨fun ha => hak ha hx, fun hv => hakv (Or.inr hx) hv,
      fun hg => hakvg (Or.inl (Or.inr hx)) hg, fun hp => hakvgp (Or.inl (Or.inl (Or.inr hx))) hp⟩
  · intro x hx
    exact ⟨fun ha => hakv (Or.inl ha) hx, fun hk => hakv (Or.inr hk) hx,
      fun hg => hakvg (Or.inr hx) hg, fun hp => hakvgp (Or.inl (Or.inr hx)) hp⟩
  · intro x hx
    exact ⟨fun ha => hakvg (Or.inl (Or.inl ha)) hx, fun hk => hakvg (Or.inl (Or.inr hk)) hx,
      fun hv => hakvg (Or.inr hv) hx, fun hp => hakvgp (Or.inr hx) hp⟩
  · intro x hx
    exact ⟨fun ha => hakvgp (Or.inl (Or.inl (Or.inl ha))) hx,
      fun hk => hakvgp (Or.inl (Or.inl (Or.inr hk))) hx,
      fun hv => hakvgp (Or.inl (Or.inr hv)) hx, fun hg => hakvgp (Or.inr hg) hx⟩

/-- C7: for every input on which `generateWantedSecretConfigs` succeeds (the names that the
catalog can hold being pairwise distinct), the catalog contains exactly one of the two
tunnel families: without `KonnectivityTunnelEnabled` the configs named `vpn-shoot`,
`vpn-seed` and `vpn-seed-tlsauth` and none named `KonnectivityServerKubeconfig` or
`KonnectivityServerCertName`; with it these two and none of the three vpn names. -/
theorem catalog_holds_one_tunnel_family (c : Constants) (h : Helpers) (b : Botanist)
    (basicAuthAPIServer : Option secrets.BasicAuth) (staticToken : Option secrets.StaticToken)
    (certificateAuthorities : String → Option secrets.Certificate)
    (l : List secrets.ConfigInterface)
    (hN : (catalogNames c).Nodup)
    (hok : b.generateWantedSecretConfigs c h basicAuthAPIServer staticToken
      certificateAuthorities = .returned (l, none)) :
    (b.Shoot.KonnectivityTunnelEnabled = false →
        "vpn-shoot" ∈ configNames l ∧ "vpn-seed" ∈ configNames l
        ∧ "vpn-seed-tlsauth" ∈ configNames l
        ∧ c.KonnectivityServerKubeconfig ∉ configNames l
        ∧ c.KonnectivityServerCertName ∉ configNames l)
      ∧ (b.Shoot.KonnectivityTunnelEnabled = true →
        c.KonnectivityServerKubeconfig ∈ configNames l
        ∧ c.KonnectivityServerCertName ∈ configNames l
        ∧ "vpn-shoot" ∉ configNames l ∧ "vpn-seed" ∉ configNames l
        ∧ "vpn-seed-tlsauth" ∉ configNames l) := by
  have hnames := generateWantedSecretConfigs_names c h b basicAuthAPIServer staticToken
    certificateAuthorities l hok
  obtain ⟨hk, hv, _, _⟩ := nodup_sections _ _ _ _ _ hN
  have hlogsub : ∀ x, x ∈ (if h.LoggingEnabled then loggingSecretNames c else []) →
      x ∈ loggingSecretNames c := by
    intro x hx
    split_ifs at hx
    · exact hx
    · simp at hx
  have hvpasub : ∀ x, x ∈ (if b.Shoot.WantsVerticalPodAutoscaler then ["vpa-tls-certs"]
      else []) → x ∈ ["vpa-tls-certs"] := by
    intro x hx
    split_ifs at hx
    · exact hx
    · simp at hx
  rw [hnames]
  constructor
  · intro hkonn
    simp only [hkonn, Bool.false_eq_true, if_false, List.mem_append]
    have hout : ∀ x ∈ konnectivitySecretNames c,
        ¬ (((x ∈ alwaysSecretNames c ∨ x ∈ vpnSecretNames)
          ∨ x ∈ (if h.LoggingEnabled then loggingSecretNames c else []))
          ∨ x ∈ (if b.Shoot.WantsVerticalPodAutoscaler then ["vpa-tls-certs"] else [])) := by
      intro x hx
      obtain ⟨h1, h2, h3, h4⟩ := hk x hx
      rintro (((ha | hv) | hg) | hp)
      · exact h1 ha
      · exact h2 hv
      · exact h3 (hlogsub x hg)
      · exact h4 (hvpasub x hp)
    refine ⟨?_, ?_, ?_, hout _ (by simp [konnectivitySecretNames]),
      hout _ (by simp [konnectivitySecretNames])⟩ <;>
      exact Or.inl (Or.inl (Or.inr (by simp [vpnSecretNames])))
  · intro hkonn
    simp only [hkonn, if_true, List.mem_append]
    have hout : ∀ x ∈ vpnSecretNames,
        ¬ (((x ∈ alwaysSecretNames c ∨ x ∈ konnectivitySecretNames c)
          ∨ x ∈ (if h.LoggingEnabled then loggingSecretNames c else []))
          ∨ x ∈ (if b.Shoot.WantsVerticalPodAutoscaler then ["vpa-tls-certs"] else [])) := by
      intro x hx
      obtain ⟨h1, h2, h3, h4⟩ := hv x hx
      rintro (((ha | hk2) | hg) | hp)
      · exact h1 ha
      · exact h2 hk2
      · exact h3 (hlogsub x hg)
      · exact h4 (hvpasub x hp)
    refine ⟨Or.inl (Or.inl (Or.inr (by simp [konnectivitySecretNames]))),
      Or.inl (Or.inl (Or.inr (by simp [konnectivitySecretNames]))),
      hout _ (by simp [vpnSecretNames]), hout _ (by simp [vpnSecretNames]),
      hout _ (by simp [vpnSecretNames])⟩

/-- Witness for C7: the sample shoot uses the OpenVPN tunnel, and its catalog holds
`vpn-shoot` and no konnectivity config. -/
theorem catalog_holds_one_tunnel_family_witness :
    "vpn-shoot" ∈ configNames (alwaysConfigsOfSample ++ vpnSecretConfigs upstreamConstants
        sampleCertificateAuthorities)
      ∧ upstreamConstants.KonnectivityServerCertName ∉ configNames (alwaysConfigsOfSample
        ++ vpnSecretConfigs upstreamConstants sampleCertificateAuthorities) :=
  have hw := (catalog_holds_one_tunnel_family upstreamConstants sampleHelpers sampleBotanist
    none (some sampleStaticToken) sampleCertificateAuthorities
    (alwaysConfigsOfSample ++ vpnSecretConfigs upstreamConstants sampleCertificateAuthorities)
    (by decide) (by decide)).1 (by decide)
  ⟨hw.1, hw.2.2.2.2⟩

theorem alwaysSecretNames_split (c : Constants) :
    ∀ n ∈ alwaysSecretNames c, n ∈ literalSecretNames ∨ n ∈ constantSecretNames c := by
  intro n hn
  simp only [alwaysSecretNames, List.mem_cons, List.mem_singleton, List.not_mem_nil,
    or_false] at hn
  simp only [literalSecretNames, constantSecretNames, List.mem_cons, List.mem_singleton,
    List.not_mem_nil, or_false]
  tauto

theorem literal_names_plain :
    ∀ n ∈ literalSecretNames ++ vpnSecretNames,
      ¬ ("vpa-".data <+: n.data) ∧ ¬ ("logging".data <:+: n.data) := by
  decide

/-- C8: for every shoot with `WantsVerticalPodAutoscaler` false, `KonnectivityTunnelEnabled`
false and the Logging feature gate disabled (the constants used as config names neither
starting with `vpa-` nor containing `logging`), the catalog returned by
`generateWantedSecretConfigs` contains configs named `vpn-shoot`, `vpn-seed` and
`vpn-seed-tlsauth`, no config whose name starts with `vpa-` and no config whose name
contains `logging`. -/
theorem plain_catalog_has_vpn_and_no_vpa_or_logging (c : Constants) (h : Helpers)
    (b : Botanist) (basicAuthAPIServer : Option secrets.BasicAuth)
    (staticToken : Option secrets.StaticToken)
    (certificateAuthorities : String → Option secrets.Certificate)
    (l : List secrets.ConfigInterface)
    (hvpa : b.Shoot.WantsVerticalPodAutoscaler = false)
    (hkonn : b.Shoot.KonnectivityTunnelEnabled = false)
    (hlog : h.LoggingEnabled = false)
    (hconst : ∀ n ∈ constantSecretNames c,
      ¬ ("vpa-".data <+: n.data) ∧ ¬ ("logging".data <:+: n.data))
    (hok : b.generateWantedSecretConfigs c h basicAuthAPIServer staticToken
      certificateAuthorities = .returned (l, none)) :
    (∃ cfg ∈ l, cfg.GetName = "vpn-shoot") ∧ (∃ cfg ∈ l, cfg.GetName = "vpn-seed")
      ∧ (∃ cfg ∈ l, cfg.GetName = "vpn-seed-tlsauth")
      ∧ (∀ cfg ∈ l, ¬ ("vpa-".data <+: cfg.GetName.data))
      ∧ (∀ cfg ∈ l, ¬ ("logging".data <:+: cfg.GetName.data)) := by
  have hnames := generateWantedSecretConfigs_names c h b basicAuthAPIServer staticToken
    certificateAuthorities l hok
  simp only [hvpa, hkonn, hlog, Bool.false_eq_true, if_false, List.append_nil] at hnames
  have hmem : ∀ n, n ∈ configNames l ↔ ∃ cfg ∈ l, cfg.GetName = n := by
    intro n
    simp [configNames]
  have hall : ∀ cfg ∈ l, ¬ ("vpa-".data <+: cfg.GetName.data)
      ∧ ¬ ("logging".data <:+: cfg.GetName.data) := by
    intro cfg hcfg
    have hn : cfg.GetName ∈ configNames l := (hmem _).2 ⟨cfg, hcfg, rfl⟩
    rw [hnames, List.mem_append] at hn
    rcases hn with ha | hv
    · rcases alwaysSecretNames_split c _ ha with hlit | hcst
      · exact literal_names_plain _ (List.mem_append_left _ hlit)
      · exact hconst _ hcst
    · exact literal_names_plain _ (List.mem_append_right _ hv)
  refine ⟨?_, ?_, ?_, fun cfg hcfg => (hall cfg hcfg).1, fun cfg hcfg => (hall cfg hcfg).2⟩ <;>
    · rw [← hmem, hnames]
      simp [vpnSecretNames]

/-- Witness for C8: the sample shoot has no VPA, no konnectivity tunnel and no logging. -/
theorem plain_catalog_has_vpn_and_no_vpa_or_logging_witness :
    (∃ cfg ∈ alwaysConfigsOfSample ++ vpnSecretConfigs upstreamConstants
        sampleCertificateAuthorities, cfg.GetName = "vpn-seed-tlsauth")
      ∧ (∀ cfg ∈ alwaysConfigsOfSample ++ vpnSecretConfigs upstreamConstants
        sampleCertificateAuthorities, ¬ ("logging".data <:+: cfg.GetName.data)) :=
  have hw := plain_catalog_has_vpn_and_no_vpa_or_logging upstreamConstants sampleHelpers
    sampleBotanist none (some sampleStaticToken) sampleCertificateAuthorities
    (alwaysConfigsOfSample ++ vpnSecretConfigs upstreamConstants sampleCertificateAuthorities)
    (by decide) (by decide) (by decide) (by decide) (by decide)
  ⟨hw.2.2.1, hw.2.2.2.2⟩

/-- C9: for every input on which `generateWantedSecretConfigs` succeeds (the names that the
catalog can hold being pairwise distinct), the optional members track their flags: each of
the eight logging configs is present iff the Logging feature gate is enabled, and the
config named `vpa-tls-certs` is present iff `WantsVerticalPodAutoscaler` is true. -/
theorem optional_members_track_flags (c : Constants) (h : Helpers) (b : Botanist)
    (basicAuthAPIServer : Option secrets.BasicAuth) (staticToken : Option secrets.StaticToken)
    (certificateAuthorities : String → Option secrets.Certificate)
    (l : List secrets.ConfigInterface)
    (hN : (catalogNames c).Nodup)
    (hok : b.generateWantedSecretConfigs c h basicAuthAPIServer staticToken
      certificateAuthorities = .returned (l, none)) :
    (∀ n ∈ [ c.KibanaTLS, "elasticsearch-logging-server", "logging-ingress-credentials-users",
              "logging-ingress-credentials", "sg-admin-client",
              "kibana-logging-sg-credentials", "curator-sg-credentials",
              "admin-sg-credentials" ],
        (∃ cfg ∈ l, cfg.GetName = n) ↔ h.LoggingEnabled = true)
      ∧ ((∃ cfg ∈ l, cfg.GetName = "vpa-tls-certs")
          ↔ b.Shoot.WantsVerticalPodAutoscaler = true) := by
  have hnames := generateWantedSecretConfigs_names c h b basicAuthAPIServer staticToken
    certificateAuthorities l hok
  have hmem : ∀ n, (∃ cfg ∈ l, cfg.GetName = n) ↔ n ∈ configNames l := by
    intro n
    simp [configNames]
  obtain ⟨hk, hv, hg, hp⟩ := nodup_sections _ _ _ _ _ hN
  have htun : ∀ x, x ∈ (if b.Shoot.KonnectivityTunnelEnabled then konnectivitySecretNames c
      else vpnSecretNames) → x ∈ konnectivitySecretNames c ∨ x ∈ vpnSecretNames := by
    intro x hx
    split_ifs at hx
    · exact Or.inl hx
    · exact Or.inr hx
  constructor
  · intro n hn
    have hn2 : n ∈ loggingSecretNames c := hn
    obtain ⟨h1, h2, h3, h4⟩ := hg n hn2
    rw [hmem, hnames]
    simp only [List.mem_append]
    constructor
    · rintro (((ha | ht) | hlg) | hvp)
      · exact absurd ha h1
      · rcases htun n ht with hk2 | hv2
        · exact absurd hk2 h2
        · exact absurd hv2 h3
      · by_contra hoff
        simp [hoff] at hlg
      · split_ifs at hvp
        · exact absurd hvp h4
        · simp at hvp
    · intro hon
      exact Or.inl (Or.inr (by simp [hon, hn2]))
  · obtain ⟨h1, h2, h3, h4⟩ := hp "vpa-tls-certs" (by simp)
    rw [hmem, hnames]
    simp only [List.mem_append]
    constructor
    · rintro (((ha | ht) | hlg) | hvp)
      · exact absurd ha h1
      · rcases htun _ ht with hk2 | hv2
        · exact absurd hk2 h2
        · exact absurd hv2 h3
      · split_ifs at hlg
        · exact absurd hlg h4
        · simp at hlg
      · by_contra hoff
        simp [hoff] at hvp
    · intro hon
      exact Or.inr (by simp [hon])

/-- Witness for C9: the sample catalog, generated without logging and VPA, holds neither
`logging-ingress-credentials` nor `vpa-tls-certs`. -/
theorem optional_members_track_flags_witness :
    ((∃ cfg ∈ alwaysConfigsOfSample ++ vpnSecretConfigs upstreamConstants
          sampleCertificateAuthorities, cfg.GetName = "logging-ingress-credentials")
        ↔ sampleHelpers.LoggingEnabled = true)
      ∧ ((∃ cfg ∈ alwaysConfigsOfSample ++ vpnSecretConfigs upstreamConstants
          sampleCertificateAuthorities, cfg.GetName = "vpa-tls-certs")
        ↔ sampleBotanist.Shoot.WantsVerticalPodAutoscaler = true) :=
  have hw := optional_members_track_flags upstreamConstants sampleHelpers sampleBotanist none
    (some sampleStaticToken) sampleCertificateAuthorities
    (alwaysConfigsOfSample ++ vpnSecretConfigs upstreamConstants sampleCertificateAuthorities)
    (by decide) (by decide)
  ⟨hw.1 "logging-ingress-credentials" (by decide), hw.2⟩

/-! ## Signing CAs -/

theorem initialSecretList_signed (c : Constants) (h : Helpers) (b : Botanist)
    (cas : String → Option secrets.Certificate) (ips : List IP) (dns : List String) :
    ∀ cfg ∈ b.initialSecretList c h cas ips dns, ∀ cc, cfg.certificateConfig = some cc →
      ∃ k ∈ (wantedCertificateAuthorities c).map Prod.fst, cc.SigningCA = cas k := by
  simp [Botanist.initialSecretList, secrets.ConfigInterface.certificateConfig,
    wantedCertificateAuthorities]

theorem appendedSecretConfigs_signed (c : Constants) (h : Helpers) (b : Botanist)
    (basicAuthAPIServer : Option secrets.BasicAuth) (token token2 : Option secrets.Token)
    (cas : String → Option secrets.Certificate) :
    ∀ cfg ∈ [b.kubecfgSecretConfig c h basicAuthAPIServer token cas]
        ++ b.dependencyWatchdogSecretConfigs c h cas
        ++ b.konnectivitySecretConfigs c h basicAuthAPIServer token2 cas
        ++ vpnSecretConfigs c cas ++ b.loggingSecretConfigs c h cas
        ++ b.vpaSecretConfigs c cas,
      ∀ cc, cfg.certificateConfig = some cc →
        ∃ k ∈ (wantedCertificateAuthorities c).map Prod.fst, cc.SigningCA = cas k := by
  simp [Botanist.kubecfgSecretConfig, Botanist.dependencyWatchdogSecretConfigs,
    Botanist.konnectivitySecretConfigs, vpnSecretConfigs, Botanist.loggingSecretConfigs,
    Botanist.vpaSecretConfigs, secrets.ConfigInterface.certificateConfig,
    wantedCertificateAuthorities]

/-- C10: every certificate config in the catalog returned by `generateWantedSecretConfigs`
takes its `SigningCA` from the passed CA map under a key that is one of the five names of
`wantedCertificateAuthorities`; so whenever that map holds a non-nil CA for each of the
five names, every certificate config in the catalog has a non-nil `SigningCA`.  Every entry
of `wantedCertificateAuthorities` has `CertType` CA, no `SigningCA`, and a `Name` equal to
its map key. -/
theorem catalog_signed_by_wanted_CAs (c : Constants) (h : Helpers) (b : Botanist)
    (basicAuthAPIServer : Option secrets.BasicAuth) (staticToken : Option secrets.StaticToken)
    (certificateAuthorities : String → Option secrets.Certificate)
    (l : List secrets.ConfigInterface)
    (hok : b.generateWantedSecretConfigs c h basicAuthAPIServer staticToken
      certificateAuthorities = .returned (l, none)) :
    (∀ cfg ∈ l, ∀ cc, cfg.certificateConfig = some cc →
        ∃ k ∈ (wantedCertificateAuthorities c).map Prod.fst,
          cc.SigningCA = certificateAuthorities k)
      ∧ ((∀ k ∈ (wantedCertificateAuthorities c).map Prod.fst,
            certificateAuthorities k ≠ none) →
          ∀ cfg ∈ l, ∀ cc, cfg.certificateConfig = some cc → cc.SigningCA ≠ none)
      ∧ (∀ kv ∈ wantedCertificateAuthorities c,
          kv.2.CertType = .CACert ∧ kv.2.SigningCA = none ∧ kv.2.Name = kv.1) := by
  have hsigned : ∀ cfg ∈ l, ∀ cc, cfg.certificateConfig = some cc →
      ∃ k ∈ (wantedCertificateAuthorities c).map Prod.fst,
        cc.SigningCA = certificateAuthorities k := by
    obtain ⟨ips, dns, kubecfgToken, tunnel, hl, htun⟩ :=
      generateWantedSecretConfigs_success c h b basicAuthAPIServer staticToken
        certificateAuthorities l hok
    intro cfg hcfg
    have hinit := initialSecretList_signed c h b certificateAuthorities ips dns
    have happ : ∀ token2, ∀ cfg ∈ [b.kubecfgSecretConfig c h basicAuthAPIServer kubecfgToken
          certificateAuthorities]
        ++ b.dependencyWatchdogSecretConfigs c h certificateAuthorities
        ++ b.konnectivitySecretConfigs c h basicAuthAPIServer token2 certificateAuthorities
        ++ vpnSecretConfigs c certificateAuthorities
        ++ b.loggingSecretConfigs c h certificateAuthorities
        ++ b.vpaSecretConfigs c certificateAuthorities,
        ∀ cc, cfg.certificateConfig = some cc →
          ∃ k ∈ (wantedCertificateAuthorities c).map Prod.fst,
            cc.SigningCA = certificateAuthorities k :=
      fun token2 => appendedSecretConfigs_signed c h b basicAuthAPIServer kubecfgToken token2
        certificateAuthorities
    have hcases : cfg ∈ b.initialSecretList c h certificateAuthorities ips dns
        ∨ ∃ token2, cfg ∈ [b.kubecfgSecretConfig c h basicAuthAPIServer kubecfgToken
          certificateAuthorities]
        ++ b.dependencyWatchdogSecretConfigs c h certificateAuthorities
        ++ b.konnectivitySecretConfigs c h basicAuthAPIServer token2 certificateAuthorities
        ++ vpnSecretConfigs c certificateAuthorities
        ++ b.loggingSecretConfigs c h certificateAuthorities
        ++ b.vpaSecretConfigs c certificateAuthorities := by
      rw [hl] at hcfg
      unfold Botanist.withOptionalSecretConfigs at hcfg
      have hopt : cfg ∈ b.initialSecretList c h certificateAuthorities ips dns
            ++ [b.kubecfgSecretConfig c h basicAuthAPIServer kubecfgToken
                  certificateAuthorities]
            ++ b.dependencyWatchdogSecretConfigs c h certificateAuthorities ++ tunnel
          ∨ cfg ∈ b.loggingSecretConfigs c h certificateAuthorities
          ∨ cfg ∈ b.vpaSecretConfigs c certificateAuthorities := by
        simp only at hcfg
        split_ifs at hcfg <;> simp only [List.mem_append] at hcfg ⊢ <;> tauto
      rcases htun with ⟨_, token2, ht⟩ | ⟨_, ht⟩
      · rw [ht] at hopt
        simp only [List.mem_append] at hopt ⊢
        rcases hopt with (((hi | hk) | hd) | htn) | hlg | hv
        · exact Or.inl hi
        · exact Or.inr ⟨token2, by tauto⟩
        · exact Or.inr ⟨token2, by tauto⟩
        · exact Or.inr ⟨token2, by tauto⟩
        · exact Or.inr ⟨token2, by tauto⟩
        · exact Or.inr ⟨token2, by tauto⟩
      · rw [ht] at hopt
        simp only [List.mem_append] at hopt ⊢
        rcases hopt with (((hi | hk) | hd) | htn) | hlg | hv
        · exact Or.inl hi
        · exact Or.inr ⟨none, by tauto⟩
        · exact Or.inr ⟨none, by tauto⟩
        · exact Or.inr ⟨none, by tauto⟩
        · exact Or.inr ⟨none, by tauto⟩
        · exact Or.inr ⟨none, by tauto⟩
    rcases hcases with hi | ⟨token2, ha⟩
    · exact hinit cfg hi
    · exact happ token2 cfg ha
  refine ⟨hsigned, ?_, ?_⟩
  · intro hall cfg hcfg cc hcc
    obtain ⟨k, hk, hsig⟩ := hsigned cfg hcfg cc hcc
    rw [hsig]
    exact hall k hk
  · simp [wantedCertificateAuthorities]

/-- Witness for C10: with the sample CA map, which holds a CA under each of the five names,
every certificate config of the sample catalog has a signing CA. -/
theorem catalog_signed_by_wanted_CAs_witness :
    (∀ k ∈ (wantedCertificateAuthorities upstreamConstants).map Prod.fst,
        sampleCertificateAuthorities k ≠ none)
      ∧ (∀ cfg ∈ alwaysConfigsOfSample ++ vpnSecretConfigs upstreamConstants
          sampleCertificateAuthorities,
        ∀ cc, cfg.certificateConfig = some cc → cc.SigningCA ≠ none) :=
  ⟨by decide,
    (catalog_signed_by_wanted_CAs upstreamConstants sampleHelpers sampleBotanist none
      (some sampleStaticToken) sampleCertificateAuthorities
      (alwaysConfigsOfSample ++ vpnSecretConfigs upstreamConstants
        sampleCertificateAuthorities)
      (by decide)).2.1 (by decide)⟩

/-! ## Not-found on delete -/

theorem IgnoreNotFound_ne_notFound (e : Option Err) : IgnoreNotFound e ≠ some .notFound := by
  unfold IgnoreNotFound
  split
  · simp
  · rename_i hne
    intro heq
    exact hne heq

/-- The shared loop of `rotateKubeconfigSecrets`, `deleteBasicAuthDependantSecrets` and
`cleanupTunnelSecrets` never returns a not-found error. -/
theorem deleteSecretsAndEntries_ignores_notFound (b : Botanist) (names : List String)
    (l : GardenerResourceDataList) (w : World) :
    (b.deleteSecretsAndEntries names l w).1 ≠ some .notFound := by
  induction names generalizing l w with
  | nil => simp [Botanist.deleteSecretsAndEntries]
  | cons n rest ih =>
    simp only [Botanist.deleteSecretsAndEntries]
    rcases hd : SeedClient.Delete w b.Shoot.SeedNamespace n with ⟨err, w1⟩
    simp only
    cases hi : IgnoreNotFound err with
    | some e =>
      simp only
      intro heq
      rw [heq] at hi
      simp [IgnoreNotFound] at hi
    | none =>
      simp only
      exact ih _ _

theorem flow.Parallel_ne_notFound (fns : List TaskFn)
    (hfns : ∀ fn ∈ fns, ∀ w, (fn w).1 ≠ some .notFound) (w : World) :
    (flow.Parallel fns w).1 ≠ some .notFound := by
  induction fns generalizing w with
  | nil => simp [flow.Parallel]
  | cons fn fns ih =>
    simp only [flow.Parallel]
    have h1 := hfns fn (List.mem_cons_self _ _) w
    have h2 := ih (fun f hf => hfns f (List.mem_cons_of_mem _ hf)) (fn w).2
    rcases hfn : fn w with ⟨e, w1⟩
    rw [hfn] at h1 h2
    simp only at h1 h2 ⊢
    rcases hp : flow.Parallel fns w1 with ⟨e2, w2⟩
    rw [hp] at h2
    simp only at h2 ⊢
    cases e with
    | none => simpa [Option.orElse] using h2
    | some err => simpa [Option.orElse] using h1

/-- The deletes of `deleteStaleSecretsMatchLabel` and `deleteLegacyCloudConfigSecret` never
surface a not-found error either. -/
theorem seed_deletes_ignore_notFound (b : Botanist) (labels : List (String × String))
    (wantedSecretNames : List String) (w : World) :
    (b.deleteStaleSecretsMatchLabel labels wantedSecretNames w).1 ≠ some .notFound
      ∧ (b.deleteLegacyCloudConfigSecret w).1 ≠ some .notFound := by
  constructor
  · unfold Botanist.deleteStaleSecretsMatchLabel SeedClient.List
    rcases hf : w.nextFault with ⟨f, w1⟩
    cases f with
    | some msg => simp
    | none =>
      simp only
      apply flow.Parallel_ne_notFound
      intro fn hfn w2
      simp only [List.mem_map] at hfn
      obtain ⟨secret, _, rfl⟩ := hfn
      exact IgnoreNotFound_ne_notFound _
  · unfold Botanist.deleteLegacyCloudConfigSecret
    exact IgnoreNotFound_ne_notFound _

/-- C11 (failing input): in `generateCoreAddonsChart`, lines 460-470, the shoot-side secret
`vpn-shoot` is read successfully, another actor deletes it, and the delete call then
reports not-found: this error is returned, not treated as success.  When the secret is
absent already at the read, the step goes on without an error. -/
theorem vpnShoot_delete_returns_notFound :
    (GetSecretFromSecretRef racingShootWorld metav1.NamespaceSystem "vpn-shoot").1
        = (some { Name := "vpn-shoot", Namespace := "kube-system" }, none)
      ∧ (generateCoreAddonsChart_deleteVPNShoot racingShootWorld).1 = some Err.notFound
      ∧ (generateCoreAddonsChart_deleteVPNShoot cleanShootWorld).1 = none := by
  decide

/-! ## A failing `Generate` -/

theorem TryUpdateShootAnnotations_states (w : World)
    (f : List (String × String) → List (String × String)) :
    (TryUpdateShootAnnotations w f).2.gardenShootStates = w.gardenShootStates := by
  have h3 := nextFault_gardenShootStates w
  unfold TryUpdateShootAnnotations
  rcases hf : w.nextFault with ⟨flt, w1⟩
  rw [hf] at h3
  cases flt <;> simpa using h3

theorem preGeneration_gardenShootStates (c : Constants) (h : Helpers) (b : Botanist)
    (w w3 : World) (l3 : GardenerResourceDataList)
    (hok : b.preGeneration c h w = (none, l3, w3)) :
    w3.gardenShootStates = w.gardenShootStates := by
  unfold Botanist.preGeneration at hok
  rcases hr : b.rotateStep c h b.ShootState.SpecGardener w with ⟨e1, l1, w1⟩
  rw [hr] at hok
  cases e1 with
  | some err => simp at hok
  | none =>
    simp only at hok
    have hw1 : w1.gardenShootStates = w.gardenShootStates := by
      unfold Botanist.rotateStep at hr
      split_ifs at hr
      · unfold Botanist.rotateKubeconfigSecrets at hr
        rcases hd : b.deleteSecretsAndEntries
            [c.StaticTokenSecretName, c.BasicAuthSecretName, c.KubecfgSecretName]
            b.ShootState.SpecGardener w with ⟨e0, l0, w0⟩
        rw [hd] at hr
        cases e0 with
        | some err => simp at hr
        | none =>
          simp only at hr
          obtain ⟨_, _, _, hs⟩ := deleteSecretsAndEntries_ok b _ _ l0 w w0 hd
          have hu := TryUpdateShootAnnotations_states w0 (fun annotations =>
            mapDelete (mapDelete annotations c.GardenerOperation) c.ShootOperationDeprecated)
          simp only [Prod.mk.injEq] at hr
          rw [← hr.2.2, hu, hs]
      · simp only [Prod.mk.injEq, true_and] at hr
        rw [← hr.2]
    rcases ht : b.tunnelStep c l1 w1 with ⟨e2, l2, w2⟩
    rw [ht] at hok
    cases e2 with
    | some err => simp at hok
    | none =>
      simp only at hok
      rw [tunnelStep_eq] at ht
      obtain ⟨_, _, _, hs2⟩ := deleteSecretsAndEntries_ok b _ l1 l2 w1 w2 ht
      have hw3 : w3.gardenShootStates = w2.gardenShootStates := by
        by_cases hne : h.ShootWantsBasicAuthentication b.Shoot.Info
            = (GardenerResourceDataList.Get l2 c.BasicAuthSecretName).isSome
        · rw [(basicAuthStep_eq c h b l2 w2).2 hne] at hok
          simp only [Prod.mk.injEq, true_and] at hok
          rw [← hok.2]
        · rw [(basicAuthStep_eq c h b l2 w2).1 hne, Botanist.deleteBasicAuthDependantSecrets]
            at hok
          exact (deleteSecretsAndEntries_ok b _ l2 l3 w2 w3 hok).2.2.2
      rw [hw3, hs2, hw1]

/-- C12: if the `Generate` step of the Secrets Manager fails in `GenerateAndSaveSecrets`,
the pass returns that error, leaves the botanist (and so `b.ShootState`) as it was, and
ends in the world that the pre-generation phase left: no create-or-update call is made, and
the ShootState objects of the garden cluster are those from before the pass. -/
theorem generate_failure_persists_nothing (c : Constants) (h : Helpers) (b : Botanist)
    (w w1 : World) (l : GardenerResourceDataList)
    (generate : SecretsManager → Option Err × SecretsManager) (err : Err)
    (sm : SecretsManager)
    (hpre : b.preGeneration c h w = (none, l, w1))
    (hgen : generate (b.secretsManagerForGenerate c h l) = (some err, sm)) :
    b.GenerateAndSaveSecrets c h generate w = (some err, b, w1)
      ∧ w1.gardenShootStates = w.gardenShootStates := by
  refine ⟨?_, preGeneration_gardenShootStates c h b w w1 l hpre⟩
  unfold Botanist.GenerateAndSaveSecrets
  rw [hpre]
  unfold Botanist.secretsManagerForGenerate at hgen
  simp only at hgen ⊢
  by_cases hb : h.ShootWantsBasicAuthentication b.Shoot.Info = true
  · simp only [hb, if_true] at hgen ⊢
    rw [hgen]
  · simp only [hb, Bool.false_eq_true, if_false] at hgen ⊢
    rw [hgen]

/-- Witness for C12: for the sample shoot a `Generate` that fails with the missing-token
error of the catalog makes the pass return that error with the botanist unchanged. -/
theorem generate_failure_persists_nothing_witness :
    sampleBotanist.GenerateAndSaveSecrets upstreamConstants sampleHelpers missingTokenGenerate
        sampleWorld
      = (some (Err.tokenNotFound "system:cluster-admin"), sampleBotanist,
          (sampleBotanist.preGeneration upstreamConstants sampleHelpers sampleWorld).2.2) :=
  (generate_failure_persists_nothing upstreamConstants sampleHelpers sampleBotanist
    sampleWorld (sampleBotanist.preGeneration upstreamConstants sampleHelpers sampleWorld).2.2
    (sampleBotanist.preGeneration upstreamConstants sampleHelpers sampleWorld).2.1
    missingTokenGenerate (Err.tokenNotFound "system:cluster-admin")
    (sampleBotanist.secretsManagerForGenerate upstreamConstants sampleHelpers
      (sampleBotanist.preGeneration upstreamConstants sampleHelpers sampleWorld).2.1)
    (by decide) (by decide)).1

/-! ## The frame of the cleanups -/

/-- Whatever its outcome, the shared loop yields the ledger without the entries of some of
the given names. -/
theorem deleteSecretsAndEntries_ledger (b : Botanist) (names : List String)
    (l : GardenerResourceDataList) (w : World) :
    ∃ removed : List String, (∀ n ∈ removed, n ∈ names)
      ∧ (b.deleteSecretsAndEntries names l w).2.1
          = l.filter (fun e => !removed.contains e.Name) := by
  induction names generalizing l w with
  | nil => exact ⟨[], by simp, by simp [Botanist.deleteSecretsAndEntries]⟩
  | cons n rest ih =>
    simp only [Botanist.deleteSecretsAndEntries]
    rcases hd : SeedClient.Delete w b.Shoot.SeedNamespace n with ⟨err, w1⟩
    simp only
    cases hi : IgnoreNotFound err with
    | some e => exact ⟨[], by simp, by simp⟩
    | none =>
      simp only
      obtain ⟨removed, hsub, heq⟩ := ih (GardenerResourceDataList.Delete l n) w1
      refine ⟨n :: removed, ?_, ?_⟩
      · intro m hm
        rcases List.mem_cons.1 hm with rfl | hm2
        · exact List.mem_cons_self _ _
        · exact List.mem_cons_of_mem _ (hsub m hm2)
      · rw [heq, GardenerResourceDataList.Delete, List.filter_filter]
        apply List.filter_congr
        intro e _
        simp only [List.contains_cons, bne]
        cases (e.Name == n) <;> cases (removed.contains e.Name) <;> rfl

theorem filter_removed_twice (l : GardenerResourceDataList) (r1 r2 : List String) :
    (l.filter (fun e => !r1.contains e.Name)).filter (fun e => !r2.contains e.Name)
      = l.filter (fun e => !(r1 ++ r2).contains e.Name) := by
  rw [List.filter_filter]
  apply List.filter_congr
  intro e _
  have happ : (r1 ++ r2).contains e.Name = (r1.contains e.Name || r2.contains e.Name) := by
    rw [Bool.eq_iff_iff]
    simp
  rw [happ]
  cases (r1.contains e.Name) <;> cases (r2.contains e.Name) <;> rfl

/-- Whatever its outcome, each step of the pre-generation phase yields the ledger without
the entries of some of its own names. -/
theorem steps_ledger (c : Constants) (h : Helpers) (b : Botanist)
    (l : GardenerResourceDataList) (w : World) :
    (∃ removed : List String,
        (∀ n ∈ removed,
          n ∈ [c.StaticTokenSecretName, c.BasicAuthSecretName, c.KubecfgSecretName])
        ∧ (b.rotateStep c h l w).2.1 = l.filter (fun e => !removed.contains e.Name))
      ∧ (∃ removed : List String, (∀ n ∈ removed, n ∈ b.tunnelCleanupNames c)
        ∧ (b.tunnelStep c l w).2.1 = l.filter (fun e => !removed.contains e.Name))
      ∧ (∃ removed : List String,
        (∀ n ∈ removed, n ∈ [c.BasicAuthSecretName, c.KubecfgSecretName])
        ∧ (b.basicAuthStep c h l w).2.1 = l.filter (fun e => !removed.contains e.Name)) := by
  refine ⟨?_, ?_, ?_⟩
  · unfold Botanist.rotateStep
    split_ifs
    · unfold Botanist.rotateKubeconfigSecrets
      obtain ⟨removed, hsub, heq⟩ := deleteSecretsAndEntries_ledger b
        [c.StaticTokenSecretName, c.BasicAuthSecretName, c.KubecfgSecretName] l w
      refine ⟨removed, hsub, ?_⟩
      rcases hd : b.deleteSecretsAndEntries
          [c.StaticTokenSecretName, c.BasicAuthSecretName, c.KubecfgSecretName] l w
        with ⟨e0, l0, w0⟩
      rw [hd] at heq
      cases e0 <;> simpa using heq
    · exact ⟨[], by simp, by simp⟩
  · rw [tunnelStep_eq]
    exact deleteSecretsAndEntries_ledger b _ l w
  · by_cases hne : h.ShootWantsBasicAuthentication b.Shoot.Info
        = (GardenerResourceDataList.Get l c.BasicAuthSecretName).isSome
    · rw [(basicAuthStep_eq c h b l w).2 hne]
      exact ⟨[], by simp, by simp⟩
    · rw [(basicAuthStep_eq c h b l w).1 hne, Botanist.deleteBasicAuthDependantSecrets]
      exact deleteSecretsAndEntries_ledger b _ l w

theorem tunnelCleanupNames_subset (c : Constants) (b : Botanist) :
    ∀ n ∈ b.tunnelCleanupNames c, n ∈ cleanupSecretNames c := by
  intro n hn
  unfold Botanist.tunnelCleanupNames at hn
  unfold cleanupSecretNames
  split_ifs at hn <;> simp only [List.mem_cons, List.mem_singleton, List.not_mem_nil,
    or_false] at hn ⊢ <;> tauto

/-- C13: for every shoot, ledger and outcome of the cleanups, the ledger that the
pre-generation phase of `GenerateAndSaveSecrets` yields is the starting ledger without the
entries of some names among `StaticTokenSecretName`, `BasicAuthSecretName`,
`KubecfgSecretName`, `vpn-seed`, `vpn-seed-tlsauth`, `vpn-shoot`,
`KonnectivityServerKubeconfig` and `KonnectivityServerCertName`; every entry with another
name is kept as it is.  In particular the entries of the five wanted CAs and of the RSA
keys `ssh-keypair` and `service-account-key`, their names being none of the eight, reach
the Secrets Manager unchanged. -/
theorem cleanups_remove_only_credentials_and_tunnel_entries (c : Constants) (h : Helpers)
    (b : Botanist) (w : World) :
    (∃ removed : List String, (∀ n ∈ removed, n ∈ cleanupSecretNames c)
        ∧ (b.preGeneration c h w).2.1
            = b.ShootState.SpecGardener.filter (fun e => !removed.contains e.Name))
      ∧ (∀ e ∈ b.ShootState.SpecGardener, e.Name ∉ cleanupSecretNames c →
          e ∈ (b.preGeneration c h w).2.1)
      ∧ (∀ n ∈ (wantedCertificateAuthorities c).map Prod.fst
              ++ [c.SecretNameSSHKeyPair, "service-account-key"],
          n ∉ cleanupSecretNames c →
          ∀ e ∈ b.ShootState.SpecGardener, e.Name = n → e ∈ (b.preGeneration c h w).2.1) := by
  have hmain : ∃ removed : List String, (∀ n ∈ removed, n ∈ cleanupSecretNames c)
      ∧ (b.preGeneration c h w).2.1
          = b.ShootState.SpecGardener.filter (fun e => !removed.contains e.Name) := by
    have hrot : ∀ n ∈ [c.StaticTokenSecretName, c.BasicAuthSecretName, c.KubecfgSecretName],
        n ∈ cleanupSecretNames c := by
      intro n hn
      unfold cleanupSecretNames
      simp only [List.mem_cons, List.mem_singleton, List.not_mem_nil, or_false] at hn ⊢
      tauto
    have hba : ∀ n ∈ [c.BasicAuthSecretName, c.KubecfgSecretName],
        n ∈ cleanupSecretNames c := by
      intro n hn
      unfold cleanupSecretNames
      simp only [List.mem_cons, List.mem_singleton, List.not_mem_nil, or_false] at hn ⊢
      tauto
    unfold Botanist.preGeneration
    obtain ⟨r1, hs1, h1⟩ := (steps_ledger c h b b.ShootState.SpecGardener w).1
    rcases hr : b.rotateStep c h b.ShootState.SpecGardener w with ⟨e1, l1, w1⟩
    rw [hr] at h1
    simp only at h1
    cases e1 with
    | some err => exact ⟨r1, fun n hn => hrot n (hs1 n hn), h1⟩
    | none =>
      simp only
      obtain ⟨r2, hs2, h2⟩ := (steps_ledger c h b l1 w1).2.1
      rcases ht : b.tunnelStep c l1 w1 with ⟨e2, l2, w2⟩
      rw [ht] at h2
      simp only at h2
      cases e2 with
      | some err =>
        refine ⟨r1 ++ r2, ?_, ?_⟩
        · intro n hn
          rcases List.mem_append.1 hn with hn1 | hn2
          · exact hrot n (hs1 n hn1)
          · exact tunnelCleanupNames_subset c b n (hs2 n hn2)
        · simp only
          rw [h2, h1, filter_removed_twice]
      | none =>
        simp only
        obtain ⟨r3, hs3, h3⟩ := (steps_ledger c h b l2 w2).2.2
        refine ⟨r1 ++ r2 ++ r3, ?_, ?_⟩
        · intro n hn
          rcases List.mem_append.1 hn with hn12 | hn3
          · rcases List.mem_append.1 hn12 with hn1 | hn2
            · exact hrot n (hs1 n hn1)
            · exact tunnelCleanupNames_subset c b n (hs2 n hn2)
          · exact hba n (hs3 n hn3)
        · rw [h3, h2, h1, filter_removed_twice, filter_removed_twice, List.append_assoc]
  have hkept : ∀ e ∈ b.ShootState.SpecGardener, e.Name ∉ cleanupSecretNames c →
      e ∈ (b.preGeneration c h w).2.1 := by
    intro e he hname
    obtain ⟨removed, hsub, heq⟩ := hmain
    rw [heq]
    apply List.mem_filter.2
    refine ⟨he, ?_⟩
    have : e.Name ∉ removed := fun hmem => hname (hsub _ hmem)
    simpa using this
  refine ⟨hmain, hkept, ?_⟩
  intro n _ hn e he hname
  exact hkept e he (by rw [hname]; exact hn)

/-- Witness for C13: in the sample pass the entry of the cluster CA, whose name is none of
the eight, reaches the Secrets Manager. -/
theorem cleanups_remove_only_credentials_and_tunnel_entries_witness :
    ({ Name := "ca", ResourceType := "secret", Data := "ca-material" } : GardenerResourceData)
      ∈ (sampleBotanist.preGeneration upstreamConstants sampleHelpers sampleWorld).2.1 :=
  (cleanups_remove_only_credentials_and_tunnel_entries upstreamConstants sampleHelpers
    sampleBotanist sampleWorld).2.2 "ca" (by decide) (by decide) _ (by decide) rfl

/-! ## The tunnel cleanup -/

/-- C14: on every `GenerateAndSaveSecrets` call for a shoot whose `DeletionTimestamp` is
nil, a successful tunnel cleanup removes from the ledger and from the seed namespace exactly
the family that is not configured (`vpn-seed`, `vpn-seed-tlsauth`, `vpn-shoot` with
`KonnectivityTunnelEnabled`; `KonnectivityServerKubeconfig` and `KonnectivityServerCertName`
without) and, the two families being disjoint, never a member of the configured family; for
a shoot whose `DeletionTimestamp` is set the tunnel cleanup deletes nothing. -/
theorem tunnel_cleanup_removes_unconfigured_family (c : Constants) (b : Botanist)
    (l : GardenerResourceDataList) (w : World)
    (hdisj : ∀ n ∈ [c.KonnectivityServerKubeconfig, c.KonnectivityServerCertName],
      n ∉ ["vpn-seed", "vpn-seed-tlsauth", "vpn-shoot"]) :
    (b.Shoot.Info.DeletionTimestamp = none → ∀ l2 w2, b.tunnelStep c l w = (none, l2, w2) →
        l2 = l.filter (fun e => !(List.contains
              (if b.Shoot.KonnectivityTunnelEnabled
                then ["vpn-seed", "vpn-seed-tlsauth", "vpn-shoot"]
                else [c.KonnectivityServerKubeconfig, c.KonnectivityServerCertName]) e.Name))
        ∧ w2.seedSecrets = w.seedSecrets.filter (fun s =>
            !(s.Namespace == b.Shoot.SeedNamespace && List.contains
              (if b.Shoot.KonnectivityTunnelEnabled
                then ["vpn-seed", "vpn-seed-tlsauth", "vpn-shoot"]
                else [c.KonnectivityServerKubeconfig, c.KonnectivityServerCertName]) s.Name))
        ∧ (∀ e ∈ l, e.Name ∈ (if b.Shoot.KonnectivityTunnelEnabled
                then [c.KonnectivityServerKubeconfig, c.KonnectivityServerCertName]
                else ["vpn-seed", "vpn-seed-tlsauth", "vpn-shoot"]) → e ∈ l2)
        ∧ (∀ s ∈ w.seedSecrets, s.Name ∈ (if b.Shoot.KonnectivityTunnelEnabled
                then [c.KonnectivityServerKubeconfig, c.KonnectivityServerCertName]
                else ["vpn-seed", "vpn-seed-tlsauth", "vpn-shoot"]) → s ∈ w2.seedSecrets))
      ∧ (b.Shoot.Info.DeletionTimestamp ≠ none → b.tunnelStep c l w = (none, l, w)) := by
  constructor
  · intro hdel l2 w2 hok
    rw [tunnelStep_eq] at hok
    obtain ⟨h1, h2, _, _⟩ := deleteSecretsAndEntries_ok b _ l l2 w w2 hok
    unfold Botanist.tunnelCleanupNames at h1 h2
    simp only [hdel, if_true] at h1 h2
    refine ⟨h1, h2, ?_, ?_⟩
    · intro e he hconf
      rw [h1]
      apply List.mem_filter.2
      refine ⟨he, ?_⟩
      by_cases hk : b.Shoot.KonnectivityTunnelEnabled = true
      · simp only [hk, if_true] at hconf ⊢
        have := hdisj _ hconf
        simpa using this
      · simp only [hk, Bool.false_eq_true, if_false] at hconf ⊢
        have : e.Name ∉ [c.KonnectivityServerKubeconfig, c.KonnectivityServerCertName] :=
          fun hmem => hdisj _ hmem hconf
        simpa using this
    · intro s hs hconf
      rw [h2]
      apply List.mem_filter.2
      refine ⟨hs, ?_⟩
      by_cases hk : b.Shoot.KonnectivityTunnelEnabled = true
      · simp only [hk, if_true] at hconf ⊢
        have := hdisj _ hconf
        simp only [List.mem_cons, List.mem_singleton, List.not_mem_nil, or_false,
          not_or] at this
        simp [this]
      · simp only [hk, Bool.false_eq_true, if_false] at hconf ⊢
        have : s.Name ∉ [c.KonnectivityServerKubeconfig, c.KonnectivityServerCertName] :=
          fun hmem => hdisj _ hmem hconf
        simp only [List.mem_cons, List.mem_singleton, List.not_mem_nil, or_false,
          not_or] at this
        simp [this]
  · intro hdel
    simp [Botanist.tunnelStep, hdel]

/-- Witness for C14: for the sample shoot (OpenVPN tunnel, no deletion timestamp) the
tunnel cleanup removes the konnectivity entry and keeps the `vpn-seed` entry. -/
theorem tunnel_cleanup_removes_unconfigured_family_witness :
    sampleLedgerAfterTunnelCleanup = sampleLedgerAfterRotation.filter (fun e =>
        !(List.contains
          (if sampleBotanist.Shoot.KonnectivityTunnelEnabled
            then ["vpn-seed", "vpn-seed-tlsauth", "vpn-shoot"]
            else [upstreamConstants.KonnectivityServerKubeconfig,
                  upstreamConstants.KonnectivityServerCertName]) e.Name)) :=
  ((tunnel_cleanup_removes_unconfigured_family upstreamConstants sampleBotanist
    sampleLedgerAfterRotation sampleWorldAfterRotation (by decide)).1 (by decide)
    sampleLedgerAfterTunnelCleanup sampleWorldAfterTunnelCleanup (by decide)).1

/-! ## Maps as association lists -/

theorem lookup_cons_eq {β : Type} (k0 : String) (v0 : β) (m : List (String × β)) (k : String) :
    ((k0, v0) :: m).lookup k = if k = k0 then some v0 else m.lookup k := by
  by_cases hk : k = k0
  · subst hk
    simp [List.lookup]
  · have : (k == k0) = false := by simpa using hk
    simp [List.lookup, this, hk]

theorem lookup_replace {β : Type} (m : List (String × β)) (k : String) (v : β) (k2 : String) :
    (m.map (fun kv => if kv.1 == k then (k, v) else kv)).lookup k2
      = if k2 = k then (if m.any (fun kv => kv.1 == k) then some v else none)
        else m.lookup k2 := by
  induction m with
  | nil => simp
  | cons kv m ih =>
    obtain ⟨k0, v0⟩ := kv
    by_cases h0 : k0 = k
    · subst h0
      simp only [List.map_cons, beq_self_eq_true, if_true, lookup_cons_eq, List.any_cons,
        Bool.true_or]
      by_cases hk : k2 = k0
      · simp [hk]
      · simp only [hk, if_false]
        rw [ih]
        simp [hk]
    · have hb : (k0 == k) = false := by simpa using h0
      simp only [List.map_cons, hb, Bool.false_eq_true, if_false, lookup_cons_eq, List.any_cons,
        Bool.false_or]
      by_cases hk : k2 = k0
      · have hk2 : k2 ≠ k := by rw [hk]; exact h0
        simp [hk, h0]
      · simp only [hk, if_false]
        rw [ih]

theorem lookup_append_single {β : Type} (m : List (String × β)) (k : String) (v : β)
    (k2 : String) :
    (m ++ [(k, v)]).lookup k2
      = match m.lookup k2 with
        | some x => some x
        | none => if k2 = k then some v else none := by
  induction m with
  | nil => simp [lookup_cons_eq]
  | cons kv m ih =>
    obtain ⟨k0, v0⟩ := kv
    simp only [List.cons_append, lookup_cons_eq]
    by_cases hk : k2 = k0
    · simp [hk]
    · simp only [hk, if_false]
      exact ih

theorem lookup_eq_none_of_not_any {β : Type} (m : List (String × β)) (k : String)
    (h : m.any (fun kv => kv.1 == k) = false) : m.lookup k = none := by
  induction m with
  | nil => rfl
  | cons kv m ih =>
    obtain ⟨k0, v0⟩ := kv
    simp only [List.any_cons, Bool.or_eq_false_iff] at h
    have hne : k ≠ k0 := by
      have := h.1
      simp only [beq_eq_false_iff_ne, ne_eq] at this
      exact fun heq => this heq.symm
    rw [lookup_cons_eq]
    simp only [hne, if_false]
    exact ih h.2

theorem lookup_mapInsert {β : Type} (m : List (String × β)) (k : String) (v : β)
    (k2 : String) :
    (mapInsert m k v).lookup k2 = if k2 = k then some v else m.lookup k2 := by
  unfold mapInsert
  by_cases hany : m.any (fun kv => kv.1 == k) = true
  · simp only [hany, if_true]
    rw [lookup_replace]
    simp [hany]
  · have hany2 : m.any (fun kv => kv.1 == k) = false := Bool.eq_false_iff.2 hany
    simp only [hany, Bool.false_eq_true, if_false]
    rw [lookup_append_single]
    by_cases hk : k2 = k
    · subst hk
      rw [lookup_eq_none_of_not_any m k2 hany2]
    · simp only [hk, if_false]
      cases m.lookup k2 <;> simp

theorem keys_mapInsert {β : Type} (m : List (String × β)) (k : String) (v : β) :
    (mapInsert m k v).map Prod.fst
      = if m.any (fun kv => kv.1 == k) then m.map Prod.fst else m.map Prod.fst ++ [k] := by
  unfold mapInsert
  by_cases hany : m.any (fun kv => kv.1 == k) = true
  · simp only [hany, if_true, List.map_map]
    apply List.map_congr_left
    intro kv _
    by_cases hk : kv.1 = k
    · simp [hk]
    · simp [hk]
  · simp [hany]

theorem nodup_keys_mapInsert {β : Type} (m : List (String × β)) (k : String) (v : β)
    (hm : (m.map Prod.fst).Nodup) : ((mapInsert m k v).map Prod.fst).Nodup := by
  rw [keys_mapInsert]
  by_cases hany : m.any (fun kv => kv.1 == k) = true
  · simp only [hany, if_true]
    exact hm
  · simp only [hany, Bool.false_eq_true, if_false]
    rw [List.nodup_append]
    refine ⟨hm, List.nodup_singleton _, ?_⟩
    intro a ha hb
    simp only [List.mem_singleton] at hb
    subst hb
    apply hany
    simp only [List.mem_map] at ha
    obtain ⟨kv, hkv, hfst⟩ := ha
    rw [List.any_eq_true]
    exact ⟨kv, hkv, by simp [hfst]⟩

theorem nodup_keys_foldl_mapInsert {α β : Type} (xs : List (String × α)) (f : α → β)
    (acc : List (String × β)) (hacc : (acc.map Prod.fst).Nodup) :
    ((xs.foldl (fun acc kv => mapInsert acc kv.1 (f kv.2)) acc).map Prod.fst).Nodup := by
  induction xs generalizing acc with
  | nil => exact hacc
  | cons x xs ih =>
    simp only [List.foldl_cons]
    exact ih _ (nodup_keys_mapInsert acc x.1 (f x.2) hacc)

theorem lookup_eq_none_of_not_mem_keys {β : Type} (m : List (String × β)) (k : String)
    (h : k ∉ m.map Prod.fst) : m.lookup k = none := by
  apply lookup_eq_none_of_not_any
  rw [List.any_eq_false]
  intro kv hkv hk
  apply h
  simp only [beq_iff_eq] at hk
  exact List.mem_map.2 ⟨kv, hkv, hk⟩

/-- Folding inserts over a map without duplicate keys: a key of that map gets the image of
its value, any other key keeps its entry. -/
theorem lookup_foldl_mapInsert {α β : Type} (xs : List (String × α)) (f : α → β)
    (hxs : (xs.map Prod.fst).Nodup) (acc : List (String × β)) (k : String) :
    (xs.foldl (fun acc kv => mapInsert acc kv.1 (f kv.2)) acc).lookup k
      = match xs.lookup k with
        | some v => some (f v)
        | none => acc.lookup k := by
  induction xs generalizing acc with
  | nil => simp
  | cons x xs ih =>
    obtain ⟨k0, v0⟩ := x
    simp only [List.map_cons, List.nodup_cons] at hxs
    simp only [List.foldl_cons]
    rw [ih hxs.2, lookup_cons_eq, lookup_mapInsert]
    by_cases hk : k = k0
    · subst hk
      rw [lookup_eq_none_of_not_mem_keys xs k hxs.1]
      simp
    · simp [hk]

theorem lookup_of_mem_nodup {β : Type} (m : List (String × β))
    (hm : (m.map Prod.fst).Nodup) (k : String) (v : β) (hmem : (k, v) ∈ m) :
    m.lookup k = some v := by
  induction m with
  | nil => simp at hmem
  | cons kv m ih =>
    obtain ⟨k0, v0⟩ := kv
    simp only [List.map_cons, List.nodup_cons] at hm
    rw [lookup_cons_eq]
    rcases List.mem_cons.1 hmem with heq | htail
    · simp only [Prod.mk.injEq] at heq
      simp [heq.1, heq.2]
    · have hne : k ≠ k0 := by
        intro heq
        apply hm.1
        rw [← heq]
        exact List.mem_map.2 ⟨(k, v), htail, rfl⟩
      simp only [hne, if_false]
      exact ih hm.2 htail

/-! ## Create-or-update -/

theorem mem_upsertSecret_self (ss : List Secret) (obj : Secret) : obj ∈ upsertSecret ss obj := by
  unfold upsertSecret
  by_cases hany : ss.any (fun s => s.key == obj.key) = true
  · simp only [hany, if_true]
    rw [List.any_eq_true] at hany
    obtain ⟨s, hs, hkey⟩ := hany
    exact List.mem_map.2 ⟨s, hs, by simp [hkey]⟩
  · simp [hany]

theorem mem_upsertSecret_of_ne (ss : List Secret) (obj s : Secret) (hs : s ∈ ss)
    (hkey : s.key ≠ obj.key) : s ∈ upsertSecret ss obj := by
  unfold upsertSecret
  have hb : (s.key == obj.key) = false := by simpa using hkey
  split_ifs
  · exact List.mem_map.2 ⟨s, hs, by simp [hb]⟩
  · exact List.mem_append_left _ hs

theorem mem_upsertSecret_cases (ss : List Secret) (obj s : Secret)
    (hs : s ∈ upsertSecret ss obj) : s = obj ∨ (s ∈ ss ∧ s.key ≠ obj.key) := by
  unfold upsertSecret at hs
  split_ifs at hs
  · obtain ⟨t, ht, heq⟩ := List.mem_map.1 hs
    by_cases hk : t.key = obj.key
    · simp only [hk, beq_self_eq_true, if_true] at heq
      exact Or.inl heq.symm
    · have hb : (t.key == obj.key) = false := by simpa using hk
      simp only [hb, Bool.false_eq_true, if_false] at heq
      subst heq
      exact Or.inr ⟨ht, hk⟩
  · rcases List.mem_append.1 hs with h1 | h2
    · rename_i hany
      refine Or.inr ⟨h1, ?_⟩
      intro hk
      apply hany
      rw [List.any_eq_true]
      exact ⟨s, h1, by simp [hk]⟩
    · simp only [List.mem_singleton] at h2
      exact Or.inl h2

theorem nextFault_gardenSecrets (w : World) : w.nextFault.2.gardenSecrets = w.gardenSecrets := by
  unfold World.nextFault
  cases w.faults <;> rfl

theorem nextFault_seedManagedResources (w : World) :
    w.nextFault.2.seedManagedResources = w.seedManagedResources := by
  unfold World.nextFault
  cases w.faults <;> rfl

/-- A successful create-or-update through the seed client writes the mutated object under
the key of the passed one and leaves every other object alone. -/
theorem SeedClient.CreateOrUpdate_ok (w w' : World) (obj updated : Secret)
    (mutate : Secret → Secret) (hkey : ∀ s, (mutate s).key = s.key)
    (h : SeedClient.CreateOrUpdate w obj mutate = (none, updated, w')) :
    updated.key = obj.key
      ∧ (∃ current, updated = mutate current
          ∧ (current = obj ∨ (current ∈ w.seedSecrets ∧ current.key = obj.key)))
      ∧ w'.seedSecrets = upsertSecret w.seedSecrets updated
      ∧ w'.seedManagedResources = w.seedManagedResources
      ∧ w'.gardenSecrets = w.gardenSecrets := by
  have h1 := nextFault_seedSecrets w
  have h2 := nextFault_seedManagedResources w
  have h3 := nextFault_gardenSecrets w
  unfold SeedClient.CreateOrUpdate at h
  rcases hf : w.nextFault with ⟨flt, w1⟩
  rw [hf] at h h1 h2 h3
  simp only at h1 h2 h3
  cases flt with
  | some msg => simp at h
  | none =>
    simp only [Prod.mk.injEq, true_and] at h
    obtain ⟨hu, hw⟩ := h
    have hcur : ∃ current, updated = mutate current
        ∧ (current = obj ∨ (current ∈ w.seedSecrets ∧ current.key = obj.key)) := by
      cases hfind : w1.seedSecrets.find? (fun s => s.key == obj.key) with
      | none =>
        rw [hfind] at hu
        exact ⟨obj, hu.symm, Or.inl rfl⟩
      | some current =>
        rw [hfind] at hu
        have hmem := List.mem_of_find?_eq_some hfind
        have hp := List.find?_some hfind
        simp only [beq_iff_eq] at hp
        rw [h1] at hmem
        exact ⟨current, hu.symm, Or.inr ⟨hmem, hp⟩⟩
    have hk : updated.key = obj.key := by
      obtain ⟨current, hcu, hcase⟩ := hcur
      rw [hcu, hkey]
      rcases hcase with rfl | ⟨_, hk⟩
      · rfl
      · exact hk
    refine ⟨hk, hcur, ?_, ?_, ?_⟩
    · rw [← hw]
      simp only
      rw [hu, h1]
    · rw [← hw]
      exact h2
    · rw [← hw]
      exact h3

/-! ## The checksum cache -/

/-- The block under `b.mutex`: every deployed secret is cached under its name, and every
cached secret has the checksum of its data cached under the same name. -/
theorem recordDeployedSecrets_consistent (h : Helpers) (b : Botanist)
    (deployedSecrets : List (String × Secret))
    (hb : (b.Secrets.map Prod.fst).Nodup)
    (hd : (deployedSecrets.map Prod.fst).Nodup) :
    (∀ kv ∈ deployedSecrets,
        (b.recordDeployedSecrets h deployedSecrets).Secrets.lookup kv.1 = some kv.2)
      ∧ (∀ name secret,
          (b.recordDeployedSecrets h deployedSecrets).Secrets.lookup name = some secret →
          (b.recordDeployedSecrets h deployedSecrets).CheckSums.lookup name
            = some (h.ComputeSecretCheckSum secret.Data)) := by
  unfold Botanist.recordDeployedSecrets
  simp only
  constructor
  · intro kv hkv
    have hl := lookup_foldl_mapInsert deployedSecrets (fun s : Secret => s) hd b.Secrets kv.1
    rw [lookup_of_mem_nodup deployedSecrets hd kv.1 kv.2 hkv] at hl
    exact hl
  · intro name secret hlook
    have hn := nodup_keys_foldl_mapInsert deployedSecrets (fun s : Secret => s) b.Secrets hb
    have hl := lookup_foldl_mapInsert
      (deployedSecrets.foldl (fun acc kv => mapInsert acc kv.1 kv.2) b.Secrets)
      (fun s : Secret => h.ComputeSecretCheckSum s.Data) hn b.CheckSums name
    rw [hlook] at hl
    exact hl

theorem storeStaticTokenAsSecrets_Secrets (c : Constants) (h : Helpers)
    (staticToken : Option secrets.StaticToken) (caCert : String)
    (names : List (String × String)) (b b2 : Botanist) (w w2 : World) (err : Option Err)
    (hret : Botanist.storeStaticTokenAsSecrets c h staticToken caCert names b w
      = .returned (err, b2, w2)) :
    b2.Secrets = b.Secrets := by
  induction names generalizing b w with
  | nil =>
    simp only [Botanist.storeStaticTokenAsSecrets, Outcome.returned.injEq, Prod.mk.injEq] at hret
    rw [← hret.2.1]
  | cons entry rest ih =>
    obtain ⟨secretName, username⟩ := entry
    simp only [Botanist.storeStaticTokenAsSecrets] at hret
    cases staticToken with
    | none => simp at hret
    | some st =>
      simp only at hret
      cases hg : st.GetTokenForUsername username with
      | error e =>
        rw [hg] at hret
        simp only [Outcome.returned.injEq, Prod.mk.injEq] at hret
        rw [← hret.2.1]
      | ok token =>
        rw [hg] at hret
        simp only at hret
        rcases hc : SeedClient.CreateOrUpdate w
            { Name := secretName, Namespace := b.Shoot.SeedNamespace
              SecretType := corev1.SecretTypeOpaque }
            (fun secret => { secret with
              Data := [(c.DataKeyToken, token.Token), (c.DataKeyCertificateCA, caCert)] })
          with ⟨e1, secret, w1⟩
        rw [hc] at hret
        cases e1 with
        | some e =>
          simp only [Outcome.returned.injEq, Prod.mk.injEq] at hret
          rw [← hret.2.1]
        | none =>
          simp only at hret
          have hrest := ih _ _ hret
          exact hrest

/-- A successful first part of `DeploySecrets` leaves `b.Secrets` as it was and yields the
Secrets Manager that `Deploy` returned. -/
theorem deployAndStoreTokens_ok (c : Constants) (h : Helpers)
    (collaborators : DeployCollaborators) (b b1 : Botanist) (w w1 : World)
    (sm : SecretsManager)
    (hret : b.deployAndStoreTokens c h collaborators w = .returned (none, b1, sm, w1)) :
    b1.Secrets = b.Secrets
      ∧ ∃ sm0 w0, (collaborators.Deploy sm0 w0).1 = none
          ∧ (collaborators.Deploy sm0 w0).2.1 = sm := by
  unfold Botanist.deployAndStoreTokens at hret
  rcases hfetch : b.fetchExistingSecrets w with ⟨existing, w0⟩
  rw [hfetch] at hret
  cases existing with
  | error e => simp at hret
  | ok existingSecrets =>
    simp only at hret
    rcases hdep : collaborators.Deploy (b.secretsManagerForDeploy c h existingSecrets) w0
      with ⟨e1, sm1, w2⟩
    rw [hdep] at hret
    cases e1 with
    | some e => simp at hret
    | none =>
      simp only at hret
      have hdeploy : ∃ sm0 w0, (collaborators.Deploy sm0 w0).1 = none
          ∧ (collaborators.Deploy sm0 w0).2.1 = sm1 := ⟨_, _, by rw [hdep], by rw [hdep]⟩
      unfold Botanist.storeAPIServerHealthCheckToken at hret
      cases hst : sm1.StaticToken with
      | none => rw [hst] at hret; simp at hret
      | some st =>
        rw [hst] at hret
        simp only at hret
        cases hg : st.GetTokenForUsername c.KubeAPIServerHealthCheck with
        | error e => rw [hg] at hret; simp at hret
        | ok token =>
          rw [hg] at hret
          simp only at hret
          by_cases hvpa : b.Shoot.WantsVerticalPodAutoscaler = true
          · simp only [hvpa, if_true] at hret
            cases hca : sm1.DeployedSecrets.lookup c.SecretNameCACluster with
            | none => rw [hca] at hret; simp at hret
            | some caSecret =>
              rw [hca] at hret
              simp only at hret
              cases hstore : Botanist.storeStaticTokenAsSecrets c h (some st)
                  ((caSecret.Data.lookup c.DataKeyCertificateCA).getD "") (vpaSecrets c)
                  { b with APIServerHealthCheckToken := token.Token } w2 with
              | panicked => rw [hstore] at hret; simp at hret
              | returned r =>
                obtain ⟨e2, b2, w3⟩ := r
                rw [hstore] at hret
                simp only [Outcome.returned.injEq, Prod.mk.injEq] at hret
                obtain ⟨he, hb, hsm, hw⟩ := hret
                have hsec := storeStaticTokenAsSecrets_Secrets c h _ _ _ _ _ _ _ _ hstore
                rw [← hb, hsec, ← hsm]
                exact ⟨rfl, hdeploy⟩
          · simp only [hvpa, Bool.false_eq_true, if_false, Outcome.returned.injEq,
              Prod.mk.injEq, true_and] at hret
            obtain ⟨hb, hsm, hw⟩ := hret
            rw [← hb, ← hsm]
            exact ⟨rfl, hdeploy⟩

theorem copyWildcardCertificate_caches (collaborators : DeployCollaborators) (b : Botanist)
    (w : World) :
    (Botanist.copyWildcardCertificate collaborators b w).2.1.Secrets = b.Secrets
      ∧ (Botanist.copyWildcardCertificate collaborators b w).2.1.CheckSums = b.CheckSums := by
  unfold Botanist.copyWildcardCertificate
  rcases hg : collaborators.GetWildcardCertificate w with ⟨r, w1⟩
  cases r with
  | error e => exact ⟨rfl, rfl⟩
  | ok cert =>
    cases cert with
    | none => exact ⟨rfl, rfl⟩
    | some wildcardCert =>
      simp only
      rcases hc : SeedClient.CreateOrUpdate w1
          { Name := wildcardCert.Name, Namespace := b.Shoot.SeedNamespace }
          (fun crt => { crt with Data := wildcardCert.Data }) with ⟨e1, crt, w2⟩
      cases e1 <;> exact ⟨rfl, rfl⟩

/-- C15: after a successful `DeploySecrets` (the maps `b.Secrets` and `DeployedSecrets`
having one entry per name), every secret of the Secrets Manager's `DeployedSecrets` is
stored in `b.Secrets` under its name, and for every name in `b.Secrets` the entry of
`b.CheckSums` is `ComputeSecretCheckSum` of the data of the stored secret.  After a
successful `DeployCloudProviderSecret` the cached checksum of the cloud provider entry is
the checksum of the cached secret's data, and it is the `checksum/data` annotation of the
secret written to the seed namespace. -/
theorem checksum_cache_consistent (c : Constants) (h : Helpers) (b : Botanist) (w : World) :
    (∀ (collaborators : DeployCollaborators) (b2 : Botanist) (w2 : World),
        (b.Secrets.map Prod.fst).Nodup →
        (∀ sm0 w0, ((collaborators.Deploy sm0 w0).2.1.DeployedSecrets.map Prod.fst).Nodup) →
        b.DeploySecrets c h collaborators w = .returned (none, b2, w2) →
        ∃ b1 sm w1, b.deployAndStoreTokens c h collaborators w = .returned (none, b1, sm, w1)
          ∧ (∀ kv ∈ sm.DeployedSecrets, b2.Secrets.lookup kv.1 = some kv.2)
          ∧ (∀ name secret, b2.Secrets.lookup name = some secret →
              b2.CheckSums.lookup name = some (h.ComputeSecretCheckSum secret.Data)))
      ∧ (∀ (b2 : Botanist) (w2 : World),
        b.DeployCloudProviderSecret c h w = .returned (none, b2, w2) →
        ∃ shootSecret, b.Shoot.Secret = some shootSecret
          ∧ b2.Secrets.lookup c.SecretNameCloudProvider = some shootSecret
          ∧ b2.CheckSums.lookup c.SecretNameCloudProvider
              = some (h.ComputeSecretCheckSum shootSecret.Data)
          ∧ ∃ s ∈ w2.seedSecrets, s.key = (b.Shoot.SeedNamespace, c.SecretNameCloudProvider)
              ∧ s.Annotations = [("checksum/data", h.ComputeSecretCheckSum shootSecret.Data)]
              ∧ s.Data = shootSecret.Data) := by
  constructor
  · intro collaborators b2 w2 hb hd hok
    unfold Botanist.DeploySecrets at hok
    cases hfirst : b.deployAndStoreTokens c h collaborators w with
    | panicked => rw [hfirst] at hok; simp at hok
    | returned r =>
      obtain ⟨e1, b1, sm, w1⟩ := r
      rw [hfirst] at hok
      cases e1 with
      | some e => simp at hok
      | none =>
        simp only [Outcome.returned.injEq] at hok
        obtain ⟨hsec, sm0, w0, _, hsm⟩ := deployAndStoreTokens_ok c h collaborators b b1 w w1
          sm hfirst
        have hcopy := copyWildcardCertificate_caches collaborators
          (b1.recordDeployedSecrets h sm.DeployedSecrets) w1
        rw [hok] at hcopy
        simp only at hcopy
        have hdn : (sm.DeployedSecrets.map Prod.fst).Nodup := by
          rw [← hsm]
          exact hd sm0 w0
        obtain ⟨hc1, hc2⟩ := recordDeployedSecrets_consistent h b1 sm.DeployedSecrets
          (by rw [hsec]; exact hb) hdn
        refine ⟨b1, sm, w1, rfl, ?_, ?_⟩
        · intro kv hkv
          rw [hcopy.1]
          exact hc1 kv hkv
        · intro name secret hlook
          rw [hcopy.1] at hlook
          rw [hcopy.2]
          exact hc2 name secret hlook
  · intro b2 w2 hok
    unfold Botanist.DeployCloudProviderSecret at hok
    cases hsecret : b.Shoot.Secret with
    | none => rw [hsecret] at hok; simp at hok
    | some shootSecret =>
      rw [hsecret] at hok
      simp only at hok
      rcases hc : SeedClient.CreateOrUpdate w
          { Name := c.SecretNameCloudProvider, Namespace := b.Shoot.SeedNamespace }
          (fun secret => { secret with
            Annotations := [("checksum/data", h.ComputeSecretCheckSum shootSecret.Data)]
            SecretType := corev1.SecretTypeOpaque
            Data := shootSecret.Data }) with ⟨e1, updated, w1⟩
      rw [hc] at hok
      cases e1 with
      | some e => simp at hok
      | none =>
        simp only [Outcome.returned.injEq, Prod.mk.injEq, true_and] at hok
        obtain ⟨hb2, hw2⟩ := hok
        have hco := fun hkey => SeedClient.CreateOrUpdate_ok w w1 _ updated _ hkey hc
        obtain ⟨hk, ⟨current, hcu, _⟩, hss, _, _⟩ := hco (fun s => rfl)
        refine ⟨shootSecret, rfl, ?_, ?_, updated, ?_, hk, ?_, ?_⟩
        · rw [← hb2]
          simp only
          rw [lookup_mapInsert]
          simp
        · rw [← hb2]
          simp only
          rw [lookup_mapInsert]
          simp
        · rw [← hw2, hss]
          exact mem_upsertSecret_self _ _
        · rw [hcu]
        · rw [hcu]

/-- Witness for C15: `DeploySecrets` on the botanist with a cached cloud provider secret
succeeds; afterwards the deployed CA is cached with the checksum of its data. -/
theorem checksum_cache_consistent_witness :
    cachedBotanistAfterDeploy.Secrets.lookup "ca"
        = some { Name := "ca", Namespace := "shoot--dev--crazy-botany"
                 Data := [("ca.crt", "CERT")] }
      ∧ ∀ name secret, cachedBotanistAfterDeploy.Secrets.lookup name = some secret →
          cachedBotanistAfterDeploy.CheckSums.lookup name
            = some (sampleHelpers.ComputeSecretCheckSum secret.Data) :=
  have hw := (checksum_cache_consistent upstreamConstants sampleHelpers cachedBotanist
    sampleWorld).1 sampleDeployCollaborators cachedBotanistAfterDeploy sampleWorld
    (by decide) (fun _ _ => by simp [sampleDeployCollaborators]) (by decide)
  hw.elim fun _ hw1 => hw1.elim fun _ hw2 => hw2.elim fun _ hw3 => ⟨by decide, hw3.2.2⟩

/-! ## Syncing the credentials to the garden -/

theorem mem_upsertSecret_iff_of_ne (ss : List Secret) (obj s : Secret)
    (hkey : s.key ≠ obj.key) : s ∈ upsertSecret ss obj ↔ s ∈ ss := by
  constructor
  · intro hs
    rcases mem_upsertSecret_cases ss obj s hs with rfl | ⟨h1, _⟩
    · exact absurd rfl hkey
    · exact h1
  · intro hs
    exact mem_upsertSecret_of_ne ss obj s hs hkey

/-- A successful create-or-update through the garden client writes the mutated object under
the key of the passed one. -/
theorem GardenClient.CreateOrUpdate_garden_ok (w w' : World) (obj updated : Secret)
    (mutate : Secret → Secret) (hkey : ∀ s, (mutate s).key = s.key)
    (h : GardenClient.CreateOrUpdate w obj mutate = (none, updated, w')) :
    updated.key = obj.key
      ∧ (∃ current, updated = mutate current)
      ∧ w'.gardenSecrets = upsertSecret w.gardenSecrets updated := by
  have h3 := nextFault_gardenSecrets w
  unfold GardenClient.CreateOrUpdate at h
  rcases hf : w.nextFault with ⟨flt, w1⟩
  rw [hf] at h h3
  simp only at h3
  cases flt with
  | some msg => simp at h
  | none =>
    simp only [Prod.mk.injEq, true_and] at h
    obtain ⟨hu, hw⟩ := h
    have hk : updated.key = obj.key := by
      rw [← hu, hkey]
      cases hfind : w1.gardenSecrets.find? (fun s => s.key == obj.key) with
      | none => rfl
      | some current =>
        have hp := List.find?_some hfind
        simpa using hp
    refine ⟨hk, ⟨_, hu.symm⟩, ?_⟩
    rw [← hw]
    simp only
    rw [hu, h3]

/-- The loop of `SyncShootCredentialsToGarden`, when it succeeds, touches no garden secret
outside the keys of the project secrets and leaves under each key (the keys being distinct)
a secret with the owner reference to the shoot, the annotations of the project secret, type
Opaque and the data of the cached secret. -/
theorem syncProjectSecrets_ok (c : Constants) (b : Botanist) (pss : List projectSecret)
    (w w' : World) (hok : b.syncProjectSecrets c pss w = .returned (none, w')) :
    (∀ s : Secret, s.key ∉ pss.map b.projectSecretKey →
        (s ∈ w'.gardenSecrets ↔ s ∈ w.gardenSecrets))
      ∧ ((pss.map b.projectSecretKey).Nodup → ∀ ps ∈ pss,
          (∃ s ∈ w'.gardenSecrets, s.key = b.projectSecretKey ps)
          ∧ ∀ s ∈ w'.gardenSecrets, s.key = b.projectSecretKey ps →
              ∃ cached, b.Secrets.lookup ps.secretName = some cached
                ∧ s.SecretType = corev1.SecretTypeOpaque ∧ s.Data = cached.Data
                ∧ s.Annotations = ps.annotations
                ∧ s.OwnerReferences = [shootControllerRef c b.Shoot.Info]) := by
  induction pss generalizing w with
  | nil =>
    simp only [Botanist.syncProjectSecrets, Outcome.returned.injEq, Prod.mk.injEq,
      true_and] at hok
    subst hok
    exact ⟨fun _ _ => Iff.rfl, fun _ ps hps => absurd hps (List.not_mem_nil _)⟩
  | cons ps rest ih =>
    simp only [Botanist.syncProjectSecrets] at hok
    cases hlook : b.Secrets.lookup ps.secretName with
    | none =>
      rw [hlook] at hok
      simp only at hok
      rcases hf : w.nextFault with ⟨flt, w1⟩
      rw [hf] at hok
      cases flt <;> simp at hok
    | some cached =>
      rw [hlook] at hok
      simp only at hok
      rcases hc : GardenClient.CreateOrUpdate w
          { Name := computeProjectSecretName b.Shoot.Info.Name ps.suffix
            Namespace := b.Shoot.Info.Namespace }
          (b.projectSecretObject c ps cached) with ⟨e1, updated, w1⟩
      rw [hc] at hok
      cases e1 with
      | some e => simp at hok
      | none =>
        simp only at hok
        obtain ⟨hk, ⟨current, hcu⟩, hss⟩ := GardenClient.CreateOrUpdate_garden_ok w w1 _ updated
          (b.projectSecretObject c ps cached) (fun s => rfl) hc
        have hk2 : updated.key = b.projectSecretKey ps := hk
        obtain ⟨ihA, ihB⟩ := ih w1 hok
        have hframe : ∀ s : Secret, s.key ≠ b.projectSecretKey ps →
            (s ∈ w1.gardenSecrets ↔ s ∈ w.gardenSecrets) := by
          intro s hs
          rw [hss]
          exact mem_upsertSecret_iff_of_ne _ _ _ (by rw [hk2]; exact hs)
        constructor
        · intro s hs
          simp only [List.map_cons, List.mem_cons, not_or] at hs
          rw [ihA s hs.2]
          exact hframe s hs.1
        · intro hnodup p hp
          simp only [List.map_cons, List.nodup_cons] at hnodup
          rcases List.mem_cons.1 hp with rfl | hprest
          · have hiff : ∀ s : Secret, s.key = b.projectSecretKey p →
                (s ∈ w'.gardenSecrets ↔ s ∈ w1.gardenSecrets) := by
              intro s hs
              apply ihA
              rw [hs]
              exact hnodup.1
            constructor
            · refine ⟨updated, ?_, hk2⟩
              rw [hiff updated hk2, hss]
              exact mem_upsertSecret_self _ _
            · intro s hs hkey
              rw [hiff s hkey, hss] at hs
              rcases mem_upsertSecret_cases _ _ _ hs with heq | ⟨_, hne⟩
              · refine ⟨cached, hlook, ?_⟩
                rw [heq, hcu]
                exact ⟨rfl, rfl, rfl, rfl⟩
              · exact absurd (by rw [hkey, hk2]) hne
          · exact ihB hnodup.2 p hprest

theorem computeProjectSecretName_eq (shootName suffix : String) :
    computeProjectSecretName shootName suffix = shootName ++ "." ++ suffix :=
  Sprintf_dot shootName suffix

theorem computeProjectSecretName_injective (shootName s1 s2 : String)
    (h : computeProjectSecretName shootName s1 = computeProjectSecretName shootName s2) :
    s1 = s2 := by
  rw [computeProjectSecretName_eq, computeProjectSecretName_eq] at h
  have hd := congrArg String.data h
  simp only [String.data_append, List.append_assoc] at hd
  exact String.ext (List.append_cancel_left (List.append_cancel_left hd))

/-- The suffixes of the project secrets and the names of the cached secrets they copy. -/
theorem projectSecrets_entries (c : Constants) (h : Helpers) (b : Botanist) :
    (b.projectSecrets c h).map (fun ps => (ps.secretName, ps.suffix))
      = [ (c.KubecfgSecretName, "kubeconfig"),
          (c.SecretNameSSHKeyPair, c.SecretNameSSHKeyPair),
          ("monitoring-ingress-credentials-users", "monitoring") ]
        ++ (if h.LoggingEnabled then [("logging-ingress-credentials-users", "logging")]
            else []) := by
  unfold Botanist.projectSecrets
  by_cases hl : h.LoggingEnabled = true
  · simp only [hl, if_true]
    rfl
  · simp only [hl, Bool.false_eq_true, if_false]
    rfl

theorem projectSecrets_keys_nodup (c : Constants) (h : Helpers) (b : Botanist)
    (hsuffix : c.SecretNameSSHKeyPair ∉ ["kubeconfig", "monitoring", "logging"]) :
    ((b.projectSecrets c h).map b.projectSecretKey).Nodup := by
  have hsuf : ((b.projectSecrets c h).map (fun ps => ps.suffix)).Nodup := by
    have hmap : (b.projectSecrets c h).map (fun ps => ps.suffix)
        = ((b.projectSecrets c h).map (fun ps => (ps.secretName, ps.suffix))).map Prod.snd := by
      rw [List.map_map]
      rfl
    rw [hmap, projectSecrets_entries]
    simp only [List.mem_cons, List.mem_singleton, List.not_mem_nil, or_false, not_or] at hsuffix
    obtain ⟨h1, h2, h3⟩ := hsuffix
    by_cases hl : h.LoggingEnabled = true
    · simp only [hl, if_true]
      simp [h1, h2, h3, Ne.symm h1, Ne.symm h2, Ne.symm h3]
    · simp only [hl, Bool.false_eq_true, if_false]
      simp [h1, h2, Ne.symm h1, Ne.symm h2]
  have hinj : ∀ p1 ∈ b.projectSecrets c h, ∀ p2 ∈ b.projectSecrets c h,
      b.projectSecretKey p1 = b.projectSecretKey p2 → p1.suffix = p2.suffix := by
    intro p1 _ p2 _ hkey
    unfold Botanist.projectSecretKey at hkey
    simp only [Prod.mk.injEq, true_and] at hkey
    exact computeProjectSecretName_injective _ _ _ hkey
  exact List.Nodup.map_on
    (fun p1 hp1 p2 hp2 hkey =>
      List.inj_on_of_nodup_map hsuf hp1 hp2 (hinj p1 hp1 p2 hp2 hkey))
    (List.Nodup.of_map _ hsuf)

/-- C16: on success (the constant `SecretNameSSHKeyPair` being none of the three literal
suffixes), `SyncShootCredentialsToGarden` creates or updates in the shoot's project
namespace exactly the secrets named `<shootName>.kubeconfig`, `<shootName>.<ssh-keypair>`
and `<shootName>.monitoring`, plus `<shootName>.logging` iff the Logging feature gate is
enabled: under each of these names there is a secret, it is of type Opaque and its data is
the data of the cached secret `b.Secrets[...]` it is copied from, and no secret under
another key is added, removed or changed. -/
theorem sync_writes_exactly_project_secrets (c : Constants) (h : Helpers) (b : Botanist)
    (w w' : World)
    (hsuffix : c.SecretNameSSHKeyPair ∉ ["kubeconfig", "monitoring", "logging"])
    (hok : b.SyncShootCredentialsToGarden c h w = .returned (none, w')) :
    (∀ entry ∈ [ (c.KubecfgSecretName, "kubeconfig"),
                 (c.SecretNameSSHKeyPair, c.SecretNameSSHKeyPair),
                 ("monitoring-ingress-credentials-users", "monitoring") ]
              ++ (if h.LoggingEnabled then [("logging-ingress-credentials-users", "logging")]
                  else []),
        (∃ s ∈ w'.gardenSecrets,
            s.key = (b.Shoot.Info.Namespace, b.Shoot.Info.Name ++ "." ++ entry.2))
        ∧ ∀ s ∈ w'.gardenSecrets,
            s.key = (b.Shoot.Info.Namespace, b.Shoot.Info.Name ++ "." ++ entry.2) →
            s.SecretType = "Opaque"
            ∧ ∃ cached, b.Secrets.lookup entry.1 = some cached ∧ s.Data = cached.Data)
      ∧ (∀ s : Secret,
          s.key ∉ (["kubeconfig", c.SecretNameSSHKeyPair, "monitoring"]
                ++ (if h.LoggingEnabled then ["logging"] else [])).map
              (fun suffix => (b.Shoot.Info.Namespace, b.Shoot.Info.Name ++ "." ++ suffix)) →
          (s ∈ w'.gardenSecrets ↔ s ∈ w.gardenSecrets)) := by
  unfold Botanist.SyncShootCredentialsToGarden at hok
  obtain ⟨hA, hB⟩ := syncProjectSecrets_ok c b _ w w' hok
  have hB2 := hB (projectSecrets_keys_nodup c h b hsuffix)
  have hentries := projectSecrets_entries c h b
  have hkey : ∀ ps : projectSecret, b.projectSecretKey ps
      = (b.Shoot.Info.Namespace, b.Shoot.Info.Name ++ "." ++ ps.suffix) := by
    intro ps
    unfold Botanist.projectSecretKey
    rw [computeProjectSecretName_eq]
  constructor
  · intro entry hentry
    rw [← hentries] at hentry
    obtain ⟨ps, hps, hpe⟩ := List.mem_map.1 hentry
    obtain ⟨hex, hall⟩ := hB2 ps hps
    rw [hkey] at hex hall
    have h1 : entry.1 = ps.secretName := by rw [← hpe]
    have h2 : entry.2 = ps.suffix := by rw [← hpe]
    rw [h1, h2]
    refine ⟨hex, ?_⟩
    intro s hs hk
    obtain ⟨cached, hl, ht, hd, _, _⟩ := hall s hs hk
    exact ⟨ht, cached, hl, hd⟩
  · intro s hs
    apply hA
    intro hmem
    apply hs
    obtain ⟨ps, hps, hpk⟩ := List.mem_map.1 hmem
    rw [hkey] at hpk
    have hsuf : ps.suffix ∈ ((b.projectSecrets c h).map
        (fun ps => (ps.secretName, ps.suffix))).map Prod.snd :=
      List.mem_map.2 ⟨(ps.secretName, ps.suffix), List.mem_map.2 ⟨ps, hps, rfl⟩, rfl⟩
    rw [hentries] at hsuf
    refine List.mem_map.2 ⟨ps.suffix, ?_, hpk⟩
    by_cases hl : h.LoggingEnabled = true
    · simp only [hl, if_true] at hsuf ⊢
      simpa using hsuf
    · simp only [hl, Bool.false_eq_true, if_false] at hsuf ⊢
      simpa using hsuf

/-- Witness for C16: for the sample shoot, without logging, the sync succeeds and writes the
kubeconfig, ssh-keypair and monitoring secrets. -/
theorem sync_writes_exactly_project_secrets_witness :
    syncingBotanist.SyncShootCredentialsToGarden upstreamConstants sampleHelpers
        sampleGardenWorld = .returned (none, sampleGardenWorldAfterSync)
      ∧ ∃ s ∈ sampleGardenWorldAfterSync.gardenSecrets,
          s.key = (syncingBotanist.Shoot.Info.Namespace,
            syncingBotanist.Shoot.Info.Name ++ "." ++ "monitoring") :=
  ⟨by decide,
    ((sync_writes_exactly_project_secrets upstreamConstants sampleHelpers syncingBotanist
      sampleGardenWorld sampleGardenWorldAfterSync (by decide) (by decide)).1
      ("monitoring-ingress-credentials-users", "monitoring") (by decide)).1⟩

/-! ## Owner references and access URLs -/

theorem https_is_a_start (host : String) : "https://".data <+: ("https://" ++ host).data := by
  rw [String.data_append]
  exact List.prefix_append _ _

/-- C17 (as amended): every secret that a successful `SyncShootCredentialsToGarden` writes
to the garden cluster has exactly one owner reference, the controller reference to the
Shoot resource; the kubeconfig, monitoring and logging secrets carry exactly one annotation,
`url`, whose value starts with `https://`, and the ssh-keypair secret carries no
annotation. -/
theorem sync_sets_owner_and_url (c : Constants) (h : Helpers) (b : Botanist) (w w' : World)
    (hsuffix : c.SecretNameSSHKeyPair ∉ ["kubeconfig", "monitoring", "logging"])
    (hok : b.SyncShootCredentialsToGarden c h w = .returned (none, w')) :
    (∀ suffix ∈ ["kubeconfig", c.SecretNameSSHKeyPair, "monitoring"]
              ++ (if h.LoggingEnabled then ["logging"] else []),
        ∀ s ∈ w'.gardenSecrets,
          s.key = (b.Shoot.Info.Namespace, b.Shoot.Info.Name ++ "." ++ suffix) →
          s.OwnerReferences = [shootControllerRef c b.Shoot.Info]
          ∧ (shootControllerRef c b.Shoot.Info).Controller = some true
          ∧ (shootControllerRef c b.Shoot.Info).Kind = "Shoot"
          ∧ (shootControllerRef c b.Shoot.Info).Name = b.Shoot.Info.Name
          ∧ (suffix ≠ c.SecretNameSSHKeyPair →
              ∃ url, s.Annotations = [("url", url)] ∧ "https://".data <+: url.data)
          ∧ (suffix = c.SecretNameSSHKeyPair → s.Annotations = [])) := by
  unfold Botanist.SyncShootCredentialsToGarden at hok
  obtain ⟨_, hB⟩ := syncProjectSecrets_ok c b _ w w' hok
  have hB2 := hB (projectSecrets_keys_nodup c h b hsuffix)
  have hkey : ∀ ps : projectSecret, b.projectSecretKey ps
      = (b.Shoot.Info.Namespace, b.Shoot.Info.Name ++ "." ++ ps.suffix) := by
    intro ps
    unfold Botanist.projectSecretKey
    rw [computeProjectSecretName_eq]
  have hann : ∀ ps ∈ b.projectSecrets c h,
      (ps.suffix ≠ c.SecretNameSSHKeyPair →
        ∃ url, ps.annotations = [("url", url)] ∧ "https://".data <+: url.data)
      ∧ (ps.suffix = c.SecretNameSSHKeyPair → ps.annotations = []) := by
    simp only [List.mem_cons, List.mem_singleton, List.not_mem_nil, or_false,
      not_or] at hsuffix
    obtain ⟨h1, h2, h3⟩ := hsuffix
    intro ps hps
    unfold Botanist.projectSecrets at hps
    simp only at hps
    split_ifs at hps <;>
      simp only [List.cons_append, List.nil_append, List.mem_cons, List.mem_singleton,
        List.not_mem_nil, or_false] at hps <;>
      rcases hps with rfl | rfl | rfl | rfl <;>
      simp [secretSuffixKubeConfig, secretSuffixSSHKeyPair, secretSuffixMonitoring,
        secretSuffixLogging, Ne.symm h1, Ne.symm h2, Ne.symm h3, https_is_a_start]
  intro suffix hsuf s hs hk
  have hps : ∃ ps ∈ b.projectSecrets c h, ps.suffix = suffix := by
    have hentries := projectSecrets_entries c h b
    have hmem : suffix ∈ ((b.projectSecrets c h).map
        (fun ps => (ps.secretName, ps.suffix))).map Prod.snd := by
      rw [hentries]
      by_cases hl : h.LoggingEnabled = true
      · simp only [hl, if_true] at hsuf ⊢
        simpa using hsuf
      · simp only [hl, Bool.false_eq_true, if_false] at hsuf ⊢
        simpa using hsuf
    obtain ⟨entry, hentry, hsnd⟩ := List.mem_map.1 hmem
    obtain ⟨ps, hps, hpe⟩ := List.mem_map.1 hentry
    exact ⟨ps, hps, by rw [← hsnd, ← hpe]⟩
  obtain ⟨ps, hps, hpsuf⟩ := hps
  obtain ⟨_, hall⟩ := hB2 ps hps
  rw [hkey, hpsuf] at hall
  obtain ⟨cached, _, _, _, han, how⟩ := hall s hs hk
  obtain ⟨ha1, ha2⟩ := hann ps hps
  rw [hpsuf] at ha1 ha2
  refine ⟨how, rfl, rfl, rfl, ?_, ?_⟩
  · intro hne
    rw [han]
    exact ha1 hne
  · intro heq
    rw [han]
    exact ha2 heq

/-- Witness for C17 (as amended): in the sample garden cluster after the sync, the
monitoring secret carries one annotation, `url`, starting with `https://`. -/
theorem sync_sets_owner_and_url_witness :
    upstreamConstants.SecretNameSSHKeyPair ∉ ["kubeconfig", "monitoring", "logging"]
      ∧ ∀ s ∈ sampleGardenWorldAfterSync.gardenSecrets,
          s.key = (syncingBotanist.Shoot.Info.Namespace,
            syncingBotanist.Shoot.Info.Name ++ "." ++ "monitoring") →
          ∃ url, s.Annotations = [("url", url)] ∧ "https://".data <+: url.data :=
  ⟨by decide, fun s hs hk =>
    ((sync_sets_owner_and_url upstreamConstants sampleHelpers syncingBotanist
      sampleGardenWorld sampleGardenWorldAfterSync (by decide) (by decide)) "monitoring"
      (by decide) s hs hk).2.2.2.2.1 (by decide)⟩

/-- Counterexample for C17 as stated: the ssh-keypair secret that the sync writes to the
garden cluster for the sample shoot carries no `url` annotation. -/
theorem sync_writes_ssh_keypair_without_url :
    syncingBotanist.SyncShootCredentialsToGarden upstreamConstants sampleHelpers
        sampleGardenWorld = .returned (none, sampleGardenWorldAfterSync)
      ∧ (sampleGardenWorldAfterSync.gardenSecrets.filter
            (fun s => s.Name == "crazy-botany.ssh-keypair")).map
          (fun s => (s.Namespace, s.Annotations.lookup "url"))
          = [("garden-dev", none)]
      ∧ (sampleGardenWorld.gardenSecrets.filter
            (fun s => s.Name == "crazy-botany.ssh-keypair")) = [] := by
  decide

/-! ## The DNS names of the certificates -/

theorem Sprintf_kube_apiserver (ns : String) :
    Sprintf "kube-apiserver.%s" [ns] = "kube-apiserver." ++ ns
      ∧ Sprintf "kube-apiserver.%s.svc" [ns] = "kube-apiserver." ++ ns ++ ".svc" := by
  constructor <;>
    · apply String.ext
      simp [Sprintf, sprintfAux]

theorem Sprintf_client (name : String) : Sprintf "%s-client" [name] = name ++ "-client" := by
  apply String.ext
  simp [Sprintf, sprintfAux]

/-- The DNS names of the kube-apiserver certificate hold the three written-out names of the
kube-apiserver service and the four names of the service `kubernetes` in `default`. -/
theorem apiServerSANs_names (c : Constants) (h : Helpers) (b : Botanist) (ips : List IP)
    (dns : List String) (hs : b.apiServerSANs c h = .returned (ips, dns)) :
    (∀ n ∈ ["kube-apiserver", "kube-apiserver." ++ b.Shoot.SeedNamespace,
            "kube-apiserver." ++ b.Shoot.SeedNamespace ++ ".svc"], n ∈ dns)
      ∧ (∀ n ∈ dnsNamesForService c "kubernetes" "default", n ∈ dns) := by
  unfold Botanist.apiServerSANs at hs
  simp only [(Sprintf_kube_apiserver b.Shoot.SeedNamespace).1,
    (Sprintf_kube_apiserver b.Shoot.SeedNamespace).2] at hs
  have hbase : ∀ rest : List String,
      (∀ n ∈ ["kube-apiserver", "kube-apiserver." ++ b.Shoot.SeedNamespace,
            "kube-apiserver." ++ b.Shoot.SeedNamespace ++ ".svc"],
          n ∈ ["kube-apiserver", "kube-apiserver." ++ b.Shoot.SeedNamespace,
                "kube-apiserver." ++ b.Shoot.SeedNamespace ++ ".svc",
                h.GetAPIServerDomain b.Shoot.InternalClusterDomain]
              ++ dnsNamesForService c "kubernetes" "default" ++ rest)
      ∧ (∀ n ∈ dnsNamesForService c "kubernetes" "default",
          n ∈ ["kube-apiserver", "kube-apiserver." ++ b.Shoot.SeedNamespace,
                "kube-apiserver." ++ b.Shoot.SeedNamespace ++ ".svc",
                h.GetAPIServerDomain b.Shoot.InternalClusterDomain]
              ++ dnsNamesForService c "kubernetes" "default" ++ rest) := by
    intro rest
    constructor
    · intro n hn
      simp only [List.mem_cons, List.mem_singleton, List.not_mem_nil, or_false] at hn
      simp only [List.mem_append, List.mem_cons, List.mem_singleton, List.not_mem_nil,
        or_false]
      tauto
    · intro n hn
      exact List.mem_append_left _ (List.mem_append_right _ hn)
  cases hext : b.Shoot.ExternalClusterDomain with
  | none =>
    rw [hext] at hs
    simp only [Outcome.returned.injEq] at hs
    by_cases hdns : b.SeedShootDNSEnabled = true
    · simp only [hdns, Bool.not_true, Bool.false_eq_true, if_false, Prod.mk.injEq] at hs
      rw [← hs.2]
      simpa using hbase []
    · simp only [hdns, Bool.not_false, if_true] at hs
      cases hip : h.ParseIP b.APIServerAddress with
      | none =>
        rw [hip] at hs
        simp only [Prod.mk.injEq] at hs
        rw [← hs.2]
        exact hbase _
      | some addr =>
        rw [hip] at hs
        simp only [Prod.mk.injEq] at hs
        rw [← hs.2]
        simpa using hbase []
  | some ext =>
    rw [hext] at hs
    cases hdom : b.Shoot.Info.SpecDNSDomain with
    | none => rw [hdom] at hs; simp at hs
    | some domain =>
      rw [hdom] at hs
      simp only [Outcome.returned.injEq, Prod.mk.injEq] at hs
      rw [← hs.2]
      by_cases hdns : b.SeedShootDNSEnabled = true
      · simp only [hdns, Bool.not_true, Bool.false_eq_true, if_false]
        exact hbase _
      · simp only [hdns, Bool.not_false, if_true]
        cases hip : h.ParseIP b.APIServerAddress with
        | none =>
          simp only [List.append_assoc]
          have := hbase ([b.APIServerAddress] ++ [domain, h.GetAPIServerDomain ext])
          simpa [List.append_assoc] using this
        | some addr => exact hbase _

/-- A successful call, with the SANs that the kube-apiserver certificate is built from. -/
theorem generateWantedSecretConfigs_success_sans (c : Constants) (h : Helpers) (b : Botanist)
    (basicAuthAPIServer : Option secrets.BasicAuth) (staticToken : Option secrets.StaticToken)
    (certificateAuthorities : String → Option secrets.Certificate)
    (l : List secrets.ConfigInterface)
    (hok : b.generateWantedSecretConfigs c h basicAuthAPIServer staticToken
      certificateAuthorities = .returned (l, none)) :
    ∃ ips dns kubecfgToken tunnel,
      b.apiServerSANs c h = .returned (ips, dns)
        ∧ l = b.withOptionalSecretConfigs c h certificateAuthorities
            (b.initialSecretList c h certificateAuthorities ips dns
              ++ [b.kubecfgSecretConfig c h basicAuthAPIServer kubecfgToken
                    certificateAuthorities]
              ++ b.dependencyWatchdogSecretConfigs c h certificateAuthorities ++ tunnel)
        ∧ (b.Shoot.KonnectivityTunnelEnabled = true →
              ∃ token, tunnel = b.konnectivitySecretConfigs c h basicAuthAPIServer token
                  certificateAuthorities) := by
  unfold Botanist.generateWantedSecretConfigs at hok
  cases hsans : b.apiServerSANs c h with
  | panicked => rw [hsans] at hok; exact Outcome.noConfusion hok
  | returned sans =>
    obtain ⟨ips, dns⟩ := sans
    rw [hsans] at hok
    simp only at hok
    cases hk : tokenForUsername staticToken c.KubecfgUsername with
    | error err => rw [hk] at hok; simp at hok
    | ok kubecfgToken =>
      rw [hk] at hok
      simp only at hok
      by_cases hkonn : b.Shoot.KonnectivityTunnelEnabled = true
      · simp only [hkonn, if_true] at hok
        cases hs : tokenForUsername staticToken c.KonnectivityServerUserName with
        | error err => rw [hs] at hok; simp at hok
        | ok token =>
          rw [hs] at hok
          simp only [Outcome.returned.injEq, Prod.mk.injEq, and_true] at hok
          exact ⟨ips, dns, kubecfgToken, _, rfl, hok.symm, fun _ => ⟨token, rfl⟩⟩
      · simp only [hkonn, Bool.false_eq_true, if_false, Outcome.returned.injEq,
          Prod.mk.injEq, and_true] at hok
        exact ⟨ips, dns, kubecfgToken, _, rfl, hok.symm, fun hk2 => absurd hk2 hkonn⟩

theorem mem_withOptionalSecretConfigs (c : Constants) (h : Helpers) (b : Botanist)
    (certificateAuthorities : String → Option secrets.Certificate)
    (secretList : List secrets.ConfigInterface) (cfg : secrets.ConfigInterface)
    (hcfg : cfg ∈ secretList) :
    cfg ∈ b.withOptionalSecretConfigs c h certificateAuthorities secretList := by
  unfold Botanist.withOptionalSecretConfigs
  simp only
  split_ifs <;> first | exact hcfg | (simp only [List.mem_append]; tauto)

theorem dnsNamesForService_four_names_aux (c : Constants) (n ns : String) :
    dnsNamesForService c n ns
      = [n, n ++ "." ++ ns, n ++ "." ++ ns ++ ".svc",
          n ++ "." ++ ns ++ ".svc." ++ c.DefaultDomain] := by
  simp [dnsNamesForService, Sprintf_dot, Sprintf_dot_svc, Sprintf_dot_svc_domain]

/-- C18 (as amended): in every successfully generated catalog, the DNS names of the
etcd-server certificate contain all four names that `dnsNamesForService` yields for the
etcd-main and the etcd-events client service in the seed namespace, and with
`KonnectivityTunnelEnabled` the DNS names of the konnectivity-server certificate contain all
four names for `KonnectivityServerCertName` in the seed namespace; the DNS names of the
kube-apiserver certificate contain the four names for the service `kubernetes` in namespace
`default` and, of the expansion of `kube-apiserver` in the seed namespace, the three names
`kube-apiserver`, `kube-apiserver.<ns>` and `kube-apiserver.<ns>.svc`. -/
theorem certificate_DNS_names_cover_services (c : Constants) (h : Helpers) (b : Botanist)
    (basicAuthAPIServer : Option secrets.BasicAuth) (staticToken : Option secrets.StaticToken)
    (certificateAuthorities : String → Option secrets.Certificate)
    (l : List secrets.ConfigInterface)
    (hok : b.generateWantedSecretConfigs c h basicAuthAPIServer staticToken
      certificateAuthorities = .returned (l, none)) :
    (∃ cfg ∈ l, cfg.GetName = "kube-apiserver" ∧ ∃ cc, cfg.certificateConfig = some cc
        ∧ (∀ n ∈ dnsNamesForService c "kubernetes" "default", n ∈ cc.DNSNames)
        ∧ (∀ n ∈ (dnsNamesForService c "kube-apiserver" b.Shoot.SeedNamespace).take 3,
            n ∈ cc.DNSNames))
      ∧ (∃ cfg ∈ l, cfg.GetName = c.EtcdServerTLS ∧ ∃ cc, cfg.certificateConfig = some cc
        ∧ (∀ n ∈ dnsNamesForService c (c.ETCDMain ++ "-client") b.Shoot.SeedNamespace,
            n ∈ cc.DNSNames)
        ∧ (∀ n ∈ dnsNamesForService c (c.ETCDEvents ++ "-client") b.Shoot.SeedNamespace,
            n ∈ cc.DNSNames))
      ∧ (b.Shoot.KonnectivityTunnelEnabled = true →
          ∃ cfg ∈ l, cfg.GetName = c.KonnectivityServerCertName
            ∧ ∃ cc, cfg.certificateConfig = some cc
            ∧ ∀ n ∈ dnsNamesForService c c.KonnectivityServerCertName b.Shoot.SeedNamespace,
                n ∈ cc.DNSNames) := by
  obtain ⟨ips, dns, kubecfgToken, tunnel, hsans, hl, htun⟩ :=
    generateWantedSecretConfigs_success_sans c h b basicAuthAPIServer staticToken
      certificateAuthorities l hok
  obtain ⟨hapi3, hkube⟩ := apiServerSANs_names c h b ips dns hsans
  have hin : ∀ cfg, cfg ∈ b.initialSecretList c h certificateAuthorities ips dns → cfg ∈ l := by
    intro cfg hcfg
    rw [hl]
    apply mem_withOptionalSecretConfigs
    simp only [List.mem_append]
    tauto
  have htl : ∀ cfg, cfg ∈ tunnel → cfg ∈ l := by
    intro cfg hcfg
    rw [hl]
    apply mem_withOptionalSecretConfigs
    simp only [List.mem_append]
    tauto
  refine ⟨?_, ?_, ?_⟩
  · refine ⟨.controlPlane
        { CertificateSecretConfig :=
            { Name := "kube-apiserver"
              CommonName := user.APIServerUser
              DNSNames := dns
              IPAddresses := ips
              CertType := .ServerCert
              SigningCA := certificateAuthorities c.SecretNameCACluster } },
      hin _ (by simp [Botanist.initialSecretList]), rfl, _, rfl, hkube, ?_⟩
    intro n hn
    apply hapi3
    rw [(dnsNamesForService_four_names_aux c "kube-apiserver" b.Shoot.SeedNamespace)] at hn
    simpa using hn
  · refine ⟨.certificate
        { Name := c.EtcdServerTLS
          CommonName := "etcd-server"
          DNSNames := dnsNamesForEtcd c b.Shoot.SeedNamespace
          CertType := .ServerClientCert
          SigningCA := certificateAuthorities c.SecretNameCAETCD },
      hin _ (by simp [Botanist.initialSecretList]), rfl, _, rfl, ?_, ?_⟩
    · intro n hn
      simp only [secrets.ConfigInterface.certificateConfig, dnsNamesForEtcd, Sprintf_client,
        List.mem_append]
      exact Or.inl (Or.inr hn)
    · intro n hn
      simp only [secrets.ConfigInterface.certificateConfig, dnsNamesForEtcd, Sprintf_client,
        List.mem_append]
      exact Or.inr hn
  · intro hkonn
    obtain ⟨token, ht⟩ := htun hkonn
    refine ⟨.controlPlane
        { CertificateSecretConfig :=
            { Name := c.KonnectivityServerCertName
              CommonName := c.KonnectivityServerCertName
              DNSNames := [h.GetAPIServerDomain b.Shoot.InternalClusterDomain]
                ++ dnsNamesForService c c.KonnectivityServerCertName b.Shoot.SeedNamespace
              CertType := .ServerCert
              SigningCA := certificateAuthorities c.SecretNameCACluster } },
      htl _ (by rw [ht]; simp [Botanist.konnectivitySecretConfigs]), rfl, _, rfl, ?_⟩
    intro n hn
    exact List.mem_append_right _ hn

theorem certificate_DNS_names_cover_services_witness :
    sampleBotanist.generateWantedSecretConfigs upstreamConstants sampleHelpers none
        (some sampleStaticToken) sampleCertificateAuthorities
      = .returned (alwaysConfigsOfSample ++ vpnSecretConfigs upstreamConstants
          sampleCertificateAuthorities, none)
      ∧ (∃ cfg ∈ alwaysConfigsOfSample ++ vpnSecretConfigs upstreamConstants
            sampleCertificateAuthorities,
          cfg.GetName = upstreamConstants.EtcdServerTLS
            ∧ ∃ cc, cfg.certificateConfig = some cc
            ∧ (∀ n ∈ dnsNamesForService upstreamConstants
                  (upstreamConstants.ETCDMain ++ "-client") sampleBotanist.Shoot.SeedNamespace,
                n ∈ cc.DNSNames)
            ∧ (∀ n ∈ dnsNamesForService upstreamConstants
                  (upstreamConstants.ETCDEvents ++ "-client") sampleBotanist.Shoot.SeedNamespace,
                n ∈ cc.DNSNames)) :=
  ⟨by decide,
    (certificate_DNS_names_cover_services upstreamConstants sampleHelpers sampleBotanist none
      (some sampleStaticToken) sampleCertificateAuthorities
      (alwaysConfigsOfSample ++ vpnSecretConfigs upstreamConstants
        sampleCertificateAuthorities)
      (by decide)).2.1⟩

/-- C18 (as stated) fails: the catalog generated for the sample shoot holds the
kube-apiserver certificate, and its DNS names lack the fourth name that `dnsNamesForService`
yields for `kube-apiserver` in the seed namespace,
`kube-apiserver.shoot--dev--crazy-botany.svc.cluster.local`. -/
theorem apiserver_certificate_lacks_cluster_domain_name :
    sampleBotanist.generateWantedSecretConfigs upstreamConstants sampleHelpers none
        (some sampleStaticToken) sampleCertificateAuthorities
      = .returned (alwaysConfigsOfSample ++ vpnSecretConfigs upstreamConstants
          sampleCertificateAuthorities, none)
      ∧ "kube-apiserver.shoot--dev--crazy-botany.svc.cluster.local"
          ∈ dnsNamesForService upstreamConstants "kube-apiserver"
              sampleBotanist.Shoot.SeedNamespace
      ∧ (∃ cfg ∈ alwaysConfigsOfSample ++ vpnSecretConfigs upstreamConstants
            sampleCertificateAuthorities, cfg.GetName = "kube-apiserver")
      ∧ ∀ cfg ∈ alwaysConfigsOfSample ++ vpnSecretConfigs upstreamConstants
            sampleCertificateAuthorities,
          cfg.GetName = "kube-apiserver" →
            ∀ cc ∈ cfg.certificateConfig,
              "kube-apiserver.shoot--dev--crazy-botany.svc.cluster.local" ∉ cc.DNSNames := by
  decide

/-! ## The managed resources of the charts -/

theorem append_left_cancel_string (p a b : String) (h : p ++ a = p ++ b) : a = b := by
  have hd := congrArg String.data h
  simp only [String.data_append] at hd
  exact String.ext (List.append_cancel_left hd)

theorem mem_upsertManagedResource_self (ms : List ManagedResource) (obj : ManagedResource) :
    obj ∈ upsertManagedResource ms obj := by
  unfold upsertManagedResource
  by_cases hany : ms.any (fun m => m.key == obj.key) = true
  · simp only [hany, if_true]
    rw [List.any_eq_true] at hany
    obtain ⟨m, hm, hkey⟩ := hany
    exact List.mem_map.2 ⟨m, hm, by simp [hkey]⟩
  · simp [hany]

theorem mem_upsertManagedResource_of_ne (ms : List ManagedResource) (obj m : ManagedResource)
    (hm : m ∈ ms) (hkey : m.key ≠ obj.key) : m ∈ upsertManagedResource ms obj := by
  unfold upsertManagedResource
  have hb : (m.key == obj.key) = false := by simpa using hkey
  split_ifs
  · exact List.mem_map.2 ⟨m, hm, by simp [hb]⟩
  · exact List.mem_append_left _ hm

/-- A successful reconcile of a secret writes a secret of the name, labels and data of the
builder and leaves the other secrets and the ManagedResources alone. -/
theorem manager.Secret.Reconcile_ok (w w1 : World) (secret : Secret)
    (h : manager.Secret.Reconcile w secret = (none, w1)) :
    ∃ updated : Secret, updated.Name = secret.Name ∧ updated.Namespace = secret.Namespace
      ∧ updated.Labels = secret.Labels ∧ updated.Data = secret.Data
      ∧ w1.seedSecrets = upsertSecret w.seedSecrets updated
      ∧ w1.seedManagedResources = w.seedManagedResources := by
  unfold manager.Secret.Reconcile at h
  rcases hc : SeedClient.CreateOrUpdate w { Name := secret.Name, Namespace := secret.Namespace }
      (fun obj => { obj with Labels := secret.Labels, Data := secret.Data })
    with ⟨err, updated, w2⟩
  rw [hc] at h
  simp only [Prod.mk.injEq] at h
  obtain ⟨rfl, rfl⟩ := h
  have hco := fun hkey => SeedClient.CreateOrUpdate_ok w w2 _ updated _ hkey hc
  obtain ⟨hk, ⟨current, hcu, _⟩, hs, hm, _⟩ := hco (fun s => rfl)
  simp only [Secret.key, Prod.mk.injEq] at hk
  refine ⟨updated, hk.2, hk.1, ?_, ?_, hs, hm⟩
  · rw [hcu]
  · rw [hcu]

/-- A failing reconcile of a secret writes nothing. -/
theorem manager.Secret.Reconcile_frame (w w1 : World) (secret : Secret) (e : Option Err)
    (h : manager.Secret.Reconcile w secret = (e, w1)) :
    w1.seedManagedResources = w.seedManagedResources
      ∧ ∀ s ∈ w.seedSecrets, s.key ≠ (secret.Namespace, secret.Name) → s ∈ w1.seedSecrets := by
  have h1 := nextFault_seedSecrets w
  have h2 := nextFault_seedManagedResources w
  unfold manager.Secret.Reconcile SeedClient.CreateOrUpdate at h
  rcases hf : w.nextFault with ⟨flt, w2⟩
  rw [hf] at h h1 h2
  simp only at h1 h2
  cases flt with
  | some msg =>
    simp only [Prod.mk.injEq] at h
    obtain ⟨_, rfl⟩ := h
    exact ⟨h2, fun s hs _ => h1 ▸ hs⟩
  | none =>
    simp only [Prod.mk.injEq] at h
    obtain ⟨_, rfl⟩ := h
    refine ⟨h2, fun s hs hkey => ?_⟩
    simp only
    apply mem_upsertSecret_of_ne
    · rw [h1]; exact hs
    · intro hk
      apply hkey
      rw [hk]
      cases hfind : w2.seedSecrets.find? (fun s => s.key == Secret.key
          { Name := secret.Name, Namespace := secret.Namespace }) with
      | none => simp [Secret.key]
      | some current =>
        have hp := List.find?_some hfind
        simp only [beq_iff_eq] at hp
        simp only [Option.getD_some, Secret.key] at hp ⊢
        exact hp

theorem manager.ManagedResource.Reconcile_resource_ok (w w1 : World) (resource : ManagedResource)
    (h : manager.ManagedResource.Reconcile w resource = (none, w1)) :
    w1.seedSecrets = w.seedSecrets
      ∧ w1.seedManagedResources = upsertManagedResource w.seedManagedResources resource := by
  have h1 := nextFault_seedSecrets w
  have h2 := nextFault_seedManagedResources w
  unfold manager.ManagedResource.Reconcile at h
  rcases hf : w.nextFault with ⟨flt, w2⟩
  rw [hf] at h h1 h2
  simp only at h1 h2
  cases flt with
  | some msg => simp at h
  | none =>
    simp only [Prod.mk.injEq, true_and] at h
    subst h
    exact ⟨h1, by simp only; rw [h2]⟩

theorem manager.ManagedResource.Reconcile_resource_frame (w w1 : World) (resource : ManagedResource)
    (e : Option Err) (h : manager.ManagedResource.Reconcile w resource = (e, w1)) :
    w1.seedSecrets = w.seedSecrets
      ∧ ∀ m ∈ w.seedManagedResources, m.key ≠ resource.key → m ∈ w1.seedManagedResources := by
  have h1 := nextFault_seedSecrets w
  have h2 := nextFault_seedManagedResources w
  unfold manager.ManagedResource.Reconcile at h
  rcases hf : w.nextFault with ⟨flt, w2⟩
  rw [hf] at h h1 h2
  simp only at h1 h2
  cases flt with
  | some msg =>
    simp only [Prod.mk.injEq] at h
    obtain ⟨_, rfl⟩ := h
    exact ⟨h1, fun m hm _ => h2 ▸ hm⟩
  | none =>
    simp only [Prod.mk.injEq] at h
    obtain ⟨_, rfl⟩ := h
    refine ⟨h1, fun m hm hkey => ?_⟩
    simp only
    exact mem_upsertManagedResource_of_ne _ _ _ (h2 ▸ hm) hkey

/-- The body of the loop of `DeployManagedResources`, when it succeeds, leaves the secret and
the ManagedResource of the chart in the seed namespace. -/
theorem deployChart_ok (c : Constants) (r : ChartCollaborators) (b : Botanist)
    (name : String) (options : managedResourceOptions) (w w' : World)
    (h : b.deployChart c r name options w = (none, w')) :
    ∃ renderedChart, options.chartRenderFunc = .ok renderedChart
      ∧ (∃ secret ∈ w'.seedSecrets, secret.Namespace = b.Shoot.SeedNamespace
          ∧ secret.Name = "managedresource-" ++ name
          ∧ secret.Data = r.AsSecretData renderedChart)
      ∧ ({ Name := name
           Namespace := b.Shoot.SeedNamespace
           Labels := [(c.ManagedResourceLabelKeyOrigin, c.ManagedResourceLabelValueGardener)]
           SecretRefs := ["managedresource-" ++ name]
           InjectLabels := [(c.ShootNoCleanup, "true")]
           KeepObjects := options.keepObjects } : ManagedResource) ∈ w'.seedManagedResources := by
  unfold Botanist.deployChart at h
  simp only at h
  cases hr : options.chartRenderFunc with
  | error err => rw [hr] at h; simp at h
  | ok renderedChart =>
    rw [hr] at h
    simp only at h
    rcases hs : manager.Secret.Reconcile w
        { Name := "managedresource-" ++ name, Namespace := b.Shoot.SeedNamespace,
          Data := r.AsSecretData renderedChart } with ⟨e1, w1⟩
    rw [hs] at h
    cases e1 with
    | some err => simp at h
    | none =>
      simp only at h
      obtain ⟨updated, hn, hns, _, hd, hss, _⟩ := manager.Secret.Reconcile_ok w w1 _ hs
      obtain ⟨hs2, hm2⟩ := manager.ManagedResource.Reconcile_resource_ok w1 w' _ h
      refine ⟨renderedChart, rfl, ⟨updated, ?_, hns, hn, hd⟩, ?_⟩
      · rw [hs2, hss]
        exact mem_upsertSecret_self _ _
      · rw [hm2]
        exact mem_upsertManagedResource_self _ _

/-- The body of the loop of `DeployManagedResources` leaves the secrets and the
ManagedResources of other names in place. -/
theorem deployChart_frame (c : Constants) (r : ChartCollaborators) (b : Botanist)
    (name : String) (options : managedResourceOptions) (w w' : World) (e : Option Err)
    (h : b.deployChart c r name options w = (e, w')) :
    (∀ s ∈ w.seedSecrets, s.key ≠ (b.Shoot.SeedNamespace, "managedresource-" ++ name) →
        s ∈ w'.seedSecrets)
      ∧ (∀ m ∈ w.seedManagedResources, m.key ≠ (b.Shoot.SeedNamespace, name) →
        m ∈ w'.seedManagedResources) := by
  unfold Botanist.deployChart at h
  simp only at h
  cases hr : options.chartRenderFunc with
  | error err =>
    rw [hr] at h
    simp only [Prod.mk.injEq] at h
    obtain ⟨_, rfl⟩ := h
    exact ⟨fun s hs _ => hs, fun m hm _ => hm⟩
  | ok renderedChart =>
    rw [hr] at h
    simp only at h
    rcases hs : manager.Secret.Reconcile w
        { Name := "managedresource-" ++ name, Namespace := b.Shoot.SeedNamespace,
          Data := r.AsSecretData renderedChart } with ⟨e1, w1⟩
    rw [hs] at h
    obtain ⟨hm1, hs1⟩ := manager.Secret.Reconcile_frame w w1 _ e1 hs
    cases e1 with
    | some err =>
      simp only [Prod.mk.injEq] at h
      obtain ⟨_, rfl⟩ := h
      exact ⟨hs1, fun m hm _ => hm1 ▸ hm⟩
    | none =>
      simp only at h
      obtain ⟨hs2, hm2⟩ := manager.ManagedResource.Reconcile_resource_frame w1 w' _ e h
      refine ⟨fun s hs hk => ?_, fun m hm hk => ?_⟩
      · rw [hs2]
        exact hs1 s hs hk
      · exact hm2 m (hm1 ▸ hm) hk

theorem deployCharts_frame (c : Constants) (r : ChartCollaborators) (b : Botanist)
    (charts : List (String × managedResourceOptions)) (w w' : World) (e : Option Err)
    (h : b.deployCharts c r charts w = (e, w')) (name : String)
    (hname : name ∉ charts.map Prod.fst) :
    (∀ s ∈ w.seedSecrets, s.key = (b.Shoot.SeedNamespace, "managedresource-" ++ name) →
        s ∈ w'.seedSecrets)
      ∧ (∀ m ∈ w.seedManagedResources, m.key = (b.Shoot.SeedNamespace, name) →
        m ∈ w'.seedManagedResources) := by
  induction charts generalizing w with
  | nil =>
    simp only [Botanist.deployCharts, Prod.mk.injEq] at h
    obtain ⟨_, rfl⟩ := h
    exact ⟨fun s hs _ => hs, fun m hm _ => hm⟩
  | cons kv rest ih =>
    obtain ⟨name2, options2⟩ := kv
    simp only [List.map_cons, List.mem_cons, not_or] at hname
    obtain ⟨hne, hrest⟩ := hname
    simp only [Botanist.deployCharts] at h
    rcases hd : b.deployChart c r name2 options2 w with ⟨e1, w1⟩
    rw [hd] at h
    obtain ⟨hfs, hfm⟩ := deployChart_frame c r b name2 options2 w w1 e1 hd
    have hstep : (∀ s ∈ w.seedSecrets,
          s.key = (b.Shoot.SeedNamespace, "managedresource-" ++ name) → s ∈ w1.seedSecrets)
        ∧ (∀ m ∈ w.seedManagedResources, m.key = (b.Shoot.SeedNamespace, name) →
          m ∈ w1.seedManagedResources) := by
      refine ⟨fun s hs hk => hfs s hs ?_, fun m hm hk => hfm m hm ?_⟩
      · rw [hk]
        intro heq
        simp only [Prod.mk.injEq, true_and] at heq
        exact hne (append_left_cancel_string _ _ _ heq)
      · rw [hk]
        intro heq
        simp only [Prod.mk.injEq, true_and] at heq
        exact hne heq
    cases e1 with
    | some err =>
      simp only [Prod.mk.injEq] at h
      obtain ⟨_, rfl⟩ := h
      exact hstep
    | none =>
      simp only at h
      obtain ⟨h1, h2⟩ := ih w1 h hrest
      exact ⟨fun s hs hk => h1 s (hstep.1 s hs hk) hk, fun m hm hk => h2 m (hstep.2 m hm hk) hk⟩

/-- A successful run of the loop leaves the secret and the ManagedResource of every chart
in the seed namespace, when no two charts share a name. -/
theorem deployCharts_ok (c : Constants) (r : ChartCollaborators) (b : Botanist)
    (charts : List (String × managedResourceOptions)) (hnodup : (charts.map Prod.fst).Nodup)
    (w w' : World) (h : b.deployCharts c r charts w = (none, w'))
    (name : String) (options : managedResourceOptions) (hmem : (name, options) ∈ charts) :
    ∃ renderedChart, options.chartRenderFunc = .ok renderedChart
      ∧ (∃ secret ∈ w'.seedSecrets, secret.Namespace = b.Shoot.SeedNamespace
          ∧ secret.Name = "managedresource-" ++ name
          ∧ secret.Data = r.AsSecretData renderedChart)
      ∧ ({ Name := name
           Namespace := b.Shoot.SeedNamespace
           Labels := [(c.ManagedResourceLabelKeyOrigin, c.ManagedResourceLabelValueGardener)]
           SecretRefs := ["managedresource-" ++ name]
           InjectLabels := [(c.ShootNoCleanup, "true")]
           KeepObjects := options.keepObjects } : ManagedResource) ∈ w'.seedManagedResources := by
  induction charts generalizing w with
  | nil => simp at hmem
  | cons kv rest ih =>
    obtain ⟨name2, options2⟩ := kv
    simp only [List.map_cons, List.nodup_cons] at hnodup
    simp only [Botanist.deployCharts] at h
    rcases hd : b.deployChart c r name2 options2 w with ⟨e1, w1⟩
    rw [hd] at h
    cases e1 with
    | some err => simp at h
    | none =>
      simp only at h
      rcases List.mem_cons.1 hmem with heq | htail
      · simp only [Prod.mk.injEq] at heq
        obtain ⟨rfl, rfl⟩ := heq
        obtain ⟨rc, hrc, ⟨secret, hsm, hns, hn, hdata⟩, hmr⟩ :=
          deployChart_ok c r b name options w w1 hd
        obtain ⟨hf1, hf2⟩ := deployCharts_frame c r b rest w1 w' none h name hnodup.1
        refine ⟨rc, hrc, ⟨secret, hf1 secret hsm ?_, hns, hn, hdata⟩, hf2 _ hmr rfl⟩
        simp only [Secret.key, hns, hn]
      · exact ih hnodup.2 w1 h htail

/-- C19: with pairwise distinct names of the four charts of `DeployManagedResources`
(shoot core, core namespaces, optional addons, kyma), `keepObjects` is true only for the
core-namespaces chart, and for each chart: whenever the body of the loop succeeds for it,
and likewise whenever the whole loop succeeds, the seed namespace holds a secret named
`"managedresource-" + name` whose data is `AsSecretData` of the rendered chart, and a
ManagedResource named after the chart that references exactly that secret name, carries the
label origin=gardener and the injected label `ShootNoCleanup="true"`, and has the
`keepObjects` of the chart. -/
theorem managed_resource_per_chart (c : Constants) (r : ChartCollaborators) (b : Botanist)
    (hnames : [c.ManagedResourceShootCoreName, c.ManagedResourceCoreNamespaceName,
      c.ManagedResourceAddonsName, c.ManagedResourceKymaName].Nodup) :
    (Botanist.managedResourceCharts c r).map Prod.fst
        = [c.ManagedResourceShootCoreName, c.ManagedResourceCoreNamespaceName,
            c.ManagedResourceAddonsName, c.ManagedResourceKymaName]
      ∧ ∀ name options, (name, options) ∈ Botanist.managedResourceCharts c r →
          (options.keepObjects = true ↔ name = c.ManagedResourceCoreNamespaceName)
          ∧ ∀ w w',
              (b.deployChart c r name options w = (none, w')
                ∨ b.deployCharts c r (Botanist.managedResourceCharts c r) w = (none, w')) →
              ∃ renderedChart, options.chartRenderFunc = .ok renderedChart
                ∧ (∃ secret ∈ w'.seedSecrets, secret.Namespace = b.Shoot.SeedNamespace
                    ∧ secret.Name = "managedresource-" ++ name
                    ∧ secret.Data = r.AsSecretData renderedChart)
                ∧ ({ Name := name
                     Namespace := b.Shoot.SeedNamespace
                     Labels :=
                       [(c.ManagedResourceLabelKeyOrigin, c.ManagedResourceLabelValueGardener)]
                     SecretRefs := ["managedresource-" ++ name]
                     InjectLabels := [(c.ShootNoCleanup, "true")]
                     KeepObjects := options.keepObjects } : ManagedResource)
                    ∈ w'.seedManagedResources := by
  have hkeys : (Botanist.managedResourceCharts c r).map Prod.fst
      = [c.ManagedResourceShootCoreName, c.ManagedResourceCoreNamespaceName,
          c.ManagedResourceAddonsName, c.ManagedResourceKymaName] := rfl
  refine ⟨hkeys, fun name options hmem => ⟨?_, fun w w' hrun => ?_⟩⟩
  · simp only [List.nodup_cons, List.mem_cons, List.mem_singleton, not_or, List.not_mem_nil,
      not_false_eq_true, List.nodup_nil, and_true] at hnames
    obtain ⟨⟨h12, h13, h14⟩, ⟨h23, h24⟩, h34⟩ := hnames
    simp only [Botanist.managedResourceCharts, List.mem_cons, Prod.mk.injEq,
      List.mem_singleton, List.not_mem_nil, or_false] at hmem
    rcases hmem with ⟨rfl, rfl⟩ | ⟨rfl, rfl⟩ | ⟨rfl, rfl⟩ | ⟨rfl, rfl⟩
    · simp [h12]
    · simp
    · simp [Ne.symm h23]
    · simp [Ne.symm h24]
  · rcases hrun with hbody | hloop
    · exact deployChart_ok c r b name options w w' hbody
    · exact deployCharts_ok c r b _ (hkeys ▸ hnames) w w' hloop name options hmem

theorem managed_resource_per_chart_witness :
    [upstreamConstants.ManagedResourceShootCoreName,
        upstreamConstants.ManagedResourceCoreNamespaceName,
        upstreamConstants.ManagedResourceAddonsName,
        upstreamConstants.ManagedResourceKymaName].Nodup
      ∧ (sampleBotanist.deployCharts upstreamConstants sampleChartCollaborators
          (Botanist.managedResourceCharts upstreamConstants sampleChartCollaborators)
          sampleWorld).1 = none
      ∧ ∃ renderedChart,
          sampleChartCollaborators.generateCoreNamespacesChart = .ok renderedChart
            ∧ (∃ secret ∈ (sampleBotanist.deployCharts upstreamConstants sampleChartCollaborators
                  (Botanist.managedResourceCharts upstreamConstants sampleChartCollaborators)
                  sampleWorld).2.seedSecrets,
                secret.Namespace = "shoot--dev--crazy-botany"
                  ∧ secret.Name = "managedresource-" ++ "shoot-core-namespaces"
                  ∧ secret.Data = sampleChartCollaborators.AsSecretData renderedChart)
            ∧ ({ Name := "shoot-core-namespaces"
                 Namespace := "shoot--dev--crazy-botany"
                 Labels := [("origin", "gardener")]
                 SecretRefs := ["managedresource-" ++ "shoot-core-namespaces"]
                 InjectLabels := [("shoot.gardener.cloud/no-cleanup", "true")]
                 KeepObjects := true } : ManagedResource)
                ∈ (sampleBotanist.deployCharts upstreamConstants sampleChartCollaborators
                  (Botanist.managedResourceCharts upstreamConstants sampleChartCollaborators)
                  sampleWorld).2.seedManagedResources :=
  ⟨by decide, by decide,
    ((managed_resource_per_chart upstreamConstants sampleChartCollaborators sampleBotanist
      (by decide)).2 "shoot-core-namespaces"
        ⟨true, sampleChartCollaborators.generateCoreNamespacesChart⟩
        (by simp [Botanist.managedResourceCharts, upstreamConstants])).2 sampleWorld _
      (Or.inr (Prod.ext (by decide) rfl))⟩

/-! ## The cloud-config ManagedResource -/

theorem Sprintf_cloud_config_execution (name : String) :
    Sprintf "shoot-cloud-config-execution-%s" [name] = "shoot-cloud-config-execution-" ++ name := by
  apply String.ext
  simp [Sprintf, sprintfAux]

theorem mem_keys_mapInsert {β : Type} (m : List (String × β)) (k : String) (v : β)
    (k2 : String) :
    k2 ∈ (mapInsert m k v).map Prod.fst ↔ k2 ∈ m.map Prod.fst ∨ k2 = k := by
  rw [keys_mapInsert]
  by_cases hany : m.any (fun kv => kv.1 == k) = true
  · simp only [hany, if_true]
    constructor
    · exact Or.inl
    · rintro (h | rfl)
      · exact h
      · rw [List.any_eq_true] at hany
        obtain ⟨kv, hkv, hk⟩ := hany
        simp only [beq_iff_eq] at hk
        exact List.mem_map.2 ⟨kv, hkv, hk⟩
  · simp only [hany, Bool.false_eq_true, if_false, List.mem_append, List.mem_singleton]

theorem keys_foldl_mapInsert {α β : Type} (xs : List α) (kf : α → String) (vf : α → β)
    (acc : List (String × β)) :
    ((acc.map Prod.fst).Nodup →
          ((xs.foldl (fun acc x => mapInsert acc (kf x) (vf x)) acc).map Prod.fst).Nodup)
      ∧ ∀ k2, k2 ∈ (xs.foldl (fun acc x => mapInsert acc (kf x) (vf x)) acc).map Prod.fst
          ↔ k2 ∈ acc.map Prod.fst ∨ ∃ x ∈ xs, k2 = kf x := by
  refine ⟨?_, ?_⟩
  · intro hacc
    induction xs generalizing acc with
    | nil => exact hacc
    | cons x xs ih =>
      simp only [List.foldl_cons]
      exact ih _ (nodup_keys_mapInsert acc (kf x) (vf x) hacc)
  · induction xs generalizing acc with
    | nil => simp
    | cons x xs ih =>
      intro k2
      simp only [List.foldl_cons]
      rw [ih, mem_keys_mapInsert]
      simp only [List.mem_cons, exists_eq_or_imp]
      tauto

/-- The names of the cloud-config charts: the RBAC chart and one chart per worker pool, each
name once. -/
theorem cloudConfigCharts_keys (r : ChartCollaborators) (b : Botanist) (token : Secret) :
    ((b.cloudConfigCharts r token).map Prod.fst).Nodup
      ∧ ∀ name, name ∈ (b.cloudConfigCharts r token).map Prod.fst
          ↔ name = "shoot-cloud-config-rbac"
            ∨ ∃ worker ∈ b.Shoot.Info.Workers,
                name = "shoot-cloud-config-execution-" ++ worker.Name := by
  have hk := keys_foldl_mapInsert b.Shoot.Info.Workers
    (fun worker => Sprintf "shoot-cloud-config-execution-%s" [worker.Name])
    (fun worker => r.getGenerateCloudConfigExecutionChartFunc
      (Sprintf "shoot-cloud-config-execution-%s" [worker.Name]) worker token)
    [("shoot-cloud-config-rbac", r.generateCloudConfigRBACChart)]
  refine ⟨hk.1 (by simp), fun name => ?_⟩
  have h2 := hk.2 name
  simp only [Sprintf_cloud_config_execution, List.map_cons, List.map_nil,
    List.mem_singleton] at h2
  unfold Botanist.cloudConfigCharts
  simp only [Sprintf_cloud_config_execution]
  exact h2

/-- The render loop returns at the first chart that fails to render, with an error that
names it. -/
theorem renderCloudConfigCharts_error (r : ChartCollaborators) (b : Botanist)
    (secretLabels : List (String × String)) (charts : List (String × Except Err RenderedChart))
    (fns : List TaskFn) (mr : ManagedResource) (wanted : List String)
    (hfail : ∃ name cause, (name, Except.error cause) ∈ charts) :
    ∃ name cause, (name, Except.error cause) ∈ charts
      ∧ b.renderCloudConfigCharts r secretLabels charts fns mr wanted
          = .error (.rendering name cause) := by
  induction charts generalizing fns mr wanted with
  | nil =>
    obtain ⟨_, _, h⟩ := hfail
    simp at h
  | cons kv rest ih =>
    obtain ⟨name2, render2⟩ := kv
    cases render2 with
    | error err =>
      exact ⟨name2, err, List.mem_cons_self _ _, by simp [Botanist.renderCloudConfigCharts]⟩
    | ok renderedChart =>
      have hrest : ∃ name cause, (name, Except.error cause) ∈ rest := by
        obtain ⟨name, cause, h⟩ := hfail
        rcases List.mem_cons.1 h with heq | htail
        · simp at heq
        · exact ⟨name, cause, htail⟩
      obtain ⟨name, cause, hmem, heq⟩ := ih
        (fns ++ [b.cloudConfigSecretTask r secretLabels name2 renderedChart])
        (manager.ManagedResource.WithSecretRef mr ("managedresource-" ++ name2))
        (wanted.insert ("managedresource-" ++ name2)) hrest
      refine ⟨name, cause, List.mem_cons_of_mem _ hmem, ?_⟩
      simp only [Botanist.renderCloudConfigCharts]
      exact heq

/-- When every chart renders, the render loop yields one task per chart, and the secret
name of every chart as a reference and as a wanted name. -/
theorem renderCloudConfigCharts_ok (r : ChartCollaborators) (b : Botanist)
    (secretLabels : List (String × String)) (rendered : List (String × RenderedChart))
    (fns : List TaskFn) (mr : ManagedResource) (wanted : List String) :
    b.renderCloudConfigCharts r secretLabels
        (rendered.map (fun kv => (kv.1, Except.ok kv.2))) fns mr wanted
      = .ok (fns ++ rendered.map (fun kv => b.cloudConfigSecretTask r secretLabels kv.1 kv.2),
          { mr with
            SecretRefs := mr.SecretRefs ++ rendered.map (fun kv => "managedresource-" ++ kv.1) },
          rendered.foldl (fun acc kv => acc.insert ("managedresource-" ++ kv.1)) wanted) := by
  induction rendered generalizing fns mr wanted with
  | nil => simp [Botanist.renderCloudConfigCharts]
  | cons kv rest ih =>
    simp only [List.map_cons, Botanist.renderCloudConfigCharts, List.foldl_cons]
    rw [ih]
    simp [manager.ManagedResource.WithSecretRef, List.append_assoc]

theorem SeedClient.Delete_seedManagedResources (w : World) (ns name : String) :
    (SeedClient.Delete w ns name).2.seedManagedResources = w.seedManagedResources := by
  have h2 := nextFault_seedManagedResources w
  unfold SeedClient.Delete
  rcases hf : w.nextFault with ⟨flt, w1⟩
  rw [hf] at h2
  simp only at h2
  cases flt with
  | some msg => exact h2
  | none =>
    simp only
    split_ifs
    · exact h2
    · exact h2

/-- A fan-out of tasks that leave the ManagedResources alone leaves them alone. -/
theorem flow.Parallel_seedManagedResources (fns : List TaskFn)
    (hfns : ∀ fn ∈ fns, ∀ w, (fn w).2.seedManagedResources = w.seedManagedResources)
    (w : World) : (flow.Parallel fns w).2.seedManagedResources = w.seedManagedResources := by
  induction fns generalizing w with
  | nil => rfl
  | cons fn fns ih =>
    simp only [flow.Parallel]
    have h1 := hfns fn (List.mem_cons_self _ _) w
    have h2 := ih (fun fn2 hfn2 => hfns fn2 (List.mem_cons_of_mem _ hfn2)) (fn w).2
    rw [← h1, ← h2]

theorem deleteStaleSecretsMatchLabel_seedManagedResources (b : Botanist)
    (labels : List (String × String)) (wanted : List String) (w : World) :
    (b.deleteStaleSecretsMatchLabel labels wanted w).2.seedManagedResources
      = w.seedManagedResources := by
  have h2 := nextFault_seedManagedResources w
  unfold Botanist.deleteStaleSecretsMatchLabel SeedClient.List
  rcases hf : w.nextFault with ⟨flt, w1⟩
  rw [hf] at h2
  simp only at h2
  cases flt with
  | some msg => exact h2
  | none =>
    simp only
    rw [flow.Parallel_seedManagedResources, h2]
    intro fn hfn w2
    obtain ⟨secret, _, rfl⟩ := List.mem_map.1 hfn
    exact SeedClient.Delete_seedManagedResources w2 secret.Namespace secret.Name

theorem deleteLegacyCloudConfigSecret_seedManagedResources (b : Botanist) (w : World) :
    (b.deleteLegacyCloudConfigSecret w).2.seedManagedResources = w.seedManagedResources := by
  unfold Botanist.deleteLegacyCloudConfigSecret
  exact SeedClient.Delete_seedManagedResources w _ _

theorem cloudConfigSecretTasks_seedManagedResources (r : ChartCollaborators) (b : Botanist)
    (secretLabels : List (String × String)) (rendered : List (String × RenderedChart))
    (w : World) :
    (flow.Parallel (rendered.map (fun kv => b.cloudConfigSecretTask r secretLabels kv.1 kv.2))
        w).2.seedManagedResources = w.seedManagedResources := by
  apply flow.Parallel_seedManagedResources
  intro fn hfn w2
  obtain ⟨kv, _, rfl⟩ := List.mem_map.1 hfn
  exact (manager.Secret.Reconcile_frame w2 _ _ _ rfl).1



/-- C20: with the bootstrap token computed, `deployCloudConfigExecutionManagedResource`
(1) returns, when some cloud-config chart fails to render, an error that names a chart that
failed to render, and leaves the seed cluster as it was; and when every chart rendered,
the ManagedResource `shoot-cloud-config-execution` of its reconcile references exactly the
names `managedresource-shoot-cloud-config-rbac` and
`managedresource-shoot-cloud-config-execution-<worker name>` of the worker pools, each
once, and (2) a failing secret reconcile is returned with the ManagedResources of the seed
as they were, (3) as is a failing reconcile of the ManagedResource, and (4) after the
successful secret reconciles a successful reconcile of the ManagedResource puts it among
the ManagedResources of the seed, where the later steps leave it. -/
theorem cloud_config_managed_resource_after_secrets (c : Constants) (r : ChartCollaborators)
    (b : Botanist) (w : World) (token : Secret) (htoken : r.ComputeBootstrapToken = .ok token) :
    ((∃ name cause, (name, Except.error cause) ∈ b.cloudConfigCharts r token) →
        ∃ name cause, (name, Except.error cause) ∈ b.cloudConfigCharts r token
          ∧ b.deployCloudConfigExecutionManagedResource c r w
              = (some (.rendering name cause), w))
      ∧ ∀ (rendered : List (String × RenderedChart)) (mr : ManagedResource),
          b.cloudConfigCharts r token = rendered.map (fun kv => (kv.1, Except.ok kv.2)) →
          mr = { Name := "shoot-cloud-config-execution"
                 Namespace := b.Shoot.SeedNamespace
                 Labels :=
                   [(c.ManagedResourceLabelKeyOrigin, c.ManagedResourceLabelValueGardener)]
                 SecretRefs := rendered.map (fun kv => "managedresource-" ++ kv.1)
                 InjectLabels := [(c.ShootNoCleanup, "true")]
                 KeepObjects := false } →
          (mr.SecretRefs.Nodup
            ∧ ∀ n, n ∈ mr.SecretRefs ↔ n = "managedresource-shoot-cloud-config-rbac"
                ∨ ∃ worker ∈ b.Shoot.Info.Workers,
                    n = "managedresource-shoot-cloud-config-execution-" ++ worker.Name)
          ∧ (∀ err w1,
              flow.Parallel (rendered.map (fun kv => b.cloudConfigSecretTask r
                  [(SecretLabelKeyManagedResource, "shoot-cloud-config-execution")] kv.1 kv.2)) w
                = (some err, w1) →
              b.deployCloudConfigExecutionManagedResource c r w = (some err, w1)
                ∧ w1.seedManagedResources = w.seedManagedResources)
          ∧ ∀ w1,
              flow.Parallel (rendered.map (fun kv => b.cloudConfigSecretTask r
                  [(SecretLabelKeyManagedResource, "shoot-cloud-config-execution")] kv.1 kv.2)) w
                = (none, w1) →
              (∀ err w2, manager.ManagedResource.Reconcile w1 mr = (some err, w2) →
                b.deployCloudConfigExecutionManagedResource c r w = (some err, w2)
                  ∧ w2.seedManagedResources = w.seedManagedResources)
              ∧ ∀ w2, manager.ManagedResource.Reconcile w1 mr = (none, w2) →
                  (b.deployCloudConfigExecutionManagedResource c r w).2.seedManagedResources
                      = upsertManagedResource w.seedManagedResources mr
                    ∧ mr ∈ (b.deployCloudConfigExecutionManagedResource c r w).2.seedManagedResources := by
  have hdef : ∀ (rendered : List (String × RenderedChart)) (mr : ManagedResource),
      b.cloudConfigCharts r token = rendered.map (fun kv => (kv.1, Except.ok kv.2)) →
      mr = { Name := "shoot-cloud-config-execution"
             Namespace := b.Shoot.SeedNamespace
             Labels := [(c.ManagedResourceLabelKeyOrigin, c.ManagedResourceLabelValueGardener)]
             SecretRefs := rendered.map (fun kv => "managedresource-" ++ kv.1)
             InjectLabels := [(c.ShootNoCleanup, "true")]
             KeepObjects := false } →
      b.deployCloudConfigExecutionManagedResource c r w
        = match flow.Parallel (rendered.map (fun kv => b.cloudConfigSecretTask r
              [(SecretLabelKeyManagedResource, "shoot-cloud-config-execution")] kv.1 kv.2)) w with
          | (some err, w1) => (some err, w1)
          | (none, w1) =>
            match manager.ManagedResource.Reconcile w1 mr with
            | (some err, w2) => (some err, w2)
            | (none, w2) =>
              match b.deleteStaleSecretsMatchLabel
                  [(SecretLabelKeyManagedResource, "shoot-cloud-config-execution")]
                  (rendered.foldl (fun acc kv => acc.insert ("managedresource-" ++ kv.1)) [])
                  w2 with
              | (some err, w3) => (some err, w3)
              | (none, w3) => b.deleteLegacyCloudConfigSecret w3 := by
    intro rendered mr hcharts hmr
    unfold Botanist.deployCloudConfigExecutionManagedResource
    simp only [htoken]
    rw [hcharts, renderCloudConfigCharts_ok]
    simp only [List.nil_append, hmr]
  refine ⟨fun hfail => ?_, fun rendered mr hcharts hmr => ⟨⟨?_, ?_⟩, ?_, ?_⟩⟩
  · obtain ⟨name, cause, hmem, heq⟩ := renderCloudConfigCharts_error r b
      [(SecretLabelKeyManagedResource, "shoot-cloud-config-execution")]
      (b.cloudConfigCharts r token) []
      { Name := "shoot-cloud-config-execution"
        Namespace := b.Shoot.SeedNamespace
        Labels := [(c.ManagedResourceLabelKeyOrigin, c.ManagedResourceLabelValueGardener)]
        InjectLabels := [(c.ShootNoCleanup, "true")]
        KeepObjects := false } [] hfail
    refine ⟨name, cause, hmem, ?_⟩
    unfold Botanist.deployCloudConfigExecutionManagedResource
    simp only [htoken]
    rw [heq]
  · have hkeys : rendered.map Prod.fst = (b.cloudConfigCharts r token).map Prod.fst := by
      rw [hcharts, List.map_map]
      rfl
    have hnodup := (cloudConfigCharts_keys r b token).1
    rw [← hkeys] at hnodup
    rw [hmr]
    simp only
    have hmap : rendered.map (fun kv => "managedresource-" ++ kv.1)
        = (rendered.map Prod.fst).map (fun n => "managedresource-" ++ n) := by
      rw [List.map_map]
      rfl
    rw [hmap]
    exact List.Nodup.map (fun a b2 hab => append_left_cancel_string _ a b2 hab) hnodup
  · intro n
    have hkeys : rendered.map Prod.fst = (b.cloudConfigCharts r token).map Prod.fst := by
      rw [hcharts, List.map_map]
      rfl
    have hmem := (cloudConfigCharts_keys r b token).2
    rw [← hkeys] at hmem
    rw [hmr]
    simp only
    have hmap : rendered.map (fun kv => "managedresource-" ++ kv.1)
        = (rendered.map Prod.fst).map (fun n => "managedresource-" ++ n) := by
      rw [List.map_map]
      rfl
    rw [hmap, List.mem_map]
    constructor
    · rintro ⟨name, hname, rfl⟩
      rcases (hmem name).1 hname with rfl | ⟨worker, hw, rfl⟩
      · exact Or.inl rfl
      · refine Or.inr ⟨worker, hw, ?_⟩
        apply String.ext
        simp [List.append_assoc]
    · rintro (rfl | ⟨worker, hw, rfl⟩)
      · exact ⟨"shoot-cloud-config-rbac", (hmem _).2 (Or.inl rfl), rfl⟩
      · refine ⟨"shoot-cloud-config-execution-" ++ worker.Name,
          (hmem _).2 (Or.inr ⟨worker, hw, rfl⟩), ?_⟩
        apply String.ext
        simp [List.append_assoc]
  · intro err w1 hpar
    have hframe := cloudConfigSecretTasks_seedManagedResources r b
      [(SecretLabelKeyManagedResource, "shoot-cloud-config-execution")] rendered w
    rw [hpar] at hframe
    refine ⟨?_, hframe⟩
    rw [hdef rendered mr hcharts hmr, hpar]
  · intro w1 hpar
    have hframe := cloudConfigSecretTasks_seedManagedResources r b
      [(SecretLabelKeyManagedResource, "shoot-cloud-config-execution")] rendered w
    rw [hpar] at hframe
    simp only at hframe
    refine ⟨fun err w2 hrec => ?_, fun w2 hrec => ?_⟩
    · refine ⟨?_, ?_⟩
      · rw [hdef rendered mr hcharts hmr, hpar]
        simp only [hrec]
      · unfold manager.ManagedResource.Reconcile at hrec
        have h2 := nextFault_seedManagedResources w1
        rcases hf : w1.nextFault with ⟨flt, w3⟩
        rw [hf] at hrec h2
        cases flt with
        | none => simp at hrec
        | some msg =>
          simp only [Prod.mk.injEq] at hrec
          obtain ⟨_, rfl⟩ := hrec
          simp only at h2
          rw [h2, hframe]
    · obtain ⟨_, hm2⟩ := manager.ManagedResource.Reconcile_resource_ok w1 w2 mr hrec
      have hfinal : (b.deployCloudConfigExecutionManagedResource c r w).2.seedManagedResources
          = upsertManagedResource w.seedManagedResources mr := by
        rw [hdef rendered mr hcharts hmr, hpar]
        simp only [hrec]
        have hstale := deleteStaleSecretsMatchLabel_seedManagedResources b
          [(SecretLabelKeyManagedResource, "shoot-cloud-config-execution")]
          (rendered.foldl (fun acc kv => acc.insert ("managedresource-" ++ kv.1)) []) w2
        rcases hd : b.deleteStaleSecretsMatchLabel
            [(SecretLabelKeyManagedResource, "shoot-cloud-config-execution")]
            (rendered.foldl (fun acc kv => acc.insert ("managedresource-" ++ kv.1)) []) w2
          with ⟨e3, w3⟩
        rw [hd] at hstale
        simp only at hstale
        cases e3 with
        | some err =>
          rw [hd]
          simp only
          rw [hstale, hm2, hframe]
        | none =>
          rw [hd]
          simp only
          rw [deleteLegacyCloudConfigSecret_seedManagedResources, hstale, hm2, hframe]
      refine ⟨hfinal, ?_⟩
      rw [hfinal]
      exact mem_upsertManagedResource_self _ _

theorem cloud_config_managed_resource_after_secrets_witness :
    sampleChartCollaborators.ComputeBootstrapToken = .ok sampleBootstrapToken
      ∧ (workerBotanist.deployCloudConfigExecutionManagedResource upstreamConstants
          failingChartCollaborators sampleWorld
        = (some (.rendering "shoot-cloud-config-execution-pool-b"
            (.failure "template: parse error")), sampleWorld))
      ∧ ({ Name := "shoot-cloud-config-execution"
           Namespace := "shoot--dev--crazy-botany"
           Labels := [("origin", "gardener")]
           SecretRefs :=
             [ "managedresource-shoot-cloud-config-rbac",
               "managedresource-shoot-cloud-config-execution-pool-a",
               "managedresource-shoot-cloud-config-execution-pool-b" ]
           InjectLabels := [("shoot.gardener.cloud/no-cleanup", "true")]
           KeepObjects := false } : ManagedResource)
          ∈ (workerBotanist.deployCloudConfigExecutionManagedResource upstreamConstants
              sampleChartCollaborators sampleWorld).2.seedManagedResources :=
  ⟨rfl, by decide,
    (((cloud_config_managed_resource_after_secrets upstreamConstants sampleChartCollaborators
      workerBotanist sampleWorld sampleBootstrapToken rfl).2
      [ ("shoot-cloud-config-rbac",
          { ChartName := "shoot-cloud-config-rbac", Manifests := [("rbac.yaml", "kind: Role")] }),
        ("shoot-cloud-config-execution-pool-a",
          { ChartName := "shoot-cloud-config-execution-pool-a"
            Manifests := [("script.sh", "pool=pool-a")] }),
        ("shoot-cloud-config-execution-pool-b",
          { ChartName := "shoot-cloud-config-execution-pool-b"
            Manifests := [("script.sh", "pool=pool-b")] }) ]
      _ (by rfl) rfl).2.2 _ (Prod.ext (by decide) rfl)).2 _
        (Prod.ext (by decide) rfl) |>.2⟩

/-! ## The cleanup after the cloud-config secrets -/

/-- The cloud-config charts either all render, or one of them fails to render. -/
theorem charts_rendered_or_failed (charts : List (String × Except Err RenderedChart)) :
    (∃ name cause, (name, Except.error cause) ∈ charts)
      ∨ ∃ rendered : List (String × RenderedChart),
          charts = rendered.map (fun kv => (kv.1, Except.ok kv.2)) := by
  induction charts with
  | nil => exact Or.inr ⟨[], rfl⟩
  | cons kv rest ih =>
    obtain ⟨name, render⟩ := kv
    cases render with
    | error cause => exact Or.inl ⟨name, cause, List.mem_cons_self _ _⟩
    | ok renderedChart =>
      rcases ih with ⟨n, e, hmem⟩ | ⟨rendered, hr⟩
      · exact Or.inl ⟨n, e, List.mem_cons_of_mem _ hmem⟩
      · exact Or.inr ⟨(name, renderedChart) :: rendered, by rw [hr]; rfl⟩

/-- The steps of `deployCloudConfigExecutionManagedResource` when the bootstrap token is
computed and every chart renders. -/
theorem deployCloudConfigExecutionManagedResource_rendered (c : Constants)
    (r : ChartCollaborators) (b : Botanist) (w : World) (token : Secret)
    (htoken : r.ComputeBootstrapToken = .ok token)
    (rendered : List (String × RenderedChart))
    (hcharts : b.cloudConfigCharts r token = rendered.map (fun kv => (kv.1, Except.ok kv.2))) :
    b.deployCloudConfigExecutionManagedResource c r w
      = match flow.Parallel (rendered.map (fun kv => b.cloudConfigSecretTask r
            [(SecretLabelKeyManagedResource, "shoot-cloud-config-execution")] kv.1 kv.2)) w with
        | (some err, w1) => (some err, w1)
        | (none, w1) =>
          match manager.ManagedResource.Reconcile w1
              { Name := "shoot-cloud-config-execution"
                Namespace := b.Shoot.SeedNamespace
                Labels := [(c.ManagedResourceLabelKeyOrigin, c.ManagedResourceLabelValueGardener)]
                SecretRefs := rendered.map (fun kv => "managedresource-" ++ kv.1)
                InjectLabels := [(c.ShootNoCleanup, "true")]
                KeepObjects := false } with
          | (some err, w2) => (some err, w2)
          | (none, w2) =>
            match b.deleteStaleSecretsMatchLabel
                [(SecretLabelKeyManagedResource, "shoot-cloud-config-execution")]
                (rendered.foldl (fun acc kv => acc.insert ("managedresource-" ++ kv.1)) [])
                w2 with
            | (some err, w3) => (some err, w3)
            | (none, w3) => b.deleteLegacyCloudConfigSecret w3 := by
  unfold Botanist.deployCloudConfigExecutionManagedResource
  simp only [htoken]
  rw [hcharts, renderCloudConfigCharts_ok]
  simp only [List.nil_append]
  try rfl

/-- A successful run of `deployCloudConfigExecutionManagedResource` went through every
step. -/
theorem deployCloudConfigExecutionManagedResource_steps (c : Constants)
    (r : ChartCollaborators) (b : Botanist) (w w' : World)
    (hok : b.deployCloudConfigExecutionManagedResource c r w = (none, w')) :
    ∃ (token : Secret) (rendered : List (String × RenderedChart)) (w1 w2 w3 : World),
      r.ComputeBootstrapToken = .ok token
        ∧ b.cloudConfigCharts r token = rendered.map (fun kv => (kv.1, Except.ok kv.2))
        ∧ flow.Parallel (rendered.map (fun kv => b.cloudConfigSecretTask r
            [(SecretLabelKeyManagedResource, "shoot-cloud-config-execution")] kv.1 kv.2)) w
            = (none, w1)
        ∧ manager.ManagedResource.Reconcile w1
              { Name := "shoot-cloud-config-execution"
                Namespace := b.Shoot.SeedNamespace
                Labels := [(c.ManagedResourceLabelKeyOrigin, c.ManagedResourceLabelValueGardener)]
                SecretRefs := rendered.map (fun kv => "managedresource-" ++ kv.1)
                InjectLabels := [(c.ShootNoCleanup, "true")]
                KeepObjects := false } = (none, w2)
        ∧ b.deleteStaleSecretsMatchLabel
              [(SecretLabelKeyManagedResource, "shoot-cloud-config-execution")]
              (rendered.foldl (fun acc kv => acc.insert ("managedresource-" ++ kv.1)) []) w2
            = (none, w3)
        ∧ b.deleteLegacyCloudConfigSecret w3 = (none, w') := by
  cases htoken : r.ComputeBootstrapToken with
  | error err =>
    unfold Botanist.deployCloudConfigExecutionManagedResource at hok
    simp [htoken] at hok
  | ok token =>
    rcases charts_rendered_or_failed (b.cloudConfigCharts r token) with hfail | ⟨rendered, hr⟩
    · obtain ⟨name, cause, _, heq⟩ := renderCloudConfigCharts_error r b
        [(SecretLabelKeyManagedResource, "shoot-cloud-config-execution")]
        (b.cloudConfigCharts r token) []
        { Name := "shoot-cloud-config-execution"
          Namespace := b.Shoot.SeedNamespace
          Labels := [(c.ManagedResourceLabelKeyOrigin, c.ManagedResourceLabelValueGardener)]
          InjectLabels := [(c.ShootNoCleanup, "true")]
          KeepObjects := false } [] hfail
      unfold Botanist.deployCloudConfigExecutionManagedResource at hok
      simp only [htoken] at hok
      rw [heq] at hok
      simp at hok
    · rw [deployCloudConfigExecutionManagedResource_rendered c r b w token htoken rendered hr]
        at hok
      rcases hpar : flow.Parallel (rendered.map (fun kv => b.cloudConfigSecretTask r
          [(SecretLabelKeyManagedResource, "shoot-cloud-config-execution")] kv.1 kv.2)) w
        with ⟨e1, w1⟩
      rw [hpar] at hok
      cases e1 with
      | some err => simp at hok
      | none =>
        simp only at hok
        rcases hrec : manager.ManagedResource.Reconcile w1
              { Name := "shoot-cloud-config-execution"
                Namespace := b.Shoot.SeedNamespace
                Labels := [(c.ManagedResourceLabelKeyOrigin, c.ManagedResourceLabelValueGardener)]
                SecretRefs := rendered.map (fun kv => "managedresource-" ++ kv.1)
                InjectLabels := [(c.ShootNoCleanup, "true")]
                KeepObjects := false } with ⟨e2, w2⟩
        rw [hrec] at hok
        cases e2 with
        | some err => simp at hok
        | none =>
          simp only at hok
          rcases hst : b.deleteStaleSecretsMatchLabel
              [(SecretLabelKeyManagedResource, "shoot-cloud-config-execution")]
              (rendered.foldl (fun acc kv => acc.insert ("managedresource-" ++ kv.1)) []) w2
            with ⟨e3, w3⟩
          rw [hst] at hok
          cases e3 with
          | some err => simp at hok
          | none =>
            simp only at hok
            exact ⟨token, rendered, w1, w2, w3, rfl, hr, hpar, hrec, hst, hok⟩

/-- A delete that reports no error, or not-found only, leaves no secret of the key. -/
theorem SeedClient.Delete_gone (w : World) (ns name : String)
    (h : IgnoreNotFound (SeedClient.Delete w ns name).1 = none) :
    ∀ s ∈ (SeedClient.Delete w ns name).2.seedSecrets, s.key ≠ (ns, name) := by
  intro s hs
  rw [(SeedClient.Delete_ignoreNotFound w ns name h).1] at hs
  have := (List.mem_filter.1 hs).2
  simpa using this

/-- A delete leaves the secrets of other keys in place, whatever it reports. -/
theorem SeedClient.Delete_keeps (w : World) (ns name : String) (s : Secret)
    (hs : s ∈ w.seedSecrets) (hkey : s.key ≠ (ns, name)) :
    s ∈ (SeedClient.Delete w ns name).2.seedSecrets := by
  have h1 := nextFault_seedSecrets w
  unfold SeedClient.Delete
  rcases hf : w.nextFault with ⟨flt, w1⟩
  rw [hf] at h1
  simp only at h1
  cases flt with
  | some msg => simp only; rw [h1]; exact hs
  | none =>
    simp only
    split_ifs
    · simp only
      rw [h1]
      exact List.mem_filter.2 ⟨hs, by simpa using hkey⟩
    · rw [h1]; exact hs

/-- A fan-out of tasks that each keep a secret keeps it. -/
theorem flow.Parallel_keeps (fns : List TaskFn) (s : Secret)
    (hfns : ∀ fn ∈ fns, ∀ w, s ∈ w.seedSecrets → s ∈ (fn w).2.seedSecrets)
    (w : World) (hs : s ∈ w.seedSecrets) : s ∈ (flow.Parallel fns w).2.seedSecrets := by
  induction fns generalizing w with
  | nil => exact hs
  | cons fn fns ih =>
    simp only [flow.Parallel]
    have h1 := hfns fn (List.mem_cons_self _ _) w hs
    exact ih (fun fn2 hfn2 => hfns fn2 (List.mem_cons_of_mem _ hfn2)) (fn w).2 h1

/-- The stale-secret cleanup keeps every secret with a wanted name, whatever it reports. -/
theorem deleteStaleSecretsMatchLabel_keeps_wanted (b : Botanist)
    (labels : List (String × String)) (wanted : List String) (w : World) (s : Secret)
    (hs : s ∈ w.seedSecrets) (hwanted : s.Name ∈ wanted) :
    s ∈ (b.deleteStaleSecretsMatchLabel labels wanted w).2.seedSecrets := by
  have h1 := nextFault_seedSecrets w
  unfold Botanist.deleteStaleSecretsMatchLabel SeedClient.List
  rcases hf : w.nextFault with ⟨flt, w1⟩
  rw [hf] at h1
  simp only at h1
  cases flt with
  | some msg => simp only; rw [h1]; exact hs
  | none =>
    simp only
    apply flow.Parallel_keeps
    · intro fn hfn w2 hs2
      obtain ⟨secret, hsec, rfl⟩ := List.mem_map.1 hfn
      have hnot := (List.mem_filter.1 hsec).2
      simp only [Bool.not_eq_true', List.contains_eq_any_beq, List.any_eq_false, beq_iff_eq]
        at hnot
      apply SeedClient.Delete_keeps w2 _ _ s hs2
      intro hk
      simp only [Secret.key, Prod.mk.injEq] at hk
      exact hnot s.Name hwanted hk.2.symm
    · rw [h1]; exact hs

theorem mem_foldl_insert (rendered : List (String × RenderedChart)) (acc : List String)
    (n : String) :
    n ∈ rendered.foldl (fun acc kv => acc.insert ("managedresource-" ++ kv.1)) acc
      ↔ n ∈ acc ∨ n ∈ rendered.map (fun kv => "managedresource-" ++ kv.1) := by
  induction rendered generalizing acc with
  | nil => simp
  | cons kv rest ih =>
    simp only [List.foldl_cons, List.map_cons, List.mem_cons]
    rw [ih, List.mem_insert_iff]
    tauto

theorem legacy_name_ne_execution (name : String) :
    "managedresource-shoot-cloud-config-execution-" ++ name
      ≠ "managedresource-shoot-cloud-config-execution" := by
  intro h
  have hl := congrArg String.length h
  simp only [String.length_append] at hl
  have h1 : ("managedresource-shoot-cloud-config-execution-" : String).length = 45 := by decide
  have h2 : ("managedresource-shoot-cloud-config-execution" : String).length = 44 := by decide
  omega

theorem prefixed_chart_name_ne_legacy (name : String)
    (h : name = "shoot-cloud-config-rbac"
      ∨ ∃ workerName : String, name = "shoot-cloud-config-execution-" ++ workerName) :
    "managedresource-" ++ name ≠ "managedresource-shoot-cloud-config-execution" := by
  intro heq
  have hl := congrArg String.length heq
  simp only [String.length_append] at hl
  have h0 : ("managedresource-" : String).length = 16 := by decide
  have h2 : ("managedresource-shoot-cloud-config-execution" : String).length = 44 := by decide
  rcases h with rfl | ⟨workerName, rfl⟩
  · have h1 : ("shoot-cloud-config-rbac" : String).length = 23 := by decide
    omega
  · have h1 : ("shoot-cloud-config-execution-" : String).length = 29 := by decide
    simp only [String.length_append] at hl
    omega

/-- The legacy deletion, when it reports no error, leaves no secret of the legacy name in
the seed namespace, and keeps every secret of another key. -/
theorem deleteLegacyCloudConfigSecret_ok (b : Botanist) (w w' : World)
    (h : b.deleteLegacyCloudConfigSecret w = (none, w')) :
    (∀ s ∈ w'.seedSecrets,
        s.key ≠ (b.Shoot.SeedNamespace, "managedresource-shoot-cloud-config-execution"))
      ∧ ∀ s ∈ w.seedSecrets,
          s.key ≠ (b.Shoot.SeedNamespace, "managedresource-shoot-cloud-config-execution") →
          s ∈ w'.seedSecrets := by
  unfold Botanist.deleteLegacyCloudConfigSecret at h
  rcases hd : SeedClient.Delete w b.Shoot.SeedNamespace
      "managedresource-shoot-cloud-config-execution" with ⟨e, w1⟩
  rw [hd] at h
  simp only [Prod.mk.injEq] at h
  obtain ⟨he, rfl⟩ := h
  have hgone := SeedClient.Delete_gone w b.Shoot.SeedNamespace
    "managedresource-shoot-cloud-config-execution" (by rw [hd]; exact he)
  rw [hd] at hgone
  refine ⟨hgone, fun s hs hkey => ?_⟩
  have hk := SeedClient.Delete_keeps w b.Shoot.SeedNamespace
    "managedresource-shoot-cloud-config-execution" s hs hkey
  rw [hd] at hk
  exact hk

/-- A delete whose call is not hit by an injected failure reports no error, or not-found
only. -/
theorem SeedClient.Delete_nextFault_none (w : World) (ns name : String)
    (h : w.nextFault.1 = none) : IgnoreNotFound (SeedClient.Delete w ns name).1 = none := by
  unfold SeedClient.Delete
  rcases hf : w.nextFault with ⟨f, w1⟩
  rw [hf] at h
  simp only at h
  subst h
  simp only
  split_ifs <;> rfl

/-- The legacy deletion, when its delete call is not hit by an injected failure, reports no
error and removes from the seed cluster exactly the secret of the legacy name in the seed
namespace, whether or not it is there. -/
theorem deleteLegacyCloudConfigSecret_unfaulted (b : Botanist) (w : World)
    (h : w.nextFault.1 = none) :
    (b.deleteLegacyCloudConfigSecret w).1 = none
      ∧ (b.deleteLegacyCloudConfigSecret w).2.seedSecrets
        = w.seedSecrets.filter (fun s =>
            s.key != (b.Shoot.SeedNamespace, "managedresource-shoot-cloud-config-execution")) := by
  have hnone := SeedClient.Delete_nextFault_none w b.Shoot.SeedNamespace
    "managedresource-shoot-cloud-config-execution" h
  have hdel := SeedClient.Delete_ignoreNotFound w b.Shoot.SeedNamespace
    "managedresource-shoot-cloud-config-execution" hnone
  unfold Botanist.deleteLegacyCloudConfigSecret
  rcases hd : SeedClient.Delete w b.Shoot.SeedNamespace
      "managedresource-shoot-cloud-config-execution" with ⟨e, w1⟩
  rw [hd] at hnone hdel
  exact ⟨hnone, hdel.1⟩

/-- C21: in `deployCloudConfigExecutionManagedResource`, whenever the preceding steps
succeed (the bootstrap token, the renders, the secret reconciles, the reconcile of the
ManagedResource and the stale-secret cleanup), the call ends with
`deleteLegacyCloudConfigSecret` and returns what it returns; after a successful run no secret
named `managedresource-shoot-cloud-config-execution` exists in the seed namespace; and when
the secret is absent beforehand, the delete call reports not-found and the legacy deletion
reports no error.  The legacy deletion does succeed whenever its delete call is not hit by
an injected failure, whether or not the secret is there, and removes exactly the secret of
that name in the seed namespace; so then does the run after preceding steps that succeed. -/
theorem legacy_cloud_config_secret_deleted (c : Constants) (r : ChartCollaborators)
    (b : Botanist) (w : World) :
    (∀ (token : Secret) (rendered : List (String × RenderedChart)) (w1 w2 w3 : World),
        r.ComputeBootstrapToken = .ok token →
        b.cloudConfigCharts r token = rendered.map (fun kv => (kv.1, Except.ok kv.2)) →
        flow.Parallel (rendered.map (fun kv => b.cloudConfigSecretTask r
            [(SecretLabelKeyManagedResource, "shoot-cloud-config-execution")] kv.1 kv.2)) w
          = (none, w1) →
        manager.ManagedResource.Reconcile w1
            { Name := "shoot-cloud-config-execution"
              Namespace := b.Shoot.SeedNamespace
              Labels := [(c.ManagedResourceLabelKeyOrigin, c.ManagedResourceLabelValueGardener)]
              SecretRefs := rendered.map (fun kv => "managedresource-" ++ kv.1)
              InjectLabels := [(c.ShootNoCleanup, "true")]
              KeepObjects := false } = (none, w2) →
        b.deleteStaleSecretsMatchLabel
            [(SecretLabelKeyManagedResource, "shoot-cloud-config-execution")]
            (rendered.foldl (fun acc kv => acc.insert ("managedresource-" ++ kv.1)) []) w2
          = (none, w3) →
        b.deployCloudConfigExecutionManagedResource c r w = b.deleteLegacyCloudConfigSecret w3
          ∧ (w3.nextFault.1 = none →
              (b.deployCloudConfigExecutionManagedResource c r w).1 = none
                ∧ (b.deployCloudConfigExecutionManagedResource c r w).2.seedSecrets
                  = w3.seedSecrets.filter (fun s => s.key
                      != (b.Shoot.SeedNamespace, "managedresource-shoot-cloud-config-execution"))))
      ∧ (∀ w', b.deployCloudConfigExecutionManagedResource c r w = (none, w') →
          ∀ s ∈ w'.seedSecrets,
            s.key ≠ (b.Shoot.SeedNamespace, "managedresource-shoot-cloud-config-execution"))
      ∧ (∀ w0 : World, w0.nextFault.1 = none →
          (∀ s ∈ w0.seedSecrets,
            s.key ≠ (b.Shoot.SeedNamespace, "managedresource-shoot-cloud-config-execution")) →
          (SeedClient.Delete w0 b.Shoot.SeedNamespace
              "managedresource-shoot-cloud-config-execution").1 = some .notFound
            ∧ b.deleteLegacyCloudConfigSecret w0 = (none, w0.nextFault.2))
      ∧ ∀ w0 : World, w0.nextFault.1 = none →
          (b.deleteLegacyCloudConfigSecret w0).1 = none
            ∧ (b.deleteLegacyCloudConfigSecret w0).2.seedSecrets
              = w0.seedSecrets.filter (fun s => s.key
                  != (b.Shoot.SeedNamespace, "managedresource-shoot-cloud-config-execution")) := by
  refine ⟨?_, ?_, ?_, ?_⟩
  · intro token rendered w1 w2 w3 htoken hcharts hpar hrec hstale
    have hrun : b.deployCloudConfigExecutionManagedResource c r w
        = b.deleteLegacyCloudConfigSecret w3 := by
      rw [deployCloudConfigExecutionManagedResource_rendered c r b w token htoken rendered
        hcharts, hpar]
      simp only [hrec, hstale]
    refine ⟨hrun, fun hfault => ?_⟩
    rw [hrun]
    exact deleteLegacyCloudConfigSecret_unfaulted b w3 hfault
  · intro w' hok
    obtain ⟨token, rendered, w1, w2, w3, _, _, _, _, _, hleg⟩ :=
      deployCloudConfigExecutionManagedResource_steps c r b w w' hok
    exact (deleteLegacyCloudConfigSecret_ok b w3 w' hleg).1
  · intro w0 hfault habsent
    have h1 := nextFault_seedSecrets w0
    have hany : w0.nextFault.2.seedSecrets.any (fun s => s.key
        == (b.Shoot.SeedNamespace, "managedresource-shoot-cloud-config-execution")) = false := by
      rw [List.any_eq_false]
      intro s hs
      rw [h1] at hs
      simpa using habsent s hs
    unfold Botanist.deleteLegacyCloudConfigSecret SeedClient.Delete
    rcases hf : w0.nextFault with ⟨flt, w1⟩
    rw [hf] at hfault hany
    simp only at hfault hany
    subst hfault
    simp only [hany, Bool.false_eq_true, if_false, IgnoreNotFound, and_self]
  · intro w0 hfault
    exact deleteLegacyCloudConfigSecret_unfaulted b w0 hfault

/-- Witness for C21: the seed cluster `legacyWorld` holds the legacy secret of the sample
shoot; the run for the shoot with two worker pools returns no error, and afterwards no
secret of the legacy name is in the seed namespace, while the secret of that name of another
shoot and the secret of the cloud-config chart of pool `pool-a` are there. -/
theorem legacy_cloud_config_secret_deleted_witness :
    ({ Name := "managedresource-shoot-cloud-config-execution"
       Namespace := "shoot--dev--crazy-botany"
       Data := [("script.sh", "legacy")] } : Secret) ∈ legacyWorld.seedSecrets
      ∧ (workerBotanist.deployCloudConfigExecutionManagedResource upstreamConstants
          sampleChartCollaborators legacyWorld).1 = none
      ∧ (∀ s ∈ (workerBotanist.deployCloudConfigExecutionManagedResource upstreamConstants
            sampleChartCollaborators legacyWorld).2.seedSecrets,
          s.key ≠ ("shoot--dev--crazy-botany", "managedresource-shoot-cloud-config-execution"))
      ∧ ({ Name := "managedresource-shoot-cloud-config-execution"
           Namespace := "shoot--dev--other"
           Data := [("script.sh", "legacy")] } : Secret)
          ∈ (workerBotanist.deployCloudConfigExecutionManagedResource upstreamConstants
              sampleChartCollaborators legacyWorld).2.seedSecrets
      ∧ ∃ s ∈ (workerBotanist.deployCloudConfigExecutionManagedResource upstreamConstants
            sampleChartCollaborators legacyWorld).2.seedSecrets,
          s.key = ("shoot--dev--crazy-botany",
            "managedresource-shoot-cloud-config-execution-pool-a") :=
  ⟨by decide, by decide,
    (legacy_cloud_config_secret_deleted upstreamConstants sampleChartCollaborators
      workerBotanist legacyWorld).2.1 _ (Prod.ext (by decide) rfl),
    by decide, by decide⟩

/-- The secret tasks of the cloud-config charts keep the secrets of other keys. -/
theorem cloudConfigSecretTasks_keep (r : ChartCollaborators) (b : Botanist)
    (secretLabels : List (String × String)) (rendered : List (String × RenderedChart))
    (s : Secret)
    (hkey : ∀ kv ∈ rendered, s.key ≠ (b.Shoot.SeedNamespace, "managedresource-" ++ kv.1))
    (w : World) (hs : s ∈ w.seedSecrets) :
    s ∈ (flow.Parallel (rendered.map (fun kv => b.cloudConfigSecretTask r secretLabels kv.1 kv.2))
        w).2.seedSecrets := by
  apply flow.Parallel_keeps _ s _ w hs
  intro fn hfn w2 hs2
  obtain ⟨kv, hkv, rfl⟩ := List.mem_map.1 hfn
  exact (manager.Secret.Reconcile_frame w2 _ _ _ rfl).2 s hs2 (hkey kv hkv)

/-- The secret tasks of the cloud-config charts, when all succeed, leave the secret of every
chart in the seed namespace, with the labels and the data of the chart. -/
theorem cloudConfigSecretTasks_written (r : ChartCollaborators) (b : Botanist)
    (secretLabels : List (String × String)) (rendered : List (String × RenderedChart))
    (hnodup : (rendered.map Prod.fst).Nodup) (w w1 : World)
    (hpar : flow.Parallel
      (rendered.map (fun kv => b.cloudConfigSecretTask r secretLabels kv.1 kv.2)) w = (none, w1))
    (kv : String × RenderedChart) (hkv : kv ∈ rendered) :
    ∃ s ∈ w1.seedSecrets, s.Namespace = b.Shoot.SeedNamespace
      ∧ s.Name = "managedresource-" ++ kv.1 ∧ s.Data = r.AsSecretData kv.2
      ∧ s.Labels = secretLabels := by
  induction rendered generalizing w with
  | nil => simp at hkv
  | cons kv0 rest ih =>
    simp only [List.map_cons, List.nodup_cons] at hnodup
    simp only [List.map_cons, flow.Parallel] at hpar
    rcases htask : b.cloudConfigSecretTask r secretLabels kv0.1 kv0.2 w with ⟨e, wA⟩
    rw [htask] at hpar
    simp only at hpar
    rcases hrest : flow.Parallel
        (rest.map (fun kv => b.cloudConfigSecretTask r secretLabels kv.1 kv.2)) wA with ⟨e2, wB⟩
    rw [hrest] at hpar
    simp only [Prod.mk.injEq] at hpar
    obtain ⟨he, rfl⟩ := hpar
    obtain ⟨rfl, rfl⟩ := orElse_eq_none _ _ he
    rcases List.mem_cons.1 hkv with rfl | htail
    · obtain ⟨updated, hn, hns, hl, hd, hss, _⟩ :=
        manager.Secret.Reconcile_ok w wA _ htask
      have hmem : updated ∈ wA.seedSecrets := by
        rw [hss]
        exact mem_upsertSecret_self _ _
      have hkeep := cloudConfigSecretTasks_keep r b secretLabels rest updated (by
        intro kv2 hkv2 hk
        simp only [Secret.key, hns, hn, Prod.mk.injEq, true_and] at hk
        have := append_left_cancel_string _ _ _ hk
        exact hnodup.1 (List.mem_map.2 ⟨kv2, hkv2, this.symm⟩)) wA hmem
      rw [hrest] at hkeep
      exact ⟨updated, hkeep, hns, hn, hd, hl⟩
    · exact ih hnodup.2 wA hrest htail

/-- C29: after a successful `deployCloudConfigExecutionManagedResource`, whatever the worker
pools are, every cloud-config chart rendered, and for the name of every chart (the RBAC
chart or `shoot-cloud-config-execution-<worker name>`): the secret name
`"managedresource-" + name` is in the wanted set that the render loop yields for
`deleteStaleSecretsMatchLabel`, it differs from the legacy name
`managedresource-shoot-cloud-config-execution`, and the seed namespace still holds the
reconciled secret under that name, with the data of the rendered chart and the label of the
ManagedResource, after the stale-secret cleanup and the legacy deletion. -/
theorem reconciled_cloud_config_secrets_survive (c : Constants) (r : ChartCollaborators)
    (b : Botanist) (w w' : World)
    (hok : b.deployCloudConfigExecutionManagedResource c r w = (none, w')) :
    ∃ (token : Secret) (rendered : List (String × RenderedChart)) (fns : List TaskFn)
        (mr : ManagedResource) (wanted : List String),
      r.ComputeBootstrapToken = .ok token
        ∧ b.cloudConfigCharts r token = rendered.map (fun kv => (kv.1, Except.ok kv.2))
        ∧ b.renderCloudConfigCharts r
            [(SecretLabelKeyManagedResource, "shoot-cloud-config-execution")]
            (b.cloudConfigCharts r token) []
            { Name := "shoot-cloud-config-execution"
              Namespace := b.Shoot.SeedNamespace
              Labels := [(c.ManagedResourceLabelKeyOrigin, c.ManagedResourceLabelValueGardener)]
              InjectLabels := [(c.ShootNoCleanup, "true")]
              KeepObjects := false } [] = .ok (fns, mr, wanted)
        ∧ (∀ name, name ∈ rendered.map Prod.fst ↔ name = "shoot-cloud-config-rbac"
            ∨ ∃ worker ∈ b.Shoot.Info.Workers,
                name = "shoot-cloud-config-execution-" ++ worker.Name)
        ∧ ∀ kv ∈ rendered,
            "managedresource-" ++ kv.1 ∈ wanted
              ∧ "managedresource-" ++ kv.1 ≠ "managedresource-shoot-cloud-config-execution"
              ∧ ∃ s ∈ w'.seedSecrets, s.Namespace = b.Shoot.SeedNamespace
                  ∧ s.Name = "managedresource-" ++ kv.1
                  ∧ s.Data = r.AsSecretData kv.2
                  ∧ s.Labels = [(SecretLabelKeyManagedResource, "shoot-cloud-config-execution")] := by
  obtain ⟨token, rendered, w1, w2, w3, htoken, hcharts, hpar, hrec, hstale, hleg⟩ :=
    deployCloudConfigExecutionManagedResource_steps c r b w w' hok
  have hkeys : rendered.map Prod.fst = (b.cloudConfigCharts r token).map Prod.fst := by
    rw [hcharts, List.map_map]
    rfl
  obtain ⟨hnodup, hnames⟩ := cloudConfigCharts_keys r b token
  rw [← hkeys] at hnodup hnames
  refine ⟨token, rendered,
    [] ++ rendered.map (fun kv => b.cloudConfigSecretTask r
      [(SecretLabelKeyManagedResource, "shoot-cloud-config-execution")] kv.1 kv.2),
    { Name := "shoot-cloud-config-execution"
      Namespace := b.Shoot.SeedNamespace
      Labels := [(c.ManagedResourceLabelKeyOrigin, c.ManagedResourceLabelValueGardener)]
      SecretRefs := [] ++ rendered.map (fun kv => "managedresource-" ++ kv.1)
      InjectLabels := [(c.ShootNoCleanup, "true")]
      KeepObjects := false },
    rendered.foldl (fun acc kv => acc.insert ("managedresource-" ++ kv.1)) [],
    htoken, hcharts, ?_, hnames, ?_⟩
  · rw [hcharts, renderCloudConfigCharts_ok]
  · intro kv hkv
    have hwanted : "managedresource-" ++ kv.1
        ∈ rendered.foldl (fun acc kv => acc.insert ("managedresource-" ++ kv.1)) [] := by
      rw [mem_foldl_insert]
      exact Or.inr (List.mem_map.2 ⟨kv, hkv, rfl⟩)
    have hne : "managedresource-" ++ kv.1 ≠ "managedresource-shoot-cloud-config-execution" := by
      apply prefixed_chart_name_ne_legacy
      rcases (hnames kv.1).1 (List.mem_map.2 ⟨kv, hkv, rfl⟩) with h1 | ⟨worker, _, h2⟩
      · exact Or.inl h1
      · exact Or.inr ⟨worker.Name, h2⟩
    refine ⟨hwanted, hne, ?_⟩
    obtain ⟨s, hs1, hns, hn, hd, hl⟩ := cloudConfigSecretTasks_written r b _ rendered hnodup
      w w1 hpar kv hkv
    have hs2 : s ∈ w2.seedSecrets := by
      rw [(manager.ManagedResource.Reconcile_resource_ok w1 w2 _ hrec).1]
      exact hs1
    have hs3 : s ∈ w3.seedSecrets := by
      have := deleteStaleSecretsMatchLabel_keeps_wanted b
        [(SecretLabelKeyManagedResource, "shoot-cloud-config-execution")]
        (rendered.foldl (fun acc kv => acc.insert ("managedresource-" ++ kv.1)) []) w2 s hs2
        (by rw [hn]; exact hwanted)
      rw [hstale] at this
      exact this
    have hs4 : s ∈ w'.seedSecrets := by
      apply (deleteLegacyCloudConfigSecret_ok b w3 w' hleg).2 s hs3
      intro hk
      simp only [Secret.key, Prod.mk.injEq] at hk
      exact hne (hn ▸ hk.2)
    exact ⟨s, hs4, hns, hn, hd, hl⟩

theorem reconciled_cloud_config_secrets_survive_witness :
    (workerBotanist.deployCloudConfigExecutionManagedResource upstreamConstants
        sampleChartCollaborators sampleWorld).1 = none
      ∧ ∃ s ∈ (workerBotanist.deployCloudConfigExecutionManagedResource upstreamConstants
            sampleChartCollaborators sampleWorld).2.seedSecrets,
          s.Namespace = "shoot--dev--crazy-botany"
            ∧ s.Name = "managedresource-shoot-cloud-config-execution-pool-a"
            ∧ s.Labels = [("managed-resource", "shoot-cloud-config-execution")] :=
  ⟨by decide, by
    obtain ⟨token, rendered, fns, mr, wanted, _, _, _, hnames, hall⟩ :=
      reconciled_cloud_config_secrets_survive upstreamConstants sampleChartCollaborators
        workerBotanist sampleWorld _ (Prod.ext (by decide) rfl)
    obtain ⟨kv, hkv, hk⟩ := List.mem_map.1
      ((hnames "shoot-cloud-config-execution-pool-a").2
        (Or.inr ⟨⟨"pool-a"⟩, by decide, by decide⟩))
    obtain ⟨_, _, s, hs, hns, hn, _, hl⟩ := hall kv hkv
    refine ⟨s, hs, hns, ?_, hl⟩
    rw [hn, hk]
    decide⟩

/-! ## The token secrets of the vertical pod autoscaler -/

theorem lookup_foldl_mapInsert_of_not_mem {α β : Type} (xs : List α) (kf : α → String)
    (vf : α → β) (acc : List (String × β)) (k : String) (hk : k ∉ xs.map kf) :
    (xs.foldl (fun acc x => mapInsert acc (kf x) (vf x)) acc).lookup k = acc.lookup k := by
  induction xs generalizing acc with
  | nil => rfl
  | cons x xs ih =>
    simp only [List.map_cons, List.mem_cons, not_or] at hk
    simp only [List.foldl_cons]
    rw [ih _ hk.2, lookup_mapInsert]
    simp [hk.1]

/-- A successful `storeStaticTokenAsSecrets` over entries with pairwise distinct secret
names: for every entry the token exists, the seed namespace holds a secret of the name with
exactly the token and the CA certificate as data, of type Opaque or of the type of a secret
that was there before, and its checksum is recorded under the name; secrets and checksums of
other names are as before. -/
theorem storeStaticTokenAsSecrets_ok (c : Constants) (h : Helpers)
    (st : secrets.StaticToken) (caCert : String) (names : List (String × String))
    (hnodup : (names.map Prod.fst).Nodup) (b b2 : Botanist) (w w2 : World)
    (hret : Botanist.storeStaticTokenAsSecrets c h (some st) caCert names b w
      = .returned (none, b2, w2)) :
    b2.Shoot = b.Shoot
      ∧ (∀ k, k ∉ names.map Prod.fst → b2.CheckSums.lookup k = b.CheckSums.lookup k)
      ∧ (∀ s ∈ w.seedSecrets, (∀ kv ∈ names, s.key ≠ (b.Shoot.SeedNamespace, kv.1)) →
          s ∈ w2.seedSecrets)
      ∧ (∀ s ∈ w2.seedSecrets, (∀ kv ∈ names, s.key ≠ (b.Shoot.SeedNamespace, kv.1)) →
          s ∈ w.seedSecrets)
      ∧ ∀ kv ∈ names, ∃ token, st.GetTokenForUsername kv.2 = .ok token
          ∧ ∃ s ∈ w2.seedSecrets, s.Namespace = b.Shoot.SeedNamespace ∧ s.Name = kv.1
            ∧ s.Data = [(c.DataKeyToken, token.Token), (c.DataKeyCertificateCA, caCert)]
            ∧ (s.SecretType = corev1.SecretTypeOpaque
                ∨ ∃ t ∈ w.seedSecrets, t.key = (b.Shoot.SeedNamespace, kv.1)
                    ∧ s.SecretType = t.SecretType)
            ∧ b2.CheckSums.lookup kv.1 = some (h.ComputeSecretCheckSum s.Data) := by
  induction names generalizing b w with
  | nil =>
    simp only [Botanist.storeStaticTokenAsSecrets, Outcome.returned.injEq, Prod.mk.injEq,
      true_and] at hret
    obtain ⟨rfl, rfl⟩ := hret
    exact ⟨rfl, fun _ _ => rfl, fun s hs _ => hs, fun s hs _ => hs, fun kv hkv => by simp at hkv⟩
  | cons entry rest ih =>
    obtain ⟨secretName, username⟩ := entry
    simp only [List.map_cons, List.nodup_cons] at hnodup
    simp only [Botanist.storeStaticTokenAsSecrets] at hret
    cases hg : st.GetTokenForUsername username with
    | error e => rw [hg] at hret; simp at hret
    | ok token =>
      rw [hg] at hret
      simp only at hret
      rcases hc : SeedClient.CreateOrUpdate w
          { Name := secretName, Namespace := b.Shoot.SeedNamespace
            SecretType := corev1.SecretTypeOpaque }
          (fun secret => { secret with
            Data := [(c.DataKeyToken, token.Token), (c.DataKeyCertificateCA, caCert)] })
        with ⟨e1, secret, w1⟩
      rw [hc] at hret
      cases e1 with
      | some err => simp at hret
      | none =>
        simp only at hret
        have hco := fun hkey => SeedClient.CreateOrUpdate_ok w w1 _ secret _ hkey hc
        obtain ⟨hk, ⟨current, hcu, hcase⟩, hss, _, _⟩ := hco (fun s => rfl)
        simp only [Secret.key, Prod.mk.injEq] at hk
        obtain ⟨hshoot, hcs, hfw, hbw, hall⟩ := ih hnodup.2 _ w1 hret
        simp only at hshoot hcs hfw hbw hall
        have hdata : secret.Data
            = [(c.DataKeyToken, token.Token), (c.DataKeyCertificateCA, caCert)] := by
          rw [hcu]
        have htype : secret.SecretType = current.SecretType := by rw [hcu]
        refine ⟨hshoot, ?_, ?_, ?_, ?_⟩
        · intro k hk2
          simp only [List.map_cons, List.mem_cons, not_or] at hk2
          rw [hcs k hk2.2, lookup_mapInsert]
          simp [hk2.1]
        · intro s hs hne
          apply hfw s
          · rw [hss]
            apply mem_upsertSecret_of_ne _ _ _ hs
            have := hne (secretName, username) (List.mem_cons_self _ _)
            simp only [Secret.key, hk.1, hk.2]
            exact this
          · intro kv hkv
            exact hne kv (List.mem_cons_of_mem _ hkv)
        · intro s hs hne
          have h1 := hbw s hs (fun kv hkv => hne kv (List.mem_cons_of_mem _ hkv))
          rw [hss] at h1
          rcases mem_upsertSecret_cases _ _ _ h1 with rfl | ⟨h2, _⟩
          · exact absurd (by simp only [Secret.key, hk.1, hk.2])
              (hne (secretName, username) (List.mem_cons_self _ _))
          · exact h2
        · intro kv hkv
          rcases List.mem_cons.1 hkv with rfl | htail
          · refine ⟨token, hg, secret, ?_, hk.1, hk.2, hdata, ?_, ?_⟩
            · apply hfw secret
              · rw [hss]
                exact mem_upsertSecret_self _ _
              · intro kv2 hkv2 hkey
                simp only [Secret.key, hk.1, hk.2, Prod.mk.injEq, true_and] at hkey
                exact hnodup.1 (List.mem_map.2 ⟨kv2, hkv2, hkey.symm⟩)
            · rcases hcase with rfl | ⟨hmem, hkey⟩
              · exact Or.inl htype
              · exact Or.inr ⟨current, hmem, hkey, htype⟩
            · rw [hcs secretName hnodup.1, lookup_mapInsert]
              simp
          · obtain ⟨token2, hg2, s, hs, hns, hn, hd, hty, hsum⟩ := hall kv htail
            refine ⟨token2, hg2, s, hs, hns, hn, hd, ?_, hsum⟩
            rcases hty with hty | ⟨t, ht, htk, hts⟩
            · exact Or.inl hty
            · rw [hss] at ht
              rcases mem_upsertSecret_cases _ _ _ ht with rfl | ⟨h2, _⟩
              · exfalso
                simp only [Secret.key, hk.1, hk.2, Prod.mk.injEq, true_and] at htk
                exact hnodup.1 (List.mem_map.2 ⟨kv, htail, htk.symm⟩)
              · exact Or.inr ⟨t, h2, htk, hts⟩

/-- When the static token lacks the token of an entry, `storeStaticTokenAsSecrets` returns
an error. -/
theorem storeStaticTokenAsSecrets_missing_token (c : Constants) (h : Helpers)
    (st : secrets.StaticToken) (caCert : String) (names : List (String × String))
    (hmiss : ∃ kv ∈ names, ∀ tok ∈ st.Tokens, tok.Username ≠ kv.2) (b : Botanist) (w : World) :
    ∃ err b2 w2, Botanist.storeStaticTokenAsSecrets c h (some st) caCert names b w
      = .returned (some err, b2, w2) := by
  induction names generalizing b w with
  | nil =>
    obtain ⟨kv, hkv, _⟩ := hmiss
    simp at hkv
  | cons entry rest ih =>
    obtain ⟨secretName, username⟩ := entry
    simp only [Botanist.storeStaticTokenAsSecrets]
    cases hg : st.GetTokenForUsername username with
    | error e => exact ⟨e, b, w, rfl⟩
    | ok token =>
      simp only
      rcases hc : SeedClient.CreateOrUpdate w
          { Name := secretName, Namespace := b.Shoot.SeedNamespace
            SecretType := corev1.SecretTypeOpaque }
          (fun secret => { secret with
            Data := [(c.DataKeyToken, token.Token), (c.DataKeyCertificateCA, caCert)] })
        with ⟨e1, secret, w1⟩
      cases e1 with
      | some err => exact ⟨err, b, w1, rfl⟩
      | none =>
        simp only
        apply ih
        obtain ⟨kv, hkv, hno⟩ := hmiss
        rcases List.mem_cons.1 hkv with rfl | htail
        · exfalso
          unfold secrets.StaticToken.GetTokenForUsername at hg
          cases hf : st.Tokens.find? (fun tok => tok.Username == username) with
          | none => rw [hf] at hg; simp at hg
          | some tok =>
            have hmem := List.mem_of_find?_eq_some hf
            have hp := List.find?_some hf
            simp only [beq_iff_eq] at hp
            exact hno tok hmem hp
        · exact ⟨kv, htail, hno⟩

/-- The steps of a successful first part of `DeploySecrets`. -/
theorem deployAndStoreTokens_steps (c : Constants) (h : Helpers)
    (collaborators : DeployCollaborators) (b b1 : Botanist) (w w1 : World)
    (sm : SecretsManager)
    (hret : b.deployAndStoreTokens c h collaborators w = .returned (none, b1, sm, w1)) :
    ∃ existingSecrets w0 wd st tok,
      b.fetchExistingSecrets w = (.ok existingSecrets, w0)
        ∧ collaborators.Deploy (b.secretsManagerForDeploy c h existingSecrets) w0 = (none, sm, wd)
        ∧ sm.StaticToken = some st
        ∧ st.GetTokenForUsername c.KubeAPIServerHealthCheck = .ok tok
        ∧ ((b.Shoot.WantsVerticalPodAutoscaler = false
              ∧ b1 = { b with APIServerHealthCheckToken := tok.Token } ∧ w1 = wd)
          ∨ (b.Shoot.WantsVerticalPodAutoscaler = true
              ∧ ∃ caSecret, sm.DeployedSecrets.lookup c.SecretNameCACluster = some caSecret
                ∧ Botanist.storeStaticTokenAsSecrets c h (some st)
                    ((caSecret.Data.lookup c.DataKeyCertificateCA).getD "") (vpaSecrets c)
                    { b with APIServerHealthCheckToken := tok.Token } wd
                  = .returned (none, b1, w1))) := by
  unfold Botanist.deployAndStoreTokens at hret
  rcases hfetch : b.fetchExistingSecrets w with ⟨existing, w0⟩
  rw [hfetch] at hret
  cases existing with
  | error e => simp at hret
  | ok existingSecrets =>
    simp only at hret
    rcases hdep : collaborators.Deploy (b.secretsManagerForDeploy c h existingSecrets) w0
      with ⟨e1, sm1, wd⟩
    rw [hdep] at hret
    cases e1 with
    | some e => simp at hret
    | none =>
      simp only at hret
      unfold Botanist.storeAPIServerHealthCheckToken at hret
      cases hst : sm1.StaticToken with
      | none => rw [hst] at hret; simp at hret
      | some st =>
        rw [hst] at hret
        simp only at hret
        cases hg : st.GetTokenForUsername c.KubeAPIServerHealthCheck with
        | error e => rw [hg] at hret; simp at hret
        | ok tok =>
          rw [hg] at hret
          simp only at hret
          by_cases hv : b.Shoot.WantsVerticalPodAutoscaler = true
          · simp only [hv, if_true] at hret
            cases hca : sm1.DeployedSecrets.lookup c.SecretNameCACluster with
            | none => rw [hca] at hret; simp at hret
            | some caSecret =>
              rw [hca] at hret
              simp only at hret
              cases hstore : Botanist.storeStaticTokenAsSecrets c h (some st)
                  ((caSecret.Data.lookup c.DataKeyCertificateCA).getD "") (vpaSecrets c)
                  { b with APIServerHealthCheckToken := tok.Token } wd with
              | panicked => rw [hstore] at hret; simp at hret
              | returned r =>
                obtain ⟨e3, b3, w3⟩ := r
                rw [hstore] at hret
                simp only [Outcome.returned.injEq, Prod.mk.injEq] at hret
                obtain ⟨rfl, rfl, rfl, rfl⟩ := hret
                exact ⟨existingSecrets, w0, wd, st, tok, rfl, hdep, hst, hg,
                  Or.inr ⟨hv, caSecret, hca, hstore⟩⟩
          · simp only [hv, Bool.false_eq_true, if_false, Outcome.returned.injEq,
              Prod.mk.injEq, true_and] at hret
            obtain ⟨rfl, rfl, rfl⟩ := hret
            exact ⟨existingSecrets, w0, wd, st, tok, rfl, hdep, hst, hg,
              Or.inl ⟨by simpa using hv, rfl, rfl⟩⟩

/-- The token secrets of the vertical pod autoscaler in `DeploySecrets`, `vpaSecrets` having
three distinct secret names.  (1) With `WantsVerticalPodAutoscaler`, when no secret cached in
`b.Secrets` or deployed by the Secrets Manager carries one of these names, a successful
`DeploySecrets` has, for each of the three entries, found the static token of the username
of the entry and created or updated in the seed namespace a secret of the name of the entry
whose data is exactly the token and the CA certificate of the deployed cluster CA secret;
the secret is of type Opaque, or of the type of the secret that the seed namespace held
under that name before; and `b.CheckSums[secretName]` is the checksum of that data.
(2) With `WantsVerticalPodAutoscaler`, if the static token holds no token for the username
of an entry, `DeploySecrets` returns an error.  (3) Without `WantsVerticalPodAutoscaler`,
the first part of `DeploySecrets` leaves the seed cluster as `Deploy` left it and
`b.CheckSums` as it was. -/
theorem vpa_token_secrets_deployed (c : Constants) (h : Helpers)
    (collaborators : DeployCollaborators) (b : Botanist) (w : World)
    (hnodup : ((vpaSecrets c).map Prod.fst).Nodup) :
    (b.Shoot.WantsVerticalPodAutoscaler = true →
        (∀ kv ∈ vpaSecrets c, kv.1 ∉ b.Secrets.map Prod.fst) →
        (∀ sm0 w0, ∀ kv ∈ vpaSecrets c,
          kv.1 ∉ (collaborators.Deploy sm0 w0).2.1.DeployedSecrets.map Prod.fst) →
        ∀ b2 w2, b.DeploySecrets c h collaborators w = .returned (none, b2, w2) →
          ∃ b1 sm w1 wd st caSecret,
            b.deployAndStoreTokens c h collaborators w = .returned (none, b1, sm, w1)
              ∧ (∃ sm0 w0, collaborators.Deploy sm0 w0 = (none, sm, wd))
              ∧ sm.StaticToken = some st
              ∧ sm.DeployedSecrets.lookup c.SecretNameCACluster = some caSecret
              ∧ ∀ kv ∈ vpaSecrets c, ∃ token, st.GetTokenForUsername kv.2 = .ok token
                  ∧ ∃ s ∈ w1.seedSecrets, s.Namespace = b.Shoot.SeedNamespace ∧ s.Name = kv.1
                    ∧ s.Data = [(c.DataKeyToken, token.Token),
                        (c.DataKeyCertificateCA,
                          (caSecret.Data.lookup c.DataKeyCertificateCA).getD "")]
                    ∧ (s.SecretType = corev1.SecretTypeOpaque
                        ∨ ∃ t ∈ wd.seedSecrets, t.key = (b.Shoot.SeedNamespace, kv.1)
                            ∧ s.SecretType = t.SecretType)
                    ∧ b2.CheckSums.lookup kv.1 = some (h.ComputeSecretCheckSum s.Data))
      ∧ (b.Shoot.WantsVerticalPodAutoscaler = true →
          ∀ existingSecrets w0 sm wd st tok caSecret,
            b.fetchExistingSecrets w = (.ok existingSecrets, w0) →
            collaborators.Deploy (b.secretsManagerForDeploy c h existingSecrets) w0
              = (none, sm, wd) →
            sm.StaticToken = some st →
            st.GetTokenForUsername c.KubeAPIServerHealthCheck = .ok tok →
            sm.DeployedSecrets.lookup c.SecretNameCACluster = some caSecret →
            (∃ kv ∈ vpaSecrets c, ∀ tok ∈ st.Tokens, tok.Username ≠ kv.2) →
            ∃ err b2 w2, b.DeploySecrets c h collaborators w = .returned (some err, b2, w2))
      ∧ (b.Shoot.WantsVerticalPodAutoscaler = false →
          ∀ b1 sm w1, b.deployAndStoreTokens c h collaborators w = .returned (none, b1, sm, w1) →
            b1.CheckSums = b.CheckSums
              ∧ ∃ existingSecrets w0, b.fetchExistingSecrets w = (.ok existingSecrets, w0)
                  ∧ collaborators.Deploy (b.secretsManagerForDeploy c h existingSecrets) w0
                    = (none, sm, w1)) := by
  refine ⟨?_, ?_, ?_⟩
  · intro hv hcache hdeployed b2 w2 hret
    unfold Botanist.DeploySecrets at hret
    cases hfirst : b.deployAndStoreTokens c h collaborators w with
    | panicked => rw [hfirst] at hret; simp at hret
    | returned r =>
      obtain ⟨e, b1, sm, w1⟩ := r
      rw [hfirst] at hret
      cases e with
      | some err => simp at hret
      | none =>
        simp only [Outcome.returned.injEq] at hret
        obtain ⟨existingSecrets, w0, wd, st, tok, hfetch, hdep, hst, hg, hcase⟩ :=
          deployAndStoreTokens_steps c h collaborators b b1 w w1 sm hfirst
        rcases hcase with ⟨hf, _⟩ | ⟨_, caSecret, hca, hstore⟩
        · rw [hv] at hf
          exact Bool.noConfusion hf
        · obtain ⟨hshoot, hcs, _, _, hall⟩ := storeStaticTokenAsSecrets_ok c h st _
            (vpaSecrets c) hnodup _ b1 wd w1 hstore
          simp only at hshoot hall
          have hsecrets : b1.Secrets = b.Secrets := by
            have hkeep := fun b0 hs => storeStaticTokenAsSecrets_Secrets c h (some st)
              ((caSecret.Data.lookup c.DataKeyCertificateCA).getD "") (vpaSecrets c) b0 b1 wd
              w1 none hs
            have hthis := hkeep { b with APIServerHealthCheckToken := tok.Token } hstore
            exact hthis
          have hb2 : b2.CheckSums
              = (b1.recordDeployedSecrets h sm.DeployedSecrets).CheckSums := by
            have hcopy := (copyWildcardCertificate_caches collaborators
              (b1.recordDeployedSecrets h sm.DeployedSecrets) w1).2
            rw [hret] at hcopy
            exact hcopy
          have hsm : sm = (collaborators.Deploy
              (b.secretsManagerForDeploy c h existingSecrets) w0).2.1 := by rw [hdep]
          refine ⟨b1, sm, w1, wd, st, caSecret, rfl, ⟨_, _, hdep⟩, hst, hca, fun kv hkv => ?_⟩
          obtain ⟨token, htoken, s, hs, hns, hn, hd, hty, hsum⟩ := hall kv hkv
          refine ⟨token, htoken, s, hs, hns, hn, hd, hty, ?_⟩
          rw [hb2]
          unfold Botanist.recordDeployedSecrets
          simp only
          have hkey : kv.1 ∉ (sm.DeployedSecrets.foldl
              (fun acc kv => mapInsert acc kv.1 kv.2) b1.Secrets).map Prod.fst := by
            intro hmem
            rcases ((keys_foldl_mapInsert sm.DeployedSecrets Prod.fst Prod.snd b1.Secrets).2
              kv.1).1 hmem with h1 | ⟨x, hx, hxk⟩
            · rw [hsecrets] at h1
              exact hcache kv hkv h1
            · apply hdeployed (b.secretsManagerForDeploy c h existingSecrets) w0 kv hkv
              rw [← hsm]
              exact List.mem_map.2 ⟨x, hx, hxk.symm⟩
          have hlook := lookup_foldl_mapInsert_of_not_mem
            (sm.DeployedSecrets.foldl (fun acc kv => mapInsert acc kv.1 kv.2) b1.Secrets)
            Prod.fst (fun kv : String × Secret => h.ComputeSecretCheckSum kv.2.Data)
            b1.CheckSums kv.1 hkey
          rw [hlook]
          exact hsum
  · intro hv existingSecrets w0 sm wd st tok caSecret hfetch hdep hst hg hca hmiss
    obtain ⟨err, b3, w3, hstore⟩ := storeStaticTokenAsSecrets_missing_token c h st
      ((caSecret.Data.lookup c.DataKeyCertificateCA).getD "") (vpaSecrets c) hmiss
      { b with APIServerHealthCheckToken := tok.Token } wd
    refine ⟨err, b3, w3, ?_⟩
    unfold Botanist.DeploySecrets Botanist.deployAndStoreTokens
      Botanist.storeAPIServerHealthCheckToken
    rw [hfetch]
    simp only [hdep, hst, hg, hv, if_true, hca, hstore]
  · intro hv b1 sm w1 hfirst
    obtain ⟨existingSecrets, w0, wd, st, tok, hfetch, hdep, hst, hg, hcase⟩ :=
      deployAndStoreTokens_steps c h collaborators b b1 w w1 sm hfirst
    rcases hcase with ⟨_, hb1, hw1⟩ | ⟨ht, _⟩
    · subst hb1 hw1
      exact ⟨rfl, existingSecrets, w0, hfetch, hdep⟩
    · rw [hv] at ht
      exact Bool.noConfusion ht

/-- The sample shoot that wants the vertical pod autoscaler: `DeploySecrets` succeeds on the
sample seed cluster and stores the token of the recommender with the CA certificate. -/
theorem vpa_token_secrets_deployed_witness :
    ((vpaSecrets upstreamConstants).map Prod.fst).Nodup
      ∧ vpaBotanist.Shoot.WantsVerticalPodAutoscaler = true
      ∧ ∃ b2 w2, vpaBotanist.DeploySecrets upstreamConstants sampleHelpers
            vpaDeployCollaborators sampleWorld = .returned (none, b2, w2)
          ∧ ∃ s : Secret, s.Name = "vpa-recommender"
              ∧ s.Data = [("token", "r3c0mm3nd3r"), ("ca.crt", "CERT")]
              ∧ b2.CheckSums.lookup "vpa-recommender"
                  = some (sampleHelpers.ComputeSecretCheckSum s.Data) := by
  refine ⟨by decide, by decide, ?_⟩
  obtain ⟨b2, w2, hret⟩ : ∃ b2 w2, vpaBotanist.DeploySecrets upstreamConstants sampleHelpers
      vpaDeployCollaborators sampleWorld = .returned (none, b2, w2) := ⟨_, _, rfl⟩
  obtain ⟨b1, sm, w1, wd, st, caSecret, _, ⟨sm0, w0, hdep⟩, hst, hca, hall⟩ :=
    (vpa_token_secrets_deployed upstreamConstants sampleHelpers vpaDeployCollaborators
      vpaBotanist sampleWorld (by decide)).1 (by decide) (by decide)
      (by intro sm0 w0 kv hkv; simp only [vpaDeployCollaborators]; revert kv; decide) b2 w2 hret
  obtain ⟨token, htoken, s, _, _, hn, hd, _, hsum⟩ :=
    hall ("vpa-recommender", "gardener.cloud:vpa:recommender") (by decide)
  have hsm : sm = (vpaDeployCollaborators.Deploy sm0 w0).2.1 := by rw [hdep]
  have hst2 : st = vpaStaticToken := by
    rw [hsm] at hst
    exact (Option.some.inj hst).symm
  have hca2 : caSecret = { Name := "ca", Namespace := "shoot--dev--crazy-botany"
                           Data := [("ca.crt", "CERT")] } := by
    rw [hsm] at hca
    exact (Option.some.inj hca).symm
  have htok2 : token.Token = "r3c0mm3nd3r" := by
    rw [hst2] at htoken
    have : vpaStaticToken.GetTokenForUsername "gardener.cloud:vpa:recommender"
        = .ok { Username := "gardener.cloud:vpa:recommender", UserID := "vpa-recommender"
                Groups := [], Token := "r3c0mm3nd3r" } := by rfl
    rw [this] at htoken
    rw [← Except.ok.inj htoken]
  refine ⟨b2, w2, hret, s, hn, ?_, hsum⟩
  rw [hd, htok2, hca2]
  rfl

/-- C22: `storeStaticTokenAsSecrets` puts the type Opaque into the object that it hands to
`CreateOrUpdate`, not into the mutation, so the type is lost when the secret exists.  The
seed namespace of the sample shoot, which wants the vertical pod autoscaler, holds a secret
named `vpa-updater` of a custom type; `DeploySecrets` succeeds and updates it to the token
and the CA certificate, and it is not of type Opaque afterwards, while the secret
`vpa-recommender`, which did not exist, is. -/
theorem vpa_token_secret_keeps_foreign_type :
    vpaBotanist.Shoot.WantsVerticalPodAutoscaler = true
      ∧ ("vpa-updater", "gardener.cloud:vpa:updater") ∈ vpaSecrets upstreamConstants
      ∧ ∃ b2 w2, vpaBotanist.DeploySecrets upstreamConstants sampleHelpers
            vpaDeployCollaborators foreignTypeWorld = .returned (none, b2, w2)
          ∧ (∃ s ∈ w2.seedSecrets, s.key = ("shoot--dev--crazy-botany", "vpa-updater")
              ∧ s.Data = [("token", "upd4t3r"), ("ca.crt", "CERT")]
              ∧ s.SecretType = "example.com/credentials")
          ∧ (∀ s ∈ w2.seedSecrets, s.key = ("shoot--dev--crazy-botany", "vpa-updater") →
              s.SecretType ≠ corev1.SecretTypeOpaque)
          ∧ ∃ s ∈ w2.seedSecrets, s.key = ("shoot--dev--crazy-botany", "vpa-recommender")
              ∧ s.SecretType = corev1.SecretTypeOpaque := by
  refine ⟨by decide, by decide, _, _, rfl, by decide, by decide, by decide⟩

/-! ## The SANs of the kube-apiserver certificate -/

/-- The SANs that `generateWantedSecretConfigs` computes for the kube-apiserver certificate,
by the ShootDNS setting of the seed and the parse of `APIServerAddress`. -/
theorem apiServerSANs_cases (c : Constants) (h : Helpers) (b : Botanist) (ips : List IP)
    (dns : List String) (hs : b.apiServerSANs c h = .returned (ips, dns)) :
    ∃ extra : List String,
      (b.Shoot.ExternalClusterDomain = none → extra = [])
        ∧ (∀ externalClusterDomain, b.Shoot.ExternalClusterDomain = some externalClusterDomain →
            ∃ domain, b.Shoot.Info.SpecDNSDomain = some domain
              ∧ extra = [domain, h.GetAPIServerDomain externalClusterDomain])
        ∧ (b.SeedShootDNSEnabled = true →
            ips = [h.ParseIP "127.0.0.1", b.Shoot.NetworksAPIServer]
              ∧ dns = [ "kube-apiserver", "kube-apiserver." ++ b.Shoot.SeedNamespace,
                        "kube-apiserver." ++ b.Shoot.SeedNamespace ++ ".svc",
                        h.GetAPIServerDomain b.Shoot.InternalClusterDomain ]
                      ++ dnsNamesForService c "kubernetes" "default" ++ extra)
        ∧ (b.SeedShootDNSEnabled = false →
            (∀ addr, h.ParseIP b.APIServerAddress = some addr →
              ips = [h.ParseIP "127.0.0.1", b.Shoot.NetworksAPIServer] ++ [some addr]
                ∧ dns = [ "kube-apiserver", "kube-apiserver." ++ b.Shoot.SeedNamespace,
                          "kube-apiserver." ++ b.Shoot.SeedNamespace ++ ".svc",
                          h.GetAPIServerDomain b.Shoot.InternalClusterDomain ]
                        ++ dnsNamesForService c "kubernetes" "default" ++ extra)
            ∧ (h.ParseIP b.APIServerAddress = none →
              ips = [h.ParseIP "127.0.0.1", b.Shoot.NetworksAPIServer]
                ∧ dns = [ "kube-apiserver", "kube-apiserver." ++ b.Shoot.SeedNamespace,
                          "kube-apiserver." ++ b.Shoot.SeedNamespace ++ ".svc",
                          h.GetAPIServerDomain b.Shoot.InternalClusterDomain ]
                        ++ dnsNamesForService c "kubernetes" "default"
                        ++ [b.APIServerAddress] ++ extra)) := by
  unfold Botanist.apiServerSANs at hs
  simp only [(Sprintf_kube_apiserver b.Shoot.SeedNamespace).1,
    (Sprintf_kube_apiserver b.Shoot.SeedNamespace).2] at hs
  cases hext : b.Shoot.ExternalClusterDomain with
  | none =>
    rw [hext] at hs
    simp only [Outcome.returned.injEq] at hs
    refine ⟨[], fun _ => rfl, fun e he => by simp at he, ?_, ?_⟩
    · intro hdns
      simp only [hdns, Bool.not_true, Bool.false_eq_true, if_false, Prod.mk.injEq] at hs
      simp only [List.append_nil]
      exact ⟨hs.1.symm, hs.2.symm⟩
    · intro hdns
      simp only [hdns, Bool.not_false, if_true] at hs
      refine ⟨fun addr hp => ?_, fun hp => ?_⟩
      · rw [hp] at hs
        simp only [Prod.mk.injEq] at hs
        simp only [List.append_nil]
        exact ⟨hs.1.symm, hs.2.symm⟩
      · rw [hp] at hs
        simp only [Prod.mk.injEq] at hs
        simp only [List.append_nil]
        exact ⟨hs.1.symm, hs.2.symm⟩
  | some ext =>
    rw [hext] at hs
    simp only at hs
    cases hdom : b.Shoot.Info.SpecDNSDomain with
    | none => rw [hdom] at hs; exact Outcome.noConfusion hs
    | some domain =>
      rw [hdom] at hs
      simp only [Outcome.returned.injEq, Prod.mk.injEq] at hs
      refine ⟨[domain, h.GetAPIServerDomain ext], fun he => by simp at he,
        fun e he => ⟨domain, rfl, by simp only [Option.some.injEq] at he; rw [he]⟩, ?_, ?_⟩
      · intro hdns
        simp only [hdns, Bool.not_true, Bool.false_eq_true, if_false] at hs
        exact ⟨hs.1.symm, hs.2.symm⟩
      · intro hdns
        simp only [hdns, Bool.not_false, if_true] at hs
        refine ⟨fun addr hp => ?_, fun hp => ?_⟩
        · rw [hp] at hs
          exact ⟨hs.1.symm, hs.2.symm⟩
        · rw [hp] at hs
          exact ⟨hs.1.symm, hs.2.symm⟩

/-- C23: in every successfully generated catalog, the kube-apiserver certificate carries
IP addresses that begin with `ParseIP("127.0.0.1")` and the API-server IP of the shoot
network, and DNS names that are the fixed names followed by the names of the external
domain, if there is one.  With ShootDNS disabled for the seed, `APIServerAddress` is
appended to the IP addresses and not to the DNS names if it parses as an IP address, and to
the DNS names (before the names of the external domain) and not to the IP addresses
otherwise; with ShootDNS enabled it is appended to neither list. -/
theorem apiserver_address_in_one_SAN_list (c : Constants) (h : Helpers) (b : Botanist)
    (basicAuthAPIServer : Option secrets.BasicAuth) (staticToken : Option secrets.StaticToken)
    (certificateAuthorities : String → Option secrets.Certificate)
    (l : List secrets.ConfigInterface)
    (hok : b.generateWantedSecretConfigs c h basicAuthAPIServer staticToken
      certificateAuthorities = .returned (l, none)) :
    ∃ (ips : List IP) (dns extra : List String),
      (∃ cfg ∈ l, cfg.GetName = "kube-apiserver" ∧ ∃ cc, cfg.certificateConfig = some cc
          ∧ cc.IPAddresses = ips ∧ cc.DNSNames = dns)
        ∧ ips.take 2 = [h.ParseIP "127.0.0.1", b.Shoot.NetworksAPIServer]
        ∧ (b.Shoot.ExternalClusterDomain = none → extra = [])
        ∧ (∀ externalClusterDomain, b.Shoot.ExternalClusterDomain = some externalClusterDomain →
            ∃ domain, b.Shoot.Info.SpecDNSDomain = some domain
              ∧ extra = [domain, h.GetAPIServerDomain externalClusterDomain])
        ∧ (b.SeedShootDNSEnabled = true →
            ips = [h.ParseIP "127.0.0.1", b.Shoot.NetworksAPIServer]
              ∧ dns = [ "kube-apiserver", "kube-apiserver." ++ b.Shoot.SeedNamespace,
                        "kube-apiserver." ++ b.Shoot.SeedNamespace ++ ".svc",
                        h.GetAPIServerDomain b.Shoot.InternalClusterDomain ]
                      ++ dnsNamesForService c "kubernetes" "default" ++ extra)
        ∧ (b.SeedShootDNSEnabled = false →
            (∀ addr, h.ParseIP b.APIServerAddress = some addr →
              ips = [h.ParseIP "127.0.0.1", b.Shoot.NetworksAPIServer] ++ [some addr]
                ∧ dns = [ "kube-apiserver", "kube-apiserver." ++ b.Shoot.SeedNamespace,
                          "kube-apiserver." ++ b.Shoot.SeedNamespace ++ ".svc",
                          h.GetAPIServerDomain b.Shoot.InternalClusterDomain ]
                        ++ dnsNamesForService c "kubernetes" "default" ++ extra)
            ∧ (h.ParseIP b.APIServerAddress = none →
              ips = [h.ParseIP "127.0.0.1", b.Shoot.NetworksAPIServer]
                ∧ dns = [ "kube-apiserver", "kube-apiserver." ++ b.Shoot.SeedNamespace,
                          "kube-apiserver." ++ b.Shoot.SeedNamespace ++ ".svc",
                          h.GetAPIServerDomain b.Shoot.InternalClusterDomain ]
                        ++ dnsNamesForService c "kubernetes" "default"
                        ++ [b.APIServerAddress] ++ extra)) := by
  obtain ⟨ips, dns, kubecfgToken, tunnel, hsans, hl, _⟩ :=
    generateWantedSecretConfigs_success_sans c h b basicAuthAPIServer staticToken
      certificateAuthorities l hok
  obtain ⟨extra, hnone, hsome, hen, hdis⟩ := apiServerSANs_cases c h b ips dns hsans
  have hin : ∀ cfg, cfg ∈ b.initialSecretList c h certificateAuthorities ips dns → cfg ∈ l := by
    intro cfg hcfg
    rw [hl]
    apply mem_withOptionalSecretConfigs
    simp only [List.mem_append]
    tauto
  refine ⟨ips, dns, extra, ?_, ?_, hnone, hsome, hen, hdis⟩
  · exact ⟨.controlPlane
        { CertificateSecretConfig :=
            { Name := "kube-apiserver"
              CommonName := user.APIServerUser
              DNSNames := dns
              IPAddresses := ips
              CertType := .ServerCert
              SigningCA := certificateAuthorities c.SecretNameCACluster } },
      hin _ (by simp [Botanist.initialSecretList]), rfl, _, rfl, rfl, rfl⟩
  · cases hd : b.SeedShootDNSEnabled with
    | true => rw [(hen hd).1]; rfl
    | false =>
      cases hp : h.ParseIP b.APIServerAddress with
      | some addr => rw [((hdis hd).1 addr hp).1]; rfl
      | none => rw [((hdis hd).2 hp).1]; rfl

theorem apiserver_address_in_one_SAN_list_witness :
    ∃ l, noShootDNSBotanist.generateWantedSecretConfigs upstreamConstants sampleHelpers none
          (some sampleStaticToken) sampleCertificateAuthorities = .returned (l, none)
      ∧ ∃ cfg ∈ l, cfg.GetName = "kube-apiserver" ∧ ∃ cc, cfg.certificateConfig = some cc
          ∧ cc.IPAddresses = [some [127, 0, 0, 1], some [100, 64, 0, 1], some [127, 0, 0, 1]]
          ∧ "127.0.0.1" ∉ cc.DNSNames := by
  obtain ⟨l, hl⟩ : ∃ l, noShootDNSBotanist.generateWantedSecretConfigs upstreamConstants
      sampleHelpers none (some sampleStaticToken) sampleCertificateAuthorities
        = .returned (l, none) := ⟨_, rfl⟩
  obtain ⟨ips, dns, extra, ⟨cfg, hcfg, hname, cc, hcc, hips, hdns⟩, _, _, hext, _, hdis⟩ :=
    apiserver_address_in_one_SAN_list upstreamConstants sampleHelpers noShootDNSBotanist none
      (some sampleStaticToken) sampleCertificateAuthorities l hl
  obtain ⟨hi, hd⟩ := (hdis (by decide)).1 [127, 0, 0, 1] (by decide)
  obtain ⟨domain, hdom, hextra⟩ := hext "crazy-botany.dev.example.com" (by decide)
  have hdomain : domain = "crazy-botany.dev.example.com" := by
    have : noShootDNSBotanist.Shoot.Info.SpecDNSDomain = some "crazy-botany.dev.example.com" := by
      decide
    rw [this] at hdom
    exact (Option.some.inj hdom).symm
  refine ⟨l, hl, cfg, hcfg, hname, cc, hcc, ?_, ?_⟩
  · rw [hips, hi]
    decide
  · rw [hdns, hd, hextra, hdomain]
    decide

/-! ## The basic-auth config of the Secrets Manager -/

theorem secretsManagerForLoad_basicAuth (c : Constants) (h : Helpers) (b : Botanist)
    (existingSecretsMap : List (String × Secret)) :
    (b.secretsManagerForLoad c h existingSecretsMap).apiServerBasicAuthConfig
      = if h.ShootWantsBasicAuthentication b.Shoot.Info then some (basicAuthSecretAPIServer c)
        else none := by
  unfold Botanist.secretsManagerForLoad SecretsManager.WithExistingSecrets
    SecretsManager.WithAPIServerBasicAuthConfig
  split_ifs <;> rfl

theorem secretsManagerForGenerate_basicAuth (c : Constants) (h : Helpers) (b : Botanist)
    (gardenerResourceDataList : GardenerResourceDataList) :
    (b.secretsManagerForGenerate c h gardenerResourceDataList).apiServerBasicAuthConfig
      = if h.ShootWantsBasicAuthentication b.Shoot.Info then some (basicAuthSecretAPIServer c)
        else none := by
  unfold Botanist.secretsManagerForGenerate
  split_ifs <;> rfl

theorem secretsManagerForDeploy_basicAuth (c : Constants) (h : Helpers) (b : Botanist)
    (existingSecrets : List (String × Secret)) :
    (b.secretsManagerForDeploy c h existingSecrets).apiServerBasicAuthConfig
      = if h.ShootWantsBasicAuthentication b.Shoot.Info then some (basicAuthSecretAPIServer c)
        else none := by
  unfold Botanist.secretsManagerForDeploy
  split_ifs <;> rfl

/-- `GenerateAndSaveSecrets` calls `Generate` on the manager of
`secretsManagerForGenerate`. -/
theorem GenerateAndSaveSecrets_manager (c : Constants) (h : Helpers) (b : Botanist)
    (generate : SecretsManager → Option Err × SecretsManager) (w w1 : World)
    (l : GardenerResourceDataList) (hpre : b.preGeneration c h w = (none, l, w1)) :
    b.GenerateAndSaveSecrets c h generate w
      = match generate (b.secretsManagerForGenerate c h l) with
        | (some err, _) => (some err, b, w1)
        | (none, secretsManager) =>
          match CreateOrUpdateShootState w1 b.Shoot.Info.Namespace b.Shoot.Info.Name
              secretsManager.GardenerResourceDataList with
          | (some err, _, w2) => (some err, b, w2)
          | (none, shootState, w2) => (none, { b with ShootState := shootState }, w2) := by
  unfold Botanist.GenerateAndSaveSecrets Botanist.secretsManagerForGenerate
  rw [hpre]
  try rfl

/-- C24: `LoadExistingSecretsIntoShootState`, `GenerateAndSaveSecrets` and `DeploySecrets`
configure the Secrets Manager alike with respect to basic auth: the manager on which `Load`,
`Generate` and `Deploy` are called carries `basicAuthSecretAPIServer` as its API-server
basic-auth config if `ShootWantsBasicAuthentication(shoot)` is true, and none otherwise; so
the result of each of the three operations depends on `Load`, `Generate` and `Deploy` only
through their behaviour on managers that are configured in this way. -/
theorem basic_auth_configured_alike (c : Constants) (h : Helpers) (b : Botanist) :
    (∀ existingSecretsMap gardenerResourceDataList existingSecrets,
        (b.secretsManagerForLoad c h existingSecretsMap).apiServerBasicAuthConfig
            = (if h.ShootWantsBasicAuthentication b.Shoot.Info
                then some (basicAuthSecretAPIServer c) else none)
          ∧ (b.secretsManagerForGenerate c h gardenerResourceDataList).apiServerBasicAuthConfig
            = (if h.ShootWantsBasicAuthentication b.Shoot.Info
                then some (basicAuthSecretAPIServer c) else none)
          ∧ (b.secretsManagerForDeploy c h existingSecrets).apiServerBasicAuthConfig
            = (if h.ShootWantsBasicAuthentication b.Shoot.Info
                then some (basicAuthSecretAPIServer c) else none))
      ∧ (∀ (load load2 : SecretsManager → Option Err × SecretsManager) (w : World),
          (∀ sm : SecretsManager,
            sm.apiServerBasicAuthConfig = (if h.ShootWantsBasicAuthentication b.Shoot.Info
                then some (basicAuthSecretAPIServer c) else none) → load sm = load2 sm) →
          b.LoadExistingSecretsIntoShootState c h load w
            = b.LoadExistingSecretsIntoShootState c h load2 w)
      ∧ (∀ (generate generate2 : SecretsManager → Option Err × SecretsManager) (w : World),
          (∀ sm : SecretsManager,
            sm.apiServerBasicAuthConfig = (if h.ShootWantsBasicAuthentication b.Shoot.Info
                then some (basicAuthSecretAPIServer c) else none) →
            generate sm = generate2 sm) →
          b.GenerateAndSaveSecrets c h generate w = b.GenerateAndSaveSecrets c h generate2 w)
      ∧ ∀ (collaborators collaborators2 : DeployCollaborators) (w : World),
          collaborators.GetWildcardCertificate = collaborators2.GetWildcardCertificate →
          (∀ (sm : SecretsManager) (w0 : World),
            sm.apiServerBasicAuthConfig = (if h.ShootWantsBasicAuthentication b.Shoot.Info
                then some (basicAuthSecretAPIServer c) else none) →
            collaborators.Deploy sm w0 = collaborators2.Deploy sm w0) →
          b.DeploySecrets c h collaborators w = b.DeploySecrets c h collaborators2 w := by
  refine ⟨fun e1 l e2 => ⟨secretsManagerForLoad_basicAuth c h b e1,
    secretsManagerForGenerate_basicAuth c h b l, secretsManagerForDeploy_basicAuth c h b e2⟩,
    ?_, ?_, ?_⟩
  · intro load load2 w hagree
    unfold Botanist.LoadExistingSecretsIntoShootState
    rcases hfetch : b.fetchExistingSecrets w with ⟨existing, w1⟩
    cases existing with
    | error err => rfl
    | ok existingSecretsMap =>
      simp only
      rw [hagree _ (secretsManagerForLoad_basicAuth c h b existingSecretsMap)]
  · intro generate generate2 w hagree
    rcases hpre : b.preGeneration c h w with ⟨e, l, w1⟩
    cases e with
    | some err =>
      unfold Botanist.GenerateAndSaveSecrets
      rw [hpre]
    | none =>
      rw [GenerateAndSaveSecrets_manager c h b generate w w1 l hpre,
        GenerateAndSaveSecrets_manager c h b generate2 w w1 l hpre,
        hagree _ (secretsManagerForGenerate_basicAuth c h b l)]
  · intro collaborators collaborators2 w hwild hagree
    have hcopy : ∀ b0 w0, Botanist.copyWildcardCertificate collaborators b0 w0
        = Botanist.copyWildcardCertificate collaborators2 b0 w0 := by
      intro b0 w0
      unfold Botanist.copyWildcardCertificate
      rw [hwild]
    have hfirst : b.deployAndStoreTokens c h collaborators w
        = b.deployAndStoreTokens c h collaborators2 w := by
      unfold Botanist.deployAndStoreTokens
      rcases hfetch : b.fetchExistingSecrets w with ⟨existing, w1⟩
      cases existing with
      | error err => rfl
      | ok existingSecrets =>
        simp only
        rw [hagree _ w1 (secretsManagerForDeploy_basicAuth c h b existingSecrets)]
    unfold Botanist.DeploySecrets
    rw [hfirst]
    simp only [hcopy]

/-! ## Distinct names in the catalog -/

/-- The names of a generated catalog are among the names the catalog can hold, in their
order. -/
theorem generated_names_sublist (c : Constants) (h : Helpers) (b : Botanist) :
    (alwaysSecretNames c
      ++ (if b.Shoot.KonnectivityTunnelEnabled then konnectivitySecretNames c
          else vpnSecretNames)
      ++ (if h.LoggingEnabled then loggingSecretNames c else [])
      ++ (if b.Shoot.WantsVerticalPodAutoscaler then ["vpa-tls-certs"] else [])).Sublist
      (catalogNames c) := by
  unfold catalogNames
  refine List.Sublist.append (List.Sublist.append ?_ ?_) ?_
  · rw [List.append_assoc (alwaysSecretNames c)]
    refine List.Sublist.append (List.Sublist.refl _) ?_
    split_ifs
    · exact List.sublist_append_left _ _
    · exact List.sublist_append_right _ _
  · split_ifs
    · exact List.Sublist.refl _
    · exact List.nil_sublist _
  · split_ifs
    · exact List.Sublist.refl _
    · exact List.nil_sublist _

/-- C25: for every input on which `generateWantedSecretConfigs` succeeds (the names that the
catalog can hold, the names of `wantedCertificateAuthorities`, `StaticTokenSecretName` and
`BasicAuthSecretName` being pairwise distinct values), the names of the returned configs are
pairwise distinct, and none of them is a name of `wantedCertificateAuthorities`,
`StaticTokenSecretName` or `BasicAuthSecretName`. -/
theorem wanted_secret_names_distinct (c : Constants) (h : Helpers) (b : Botanist)
    (basicAuthAPIServer : Option secrets.BasicAuth) (staticToken : Option secrets.StaticToken)
    (certificateAuthorities : String → Option secrets.Certificate)
    (l : List secrets.ConfigInterface)
    (hnames : (catalogNames c ++ (wantedCertificateAuthorities c).map Prod.fst
      ++ [c.StaticTokenSecretName, c.BasicAuthSecretName]).Nodup)
    (hok : b.generateWantedSecretConfigs c h basicAuthAPIServer staticToken
      certificateAuthorities = .returned (l, none)) :
    (configNames l).Nodup
      ∧ ∀ n ∈ configNames l,
          n ∉ (wantedCertificateAuthorities c).map Prod.fst
            ∧ n ∉ (wantedCertificateAuthorities c).map (fun kv => kv.2.Name)
            ∧ n ≠ c.StaticTokenSecretName ∧ n ≠ c.BasicAuthSecretName := by
  have hl := generateWantedSecretConfigs_names c h b basicAuthAPIServer staticToken
    certificateAuthorities l hok
  have hsub := generated_names_sublist c h b
  rw [← hl] at hsub
  rw [List.append_assoc] at hnames
  obtain ⟨hcat, _, hdisj⟩ := List.nodup_append.1 hnames
  refine ⟨List.Nodup.sublist hsub hcat, fun n hn => ?_⟩
  have hncat : n ∈ catalogNames c := hsub.subset hn
  have hnot := fun hx => hdisj hncat hx
  simp only [List.mem_append, List.mem_cons, List.mem_singleton, List.not_mem_nil,
    or_false] at hnot
  have hsame : (wantedCertificateAuthorities c).map (fun kv => kv.2.Name)
      = (wantedCertificateAuthorities c).map Prod.fst := rfl
  rw [hsame]
  exact ⟨fun hx => hnot (Or.inl hx), fun hx => hnot (Or.inl hx),
    fun hx => hnot (Or.inr (Or.inl hx)), fun hx => hnot (Or.inr (Or.inr hx))⟩

theorem wanted_secret_names_distinct_witness :
    (catalogNames upstreamConstants
        ++ (wantedCertificateAuthorities upstreamConstants).map Prod.fst
        ++ [upstreamConstants.StaticTokenSecretName, upstreamConstants.BasicAuthSecretName]).Nodup
      ∧ (configNames (alwaysConfigsOfSample ++ vpnSecretConfigs upstreamConstants
          sampleCertificateAuthorities)).Nodup
      ∧ ∀ n ∈ configNames (alwaysConfigsOfSample ++ vpnSecretConfigs upstreamConstants
            sampleCertificateAuthorities),
          n ∉ (wantedCertificateAuthorities upstreamConstants).map Prod.fst
            ∧ n ∉ (wantedCertificateAuthorities upstreamConstants).map (fun kv => kv.2.Name)
            ∧ n ≠ upstreamConstants.StaticTokenSecretName
            ∧ n ≠ upstreamConstants.BasicAuthSecretName :=
  ⟨by decide,
    wanted_secret_names_distinct upstreamConstants sampleHelpers sampleBotanist none
      (some sampleStaticToken) sampleCertificateAuthorities
      (alwaysConfigsOfSample ++ vpnSecretConfigs upstreamConstants sampleCertificateAuthorities)
      (by decide) (by decide)⟩

/-! ## The usernames of the static token -/

theorem mem_of_lookup_eq_some {β : Type} (m : List (String × β)) (k : String) (v : β)
    (h : m.lookup k = some v) : (k, v) ∈ m := by
  induction m with
  | nil => simp at h
  | cons kv m ih =>
    obtain ⟨k0, v0⟩ := kv
    rw [lookup_cons_eq] at h
    by_cases hk : k = k0
    · simp only [hk, if_true, Option.some.injEq] at h
      rw [hk, h]
      exact List.mem_cons_self _ _
    · simp only [hk, if_false] at h
      exact List.mem_cons_of_mem _ (ih h)

/-- A static token that holds a token for a username yields one on lookup. -/
theorem GetTokenForUsername_ok (st : secrets.StaticToken) (username : String)
    (h : ∃ tok ∈ st.Tokens, tok.Username = username) :
    ∃ tok, st.GetTokenForUsername username = .ok tok := by
  unfold secrets.StaticToken.GetTokenForUsername
  cases hf : st.Tokens.find? (fun tok => tok.Username == username) with
  | some tok => exact ⟨tok, rfl⟩
  | none =>
    rw [List.find?_eq_none] at hf
    obtain ⟨tok, htok, hu⟩ := h
    exact absurd (by simpa using hu) (hf tok htok)

/-- The entries of the static-token config, by key, when the keys are pairwise distinct. -/
theorem generateStaticTokenConfig_lookup (c : Constants) (b : Botanist)
    (hkeys : ([c.KubecfgUsername, c.KubeAPIServerHealthCheck, c.KonnectivityServerUserName]
      ++ (vpaSecrets c).map Prod.fst).Nodup) :
    (∃ cfg, (b.generateStaticTokenConfig c).Tokens.lookup c.KubecfgUsername = some cfg
        ∧ cfg.Username = c.KubecfgUsername)
      ∧ (∃ cfg, (b.generateStaticTokenConfig c).Tokens.lookup c.KubeAPIServerHealthCheck
            = some cfg ∧ cfg.Username = c.KubeAPIServerHealthCheck)
      ∧ (b.Shoot.KonnectivityTunnelEnabled = true →
          ∃ cfg, (b.generateStaticTokenConfig c).Tokens.lookup c.KonnectivityServerUserName
            = some cfg ∧ cfg.Username = c.KonnectivityServerUserName)
      ∧ (b.Shoot.WantsVerticalPodAutoscaler = true →
          ∀ kv ∈ vpaSecrets c,
            ∃ cfg, (b.generateStaticTokenConfig c).Tokens.lookup kv.1 = some cfg
              ∧ cfg.Username = kv.2) := by
  simp only [vpaSecrets, List.map_cons, List.map_nil, List.cons_append, List.nil_append,
    List.nodup_cons, List.mem_cons, List.mem_singleton, List.not_mem_nil, or_false, not_or,
    List.nodup_nil, and_true, not_false_eq_true] at hkeys
  obtain ⟨⟨hKH, hKS, hKa, hKr, hKu⟩, ⟨hHS, hHa, hHr, hHu⟩, ⟨hSa, hSr, hSu⟩, ⟨har, hau⟩, hru⟩ :=
    hkeys
  unfold Botanist.generateStaticTokenConfig
  simp only [vpaSecrets, List.foldl_cons, List.foldl_nil]
  refine ⟨?_, ?_, ?_, ?_⟩
  · split_ifs <;> simp [lookup_mapInsert, hKH, hKS, hKa, hKr, hKu]
  · split_ifs <;> simp [lookup_mapInsert, hHS, hHa, hHr, hHu]
  · intro hk
    simp only [hk, if_true]
    split_ifs <;> simp [lookup_mapInsert, hSa, hSr, hSu]
  · intro hv kv hkv
    simp only [hv, if_true]
    simp only [List.mem_cons, List.mem_singleton, List.not_mem_nil, or_false] at hkv
    rcases hkv with rfl | rfl | rfl
    · split_ifs <;> simp [lookup_mapInsert, har, hau]
    · split_ifs <;> simp [lookup_mapInsert, hru]
    · split_ifs <;> simp [lookup_mapInsert]

/-- With a token for the username of every entry, `storeStaticTokenAsSecrets` returns, and
an error it returns is a failure of an API call. -/
theorem storeStaticTokenAsSecrets_no_missing_token (c : Constants) (h : Helpers)
    (st : secrets.StaticToken) (caCert : String) (names : List (String × String))
    (hall : ∀ kv ∈ names, ∃ tok ∈ st.Tokens, tok.Username = kv.2) (b : Botanist) (w : World) :
    ∃ e b2 w2, Botanist.storeStaticTokenAsSecrets c h (some st) caCert names b w
        = .returned (e, b2, w2)
      ∧ ∀ err, e = some err → ∃ msg, err = .failure msg := by
  induction names generalizing b w with
  | nil => exact ⟨none, b, w, rfl, fun err he => by simp at he⟩
  | cons entry rest ih =>
    obtain ⟨secretName, username⟩ := entry
    obtain ⟨token, htoken⟩ := GetTokenForUsername_ok st username
      (hall (secretName, username) (List.mem_cons_self _ _))
    simp only [Botanist.storeStaticTokenAsSecrets, htoken]
    rcases hc : SeedClient.CreateOrUpdate w
        { Name := secretName, Namespace := b.Shoot.SeedNamespace
          SecretType := corev1.SecretTypeOpaque }
        (fun secret => { secret with
          Data := [(c.DataKeyToken, token.Token), (c.DataKeyCertificateCA, caCert)] })
      with ⟨e1, secret, w1⟩
    cases e1 with
    | some err =>
      refine ⟨some err, b, w1, rfl, fun err2 he => ?_⟩
      simp only [Option.some.injEq] at he
      subst he
      unfold SeedClient.CreateOrUpdate at hc
      rcases hf : w.nextFault with ⟨flt, w0⟩
      rw [hf] at hc
      cases flt with
      | none => simp at hc
      | some msg =>
        simp only [Prod.mk.injEq, Option.some.injEq] at hc
        exact ⟨msg, hc.1.symm⟩
    | none =>
      exact ih (fun kv hkv => hall kv (List.mem_cons_of_mem _ hkv)) _ w1

/-- C26: with pairwise distinct keys of the static-token config (`KubecfgUsername`,
`KubeAPIServerHealthCheck`, `KonnectivityServerUserName` and the three secret names of
`vpaSecrets`), every username that this layer looks up in the static token is the username
of a `TokenConfig` that `generateStaticTokenConfig` declares under the same flags:
`KubecfgUsername` and `KubeAPIServerHealthCheck` always, `KonnectivityServerUserName` with
`KonnectivityTunnelEnabled`, the three usernames of `vpaSecrets` with
`WantsVerticalPodAutoscaler`.  Hence, for a static token that holds a token for every
declared username, `generateWantedSecretConfigs` returns no error,
`storeAPIServerHealthCheckToken` returns no error, and with `WantsVerticalPodAutoscaler`
`storeStaticTokenAsSecrets` for `vpaSecrets` returns, and returns no error but the failure
of an API call. -/
theorem missing_token_branches_unreachable (c : Constants) (h : Helpers) (b : Botanist)
    (hkeys : ([c.KubecfgUsername, c.KubeAPIServerHealthCheck, c.KonnectivityServerUserName]
      ++ (vpaSecrets c).map Prod.fst).Nodup) :
    (c.KubecfgUsername ∈ (b.generateStaticTokenConfig c).Tokens.map (fun kv => kv.2.Username)
        ∧ c.KubeAPIServerHealthCheck
            ∈ (b.generateStaticTokenConfig c).Tokens.map (fun kv => kv.2.Username)
        ∧ (b.Shoot.KonnectivityTunnelEnabled = true →
            c.KonnectivityServerUserName
              ∈ (b.generateStaticTokenConfig c).Tokens.map (fun kv => kv.2.Username))
        ∧ (b.Shoot.WantsVerticalPodAutoscaler = true →
            ∀ kv ∈ vpaSecrets c,
              kv.2 ∈ (b.generateStaticTokenConfig c).Tokens.map (fun kv => kv.2.Username)))
      ∧ ∀ st : secrets.StaticToken,
          (∀ u ∈ (b.generateStaticTokenConfig c).Tokens.map (fun kv => kv.2.Username),
            ∃ tok ∈ st.Tokens, tok.Username = u) →
          (∀ basicAuthAPIServer certificateAuthorities l e,
              b.generateWantedSecretConfigs c h basicAuthAPIServer (some st)
                certificateAuthorities = .returned (l, e) → e = none)
            ∧ (∃ tok, b.storeAPIServerHealthCheckToken c (some st)
                = .returned (none, { b with APIServerHealthCheckToken := tok }))
            ∧ (b.Shoot.WantsVerticalPodAutoscaler = true →
                ∀ caCert (b0 : Botanist) (w : World),
                  ∃ e b2 w2, Botanist.storeStaticTokenAsSecrets c h (some st) caCert
                      (vpaSecrets c) b0 w = .returned (e, b2, w2)
                    ∧ ∀ err, e = some err → ∃ msg, err = .failure msg) := by
  obtain ⟨⟨cfgK, hK, huK⟩, ⟨cfgH, hH, huH⟩, hS, hV⟩ := generateStaticTokenConfig_lookup c b hkeys
  have hmemK : c.KubecfgUsername
      ∈ (b.generateStaticTokenConfig c).Tokens.map (fun kv => kv.2.Username) :=
    List.mem_map.2 ⟨_, mem_of_lookup_eq_some _ _ _ hK, huK⟩
  have hmemH : c.KubeAPIServerHealthCheck
      ∈ (b.generateStaticTokenConfig c).Tokens.map (fun kv => kv.2.Username) :=
    List.mem_map.2 ⟨_, mem_of_lookup_eq_some _ _ _ hH, huH⟩
  have hmemS : b.Shoot.KonnectivityTunnelEnabled = true →
      c.KonnectivityServerUserName
        ∈ (b.generateStaticTokenConfig c).Tokens.map (fun kv => kv.2.Username) := by
    intro hk
    obtain ⟨cfg, hl, hu⟩ := hS hk
    exact List.mem_map.2 ⟨_, mem_of_lookup_eq_some _ _ _ hl, hu⟩
  have hmemV : b.Shoot.WantsVerticalPodAutoscaler = true →
      ∀ kv ∈ vpaSecrets c,
        kv.2 ∈ (b.generateStaticTokenConfig c).Tokens.map (fun kv => kv.2.Username) := by
    intro hv kv hkv
    obtain ⟨cfg, hl, hu⟩ := hV hv kv hkv
    exact List.mem_map.2 ⟨_, mem_of_lookup_eq_some _ _ _ hl, hu⟩
  refine ⟨⟨hmemK, hmemH, hmemS, hmemV⟩, fun st hst => ⟨?_, ?_, ?_⟩⟩
  · intro basicAuthAPIServer certificateAuthorities l e hret
    obtain ⟨tokK, htokK⟩ := GetTokenForUsername_ok st _ (hst _ hmemK)
    unfold Botanist.generateWantedSecretConfigs at hret
    cases hsans : b.apiServerSANs c h with
    | panicked => rw [hsans] at hret; exact Outcome.noConfusion hret
    | returned sans =>
      obtain ⟨ips, dns⟩ := sans
      rw [hsans] at hret
      simp only [tokenForUsername, htokK] at hret
      by_cases hk : b.Shoot.KonnectivityTunnelEnabled = true
      · obtain ⟨tokS, htokS⟩ := GetTokenForUsername_ok st _ (hst _ (hmemS hk))
        simp only [hk, if_true, htokS, Outcome.returned.injEq, Prod.mk.injEq] at hret
        exact hret.2.symm
      · simp only [hk, Bool.false_eq_true, if_false, Outcome.returned.injEq,
          Prod.mk.injEq] at hret
        exact hret.2.symm
  · obtain ⟨tokH, htokH⟩ := GetTokenForUsername_ok st _ (hst _ hmemH)
    exact ⟨tokH.Token, by simp only [Botanist.storeAPIServerHealthCheckToken, htokH]⟩
  · intro hv caCert b0 w
    exact storeStaticTokenAsSecrets_no_missing_token c h st caCert (vpaSecrets c)
      (fun kv hkv => hst _ (hmemV hv kv hkv)) b0 w

theorem missing_token_branches_unreachable_witness :
    ([upstreamConstants.KubecfgUsername, upstreamConstants.KubeAPIServerHealthCheck,
        upstreamConstants.KonnectivityServerUserName]
        ++ (vpaSecrets upstreamConstants).map Prod.fst).Nodup
      ∧ (∀ u ∈ (vpaBotanist.generateStaticTokenConfig upstreamConstants).Tokens.map
            (fun kv => kv.2.Username),
          ∃ tok ∈ vpaStaticToken.Tokens, tok.Username = u)
      ∧ (∃ tok, vpaBotanist.storeAPIServerHealthCheckToken upstreamConstants
            (some vpaStaticToken)
          = .returned (none, { vpaBotanist with APIServerHealthCheckToken := tok }))
      ∧ ∃ e b2 w2, Botanist.storeStaticTokenAsSecrets upstreamConstants sampleHelpers
            (some vpaStaticToken) "CERT" (vpaSecrets upstreamConstants) vpaBotanist sampleWorld
          = .returned (e, b2, w2)
        ∧ ∀ err, e = some err → ∃ msg, err = .failure msg :=
  ⟨by decide, by decide,
    (((missing_token_branches_unreachable upstreamConstants sampleHelpers vpaBotanist
      (by decide)).2 vpaStaticToken (by decide)).2.1),
    (((missing_token_branches_unreachable upstreamConstants sampleHelpers vpaBotanist
      (by decide)).2 vpaStaticToken (by decide)).2.2 (by decide) "CERT" vpaBotanist
        sampleWorld)⟩

/-! ## Reads of cached secrets without a presence check -/

/-- With every project secret cached, the loop of `SyncShootCredentialsToGarden` does not
dereference a missing entry. -/
theorem syncProjectSecrets_returns (c : Constants) (b : Botanist)
    (projectSecrets : List projectSecret)
    (hall : ∀ ps ∈ projectSecrets, b.Secrets.lookup ps.secretName ≠ none) (w : World) :
    ∃ r, b.syncProjectSecrets c projectSecrets w = .returned r := by
  induction projectSecrets generalizing w with
  | nil => exact ⟨_, rfl⟩
  | cons ps rest ih =>
    simp only [Botanist.syncProjectSecrets]
    cases hl : b.Secrets.lookup ps.secretName with
    | none => exact absurd hl (hall ps (List.mem_cons_self _ _))
    | some cached =>
      simp only
      rcases hc : GardenClient.CreateOrUpdate w
          { Name := computeProjectSecretName b.Shoot.Info.Name ps.suffix
            Namespace := b.Shoot.Info.Namespace }
          (b.projectSecretObject c ps cached) with ⟨e, obj, w1⟩
      cases e with
      | some err => exact ⟨_, rfl⟩
      | none => exact ih (fun ps2 hps2 => hall ps2 (List.mem_cons_of_mem _ hps2)) w1

/-- With every dereferenced name cached, the reads of `generateCoreAddonsChart` do not
dereference a missing entry. -/
theorem generateCoreAddonsChart_secretValues_returns (c : Constants) (b : Botanist)
    (hall : ∀ n ∈ b.generateCoreAddonsChart_secretNames c, b.Secrets.lookup n ≠ none) :
    ∃ v, b.generateCoreAddonsChart_secretValues c = .returned v := by
  have hdata : ∀ n ∈ b.generateCoreAddonsChart_secretNames c,
      ∃ d, b.secretData n = .returned d := by
    intro n hn
    unfold Botanist.secretData
    cases hl : b.Secrets.lookup n with
    | none => exact absurd hl (hall n hn)
    | some s => exact ⟨_, rfl⟩
  unfold Botanist.generateCoreAddonsChart_secretNames at hdata
  obtain ⟨d1, h1⟩ := hdata "kube-proxy" (by simp)
  obtain ⟨d2, h2⟩ := hdata c.SecretNameCAMetricsServer (by simp)
  obtain ⟨d3, h3⟩ := hdata "metrics-server" (by simp)
  unfold Botanist.generateCoreAddonsChart_secretValues
  rw [h1, h2, h3]
  simp only
  by_cases hk : b.Shoot.KonnectivityTunnelEnabled = true
  · simp only [hk, if_true]
    exact ⟨_, rfl⟩
  · simp only [hk, Bool.false_eq_true, if_false] at hdata ⊢
    obtain ⟨d4, h4⟩ := hdata "vpn-seed-tlsauth" (by simp)
    obtain ⟨d5, h5⟩ := hdata "vpn-shoot" (by simp)
    rw [h4, h5]
    exact ⟨_, rfl⟩

/-- C27: for a successfully generated catalog of the botanist, every secret name whose
entry of `b.Secrets` is read without a presence check, by `SyncShootCredentialsToGarden`
(`KubecfgSecretName`, the ssh-keypair, `monitoring-ingress-credentials-users`, and
`logging-ingress-credentials-users` with the Logging feature gate) and by
`generateCoreAddonsChart` (`kube-proxy`, the metrics-server CA, `metrics-server`, and
`vpn-seed-tlsauth` and `vpn-shoot` without the konnectivity tunnel), is the name of a config
of the catalog or of `wantedCertificateAuthorities`.  Hence, if `b.Secrets` holds an entry
for every such name, neither of the two dereferences a missing entry. -/
theorem unchecked_secret_reads_are_wanted (c : Constants) (h : Helpers) (b : Botanist)
    (basicAuthAPIServer : Option secrets.BasicAuth) (staticToken : Option secrets.StaticToken)
    (certificateAuthorities : String → Option secrets.Certificate)
    (l : List secrets.ConfigInterface)
    (hok : b.generateWantedSecretConfigs c h basicAuthAPIServer staticToken
      certificateAuthorities = .returned (l, none)) :
    (b.projectSecrets c h).map (fun ps => ps.secretName)
        = [c.KubecfgSecretName, c.SecretNameSSHKeyPair, "monitoring-ingress-credentials-users"]
          ++ (if h.LoggingEnabled then ["logging-ingress-credentials-users"] else [])
      ∧ (∀ ps ∈ b.projectSecrets c h, ps.secretName ∈ configNames l)
      ∧ (∀ n ∈ b.generateCoreAddonsChart_secretNames c,
          n ∈ configNames l ++ (wantedCertificateAuthorities c).map Prod.fst)
      ∧ ((∀ n ∈ configNames l ++ (wantedCertificateAuthorities c).map Prod.fst,
            b.Secrets.lookup n ≠ none) →
          (∀ w, ∃ r, b.SyncShootCredentialsToGarden c h w = .returned r)
            ∧ ∃ v, b.generateCoreAddonsChart_secretValues c = .returned v) := by
  have hl := generateWantedSecretConfigs_names c h b basicAuthAPIServer staticToken
    certificateAuthorities l hok
  have hnames : (b.projectSecrets c h).map (fun ps => ps.secretName)
      = [c.KubecfgSecretName, c.SecretNameSSHKeyPair, "monitoring-ingress-credentials-users"]
        ++ (if h.LoggingEnabled then ["logging-ingress-credentials-users"] else []) := by
    unfold Botanist.projectSecrets
    simp only
    split_ifs <;> rfl
  have hps : ∀ ps ∈ b.projectSecrets c h, ps.secretName ∈ configNames l := by
    intro ps hps
    have hmem : ps.secretName ∈ (b.projectSecrets c h).map (fun ps => ps.secretName) :=
      List.mem_map.2 ⟨ps, hps, rfl⟩
    rw [hnames] at hmem
    rw [hl]
    simp only [List.mem_append, List.mem_cons, List.mem_singleton, List.not_mem_nil,
      or_false] at hmem
    simp only [List.mem_append]
    rcases hmem with (h1 | h1 | h1) | h1
    · exact Or.inl (Or.inl (Or.inl (by rw [h1]; simp [alwaysSecretNames])))
    · exact Or.inl (Or.inl (Or.inl (by rw [h1]; simp [alwaysSecretNames])))
    · exact Or.inl (Or.inl (Or.inl (by rw [h1]; simp [alwaysSecretNames])))
    · by_cases hlog : h.LoggingEnabled = true
      · simp only [hlog, if_true, List.mem_singleton] at h1 ⊢
        exact Or.inl (Or.inr (by rw [h1]; simp [loggingSecretNames]))
      · simp [hlog] at h1
  have hchart : ∀ n ∈ b.generateCoreAddonsChart_secretNames c,
      n ∈ configNames l ++ (wantedCertificateAuthorities c).map Prod.fst := by
    intro n hn
    unfold Botanist.generateCoreAddonsChart_secretNames at hn
    rw [hl]
    simp only [List.mem_append, List.mem_cons, List.mem_singleton, List.not_mem_nil,
      or_false] at hn
    simp only [List.mem_append]
    rcases hn with (h1 | h1 | h1) | h1
    · exact Or.inl (Or.inl (Or.inl (Or.inl (by rw [h1]; simp [alwaysSecretNames]))))
    · exact Or.inr (by rw [h1]; simp [wantedCertificateAuthorities])
    · exact Or.inl (Or.inl (Or.inl (Or.inl (by rw [h1]; simp [alwaysSecretNames]))))
    · by_cases hk : b.Shoot.KonnectivityTunnelEnabled = true
      · simp [hk] at h1
      · simp only [hk, Bool.false_eq_true, if_false, List.mem_cons, List.mem_singleton,
          List.not_mem_nil, or_false] at h1 ⊢
        exact Or.inl (Or.inl (Or.inl (Or.inr (by
          rcases h1 with h1 | h1 <;> rw [h1] <;> simp [vpnSecretNames]))))
  refine ⟨hnames, hps, hchart, fun hall => ⟨fun w => ?_, ?_⟩⟩
  · unfold Botanist.SyncShootCredentialsToGarden
    exact syncProjectSecrets_returns c b _
      (fun ps hps2 => hall _ (List.mem_append_left _ (hps ps hps2))) w
  · exact generateCoreAddonsChart_secretValues_returns c b (fun n hn => hall n (hchart n hn))

theorem unchecked_secret_reads_are_wanted_witness :
    fullyCachedBotanist.generateWantedSecretConfigs upstreamConstants sampleHelpers none
        (some sampleStaticToken) sampleCertificateAuthorities
      = .returned (alwaysConfigsOfSample ++ vpnSecretConfigs upstreamConstants
          sampleCertificateAuthorities, none)
      ∧ (∀ n ∈ configNames (alwaysConfigsOfSample ++ vpnSecretConfigs upstreamConstants
              sampleCertificateAuthorities)
            ++ (wantedCertificateAuthorities upstreamConstants).map Prod.fst,
          fullyCachedBotanist.Secrets.lookup n ≠ none)
      ∧ (∀ w, ∃ r, fullyCachedBotanist.SyncShootCredentialsToGarden upstreamConstants
            sampleHelpers w = .returned r)
      ∧ ∃ v, fullyCachedBotanist.generateCoreAddonsChart_secretValues upstreamConstants
          = .returned v :=
  ⟨by decide, by decide,
    (unchecked_secret_reads_are_wanted upstreamConstants sampleHelpers fullyCachedBotanist none
      (some sampleStaticToken) sampleCertificateAuthorities
      (alwaysConfigsOfSample ++ vpnSecretConfigs upstreamConstants sampleCertificateAuthorities)
      (by decide)).2.2.2 (by decide)⟩

/-! ## The checksum annotations of the core addons -/

/-- The checksum annotations of kube-proxy and of vpn-shoot name secrets of the catalog. -/
theorem checksum_annotations_of_catalog_secrets (c : Constants) (h : Helpers) (b : Botanist)
    (basicAuthAPIServer : Option secrets.BasicAuth) (staticToken : Option secrets.StaticToken)
    (certificateAuthorities : String → Option secrets.Certificate)
    (l : List secrets.ConfigInterface)
    (hok : b.generateWantedSecretConfigs c h basicAuthAPIServer staticToken
      certificateAuthorities = .returned (l, none)) :
    "kube-proxy" ∈ configNames l
      ∧ (b.Shoot.KonnectivityTunnelEnabled = false → "vpn-shoot" ∈ configNames l) := by
  rw [generateWantedSecretConfigs_names c h b basicAuthAPIServer staticToken
    certificateAuthorities l hok]
  refine ⟨?_, fun hk => ?_⟩
  · simp [alwaysSecretNames]
  · simp [hk, vpnSecretNames]

/-- C28 (failing input): for a shoot with the konnectivity tunnel, `generateCoreAddonsChart`
emits the pod annotation `checksum/secret-konnectivity-agent` with the value
`b.CheckSums["konnectivity-agent"]`, but `konnectivity-agent` is no name of the generated
catalog (which holds the konnectivity configs `konnectivity-server-kubeconfig` and
`konnectivity-server`), of `wantedCertificateAuthorities`, of the static token or of the
basic-auth secret: after the checksums of a secret under each of these names are recorded,
the annotation of kube-proxy is the checksum of the deployed secret and the annotation of
konnectivity-agent is the empty string. -/
theorem konnectivity_agent_checksum_names_no_secret :
    (∃ l, konnectivityBotanist.generateWantedSecretConfigs upstreamConstants sampleHelpers
          none (some konnectivityStaticToken) sampleCertificateAuthorities
          = .returned (l, none)
        ∧ configNames l
            = alwaysSecretNames upstreamConstants ++ konnectivitySecretNames upstreamConstants)
      ∧ konnectivitySecretNames upstreamConstants
          = ["konnectivity-server-kubeconfig", "konnectivity-server"]
      ∧ konnectivityBotanist.generateCoreAddonsChart_podAnnotations
          = [ ("kube-proxy",
                [("checksum/secret-kube-proxy", konnectivityBotanist.checkSum "kube-proxy")]),
              ("konnectivity-agent",
                [("checksum/secret-konnectivity-agent",
                  konnectivityBotanist.checkSum "konnectivity-agent")]) ]
      ∧ "konnectivity-agent" ∉ konnectivityDeployedSecrets.map Prod.fst
      ∧ (konnectivityBotanist.recordDeployedSecrets sampleHelpers
            konnectivityDeployedSecrets).generateCoreAddonsChart_podAnnotations
          = [ ("kube-proxy", [("checksum/secret-kube-proxy", "data=kube-proxy;")]),
              ("konnectivity-agent", [("checksum/secret-konnectivity-agent", "")]) ] := by
  refine ⟨⟨_, rfl, by decide⟩, by decide, by decide, by decide, by decide⟩

/-! ## The extensions of the shoot info -/

/-- C30 (failing input): for a shoot with the two extensions `shoot-cert-service` and
`shoot-dns-service`, two runs of `generateCoreAddonsChart` on the same state in which
`range b.Shoot.Extensions` yields the two keys in the one and in the other order give
different values of `shootInfo["extensions"]`. -/
theorem extensions_value_follows_enumeration :
    List.Perm ["shoot-cert-service", "shoot-dns-service"] extendedBotanist.Shoot.Extensions
      ∧ List.Perm ["shoot-dns-service", "shoot-cert-service"] extendedBotanist.Shoot.Extensions
      ∧ generateCoreAddonsChart_extensions ["shoot-cert-service", "shoot-dns-service"]
          = "shoot-cert-service,shoot-dns-service"
      ∧ generateCoreAddonsChart_extensions ["shoot-dns-service", "shoot-cert-service"]
          = "shoot-dns-service,shoot-cert-service"
      ∧ generateCoreAddonsChart_extensions ["shoot-cert-service", "shoot-dns-service"]
          ≠ generateCoreAddonsChart_extensions ["shoot-dns-service", "shoot-cert-service"] := by
  refine ⟨List.Perm.refl _, List.Perm.swap _ _ _, by decide, by decide, by decide⟩

end Gardener
